import Mathlib

/-!
# Federation manager (`src/slurmctld/fed_mgr.c`): a shallow embedding

The controller's federation manager keeps, for every federated job, a
`fed_job_info_t` record (cluster lock, active and viable sibling bitmaps,
per-peer pending-update counters) next to the scheduler's own job record.
The definitions below follow the C functions of `fed_mgr.c` one by one:

* machine integers are `Nat` (`uint32_t`, `uint64_t`) or `Int` (`time_t`),
  with explicit truncation where the C arithmetic can wrap;
* the global lists (`fed_job_list`, `job_list`, the federation's
  `cluster_list`) are Lean lists that are passed in and returned;
* a C pointer into a list is the first list element that the lookup finds, and
  a write through the pointer replaces that element;
* `time(NULL)` is an explicit argument `now`;
* code of the controller that lives outside `fed_mgr.c` (packing, the
  scheduler's job functions, header macros) is collected in `Env`.
-/

namespace FedMgr

/-! ## Constants -/

/-- The value of `SLURM_SUCCESS`. -/
def SLURM_SUCCESS : Int := 0

/-- The value of `SLURM_ERROR`. -/
def SLURM_ERROR : Int := -1

/-- Modelled from the spec: the macro `MAX_FED_CLUSTERS` is declared in a header
that is not part of the sources; the spec fixes the maximum cluster id at 63
("maximum 63, since sibling sets are stored as 64-bit bitmasks"). -/
def MAX_FED_CLUSTERS : Nat := 63

/-- Modelled from the spec: the macro `MAX_JOB_ID` is declared in a header that
is not part of the sources; the spec gives the decoder
`local = id & 0x03FFFFFF`. -/
def MAX_JOB_ID : Nat := 0x03FFFFFF

/-- The macro `FED_MGR_CLUSTER_ID_BEGIN`. -/
def FED_MGR_CLUSTER_ID_BEGIN : Nat := 26

/-- The local constant `UPDATE_DELAY` of `_job_has_pending_updates`. -/
def UPDATE_DELAY : Int := 60

/-- Largest `uint64_t`. -/
def UINT64_MAX : Nat := 2 ^ 64 - 1

/-- Bitwise complement of a `uint64_t`. -/
def not64 (x : Nat) : Nat := UINT64_MAX ^^^ (x % 2 ^ 64)

/-- The macro `FED_SIBLING_BIT(x) = ((uint64_t)1 << (x - 1))`.  The C shift is
defined for `1 ≤ x ≤ 64` only (a cluster id is at most `MAX_FED_CLUSTERS`);
the statements below that depend on the value of a sibling bit carry that
range as a hypothesis. -/
def FED_SIBLING_BIT (x : Nat) : Nat := (1 <<< (x - 1)) % 2 ^ 64

/-! ## The federated job table -/

/-- The struct `fed_job_info_t`.  The two arrays have `MAX_FED_CLUSTERS + 1`
entries in C; entry `i` is read with `List.getD · i 0` and written with
`List.set`. -/
structure fed_job_info_t where
  cluster_lock : Nat
  job_id : Nat
  siblings_active : Nat
  siblings_viable : Nat
  updating_sibs : List Nat
  updating_time : List Int
  deriving DecidableEq, Repr

/-- The list operation behind a write through a pointer returned by
`list_find_first`: the first element satisfying `p` is replaced by its image
under `f`. -/
def list_modify_first {α : Type} (p : α → Bool) (f : α → α) : List α → List α
  | [] => []
  | x :: xs => if p x then f x :: xs else x :: list_modify_first p f xs

/-- The callback `_list_find_fed_job_info_by_jobid`. -/
def _list_find_fed_job_info_by_jobid (job_id : Nat) (job_info : fed_job_info_t) : Bool :=
  job_info.job_id == job_id

/-- The function `_find_fed_job_info`: `list_find_first` over `fed_job_list`. -/
def _find_fed_job_info (fed_job_list : List fed_job_info_t) (job_id : Nat) :
    Option fed_job_info_t :=
  fed_job_list.find? (_list_find_fed_job_info_by_jobid job_id)

/-- Write back the record that `_find_fed_job_info` returned a pointer to. -/
def _set_fed_job_info (fed_job_list : List fed_job_info_t) (job_id : Nat)
    (job_info : fed_job_info_t) : List fed_job_info_t :=
  list_modify_first (_list_find_fed_job_info_by_jobid job_id) (fun _ => job_info) fed_job_list

/-- The `for (i = 1; i <= MAX_FED_CLUSTERS; i++)` loop of
`_job_has_pending_updates`, started at index `i` with `n` iterations left.
It returns as soon as it meets a counter that is non-zero and younger than
`UPDATE_DELAY`; a non-zero counter that is not younger is reset to 0. -/
def _job_has_pending_updates_loop (now : Int) :
    Nat → Nat → fed_job_info_t → Bool × fed_job_info_t
  | 0, _, job_info => (false, job_info)
  | n + 1, i, job_info =>
    if job_info.updating_sibs.getD i 0 ≠ 0 then
      if job_info.updating_time.getD i 0 > now - UPDATE_DELAY then
        (true, job_info)
      else
        _job_has_pending_updates_loop now n (i + 1)
          { job_info with updating_sibs := job_info.updating_sibs.set i 0 }
    else
      _job_has_pending_updates_loop now n (i + 1) job_info

/-- The function `_job_has_pending_updates`; the second component is the record
after the in-place resets. -/
def _job_has_pending_updates (now : Int) (job_info : fed_job_info_t) :
    Bool × fed_job_info_t :=
  _job_has_pending_updates_loop now MAX_FED_CLUSTERS 1 job_info

/-- The function `fed_mgr_job_lock_set`: return code and `fed_job_list`
afterwards. -/
def fed_mgr_job_lock_set (fed_job_list : List fed_job_info_t) (now : Int)
    (job_id cluster_id : Nat) : Int × List fed_job_info_t :=
  match _find_fed_job_info fed_job_list job_id with
  | none => (SLURM_ERROR, fed_job_list)
  | some job_info =>
    let r := _job_has_pending_updates now job_info
    if r.1 then
      (SLURM_ERROR, _set_fed_job_info fed_job_list job_id r.2)
    else if r.2.cluster_lock ≠ 0 ∧ r.2.cluster_lock ≠ cluster_id then
      (SLURM_ERROR, _set_fed_job_info fed_job_list job_id r.2)
    else
      (SLURM_SUCCESS,
        _set_fed_job_info fed_job_list job_id { r.2 with cluster_lock := cluster_id })

/-- The function `fed_mgr_job_lock_unset`: return code and `fed_job_list`
afterwards. -/
def fed_mgr_job_lock_unset (fed_job_list : List fed_job_info_t)
    (job_id cluster_id : Nat) : Int × List fed_job_info_t :=
  match _find_fed_job_info fed_job_list job_id with
  | none => (SLURM_ERROR, fed_job_list)
  | some job_info =>
    if job_info.cluster_lock ≠ 0 ∧ job_info.cluster_lock ≠ cluster_id then
      (SLURM_ERROR, fed_job_list)
    else
      (SLURM_SUCCESS,
        _set_fed_job_info fed_job_list job_id { job_info with cluster_lock := 0 })

/-! ## Federation members, job records and messages -/

/-- The struct `slurmdb_cluster_rec_t`, restricted to the fields the manager
reads: `name`, `fed.id`, `fed.state`, `fed.feature_list` and `rpc_version`. -/
structure slurmdb_cluster_rec_t where
  name : String
  fed_id : Nat
  fed_state : Nat
  feature_list : Option (List String)
  rpc_version : Nat := 0
  deriving DecidableEq, Repr

/-- The struct `slurmdb_federation_rec_t`, restricted to its name (NULL is
`none`) and its cluster list. -/
structure slurmdb_federation_rec_t where
  name : Option String
  cluster_list : List slurmdb_cluster_rec_t
  deriving DecidableEq, Repr

/-- The two globals `fed_mgr_fed_rec` and `fed_mgr_cluster_rec`.  They are set
together in `_join_federation` and cleared together in `_leave_federation`, so
"not in a federation" is `none : Option Fed`.  `fed_mgr_cluster_rec` points
into `cluster_list`; `local_idx` is its position, and the pointer comparison
`sibling == fed_mgr_cluster_rec` is a comparison of positions.  `local_rec` is
the record pointed to should the position lie outside the list. -/
structure Fed where
  cluster_list : List slurmdb_cluster_rec_t
  local_idx : Nat
  local_rec : slurmdb_cluster_rec_t
  deriving DecidableEq, Repr

/-- The record `fed_mgr_cluster_rec` points to. -/
def fed_mgr_cluster_rec (fed : Fed) : slurmdb_cluster_rec_t :=
  fed.cluster_list.getD fed.local_idx fed.local_rec

/-- The struct `job_fed_details_t` of a job record (bitmaps and lock). -/
structure job_fed_details_t where
  cluster_lock : Nat
  siblings_active : Nat
  siblings_viable : Nat
  deriving DecidableEq, Repr

/-- The struct `job_details` of a job record (fields read by the manager). -/
structure job_details where
  submit_time : Int
  cluster_features : Option String
  deriving DecidableEq, Repr

/-- The struct `job_record` of the scheduler, restricted to the fields the
manager reads or writes.  `details` and `fed_details` are pointers that may be
NULL. -/
structure job_record where
  job_id : Nat
  job_state : Nat
  bit_flags : Nat
  priority : Nat
  clusters : Option String
  details : Option job_details
  fed_details : Option job_fed_details_t
  start_time : Int
  end_time : Int
  exit_code : Nat
  state_reason : Nat
  state_desc : Option String
  deriving DecidableEq, Repr

/-- The struct `job_desc_msg_t`, restricted to the fields the manager uses. -/
structure job_desc_msg_t where
  job_id : Nat
  priority : Nat
  immediate : Nat
  clusters : Option String
  cluster_features : Option String
  fed_siblings_active : Nat
  fed_siblings_viable : Nat
  resp_host : Option String
  alloc_node : Option String := none
  deriving DecidableEq, Repr

/-- The struct `slurm_job_info_t` of a remote job list (SYNC payload). -/
structure slurm_job_info_t where
  job_id : Nat
  job_state : Nat
  exit_code : Nat
  deriving DecidableEq, Repr

/-- The struct `sib_msg_t`: the envelope of every peer-to-peer message.  The
packed inner request (`data_buffer`) is kept as the job descriptor it was
packed from. -/
structure sib_msg_t where
  sib_msg_type : Nat
  job_id : Nat
  cluster_id : Nat
  start_time : Int
  return_code : Nat
  fed_siblings : Nat
  data_type : Nat
  data_version : Nat
  data_offset : Nat
  data_buffer : Option job_desc_msg_t
  req_uid : Nat
  resp_host : Option String
  deriving DecidableEq, Repr

/-- The result of `memset(&sib_msg, 0, sizeof(sib_msg))`. -/
def sib_msg_zero : sib_msg_t :=
  { sib_msg_type := 0, job_id := 0, cluster_id := 0, start_time := 0, return_code := 0,
    fed_siblings := 0, data_type := 0, data_version := 0, data_offset := 0,
    data_buffer := none, req_uid := 0, resp_host := none }

/-- The struct `slurm_msg_t` of a request queued for a peer: message type and the
`sib_msg_t` it carries. -/
structure slurm_msg_t where
  msg_type : Nat
  data : sib_msg_t
  deriving DecidableEq, Repr

/-- The struct `agent_queue_t`; `buffer` is kept as the request it is the
packed form of. -/
structure agent_queue_t where
  buffer : slurm_msg_t
  job_id : Nat
  last_try : Int
  last_defer : Int
  msg_type : Nat
  deriving DecidableEq, Repr

/-- One `list_append(cluster->send_rpc, agent_rec)`: the peer whose queue
receives the record, and the record. -/
structure queued_rpc where
  cluster : slurmdb_cluster_rec_t
  agent_rec : agent_queue_t
  deriving DecidableEq, Repr

/-- The values of `enum fed_job_update_type`. -/
def FED_JOB_NONE : Nat := 0
/-- Enum value `FED_JOB_CANCEL`. -/
def FED_JOB_CANCEL : Nat := 1
/-- Enum value `FED_JOB_COMPLETE`. -/
def FED_JOB_COMPLETE : Nat := 2
/-- Enum value `FED_JOB_REMOVE_ACTIVE_SIB_BIT`. -/
def FED_JOB_REMOVE_ACTIVE_SIB_BIT : Nat := 3
/-- Enum value `FED_JOB_REQUEUE`. -/
def FED_JOB_REQUEUE : Nat := 4
/-- Enum value `FED_JOB_START`. -/
def FED_JOB_START : Nat := 5
/-- Enum value `FED_JOB_SUBMIT_BATCH`. -/
def FED_JOB_SUBMIT_BATCH : Nat := 6
/-- Enum value `FED_JOB_SUBMIT_INT`. -/
def FED_JOB_SUBMIT_INT : Nat := 7
/-- Enum value `FED_JOB_SUBMIT_RESP`. -/
def FED_JOB_SUBMIT_RESP : Nat := 8
/-- Enum value `FED_JOB_SYNC`. -/
def FED_JOB_SYNC : Nat := 9
/-- Enum value `FED_JOB_UPDATE`. -/
def FED_JOB_UPDATE : Nat := 10
/-- Enum value `FED_JOB_UPDATE_RESPONSE`. -/
def FED_JOB_UPDATE_RESPONSE : Nat := 11
/-- Enum value `FED_SEND_JOB_SYNC`. -/
def FED_SEND_JOB_SYNC : Nat := 12

/-- Everything `fed_mgr.c` uses but does not define: header constants and
macros (taken as parameters, their values are not in the sources) and the
functions of the scheduler, of the packing layer and of the string library.  A
function that reports success or failure is a `Bool` (`true` = success). -/
structure Env where
  /-- `pack_msg(req, buf) == SLURM_SUCCESS` in `_queue_rpc`. -/
  pack_msg : slurm_msg_t → Bool
  /-- `job_hold_requeue(job_ptr)`: the exit code matches the requeue table. -/
  job_hold_requeue : job_record → Bool
  /-- `batch_requeue_fini(job_ptr)`: the job record afterwards. -/
  batch_requeue_fini : job_record → job_record
  /-- `job_signal(job_id, SIGKILL, 0, 0, false)`: the job record afterwards. -/
  job_signal : job_record → job_record
  /-- `copy_job_record_to_job_desc(job_ptr)`; `none` is a NULL result. -/
  copy_job_record_to_job_desc : job_record → Option job_desc_msg_t
  /-- `job_allocate(job_desc, immediate, false, NULL, alloc_only, uid, &job_ptr,
  err_msg, protocol_version)`: the error code and the job record created (`none`
  when `job_ptr` stays NULL).  The fields of the descriptor that
  `fed_mgr_job_allocate` reads afterwards are those it set before the call. -/
  job_allocate : job_desc_msg_t → Bool → Nat → Nat → Int × Option job_record
  /-- `slurm_addto_char_list`: the names of a comma-separated string. -/
  slurm_addto_char_list : String → List String
  /-- `slurm_find_char_in_list(x, key)`: list entry `x` matches `key`. -/
  slurm_find_char_in_list : String → String → Bool
  /-- `xstrcasecmp(a, b) == 0`. -/
  xstrcasecmp_eq : String → String → Bool
  /-- Macro `IS_JOB_PENDING` on a `job_state`. -/
  IS_JOB_PENDING : Nat → Bool
  /-- Macro `IS_JOB_RUNNING` on a `job_state`. -/
  IS_JOB_RUNNING : Nat → Bool
  /-- Macro `IS_JOB_COMPLETE` on a `job_state`. -/
  IS_JOB_COMPLETE : Nat → Bool
  /-- Macro `IS_JOB_COMPLETED` on a `job_state`. -/
  IS_JOB_COMPLETED : Nat → Bool
  /-- Macro `IS_JOB_COMPLETING` on a `job_state`. -/
  IS_JOB_COMPLETING : Nat → Bool
  JOB_PENDING : Nat
  JOB_CANCELLED : Nat
  JOB_FAILED : Nat
  JOB_COMPLETING : Nat
  JOB_REVOKED : Nat
  JOB_REQUEUE_FED : Nat
  SIB_JOB_FLUSH : Nat
  WAIT_NO_REASON : Nat
  CLUSTER_FED_STATE_BASE : Nat
  CLUSTER_FED_STATE_ACTIVE : Nat
  CLUSTER_FED_STATE_INACTIVE : Nat
  CLUSTER_FED_STATE_DRAIN : Nat
  REQUEST_SIB_MSG : Nat
  REQUEST_RESOURCE_ALLOCATION : Nat
  SLURM_PROTOCOL_VERSION : Nat
  NO_VAL : Nat
  ESLURM_INVALID_JOB_ID : Int
  ESLURM_INVALID_CLUSTER_FEATURE : Int
  ESLURM_INVALID_CLUSTER_NAME : Int
  ESLURM_JOB_NOT_PENDING : Int
  RESPONSE_CTLD_MULT_MSG : Nat
  RESPONSE_SLURM_RC : Nat
  REQUEST_UPDATE_JOB : Nat
  /-- `validate_job_create_req(job_desc, uid, &err_msg)` for `uid` 0. -/
  validate_job_create_req : job_desc_msg_t → Int
  ESLURM_INVALID_NODE_NAME : Int
  ESLURM_CAN_NOT_START_IMMEDIATELY : Int
  /-- `pack32(val, buffer)`: the bytes appended to the buffer. -/
  pack32 : Nat → List Nat
  /-- `unpack32(&val, buffer)` on the unread bytes of the buffer: the value and
  the bytes left, `none` when it fails. -/
  unpack32 : List Nat → Option (Nat × List Nat)
  /-- `pack64(val, buffer)`: the bytes appended to the buffer. -/
  pack64 : Nat → List Nat
  /-- `unpack64(&val, buffer)`. -/
  unpack64 : List Nat → Option (Nat × List Nat)
  /-- `pack_time(val, buffer)`: the bytes appended to the buffer. -/
  pack_time : Int → List Nat
  /-- `unpack_time(&val, buffer)`. -/
  unpack_time : List Nat → Option (Int × List Nat)
  /-- `unpack16(&val, buffer)`. -/
  unpack16 : List Nat → Option (Nat × List Nat)
  /-- `slurmdb_unpack_federation_rec(&ret_fed, ver, buffer)`: the error code, the
  record (`none` for NULL) and the bytes left. -/
  slurmdb_unpack_federation_rec :
    Nat → List Nat → Int × Option slurmdb_federation_rec_t × List Nat
  SLURM_17_11_PROTOCOL_VERSION : Nat
  SLURM_MIN_PROTOCOL_VERSION : Nat
  NO_VAL32 : Nat

/-- Bitwise complement of a `uint32_t`. -/
def not32 (x : Nat) : Nat := (2 ^ 32 - 1) ^^^ (x % 2 ^ 32)

/-! ## Job ids -/

/-- The function `fed_mgr_get_job_id`; the shift and the sum are `uint32_t`
arithmetic. -/
def fed_mgr_get_job_id (fed : Option Fed) (orig : Nat) : Nat :=
  match fed with
  | none => orig
  | some f =>
    (orig + ((fed_mgr_cluster_rec f).fed_id <<< FED_MGR_CLUSTER_ID_BEGIN) % 2 ^ 32) % 2 ^ 32

/-- The function `fed_mgr_get_local_id`. -/
def fed_mgr_get_local_id (id : Nat) : Nat := id &&& MAX_JOB_ID

/-- The function `fed_mgr_get_cluster_id`. -/
def fed_mgr_get_cluster_id (id : Nat) : Nat := id >>> FED_MGR_CLUSTER_ID_BEGIN

/-- The function `_is_fed_job`: `some origin_id` when it returns true. -/
def _is_fed_job (fed : Option Fed) (job_ptr : job_record) : Option Nat :=
  match fed with
  | none => none
  | some _ =>
    match job_ptr.fed_details with
    | none => none
    | some _ =>
      if fed_mgr_get_cluster_id job_ptr.job_id = 0 then none
      else some (fed_mgr_get_cluster_id job_ptr.job_id)

/-- The function `fed_mgr_is_origin_job`. -/
def fed_mgr_is_origin_job (fed : Option Fed) (job_ptr : job_record) : Bool :=
  match fed, _is_fed_job fed job_ptr with
  | some f, some origin_id => (fed_mgr_cluster_rec f).fed_id == origin_id
  | _, _ => true

/-! ## Peer lookup and the outbound queue -/

/-- The function `fed_mgr_get_cluster_by_id` (callback `_find_sibling_by_id`). -/
def fed_mgr_get_cluster_by_id (fed : Fed) (id : Nat) : Option slurmdb_cluster_rec_t :=
  fed.cluster_list.find? (fun c => c.fed_id == id)

/-- The function `fed_mgr_get_cluster_by_name`; the library callback
`slurmdb_find_cluster_in_list` compares the record's name with the key. -/
def fed_mgr_get_cluster_by_name (fed : Option Fed) (sib_name : String) :
    Option slurmdb_cluster_rec_t :=
  match fed with
  | none => none
  | some f => f.cluster_list.find? (fun c => c.name == sib_name)

/-- The function `_queue_rpc`: return code and the record appended to the peer's
`send_rpc` list (none when packing fails).  `xmalloc` zeroes `last_try` and
`last_defer`. -/
def _queue_rpc (env : Env) (cluster : slurmdb_cluster_rec_t) (req : slurm_msg_t)
    (job_id : Nat) : Int × List queued_rpc :=
  if env.pack_msg req then
    (SLURM_SUCCESS,
      [{ cluster := cluster,
         agent_rec := { buffer := req, job_id := job_id, last_try := 0, last_defer := 0,
                        msg_type := req.msg_type } }])
  else
    (SLURM_ERROR, [])

/-- The request `req_msg` that `_persist_fed_job_revoke` builds: a
`REQUEST_SIB_MSG` whose `sib_msg` has type `FED_JOB_COMPLETE` and carries the
job id, the start time and the return code. -/
def revoke_req_msg (env : Env) (job_id : Nat) (return_code : Nat) (start_time : Int) :
    slurm_msg_t :=
  { msg_type := env.REQUEST_SIB_MSG,
    data := { sib_msg_zero with
              sib_msg_type := FED_JOB_COMPLETE, job_id := job_id,
              start_time := start_time, return_code := return_code } }

/-- The function `_persist_fed_job_revoke`. -/
def _persist_fed_job_revoke (env : Env) (conn : slurmdb_cluster_rec_t) (job_id : Nat)
    (return_code : Nat) (start_time : Int) : Int × List queued_rpc :=
  _queue_rpc env conn (revoke_req_msg env job_id return_code start_time) job_id

/-- The `while (revoke_sibs)` loop of `_revoke_sibling_jobs`; `revoke_sibs` is a
`uint64_t`, so the loop body runs at most 64 times. -/
def _revoke_sibling_jobs_loop (env : Env) (fed : Fed) (job_id cluster_id : Nat)
    (start_time : Int) : Nat → Nat → Nat → List queued_rpc
  | 0, _, _ => []
  | n + 1, revoke_sibs, id =>
    if revoke_sibs = 0 then []
    else
      (if revoke_sibs &&& 1 ≠ 0 ∧ id ≠ (fed_mgr_cluster_rec fed).fed_id ∧ id ≠ cluster_id then
        match fed_mgr_get_cluster_by_id fed id with
        | none => []
        | some cluster => (_persist_fed_job_revoke env cluster job_id 0 start_time).2
      else [])
      ++ _revoke_sibling_jobs_loop env fed job_id cluster_id start_time n
           (revoke_sibs >>> 1) (id + 1)

/-- The function `_revoke_sibling_jobs`: the records it queues, in order. -/
def _revoke_sibling_jobs (env : Env) (fed : Option Fed) (job_id cluster_id : Nat)
    (revoke_sibs : Nat) (start_time : Int) : List queued_rpc :=
  match fed with
  | none => []
  | some f => _revoke_sibling_jobs_loop env f job_id cluster_id start_time 64 revoke_sibs 1

/-! ## Revocation and job start -/

/-- The function `fed_mgr_job_revoke`: the job record afterwards, and whether
`purge_job_record` was called on it (non-origin clusters only).  The call of
`job_completion_logger` writes accounting and log records only. -/
def fed_mgr_job_revoke (env : Env) (fed : Option Fed) (job_ptr : job_record)
    (job_complete : Bool) (exit_code : Nat) (start_time : Int) : job_record × Bool :=
  if env.IS_JOB_COMPLETED job_ptr.job_state then (job_ptr, false)
  else
    match fed, _is_fed_job fed job_ptr with
    | some f, some origin_id =>
      let job1 := { job_ptr with exit_code := exit_code }
      if env.job_hold_requeue job1 then (env.batch_requeue_fini job1, false)
      else
        let job2 := { job1 with
          job_state := if job_complete then env.JOB_REVOKED ||| env.JOB_CANCELLED
                       else env.JOB_REVOKED,
          start_time := start_time, end_time := start_time,
          state_reason := env.WAIT_NO_REASON, state_desc := none }
        let job3 := if job_complete then
            { job2 with job_state := job2.job_state &&& not32 env.JOB_REVOKED }
          else job2
        (job3, origin_id != (fed_mgr_cluster_rec f).fed_id)
    | _, _ => (job_ptr, false)

/-- The function `_fed_job_start_revoke`: the `fed_job_info_t`, the job record
and the queued records afterwards; `none` when `job_ptr->fed_details` is NULL
(the C code dereferences it unchecked). -/
def _fed_job_start_revoke (env : Env) (fed : Option Fed) (job_info : fed_job_info_t)
    (job_ptr : job_record) (start_time : Int) :
    Option (fed_job_info_t × job_record × List queued_rpc) :=
  match job_ptr.fed_details with
  | none => none
  | some fd =>
    let cluster_lock := job_info.cluster_lock
    let old_active := job_info.siblings_active
    some
      ({ job_info with siblings_active := FED_SIBLING_BIT cluster_lock },
       { job_ptr with fed_details := some { fd with
           cluster_lock := cluster_lock,
           siblings_active := FED_SIBLING_BIT cluster_lock } },
       if old_active &&& not64 (FED_SIBLING_BIT cluster_lock) ≠ 0 then
         _revoke_sibling_jobs env fed job_ptr.job_id cluster_lock old_active start_time
       else [])

/-- The function `_persist_fed_job_start`. -/
def _persist_fed_job_start (env : Env) (conn : slurmdb_cluster_rec_t) (job_id : Nat)
    (cluster_id : Nat) (start_time : Int) : Int × List queued_rpc :=
  _queue_rpc env conn
    { msg_type := env.REQUEST_SIB_MSG,
      data := { sib_msg_zero with
                sib_msg_type := FED_JOB_START, job_id := job_id,
                cluster_id := cluster_id, start_time := start_time } }
    job_id

/-- The result of `fed_mgr_job_start`. -/
structure job_start_result where
  rc : Int
  job_ptr : job_record
  fed_job_list : List fed_job_info_t
  queued : List queued_rpc
  deriving DecidableEq, Repr

/-- The function `fed_mgr_job_start`. -/
def fed_mgr_job_start (env : Env) (fed : Option Fed) (fed_job_list : List fed_job_info_t)
    (job_ptr : job_record) (start_time : Int) : Option job_start_result :=
  match fed, _is_fed_job fed job_ptr with
  | some f, some origin_id =>
    let cluster_id := (fed_mgr_cluster_rec f).fed_id
    if origin_id ≠ cluster_id then
      match fed_mgr_get_cluster_by_id f origin_id with
      | none => some ⟨SLURM_ERROR, job_ptr, fed_job_list, []⟩
      | some origin_cluster =>
        match job_ptr.fed_details with
        | none => none
        | some fd =>
          let r := _persist_fed_job_start env origin_cluster job_ptr.job_id cluster_id
                     job_ptr.start_time
          let fd1 := { fd with siblings_active := FED_SIBLING_BIT cluster_id }
          some ⟨r.1, { job_ptr with fed_details := some fd1 }, fed_job_list, r.2⟩
    else
      match _find_fed_job_info fed_job_list job_ptr.job_id with
      | none => some ⟨SLURM_ERROR, job_ptr, fed_job_list, []⟩
      | some job_info =>
        if job_info.cluster_lock = 0 then some ⟨SLURM_ERROR, job_ptr, fed_job_list, []⟩
        else if job_info.cluster_lock ≠ cluster_id then
          some ⟨SLURM_ERROR, job_ptr, fed_job_list, []⟩
        else
          match _fed_job_start_revoke env fed job_info job_ptr start_time with
          | none => none
          | some r =>
            some ⟨SLURM_SUCCESS, r.2.1,
              _set_fed_job_info fed_job_list job_ptr.job_id r.1, r.2.2⟩
  | _, _ => some ⟨SLURM_SUCCESS, job_ptr, fed_job_list, []⟩

/-! ## The job-update loop: state and handlers -/

/-- The part of the controller state the job-update handlers work on: the
scheduler's `job_list`, the manager's `fed_job_list`, and the records appended
to the peers' `send_rpc` queues so far (oldest first). -/
structure ctld_state where
  job_list : List job_record
  fed_job_list : List fed_job_info_t
  send_rpc : List queued_rpc
  deriving DecidableEq, Repr

/-- The struct `fed_job_update_info_t`, restricted to the fields the modelled
handlers read. -/
structure fed_job_update_info_t where
  type : Nat
  job_id : Nat
  cluster_lock : Nat
  start_time : Int
  return_code : Nat
  siblings_str : String
  submit_cluster : String
  job_info_msg : List slurm_job_info_t
  submit_desc : Option job_desc_msg_t := none
  deriving DecidableEq, Repr

/-- The scheduler's `find_job_record`: the job record with the given id. -/
def find_job_record (job_list : List job_record) (job_id : Nat) : Option job_record :=
  job_list.find? (fun j => j.job_id == job_id)

/-- Write back the record that `find_job_record` returned a pointer to. -/
def set_job_record (job_list : List job_record) (job_id : Nat) (job_ptr : job_record) :
    List job_record :=
  list_modify_first (fun j => j.job_id == job_id) (fun _ => job_ptr) job_list

/-- The function `fed_mgr_remove_fed_job_info` (`list_delete_all` by job id). -/
def fed_mgr_remove_fed_job_info (fed_job_list : List fed_job_info_t) (job_id : Nat) :
    List fed_job_info_t :=
  fed_job_list.filter (fun ji => !(ji.job_id == job_id))

/-- Modelled from the spec: the scheduler's `purge_job_record` is not part of the
sources; by the spec a revoked job of a non-origin peer has its in-memory
record purged and its `FedJobInfo` destroyed with it. -/
def purge_job_record (s : ctld_state) (job_id : Nat) : ctld_state :=
  { s with
    job_list := s.job_list.filter (fun j => !(j.job_id == job_id)),
    fed_job_list := fed_mgr_remove_fed_job_info s.fed_job_list job_id }

/-- The function `_q_sib_job_start`: the update queued for a received START
message. -/
def _q_sib_job_start (sib_msg : sib_msg_t) : fed_job_update_info_t :=
  { type := FED_JOB_START, job_id := sib_msg.job_id, cluster_lock := sib_msg.cluster_id,
    start_time := sib_msg.start_time, return_code := 0, siblings_str := "",
    submit_cluster := "", job_info_msg := [] }

/-- The function `_handle_fed_job_start`; `none` when it dereferences a NULL
`fed_details`. -/
def _handle_fed_job_start (env : Env) (fed : Fed) (s : ctld_state)
    (job_update_info : fed_job_update_info_t) : Option ctld_state :=
  match find_job_record s.job_list job_update_info.job_id with
  | none => some s
  | some job_ptr =>
    match _find_fed_job_info s.fed_job_list job_update_info.job_id with
    | none => some s
    | some job_info =>
      match _fed_job_start_revoke env (some fed) job_info job_ptr
              job_update_info.start_time with
      | none => none
      | some r =>
        let s1 : ctld_state :=
          { job_list := set_job_record s.job_list job_update_info.job_id r.2.1,
            fed_job_list := _set_fed_job_info s.fed_job_list job_update_info.job_id r.1,
            send_rpc := s.send_rpc ++ r.2.2 }
        if r.1.cluster_lock ≠ (fed_mgr_cluster_rec fed).fed_id then
          let v := fed_mgr_job_revoke env (some fed) r.2.1 false 0
                     job_update_info.start_time
          let s2 := { s1 with
            job_list := set_job_record s1.job_list job_update_info.job_id v.1 }
          some (if v.2 then purge_job_record s2 v.1.job_id else s2)
        else some s1

/-- The function `_handle_fed_job_remove_active_sib_bit`; `none` when it
dereferences a NULL `fed_details`. -/
def _handle_fed_job_remove_active_sib_bit (fed : Fed) (s : ctld_state)
    (job_update_info : fed_job_update_info_t) : Option ctld_state :=
  match find_job_record s.job_list job_update_info.job_id with
  | none => some s
  | some job_ptr =>
    match _find_fed_job_info s.fed_job_list job_update_info.job_id with
    | none => some s
    | some job_info =>
      match fed_mgr_get_cluster_by_name (some fed) job_update_info.siblings_str with
      | none => some s
      | some sibling =>
        match job_ptr.fed_details with
        | none => none
        | some fd =>
          let active := job_info.siblings_active &&& not64 (FED_SIBLING_BIT sibling.fed_id)
          some { s with
            job_list := set_job_record s.job_list job_update_info.job_id
              { job_ptr with fed_details := some { fd with siblings_active := active } },
            fed_job_list := _set_fed_job_info s.fed_job_list job_update_info.job_id
              { job_info with siblings_active := active } }

/-! ## Viable siblings -/

/-- The function `_get_all_sibling_bits`. -/
def _get_all_sibling_bits (fed : Option Fed) : Nat :=
  match fed with
  | none => 0
  | some f =>
    f.cluster_list.foldl (fun sib_bits cluster => sib_bits ||| FED_SIBLING_BIT cluster.fed_id) 0

/-- The `while ((cluster_name = list_next(itr)))` loop of
`_validate_cluster_names`. -/
def _validate_cluster_names_loop (fed : Option Fed) : List String → Nat → Int × Nat
  | [], cluster_ids => (SLURM_SUCCESS, cluster_ids)
  | cluster_name :: rest, cluster_ids =>
    match fed_mgr_get_cluster_by_name fed cluster_name with
    | none => (SLURM_ERROR, cluster_ids)
    | some sibling =>
      _validate_cluster_names_loop fed rest (cluster_ids ||| FED_SIBLING_BIT sibling.fed_id)

/-- The function `_validate_cluster_names`: return code and `*cluster_bitmap`. -/
def _validate_cluster_names (env : Env) (fed : Option Fed) (clusters : String) : Int × Nat :=
  if env.xstrcasecmp_eq clusters "all" then (SLURM_SUCCESS, _get_all_sibling_bits fed)
  else _validate_cluster_names_loop fed (env.slurm_addto_char_list clusters) 0

/-- The inner `while ((sib = list_next(sib_itr)))` loop of
`_validate_cluster_features` for one requested feature: the bitmap and the flag
`found` afterwards. -/
def _validate_cluster_features_sibs (env : Env) (cluster_list : List slurmdb_cluster_rec_t)
    (feature : String) (feature_sibs : Nat) : Nat × Bool :=
  cluster_list.foldl
    (fun (acc : Nat × Bool) sib =>
      match sib.feature_list with
      | none => acc
      | some l =>
        if l.any (fun x => env.slurm_find_char_in_list x feature) then
          (acc.1 ||| FED_SIBLING_BIT sib.fed_id, true)
        else acc)
    (feature_sibs, false)

/-- The outer `while ((feature = list_next(feature_itr)))` loop of
`_validate_cluster_features`. -/
def _validate_cluster_features_loop (env : Env) (cluster_list : List slurmdb_cluster_rec_t) :
    List String → Nat → Int × Nat
  | [], feature_sibs => (SLURM_SUCCESS, feature_sibs)
  | feature :: rest, feature_sibs =>
    let r := _validate_cluster_features_sibs env cluster_list feature feature_sibs
    if r.2 then _validate_cluster_features_loop env cluster_list rest r.1
    else (SLURM_ERROR, r.1)

/-- The function `_validate_cluster_features`: return code and
`*cluster_bitmap`. -/
def _validate_cluster_features (env : Env) (fed : Option Fed) (spec_features : Option String) :
    Int × Nat :=
  match spec_features, fed with
  | some sf, some f =>
    _validate_cluster_features_loop env f.cluster_list (env.slurm_addto_char_list sf) 0
  | _, _ => (SLURM_SUCCESS, 0)

/-- The callback `_remove_inactive_sibs`: `*viable_sibs` afterwards. -/
def _remove_inactive_sibs (env : Env) (viable_sibs : Nat) (sibling : slurmdb_cluster_rec_t) :
    Nat :=
  if sibling.fed_state &&& env.CLUSTER_FED_STATE_DRAIN ≠ 0 ∨
      sibling.fed_state &&& env.CLUSTER_FED_STATE_BASE = env.CLUSTER_FED_STATE_INACTIVE then
    viable_sibs &&& not64 (FED_SIBLING_BIT sibling.fed_id)
  else viable_sibs

/-- The function `_get_viable_sibs`. -/
def _get_viable_sibs (env : Env) (fed : Fed) (req_clusters : Option String)
    (feature_sibs : Nat) : Nat :=
  let v0 := match req_clusters with
    | some c => (_validate_cluster_names env (some fed) c).2
    | none => 0
  let v1 := if v0 = 0 then _get_all_sibling_bits (some fed) else v0
  let v2 := if feature_sibs ≠ 0 then v1 &&& feature_sibs else v1
  fed.cluster_list.foldl (_remove_inactive_sibs env) v2

/-! ## Submitting sibling jobs -/

/-- The `slurm_msg_t` that carries a packed job descriptor (the argument `msg`
of `fed_mgr_job_allocate` and of `_submit_sibling_jobs`). -/
structure job_msg_t where
  msg_type : Nat
  protocol_version : Nat
  body_offset : Nat
  buffer : Option job_desc_msg_t
  deriving DecidableEq, Repr

/-- What `_submit_sibling_jobs` leaves behind: `ret_rc`, the descriptor with its
updated `fed_siblings_active`, and the records queued. -/
structure submit_result where
  ret_rc : Int
  job_desc : job_desc_msg_t
  queued : List queued_rpc
  deriving DecidableEq, Repr

/-- The `while ((sibling = list_next(sib_itr)))` loop of `_submit_sibling_jobs`;
`idx` is the position of the head of the remaining list in `cluster_list`.  A
return code is 0 or -1, so `ret_rc |= rc` keeps `ret_rc` on success and makes
it -1 on failure. -/
def _submit_sibling_jobs_loop (env : Env) (fed : Fed) (sib_msg : sib_msg_t)
    (alloc_only : Bool) (dest_sibs : Nat) :
    List slurmdb_cluster_rec_t → Nat → submit_result → submit_result
  | [], _, acc => acc
  | sibling :: rest, idx, acc =>
    if idx = fed.local_idx then
      _submit_sibling_jobs_loop env fed sib_msg alloc_only dest_sibs rest (idx + 1) acc
    else if dest_sibs &&& FED_SIBLING_BIT sibling.fed_id = 0 then
      _submit_sibling_jobs_loop env fed sib_msg alloc_only dest_sibs rest (idx + 1) acc
    else if acc.job_desc.fed_siblings_active &&& FED_SIBLING_BIT sibling.fed_id ≠ 0 then
      _submit_sibling_jobs_loop env fed sib_msg alloc_only dest_sibs rest (idx + 1) acc
    else
      let r := _queue_rpc env sibling
        { msg_type := env.REQUEST_SIB_MSG,
          data := { sib_msg with
            sib_msg_type := if alloc_only then FED_JOB_SUBMIT_INT else FED_JOB_SUBMIT_BATCH } }
        0
      _submit_sibling_jobs_loop env fed sib_msg alloc_only dest_sibs rest (idx + 1)
        { ret_rc := if r.1 = SLURM_SUCCESS then acc.ret_rc else SLURM_ERROR,
          job_desc :=
            if r.1 = SLURM_SUCCESS then
              { acc.job_desc with
                fed_siblings_active :=
                  acc.job_desc.fed_siblings_active ||| FED_SIBLING_BIT sibling.fed_id }
            else acc.job_desc,
          queued := acc.queued ++ r.2 }

/-- The function `_submit_sibling_jobs`. -/
def _submit_sibling_jobs (env : Env) (fed : Fed) (job_desc : job_desc_msg_t) (msg : job_msg_t)
    (alloc_only : Bool) (dest_sibs : Nat) : submit_result :=
  _submit_sibling_jobs_loop env fed
    { sib_msg_zero with
      data_buffer := msg.buffer, data_offset := msg.body_offset, data_type := msg.msg_type,
      data_version := msg.protocol_version, fed_siblings := job_desc.fed_siblings_viable,
      job_id := job_desc.job_id, resp_host := job_desc.resp_host }
    alloc_only dest_sibs fed.cluster_list 0
    { ret_rc := SLURM_SUCCESS, job_desc := job_desc, queued := [] }

/-- The request `req_msg` that `_submit_sibling_jobs` queues for each sibling: a
`REQUEST_SIB_MSG` whose `sib_msg` carries the packed descriptor of `msg`, the
viable siblings, the job id and the response host of `job_desc`, with type
`FED_JOB_SUBMIT_INT` for an allocation and `FED_JOB_SUBMIT_BATCH` otherwise. -/
def submit_req_msg (env : Env) (job_desc : job_desc_msg_t) (msg : job_msg_t)
    (alloc_only : Bool) : slurm_msg_t :=
  { msg_type := env.REQUEST_SIB_MSG,
    data := { sib_msg_zero with
      data_buffer := msg.buffer, data_offset := msg.body_offset, data_type := msg.msg_type,
      data_version := msg.protocol_version, fed_siblings := job_desc.fed_siblings_viable,
      job_id := job_desc.job_id, resp_host := job_desc.resp_host,
      sib_msg_type := if alloc_only then FED_JOB_SUBMIT_INT else FED_JOB_SUBMIT_BATCH } }

/-- What the functions working on one job record leave behind: return code, the
job record, `fed_job_list` and the records queued. -/
structure job_op_result where
  rc : Int
  job_ptr : job_record
  fed_job_list : List fed_job_info_t
  queued : List queued_rpc
  deriving DecidableEq, Repr

/-- The function `_prepare_submit_siblings`: return code, job record and records
queued; `none` when it dereferences a NULL `fed_details`. -/
def _prepare_submit_siblings (env : Env) (fed : Option Fed) (job_ptr : job_record)
    (dest_sibs : Nat) : Option (Int × job_record × List queued_rpc) :=
  match fed, _is_fed_job fed job_ptr with
  | some f, some _ =>
    match env.copy_job_record_to_job_desc job_ptr with
    | none => some (SLURM_ERROR, job_ptr, [])
    | some job_desc =>
      let r := _submit_sibling_jobs env f job_desc
        { msg_type := env.REQUEST_RESOURCE_ALLOCATION,
          protocol_version := env.SLURM_PROTOCOL_VERSION, body_offset := 0,
          buffer := some job_desc }
        false dest_sibs
      let active :=
        if r.job_desc.fed_siblings_viable &&& FED_SIBLING_BIT (fed_mgr_cluster_rec f).fed_id ≠ 0
        then r.job_desc.fed_siblings_active ||| FED_SIBLING_BIT (fed_mgr_cluster_rec f).fed_id
        else r.job_desc.fed_siblings_active
      match job_ptr.fed_details with
      | none => none
      | some fd =>
        some (SLURM_SUCCESS,
          { job_ptr with
            fed_details := some { fd with siblings_active := fd.siblings_active ||| active } },
          r.queued)
  | _, _ => some (SLURM_SUCCESS, job_ptr, [])

/-- The tail of `_add_remove_sibling_jobs`, `fed_mgr_job_requeue` and
`_reconcile_fed_job`: copy the job's bitmaps into its `fed_job_info_t`, if it
has one; `none` when `fed_details` is NULL. -/
def _update_fed_job_info_sibs (fed_job_list : List fed_job_info_t) (job_ptr : job_record) :
    Option (List fed_job_info_t) :=
  match _find_fed_job_info fed_job_list job_ptr.job_id with
  | none => some fed_job_list
  | some job_info =>
    match job_ptr.fed_details with
    | none => none
    | some fd =>
      some (_set_fed_job_info fed_job_list job_ptr.job_id
        { job_info with
          siblings_viable := fd.siblings_viable, siblings_active := fd.siblings_active })

/-- The `if (rem_sibs) { ... }` block of `_add_remove_sibling_jobs`: revoke the
siblings of `rem_sibs`, revoke the origin job if its own bit is among them, and
clear `rem_sibs` from `siblings_active`.  The job record and the records queued
afterwards; `none` when `fed_details` is NULL.  `fed_mgr_job_revoke` is called
on origin jobs only, which never purges the record. -/
def _add_remove_rem_sibs (env : Env) (fed : Fed) (job_ptr : job_record)
    (origin_id rem_sibs : Nat) (now : Int) : Option (job_record × List queued_rpc) :=
  if rem_sibs ≠ 0 then
    let job2 :=
      if fed_mgr_is_origin_job (some fed) job_ptr = true ∧
          rem_sibs &&& FED_SIBLING_BIT origin_id ≠ 0 then
        (fed_mgr_job_revoke env (some fed) job_ptr false 0 now).1
      else job_ptr
    match job2.fed_details with
    | none => none
    | some fd2 =>
      some ({ job2 with
              fed_details := some { fd2 with
                siblings_active := fd2.siblings_active &&& not64 rem_sibs } },
            _revoke_sibling_jobs env (some fed) job_ptr.job_id
              (fed_mgr_cluster_rec fed).fed_id rem_sibs now)
  else some (job_ptr, [])

/-- The statement `if (job_ptr->priority != 0 && add_sibs)
_prepare_submit_siblings(...)` of `_add_remove_sibling_jobs`. -/
def _add_remove_add_sibs (env : Env) (fed : Fed) (job_ptr : job_record) (add_sibs : Nat) :
    Option (job_record × List queued_rpc) :=
  if job_ptr.priority ≠ 0 ∧ add_sibs ≠ 0 then
    match job_ptr.fed_details with
    | none => none
    | some fd =>
      (_prepare_submit_siblings env (some fed) job_ptr fd.siblings_viable).map
        (fun p => (p.2.1, p.2.2))
  else some (job_ptr, [])

/-- The statement of `_add_remove_sibling_jobs` that takes `JOB_REVOKED` off an
origin job whose own bit is in `add_sibs`. -/
def _add_remove_unrevoke (env : Env) (fed : Fed) (job_ptr : job_record)
    (origin_id add_sibs : Nat) : job_record :=
  if fed_mgr_is_origin_job (some fed) job_ptr = true ∧
      add_sibs &&& FED_SIBLING_BIT origin_id ≠ 0 then
    { job_ptr with job_state := job_ptr.job_state &&& not32 env.JOB_REVOKED }
  else job_ptr

/-- The function `_add_remove_sibling_jobs` at time `now`; `none` when it
dereferences a NULL `details` or `fed_details`.  The function is `void`; `rc` is
`SLURM_SUCCESS`. -/
def _add_remove_sibling_jobs (env : Env) (fed : Fed) (fed_job_list : List fed_job_info_t)
    (job_ptr : job_record) (now : Int) : Option job_op_result :=
  match job_ptr.fed_details, job_ptr.details with
  | some fd, some det =>
    let origin_id := fed_mgr_get_cluster_id job_ptr.job_id
    let old_sibs := fd.siblings_active
    let feature_sibs := (_validate_cluster_features env (some fed) det.cluster_features).2
    let new_sibs := _get_viable_sibs env fed job_ptr.clusters feature_sibs
    let job1 := { job_ptr with fed_details := some { fd with siblings_viable := new_sibs } }
    let add_sibs := new_sibs &&& not64 old_sibs
    let rem_sibs := not64 new_sibs &&& old_sibs
    match _add_remove_rem_sibs env fed job1 origin_id rem_sibs now with
    | none => none
    | some a =>
      match _add_remove_add_sibs env fed a.1 add_sibs with
      | none => none
      | some b =>
        match _update_fed_job_info_sibs fed_job_list
            (_add_remove_unrevoke env fed b.1 origin_id add_sibs) with
        | none => none
        | some l =>
          some ⟨SLURM_SUCCESS, _add_remove_unrevoke env fed b.1 origin_id add_sibs, l,
            a.2 ++ b.2⟩
  | _, _ => none

/-- The function `fed_mgr_update_job_clusters` at time `now`.  Its branch for
`!fed_mgr_fed_rec` cannot be reached once `_is_fed_job` has succeeded. -/
def fed_mgr_update_job_clusters (env : Env) (fed : Option Fed)
    (fed_job_list : List fed_job_info_t) (job_ptr : job_record) (spec_clusters : String)
    (now : Int) : Option job_op_result :=
  match fed, _is_fed_job fed job_ptr, job_ptr.fed_details with
  | some f, some _, some fd =>
    if env.IS_JOB_PENDING job_ptr.job_state = false ∨ fd.cluster_lock ≠ 0 then
      some ⟨env.ESLURM_JOB_NOT_PENDING, job_ptr, fed_job_list, []⟩
    else if (_validate_cluster_names env fed spec_clusters).1 ≠ SLURM_SUCCESS then
      some ⟨env.ESLURM_INVALID_CLUSTER_NAME, job_ptr, fed_job_list, []⟩
    else
      let job1 := { job_ptr with
        clusters := if spec_clusters = "" then none else some spec_clusters }
      if fed_mgr_is_origin_job fed job1 then
        _add_remove_sibling_jobs env f fed_job_list job1 now
      else some ⟨SLURM_SUCCESS, job1, fed_job_list, []⟩
  | _, _, _ => some ⟨SLURM_ERROR, job_ptr, fed_job_list, []⟩

/-- The function `fed_mgr_update_job_cluster_features` at time `now`; `none`
when it dereferences a NULL `details`.  Its branch for `!fed_mgr_fed_rec`
cannot be reached once `_is_fed_job` has succeeded. -/
def fed_mgr_update_job_cluster_features (env : Env) (fed : Option Fed)
    (fed_job_list : List fed_job_info_t) (job_ptr : job_record) (req_features : String)
    (now : Int) : Option job_op_result :=
  match fed, _is_fed_job fed job_ptr, job_ptr.fed_details with
  | some f, some _, some fd =>
    if env.IS_JOB_PENDING job_ptr.job_state = false ∨ fd.cluster_lock ≠ 0 then
      some ⟨env.ESLURM_JOB_NOT_PENDING, job_ptr, fed_job_list, []⟩
    else if (_validate_cluster_features env fed (some req_features)).1 ≠ SLURM_SUCCESS then
      some ⟨env.ESLURM_INVALID_CLUSTER_FEATURE, job_ptr, fed_job_list, []⟩
    else
      match job_ptr.details with
      | none => none
      | some det =>
        let job1 := { job_ptr with
          details := some { det with
            cluster_features := if req_features = "" then none else some req_features } }
        if fed_mgr_is_origin_job fed job1 then
          _add_remove_sibling_jobs env f fed_job_list job1 now
        else some ⟨SLURM_SUCCESS, job1, fed_job_list, []⟩
  | _, _, _ => some ⟨SLURM_ERROR, job_ptr, fed_job_list, []⟩

/-! ## Local submission -/

/-- The function `_add_fed_job_info`: the record appended to `fed_job_list`
(`memset` to 0, then job id and bitmaps of the job); `none` when `fed_details`
is NULL. -/
def _add_fed_job_info (fed_job_list : List fed_job_info_t) (job_ptr : job_record) :
    Option (List fed_job_info_t) :=
  match job_ptr.fed_details with
  | none => none
  | some fd =>
    some (fed_job_list ++
      [{ cluster_lock := 0, job_id := job_ptr.job_id, siblings_active := fd.siblings_active,
         siblings_viable := fd.siblings_viable,
         updating_sibs := List.replicate (MAX_FED_CLUSTERS + 1) 0,
         updating_time := List.replicate (MAX_FED_CLUSTERS + 1) 0 }])

/-- What `fed_mgr_job_allocate` leaves behind: return code, `*alloc_code`,
`*job_id_ptr` when set, the job record created by `job_allocate` (if any),
`fed_job_list` and the records queued. -/
structure allocate_result where
  rc : Int
  alloc_code : Int
  job_id_ptr : Option Nat
  job_ptr : Option job_record
  fed_job_list : List fed_job_info_t
  queued : List queued_rpc
  deriving DecidableEq, Repr

/-- The function `fed_mgr_job_allocate`; `next_job_id` is what
`get_next_job_id(false)` returns.  `none` when the job created by
`job_allocate` has a NULL `fed_details`, which the function dereferences. -/
def fed_mgr_job_allocate (env : Env) (fed : Fed) (fed_job_list : List fed_job_info_t)
    (msg : job_msg_t) (job_desc : job_desc_msg_t) (alloc_only : Bool) (uid : Nat)
    (protocol_version : Nat) (next_job_id : Nat) : Option allocate_result :=
  if job_desc.job_id ≠ env.NO_VAL then
    some ⟨SLURM_ERROR, env.ESLURM_INVALID_JOB_ID, none, none, fed_job_list, []⟩
  else
    let vf := _validate_cluster_features env (some fed) job_desc.cluster_features
    if vf.1 ≠ SLURM_SUCCESS then
      some ⟨SLURM_ERROR, env.ESLURM_INVALID_CLUSTER_FEATURE, none, none, fed_job_list, []⟩
    else
      let job_held : Bool := job_desc.priority == 0
      let d1 := { job_desc with
        job_id := next_job_id,
        fed_siblings_viable := _get_viable_sibs env fed job_desc.clusters vf.2,
        fed_siblings_active := 0 }
      let a := env.job_allocate d1 alloc_only uid protocol_version
      match a.2 with
      | none => some ⟨SLURM_ERROR, a.1, none, none, fed_job_list, []⟩
      | some job_ptr =>
        if a.1 ≠ 0 ∧ job_ptr.job_state = env.JOB_FAILED then
          some ⟨SLURM_ERROR, a.1, none, some job_ptr, fed_job_list, []⟩
        else
          let local_bit := FED_SIBLING_BIT (fed_mgr_cluster_rec fed).fed_id
          let d2 := if d1.fed_siblings_viable &&& local_bit ≠ 0 then
              { d1 with fed_siblings_active := d1.fed_siblings_active ||| local_bit }
            else d1
          match job_ptr.fed_details with
          | none => none
          | some fd =>
            let r := if job_held then
                { ret_rc := SLURM_SUCCESS, job_desc := d2, queued := [] }
              else _submit_sibling_jobs env fed d2 msg alloc_only fd.siblings_viable
            let job2 := { job_ptr with
              fed_details := some { fd with
                siblings_active := r.job_desc.fed_siblings_active } }
            match _add_fed_job_info fed_job_list job2 with
            | none => none
            | some l =>
              some ⟨SLURM_SUCCESS, a.1, some job_ptr.job_id, some job2, l, r.queued⟩

/-! ## Reconciliation -/

/-- The struct `reconcile_sib_t`. -/
structure reconcile_sib_t where
  job_info_msg : List slurm_job_info_t
  sibling_id : Nat
  sibling_name : String
  sync_time : Int
  deriving DecidableEq, Repr

/-- The `if ... else if ...` chain of `_reconcile_fed_job` between its early
return and the final update of the `fed_job_info_t`, for a job with federation
details `fd`: the job record and the records queued afterwards; `none` when a
NULL `fed_details` is dereferenced.  Where it calls `fed_mgr_job_revoke` the job
originates on the local cluster, so the record is never purged. -/
def _reconcile_fed_job_actions (env : Env) (fed : Fed) (job_ptr : job_record)
    (fd : job_fed_details_t) (rec_sib : reconcile_sib_t) :
    Option (job_record × List queued_rpc) :=
  let sibling_id := rec_sib.sibling_id
  let sibling_bit := FED_SIBLING_BIT sibling_id
  let found := rec_sib.job_info_msg.find? (fun r => r.job_id == job_ptr.job_id)
  if fed_mgr_get_cluster_id job_ptr.job_id = sibling_id then
    match found with
    | none =>
      some (env.job_signal
        { job_ptr with bit_flags := job_ptr.bit_flags ||| env.SIB_JOB_FLUSH }, [])
    | some remote_job =>
      if env.IS_JOB_COMPLETED remote_job.job_state then
        some (env.job_signal
          { job_ptr with bit_flags := job_ptr.bit_flags ||| env.SIB_JOB_FLUSH }, [])
      else some (job_ptr, [])
  else
    match found with
    | none =>
      let job1 := { job_ptr with
        fed_details := some { fd with
          siblings_active := fd.siblings_active &&& not64 sibling_bit } }
      if fd.cluster_lock = 0 then
        (_prepare_submit_siblings env (some fed) job1 sibling_bit).map
          (fun p => (p.2.1, p.2.2))
      else if fd.cluster_lock = sibling_id then
        some ((fed_mgr_job_revoke env (some fed) job1 true 0 job1.start_time).1, [])
      else some (job1, [])
    | some remote_job =>
      if fd.cluster_lock = sibling_id then
        if env.IS_JOB_COMPLETE remote_job.job_state then
          some ((fed_mgr_job_revoke env (some fed) job_ptr true remote_job.exit_code
            job_ptr.start_time).1, [])
        else some (job_ptr, [])
      else if fd.cluster_lock ≠ 0 then
        some (job_ptr,
          _revoke_sibling_jobs env (some fed) job_ptr.job_id
            (fed_mgr_cluster_rec fed).fed_id sibling_bit job_ptr.start_time)
      else if fd.siblings_active &&& sibling_bit = 0 then
        some ({ job_ptr with
          fed_details := some { fd with
            siblings_active := fd.siblings_active ||| sibling_bit } }, [])
      else some (job_ptr, [])

/-- The function `_reconcile_fed_job` for one job record: return code
(`SLURM_SUCCESS` always), job record, `fed_job_list` and the records queued
afterwards; `none` when a NULL `fed_details` is dereferenced. -/
def _reconcile_fed_job (env : Env) (fed : Fed) (fed_job_list : List fed_job_info_t)
    (job_ptr : job_record) (rec_sib : reconcile_sib_t) : Option job_op_result :=
  match job_ptr.fed_details, job_ptr.details with
  | some fd, some det =>
    if det.submit_time ≥ rec_sib.sync_time ∨
        env.IS_JOB_COMPLETED job_ptr.job_state = true ∨
        env.IS_JOB_COMPLETING job_ptr.job_state = true ∨
        (fed_mgr_get_cluster_id job_ptr.job_id ≠ rec_sib.sibling_id ∧
          (fed_mgr_is_origin_job (some fed) job_ptr = false ∨
            fd.siblings_viable &&& FED_SIBLING_BIT rec_sib.sibling_id = 0)) then
      some ⟨SLURM_SUCCESS, job_ptr, fed_job_list, []⟩
    else
      match _reconcile_fed_job_actions env fed job_ptr fd rec_sib with
      | none => none
      | some p =>
        match _update_fed_job_info_sibs fed_job_list p.1 with
        | none => none
        | some l => some ⟨SLURM_SUCCESS, p.1, l, p.2⟩
  | _, _ => some ⟨SLURM_SUCCESS, job_ptr, fed_job_list, []⟩

/-! ## The life of one job on its origin cluster -/

/-- The function `_q_sib_submit_response` for a response with a non-zero return
code: the update it queues. -/
def _q_sib_submit_response (job_id : Nat) (cluster_name : String) : fed_job_update_info_t :=
  { type := FED_JOB_REMOVE_ACTIVE_SIB_BIT, job_id := job_id, cluster_lock := 0,
    start_time := 0, return_code := 0, siblings_str := cluster_name, submit_cluster := "",
    job_info_msg := [] }

/-- The steps that change the lock or the sibling bitmaps of a job: the calls
`fed_mgr_job_lock_set`, `fed_mgr_job_lock_unset` and `fed_mgr_job_start`, the
handling of a received START message and of a failed SUBMIT response (which
queues REMOVE_ACTIVE_SIB_BIT), the two job updates that end in
`_add_remove_sibling_jobs`, and the reconciliation of the job with the job list
sent by a peer (`_sync_jobs`). -/
inductive job_event where
  | lock_set (now : Int) (cluster_id : Nat)
  | lock_unset (cluster_id : Nat)
  | start (start_time : Int)
  | start_msg (start_time : Int) (cluster_id : Nat)
  | remove_active_sib_bit (cluster_name : String)
  | update_clusters (spec_clusters : String) (now : Int)
  | update_cluster_features (req_features : String) (now : Int)
  | sync (sib_name : String) (job_info_msg : List slurm_job_info_t) (sync_time : Int)
  deriving DecidableEq, Repr

/-- Store what a function working on the record of job `job_id` left behind. -/
def store_job_op (s : ctld_state) (job_id : Nat) (r : job_op_result) : ctld_state :=
  { job_list := set_job_record s.job_list job_id r.job_ptr,
    fed_job_list := r.fed_job_list,
    send_rpc := s.send_rpc ++ r.queued }

/-- One step of job `job_id` on the controller of federation member `fed`: the
state after the C function of the event has run, `none` when that function
dereferences a NULL pointer.  A step whose job record is not found leaves the
state alone, as the C callers do. -/
def apply_event (env : Env) (fed : Fed) (job_id : Nat) (s : ctld_state) :
    job_event → Option ctld_state
  | .lock_set now cluster_id =>
    some { s with
      fed_job_list := (fed_mgr_job_lock_set s.fed_job_list now job_id cluster_id).2 }
  | .lock_unset cluster_id =>
    some { s with fed_job_list := (fed_mgr_job_lock_unset s.fed_job_list job_id cluster_id).2 }
  | .start start_time =>
    match find_job_record s.job_list job_id with
    | none => some s
    | some job_ptr =>
      (fed_mgr_job_start env (some fed) s.fed_job_list job_ptr start_time).map
        (fun r => store_job_op s job_id ⟨r.rc, r.job_ptr, r.fed_job_list, r.queued⟩)
  | .start_msg start_time cluster_id =>
    _handle_fed_job_start env fed s
      (_q_sib_job_start
        { sib_msg_zero with
          sib_msg_type := FED_JOB_START, job_id := job_id, cluster_id := cluster_id,
          start_time := start_time })
  | .remove_active_sib_bit cluster_name =>
    _handle_fed_job_remove_active_sib_bit fed s (_q_sib_submit_response job_id cluster_name)
  | .update_clusters spec_clusters now =>
    match find_job_record s.job_list job_id with
    | none => some s
    | some job_ptr =>
      (fed_mgr_update_job_clusters env (some fed) s.fed_job_list job_ptr spec_clusters now).map
        (store_job_op s job_id)
  | .update_cluster_features req_features now =>
    match find_job_record s.job_list job_id with
    | none => some s
    | some job_ptr =>
      (fed_mgr_update_job_cluster_features env (some fed) s.fed_job_list job_ptr
        req_features now).map (store_job_op s job_id)
  | .sync sib_name job_info_msg sync_time =>
    match fed_mgr_get_cluster_by_name (some fed) sib_name with
    | none => some s
    | some sib =>
      match find_job_record s.job_list job_id with
      | none => some s
      | some job_ptr =>
        (_reconcile_fed_job env fed s.fed_job_list job_ptr
          { job_info_msg := job_info_msg, sibling_id := sib.fed_id,
            sibling_name := sib.name, sync_time := sync_time }).map (store_job_op s job_id)

/-- A sequence of steps of job `job_id`, first step first. -/
def run_events (env : Env) (fed : Fed) (job_id : Nat) :
    List job_event → ctld_state → Option ctld_state
  | [], s => some s
  | e :: es, s =>
    match apply_event env fed job_id s e with
    | none => none
    | some s' => run_events env fed job_id es s'

/-- The condition `guard` holds before every step of a sequence of steps. -/
def guards_hold (env : Env) (fed : Fed) (job_id : Nat)
    (guard : ctld_state → job_event → Bool) : List job_event → ctld_state → Bool
  | [], _ => true
  | e :: es, s =>
    guard s e &&
      match apply_event env fed job_id s e with
      | none => true
      | some s' => guards_hold env fed job_id guard es s'

/-! ## Conditions on the states and steps of a job -/

/-- The controller tracks job `job_id`: `j` is its job record with federation
details `fd`, `ji` is its `fed_job_info_t`, and both carry the same sibling
bitmaps (as `fed_mgr_job_allocate` leaves them). -/
def job_tracked (s : ctld_state) (job_id : Nat) (j : job_record) (fd : job_fed_details_t)
    (ji : fed_job_info_t) : Prop :=
  find_job_record s.job_list job_id = some j ∧ j.fed_details = some fd ∧
  _find_fed_job_info s.fed_job_list job_id = some ji ∧
  ji.siblings_active = fd.siblings_active ∧ ji.siblings_viable = fd.siblings_viable

/-- The job is tracked and its `cluster_lock` is 0 or an id `1..64` whose bit is
set in the 64-bit `siblings_active`. -/
def lock_holder_active (s : ctld_state) (job_id : Nat) : Prop :=
  ∃ j fd ji, job_tracked s job_id j fd ji ∧
    (ji.cluster_lock = 0 ∨
      (1 ≤ ji.cluster_lock ∧ ji.cluster_lock ≤ 64 ∧
        ji.siblings_active.testBit (ji.cluster_lock - 1) = true))

/-- The early return of `_reconcile_fed_job` for the sender of `rec_sib` (the
condition of its first `if`): the job has no federation details or no details,
was submitted at or after the sync time, is completed or completing, or neither
originates on the sender nor is an origin job here with the sender among its
viable siblings. -/
def reconcile_skips (env : Env) (fed : Fed) (job_ptr : job_record)
    (rec_sib : reconcile_sib_t) : Bool :=
  match job_ptr.fed_details, job_ptr.details with
  | some fd, some det =>
    decide (det.submit_time ≥ rec_sib.sync_time ∨
      env.IS_JOB_COMPLETED job_ptr.job_state = true ∨
      env.IS_JOB_COMPLETING job_ptr.job_state = true ∨
      (fed_mgr_get_cluster_id job_ptr.job_id ≠ rec_sib.sibling_id ∧
        (fed_mgr_is_origin_job (some fed) job_ptr = false ∨
          fd.siblings_viable &&& FED_SIBLING_BIT rec_sib.sibling_id = 0)))
  | _, _ => true

/-- The branch of `_reconcile_fed_job` that clears the sender's bit in
`siblings_active` is taken: the function does not return early, the job does not
originate on the sender, and the sender's job list does not hold the job. -/
def reconcile_clears_sender (env : Env) (fed : Fed) (job_ptr : job_record)
    (rec_sib : reconcile_sib_t) : Bool :=
  !reconcile_skips env fed job_ptr rec_sib &&
    decide (fed_mgr_get_cluster_id job_ptr.job_id ≠ rec_sib.sibling_id) &&
    (rec_sib.job_info_msg.find? (fun r => r.job_id == job_ptr.job_id)).isNone

/-- The not-found branch of `_reconcile_fed_job` resubmits the sibling: the job
record carries no lock, the sender is not the local cluster, the job record
(without the sender's bit) can be copied into a descriptor, and the SUBMIT
request built from it packs, so that `_prepare_submit_siblings` queues it. -/
def reconcile_resubmits (env : Env) (fed : Fed) (job_ptr : job_record)
    (rec_sib : reconcile_sib_t) : Bool :=
  match job_ptr.fed_details with
  | none => false
  | some fd =>
    decide (fd.cluster_lock = 0) &&
      decide (rec_sib.sibling_id ≠ (fed_mgr_cluster_rec fed).fed_id) &&
      match env.copy_job_record_to_job_desc
          { job_ptr with
            fed_details := some { fd with
              siblings_active :=
                fd.siblings_active &&& not64 (FED_SIBLING_BIT rec_sib.sibling_id) } } with
      | none => false
      | some job_desc =>
        env.pack_msg
          (submit_req_msg env job_desc
            { msg_type := env.REQUEST_RESOURCE_ALLOCATION,
              protocol_version := env.SLURM_PROTOCOL_VERSION, body_offset := 0,
              buffer := some job_desc } false)

/-- The steps that respect the lock holder of job `job_id`: a lock that is
granted goes to cluster id 0 or to a cluster whose sibling bit is set in
`siblings_active`; a REMOVE_ACTIVE_SIB_BIT does not come from the lock holder; a
reconciliation with the lock holder does not take the branch of
`_reconcile_fed_job` that clears the sender's bit, or resubmits the sibling to
the holder; and a job update that changes the `fed_job_info_t` leaves the lock
holder viable. -/
def lock_holder_guard (env : Env) (fed : Fed) (job_id : Nat) (s : ctld_state)
    (e : job_event) : Bool :=
  match _find_fed_job_info s.fed_job_list job_id with
  | none => true
  | some ji =>
    match e with
    | .lock_set now cluster_id =>
      decide ((fed_mgr_job_lock_set s.fed_job_list now job_id cluster_id).1 ≠ SLURM_SUCCESS) ||
        decide (cluster_id = 0) ||
        decide (ji.siblings_active &&& FED_SIBLING_BIT cluster_id ≠ 0)
    | .lock_unset _ => true
    | .start _ => true
    | .start_msg _ _ => true
    | .remove_active_sib_bit cluster_name =>
      match fed_mgr_get_cluster_by_name (some fed) cluster_name with
      | none => true
      | some sibling => decide (ji.cluster_lock = 0) || decide (sibling.fed_id ≠ ji.cluster_lock)
    | .sync sib_name job_info_msg sync_time =>
      match fed_mgr_get_cluster_by_name (some fed) sib_name with
      | none => true
      | some sibling =>
        decide (ji.cluster_lock = 0) || decide (sibling.fed_id ≠ ji.cluster_lock) ||
          match find_job_record s.job_list job_id with
          | none => true
          | some job_ptr =>
            !reconcile_clears_sender env fed job_ptr
                { job_info_msg := job_info_msg, sibling_id := sibling.fed_id,
                  sibling_name := sibling.name, sync_time := sync_time } ||
              reconcile_resubmits env fed job_ptr
                { job_info_msg := job_info_msg, sibling_id := sibling.fed_id,
                  sibling_name := sibling.name, sync_time := sync_time }
    | e =>
      decide (ji.cluster_lock = 0) ||
        match apply_event env fed job_id s e with
        | none => true
        | some s' =>
          match _find_fed_job_info s'.fed_job_list job_id with
          | none => true
          | some ji' =>
            decide (ji' = ji) || ji'.siblings_viable.testBit (ji.cluster_lock - 1)

/-- The exit code of a job that was started elsewhere: the job is tracked, and
when its job record names a cluster other than the local one as the lock holder
(`_fed_job_start_revoke` has recorded a start on a peer), the exit code of the
record is 0 or the job is completed. -/
def remote_start_exit_code (env : Env) (fed : Fed) (s : ctld_state) (job_id : Nat) : Prop :=
  ∃ j fd ji, job_tracked s job_id j fd ji ∧
    (fd.cluster_lock = 0 ∨ fd.cluster_lock = (fed_mgr_cluster_rec fed).fed_id ∨
      j.exit_code = 0 ∨ env.IS_JOB_COMPLETED j.job_state = true)

/-- The steps in which a reconciliation is with a peer: the cluster named in a
SYNC does not carry the id of the local cluster. -/
def sync_from_peer_guard (fed : Fed) (_s : ctld_state) (e : job_event) : Bool :=
  match e with
  | .sync sib_name _ _ =>
    match fed_mgr_get_cluster_by_name (some fed) sib_name with
    | none => true
    | some sibling => decide (sibling.fed_id ≠ (fed_mgr_cluster_rec fed).fed_id)
  | _ => true

/-- The controller state `s` holds job `job_id` as `fed_mgr_job_allocate` has
just left it: the call succeeded on a `fed_job_list` without an entry for the
job, and `s` holds the job record and the `fed_job_list` of its result. -/
def freshly_submitted (env : Env) (fed : Fed) (s : ctld_state) (job_id : Nat) : Prop :=
  ∃ fed_job_list msg job_desc alloc_only uid protocol_version next_job_id r job_ptr,
    fed_mgr_job_allocate env fed fed_job_list msg job_desc alloc_only uid protocol_version
      next_job_id = some r ∧
    r.rc = SLURM_SUCCESS ∧ r.job_ptr = some job_ptr ∧ job_ptr.job_id = job_id ∧
    _find_fed_job_info fed_job_list job_id = none ∧
    find_job_record s.job_list job_id = some job_ptr ∧ s.fed_job_list = r.fed_job_list

/-- The steps that touch `siblings_active` of a job that has started: the
handling of START and of REMOVE_ACTIVE_SIB_BIT, and the reconciliation with a
peer (SYNC). -/
def is_started_job_event : job_event → Bool
  | .start_msg _ _ => true
  | .remove_active_sib_bit _ => true
  | .sync _ _ _ => true
  | _ => false

/-- Job `job_id` has just been started by cluster `L`, as `_fed_job_start_revoke`
leaves it: the `fed_job_info_t` and the job record both name `L` as the lock
holder and `siblings_active` is the sibling bit of `L`. -/
def job_started (s : ctld_state) (job_id L : Nat) : Prop :=
  ∃ j fd ji, job_tracked s job_id j fd ji ∧ ji.cluster_lock = L ∧ fd.cluster_lock = L ∧
    ji.siblings_active = FED_SIBLING_BIT L

/-- Job `job_id` is locked by cluster `L` in its `fed_job_info_t` and in its job
record, and no sibling but `L` is active. -/
def started_lock_kept (s : ctld_state) (job_id L : Nat) : Prop :=
  ∃ j fd ji, job_tracked s job_id j fd ji ∧ ji.cluster_lock = L ∧ fd.cluster_lock = L ∧
    ∀ k, ji.siblings_active.testBit k = true → (FED_SIBLING_BIT L).testBit k = true

/-- The job record is one that `_reconcile_fed_job` looks at for the sender of
`rec_sib` (the negation of its early return): it has details and federation
details, was submitted before the sync time, is neither completed nor
completing, and either originates on the sender, or is an origin job here with
the sender among its viable siblings. -/
def reconcile_looks_at (env : Env) (fed : Fed) (job_ptr : job_record)
    (rec_sib : reconcile_sib_t) : Prop :=
  ∃ fd det, job_ptr.fed_details = some fd ∧ job_ptr.details = some det ∧
    det.submit_time < rec_sib.sync_time ∧
    env.IS_JOB_COMPLETED job_ptr.job_state = false ∧
    env.IS_JOB_COMPLETING job_ptr.job_state = false ∧
    (fed_mgr_get_cluster_id job_ptr.job_id = rec_sib.sibling_id ∨
      (fed_mgr_is_origin_job (some fed) job_ptr = true ∧
        fd.siblings_viable &&& FED_SIBLING_BIT rec_sib.sibling_id ≠ 0))

/-- The record is one a C `fed_job_info_t` can hold: the scalar fields lie in
the range of their `uint32_t` and `uint64_t` types, both arrays have
`MAX_FED_CLUSTERS + 1` entries, and the entries lie in the range of `uint32_t`
and of a 64-bit `time_t`. -/
def fed_job_info_valid (job_info : fed_job_info_t) : Prop :=
  job_info.cluster_lock < 2 ^ 32 ∧ job_info.job_id < 2 ^ 32 ∧
  job_info.siblings_active < 2 ^ 64 ∧ job_info.siblings_viable < 2 ^ 64 ∧
  job_info.updating_sibs.length = MAX_FED_CLUSTERS + 1 ∧
  (∀ x ∈ job_info.updating_sibs, x < 2 ^ 32) ∧
  job_info.updating_time.length = MAX_FED_CLUSTERS + 1 ∧
  (∀ t ∈ job_info.updating_time, -2 ^ 63 ≤ t ∧ t < 2 ^ 63)

instance (job_info : fed_job_info_t) : Decidable (fed_job_info_valid job_info) := by
  unfold fed_job_info_valid
  infer_instance

/-! ## Assumptions on the scheduler -/

/-- The requeue table never matches: `job_hold_requeue` is false for every job
(no `RequeueExit` or `RequeueExitHold` codes are configured).  Where it matches,
`fed_mgr_job_revoke` hands the job to `batch_requeue_fini`, which is outside
`fed_mgr.c`. -/
def no_requeue_hold (env : Env) : Prop :=
  ∀ j, env.job_hold_requeue j = false

/-- The descriptor built by `copy_job_record_to_job_desc` carries the sibling
bitmaps of the job record. -/
def copy_keeps_sibling_bitmaps (env : Env) : Prop :=
  ∀ j d fd, env.copy_job_record_to_job_desc j = some d → j.fed_details = some fd →
    d.fed_siblings_active = fd.siblings_active ∧ d.fed_siblings_viable = fd.siblings_viable

/-- Signalling a job (`job_signal`) leaves its id and its federation details
alone. -/
def signal_keeps_fed_details (env : Env) : Prop :=
  ∀ j, (env.job_signal j).job_id = j.job_id ∧ (env.job_signal j).fed_details = j.fed_details

/-- The job record created by `job_allocate` carries the descriptor's
`fed_siblings_viable` in its `fed_details`. -/
def job_allocate_keeps_viable (env : Env) : Prop :=
  ∀ d alloc_only uid protocol_version j fd,
    (env.job_allocate d alloc_only uid protocol_version).2 = some j →
    j.fed_details = some fd → fd.siblings_viable = d.fed_siblings_viable

/-! ## The wiki scheduler plugin (`src/plugins/sched/wiki/sched_wiki.c`) -/

/-- The function `slurm_sched_plugin_initial_priority` of the wiki plugin.  The
plugin global `init_prio_mode` and the constant `PRIO_DECREMENT` are declared in
the plugin's `msg.h`, which is not part of the sources, and are parameters;
`last_prio` is a `uint32_t`, and the subtraction is only reached for
`last_prio ≥ 2`. -/
def slurm_sched_plugin_initial_priority (init_prio_mode PRIO_DECREMENT : Nat)
    (last_prio : Nat) : Nat :=
  if init_prio_mode = PRIO_DECREMENT then
    if last_prio ≥ 2 then (last_prio - 1) % 2 ^ 32
    else 1
  else 0

/-! ## Joining a federation -/

/-- The two switches of the global `slurmctld_config` that `_fed_mgr_ptr_init`
sets. -/
structure slurmctld_config_t where
  scheduling_disabled : Bool
  submissions_disabled : Bool
  deriving DecidableEq, Repr

/-- What `_fed_mgr_ptr_init` leaves behind: the two federation globals, the
switches, and the statics of the drain watcher (`job_watch_thread_id` as "a
watcher thread exists", and `stop_job_watch_thread`). -/
structure ptr_init_result where
  fed : Fed
  config : slurmctld_config_t
  job_watch_thread_id : Bool
  stop_job_watch_thread : Bool
  deriving DecidableEq, Repr

/-- The loop of `_fed_mgr_ptr_init` over the clusters of the new federation, as
far as `fed_mgr_cluster_rec` goes: every cluster named like the local cluster
(`xstrcmp` with `slurmctld_conf.cluster_name`) becomes the record pointed to.
`i` is the position of the head of the list, `cur` the position found so far.
The connections and queues the loop carries over are not among the modelled
fields of a cluster record. -/
def _fed_mgr_ptr_init_loop (cluster_name : String) :
    List slurmdb_cluster_rec_t → Nat → Option Nat → Option Nat
  | [], _, cur => cur
  | db_cluster :: rest, i, cur =>
    if db_cluster.name = cluster_name then
      _fed_mgr_ptr_init_loop cluster_name rest (i + 1) (some i)
    else _fed_mgr_ptr_init_loop cluster_name rest (i + 1) cur

/-- The function `_spawn_job_watch_thread` on the two statics of the watcher. -/
def _spawn_job_watch_thread (job_watch_thread_id stop_job_watch_thread : Bool) :
    Bool × Bool :=
  if !job_watch_thread_id then (true, false)
  else (job_watch_thread_id, stop_job_watch_thread)

/-- The function `_remove_job_watch_thread` on the two statics of the watcher. -/
def _remove_job_watch_thread (job_watch_thread_id stop_job_watch_thread : Bool) :
    Bool × Bool :=
  if job_watch_thread_id then (job_watch_thread_id, true)
  else (job_watch_thread_id, stop_job_watch_thread)

/-- The function `_fed_mgr_ptr_init`.  `old` are the federation globals before
the call, `db_fed` is the cluster list of the new federation, and the argument
`cluster` is given as its position `cluster_idx` in that list and the record
itself.  When the controller is in a federation already and no cluster of the
new one carries its name, `fed_mgr_cluster_rec` keeps pointing to the old
record. -/
def _fed_mgr_ptr_init (env : Env) (cluster_name : String) (old : Option Fed)
    (db_fed : List slurmdb_cluster_rec_t) (cluster_idx : Nat)
    (cluster : slurmdb_cluster_rec_t) (config : slurmctld_config_t)
    (job_watch_thread_id stop_job_watch_thread : Bool) : ptr_init_result :=
  let fed : Fed :=
    match old with
    | some f =>
      match _fed_mgr_ptr_init_loop cluster_name db_fed 0 none with
      | some i =>
        { cluster_list := db_fed, local_idx := i, local_rec := fed_mgr_cluster_rec f }
      | none =>
        { cluster_list := db_fed, local_idx := db_fed.length,
          local_rec := fed_mgr_cluster_rec f }
    | none => { cluster_list := db_fed, local_idx := cluster_idx, local_rec := cluster }
  let cluster_state := (fed_mgr_cluster_rec fed).fed_state
  let base_state := cluster_state &&& env.CLUSTER_FED_STATE_BASE
  let drain_flag : Bool := cluster_state &&& env.CLUSTER_FED_STATE_DRAIN != 0
  let r : ptr_init_result :=
    if drain_flag then
      let w := if base_state = env.CLUSTER_FED_STATE_ACTIVE then
          _spawn_job_watch_thread job_watch_thread_id stop_job_watch_thread
        else (job_watch_thread_id, stop_job_watch_thread)
      { fed := fed,
        config := { scheduling_disabled := false, submissions_disabled := true },
        job_watch_thread_id := w.1, stop_job_watch_thread := w.2 }
    else if base_state = env.CLUSTER_FED_STATE_ACTIVE then
      { fed := fed,
        config := { scheduling_disabled := false, submissions_disabled := false },
        job_watch_thread_id := job_watch_thread_id,
        stop_job_watch_thread := stop_job_watch_thread }
    else if base_state = env.CLUSTER_FED_STATE_INACTIVE then
      { fed := fed,
        config := { scheduling_disabled := true, submissions_disabled := true },
        job_watch_thread_id := job_watch_thread_id,
        stop_job_watch_thread := stop_job_watch_thread }
    else
      { fed := fed, config := config, job_watch_thread_id := job_watch_thread_id,
        stop_job_watch_thread := stop_job_watch_thread }
  if !drain_flag && r.job_watch_thread_id then
    let w := _remove_job_watch_thread r.job_watch_thread_id r.stop_job_watch_thread
    { r with job_watch_thread_id := w.1, stop_job_watch_thread := w.2 }
  else r

/-! ## The agent: batching and retry of the queued requests -/

/-- The value of an `int` computation whose mathematical result is `x`: the
result reduced to the 32-bit two's complement range.  (`last_defer` is an `int`;
ISO C leaves a signed overflow undefined, the controller's targets wrap.) -/
def int32_wrap (x : Int) : Int := (x + 2 ^ 31) % 2 ^ 32 - 2 ^ 31

/-- The update of `rpc_rec->last_defer` in `_agent_thread` for a record that
joins a batch: doubled at 128 (with a log message), doubled when non-zero, set
to 2 otherwise. -/
def _agent_thread_defer (last_defer : Int) : Int :=
  if last_defer = 128 then int32_wrap (last_defer * 2)
  else if last_defer ≠ 0 then int32_wrap (last_defer * 2)
  else 2

/-- The first loop of `_agent_thread` over `cluster->send_rpc` ("Move currently
pending RPCs to new list") at time `now`: the queue afterwards and the buffers
appended to `ctld_req_msg.my_list`, in order (the empty list is a NULL
`my_list`).  `last_try` is a `time_t`; the sum with `last_defer` is taken in
`time_t`. -/
def _agent_thread_batch (now : Int) :
    List agent_queue_t → List agent_queue_t × List slurm_msg_t
  | [] => ([], [])
  | rpc_rec :: rest =>
    let r := _agent_thread_batch now rest
    if rpc_rec.last_try + rpc_rec.last_defer ≥ now then (rpc_rec :: r.1, r.2)
    else
      ({ rpc_rec with
          last_try := now, last_defer := _agent_thread_defer rpc_rec.last_defer } :: r.1,
        rpc_rec.buffer :: r.2)

/-- One entry of the list of a `RESPONSE_CTLD_MULT_MSG` once unpacked: the
message type and, for a `RESPONSE_SLURM_RC`, the return code. -/
structure sub_msg_t where
  msg_type : Nat
  return_code : Int
  deriving DecidableEq, Repr

/-- The response `resp_msg` of a batched exchange: its message type and the list
`my_list` of its `ctld_list_msg_t` (`none` for NULL); a list entry that
`unpack16` or `unpack_msg` cannot decode is `none`. -/
structure resp_msg_t where
  msg_type : Nat
  my_list : Option (List (Option sub_msg_t))
  deriving DecidableEq, Repr

/-- The function `_parse_resp_ctld_mult`: the bit string `success_bits`, one bit
per list entry, set for the entries that decode to a `RESPONSE_SLURM_RC` with
return code `SLURM_SUCCESS`; `none` is the NULL it returns for a response
without list. -/
def _parse_resp_ctld_mult (env : Env) (resp_msg : resp_msg_t) : Option (List Bool) :=
  match resp_msg.my_list with
  | none => none
  | some my_list =>
    some (my_list.map (fun single_resp_buf =>
      match single_resp_buf with
      | none => false
      | some sub_msg =>
        if sub_msg.msg_type ≠ env.RESPONSE_SLURM_RC then false
        else decide (sub_msg.return_code = SLURM_SUCCESS)))

/-- The second loop of `_agent_thread` over `cluster->send_rpc` ("Remove
successfully processed RPCs"), from response index `resp_inx` on: a record
whose `last_try` is not `now` is passed over; the loop ends when the bit string
is used up; a record whose bit is set is deleted. -/
def _agent_thread_remove (now : Int) (success_bits : List Bool) :
    List agent_queue_t → Nat → List agent_queue_t
  | [], _ => []
  | rpc_rec :: rest, resp_inx =>
    if rpc_rec.last_try ≠ now then
      rpc_rec :: _agent_thread_remove now success_bits rest resp_inx
    else if resp_inx ≥ success_bits.length then rpc_rec :: rest
    else if success_bits.getD resp_inx false then
      _agent_thread_remove now success_bits rest (resp_inx + 1)
    else rpc_rec :: _agent_thread_remove now success_bits rest (resp_inx + 1)

/-- The body of the loop of `_agent_thread` over the clusters, for one cluster
with queue `send_rpc` at time `now`: the queue afterwards.  `send_recv_msg` is
the exchange `_send_recv_msg` of the batch with the peer: its return code and
the response.  `none` when the NULL of `_parse_resp_ctld_mult` is handed to
`bit_size`. -/
def _agent_thread_cluster (env : Env)
    (send_recv_msg : List slurm_msg_t → Int × resp_msg_t) (now : Int)
    (send_rpc : List agent_queue_t) : Option (List agent_queue_t) :=
  if send_rpc.length = 0 then some send_rpc
  else
    let b := _agent_thread_batch now send_rpc
    if b.2.isEmpty then some b.1
    else
      let r := send_recv_msg b.2
      if r.1 = SLURM_SUCCESS ∧ r.2.msg_type = env.RESPONSE_CTLD_MULT_MSG then
        match _parse_resp_ctld_mult env r.2 with
        | none => none
        | some success_bits => some (_agent_thread_remove now success_bits b.1 0)
      else some b.1

/-! ## Job updates sent to the siblings -/

/-- The function `_persist_update_job`: the packed `REQUEST_UPDATE_JOB` is kept
as the descriptor it was packed from; the record is queued with job id 0. -/
def _persist_update_job (env : Env) (conn : slurmdb_cluster_rec_t) (job_id : Nat)
    (data : job_desc_msg_t) (uid : Nat) : Int × List queued_rpc :=
  _queue_rpc env conn
    { msg_type := env.REQUEST_SIB_MSG,
      data := { sib_msg_zero with
                sib_msg_type := FED_JOB_UPDATE, data_buffer := some data,
                data_type := env.REQUEST_UPDATE_JOB,
                data_version := env.SLURM_PROTOCOL_VERSION, req_uid := uid,
                job_id := job_id } }
    0

/-- The `while ((sibling = list_next(sib_itr)))` loop of `fed_mgr_update_job`;
`idx` is the position of the head of the remaining list in `cluster_list`, and
the accumulator holds the `fed_job_info_t` of the job and the records queued.
The counter `updating_sibs[id]` is a `uint32_t`. -/
def fed_mgr_update_job_loop (env : Env) (fed : Fed) (job_id : Nat)
    (job_specs : job_desc_msg_t) (update_sibs : Nat) (uid : Nat) (now : Int) :
    List slurmdb_cluster_rec_t → Nat → fed_job_info_t × List queued_rpc →
      fed_job_info_t × List queued_rpc
  | [], _, acc => acc
  | sibling :: rest, idx, acc =>
    if idx = fed.local_idx then
      fed_mgr_update_job_loop env fed job_id job_specs update_sibs uid now rest (idx + 1) acc
    else if update_sibs &&& FED_SIBLING_BIT sibling.fed_id = 0 then
      fed_mgr_update_job_loop env fed job_id job_specs update_sibs uid now rest (idx + 1) acc
    else
      let r := _persist_update_job env sibling job_id job_specs uid
      if r.1 ≠ 0 then
        fed_mgr_update_job_loop env fed job_id job_specs update_sibs uid now rest (idx + 1)
          (acc.1, acc.2 ++ r.2)
      else
        fed_mgr_update_job_loop env fed job_id job_specs update_sibs uid now rest (idx + 1)
          ({ acc.1 with
              updating_sibs := acc.1.updating_sibs.set sibling.fed_id
                ((acc.1.updating_sibs.getD sibling.fed_id 0 + 1) % 2 ^ 32),
              updating_time := acc.1.updating_time.set sibling.fed_id now },
            acc.2 ++ r.2)

/-- The function `fed_mgr_update_job`: return code, `fed_job_list` and the
records queued afterwards; `none` when `fed_mgr_fed_rec` is NULL (it is
dereferenced unchecked). -/
def fed_mgr_update_job (env : Env) (fed : Option Fed) (fed_job_list : List fed_job_info_t)
    (job_id : Nat) (job_specs : job_desc_msg_t) (update_sibs : Nat) (uid : Nat)
    (now : Int) : Option (Int × List fed_job_info_t × List queued_rpc) :=
  match _find_fed_job_info fed_job_list job_id with
  | none => some (SLURM_ERROR, fed_job_list, [])
  | some job_info =>
    match fed with
    | none => none
    | some f =>
      let r := fed_mgr_update_job_loop env f job_id job_specs update_sibs uid now
        f.cluster_list 0 (job_info, [])
      some (SLURM_SUCCESS, _set_fed_job_info fed_job_list job_id r.1, r.2)

/-- The function `_handle_fed_job_update_response`: `fed_job_list` afterwards. -/
def _handle_fed_job_update_response (fed : Option Fed) (fed_job_list : List fed_job_info_t)
    (job_update_info : fed_job_update_info_t) : List fed_job_info_t :=
  match _find_fed_job_info fed_job_list job_update_info.job_id with
  | none => fed_job_list
  | some job_info =>
    match fed_mgr_get_cluster_by_name fed job_update_info.submit_cluster with
    | none => fed_job_list
    | some sibling =>
      if job_info.updating_sibs.getD sibling.fed_id 0 ≠ 0 then
        _set_fed_job_info fed_job_list job_update_info.job_id
          { job_info with
            updating_sibs := job_info.updating_sibs.set sibling.fed_id
              (job_info.updating_sibs.getD sibling.fed_id 0 - 1) }
      else fed_job_list

/-- The function `_q_sib_job_update_response`: the update it queues for an UPDATE_RESPONSE of
job `job_id` received from cluster `submit_cluster`. -/
def _q_sib_job_update_response (job_id : Nat) (return_code : Nat) (submit_cluster : String) :
    fed_job_update_info_t :=
  { type := FED_JOB_UPDATE_RESPONSE, job_id := job_id, cluster_lock := 0, start_time := 0,
    return_code := return_code, siblings_str := "", submit_cluster := submit_cluster,
    job_info_msg := [] }

/-! ## The snapshot of the job table -/

/-- The loop `for (i = 0; i <= MAX_FED_CLUSTERS; i++) pack32(updating_sibs[i])` of
`_pack_fed_job_info`, from index `i` on with `n` iterations left: the bytes
appended to the buffer. -/
def _pack_fed_job_info_sibs (env : Env) (job_info : fed_job_info_t) : Nat → Nat → List Nat
  | 0, _ => []
  | n + 1, i =>
    env.pack32 (job_info.updating_sibs.getD i 0) ++
      _pack_fed_job_info_sibs env job_info n (i + 1)

/-- The loop `for (i = 0; i <= MAX_FED_CLUSTERS; i++) pack_time(updating_time[i])`
of `_pack_fed_job_info`. -/
def _pack_fed_job_info_time (env : Env) (job_info : fed_job_info_t) : Nat → Nat → List Nat
  | 0, _ => []
  | n + 1, i =>
    env.pack_time (job_info.updating_time.getD i 0) ++
      _pack_fed_job_info_time env job_info n (i + 1)

/-- The function `_pack_fed_job_info`: the bytes appended to the buffer (none for
a protocol version below `SLURM_17_11_PROTOCOL_VERSION`). -/
def _pack_fed_job_info (env : Env) (job_info : fed_job_info_t) (protocol_version : Nat) :
    List Nat :=
  if protocol_version ≥ env.SLURM_17_11_PROTOCOL_VERSION then
    env.pack32 job_info.cluster_lock ++ env.pack32 job_info.job_id ++
      env.pack64 job_info.siblings_active ++ env.pack64 job_info.siblings_viable ++
      _pack_fed_job_info_sibs env job_info (MAX_FED_CLUSTERS + 1) 0 ++
      _pack_fed_job_info_time env job_info (MAX_FED_CLUSTERS + 1) 0
  else []

/-- The loop `for (i = 0; i <= MAX_FED_CLUSTERS; i++) safe_unpack32(&updating_sibs[i])`
of `_unpack_fed_job_info` with `n` iterations left: the values read, in order,
and the bytes left; `none` when an `unpack32` fails. -/
def _unpack_fed_job_info_sibs (env : Env) : Nat → List Nat → Option (List Nat × List Nat)
  | 0, buffer => some ([], buffer)
  | n + 1, buffer =>
    match env.unpack32 buffer with
    | none => none
    | some r =>
      match _unpack_fed_job_info_sibs env n r.2 with
      | none => none
      | some rs => some (r.1 :: rs.1, rs.2)

/-- The loop `for (i = 0; i <= MAX_FED_CLUSTERS; i++) safe_unpack_time(&updating_time[i])`
of `_unpack_fed_job_info`. -/
def _unpack_fed_job_info_time (env : Env) : Nat → List Nat → Option (List Int × List Nat)
  | 0, buffer => some ([], buffer)
  | n + 1, buffer =>
    match env.unpack_time buffer with
    | none => none
    | some r =>
      match _unpack_fed_job_info_time env n r.2 with
      | none => none
      | some rs => some (r.1 :: rs.1, rs.2)

/-- The function `_unpack_fed_job_info` on the unread bytes of the buffer: the
record and the bytes left; `none` is `SLURM_ERROR` (with `*job_info_pptr` NULL). -/
def _unpack_fed_job_info (env : Env) (buffer : List Nat) (protocol_version : Nat) :
    Option (fed_job_info_t × List Nat) :=
  if protocol_version ≥ env.SLURM_17_11_PROTOCOL_VERSION then
    match env.unpack32 buffer with
    | none => none
    | some cluster_lock =>
      match env.unpack32 cluster_lock.2 with
      | none => none
      | some job_id =>
        match env.unpack64 job_id.2 with
        | none => none
        | some siblings_active =>
          match env.unpack64 siblings_active.2 with
          | none => none
          | some siblings_viable =>
            match _unpack_fed_job_info_sibs env (MAX_FED_CLUSTERS + 1) siblings_viable.2 with
            | none => none
            | some updating_sibs =>
              match _unpack_fed_job_info_time env (MAX_FED_CLUSTERS + 1) updating_sibs.2 with
              | none => none
              | some updating_time =>
                some ({ cluster_lock := cluster_lock.1, job_id := job_id.1,
                        siblings_active := siblings_active.1,
                        siblings_viable := siblings_viable.1,
                        updating_sibs := updating_sibs.1,
                        updating_time := updating_time.1 }, updating_time.2)
  else none

/-- The `while ((fed_job_info = list_next(itr)))` loop of `_dump_fed_job_list`. -/
def _dump_fed_job_list_loop (env : Env) (protocol_version : Nat) :
    List fed_job_info_t → List Nat
  | [] => []
  | fed_job_info :: rest =>
    _pack_fed_job_info env fed_job_info protocol_version ++
      _dump_fed_job_list_loop env protocol_version rest

/-- The function `_dump_fed_job_list`: the bytes appended to the buffer.
`fed_job_list` is the global list (`none` for NULL); `count` is a `uint32_t`. -/
def _dump_fed_job_list (env : Env) (fed_job_list : Option (List fed_job_info_t))
    (protocol_version : Nat) : List Nat :=
  if protocol_version ≤ env.SLURM_17_11_PROTOCOL_VERSION then
    let count := match fed_job_list with
      | some l => l.length % 2 ^ 32
      | none => env.NO_VAL
    env.pack32 count ++
      (if count ≠ 0 ∧ count ≠ env.NO_VAL then
        match fed_job_list with
        | some l => _dump_fed_job_list_loop env protocol_version l
        | none => []
      else [])
  else []

/-- The `for (i = 0; i < count; i++)` loop of `_load_fed_job_list` with `n`
iterations left: `tmp_list` and the bytes left afterwards; `none` when a record
fails to unpack. -/
def _load_fed_job_list_loop (env : Env) (protocol_version : Nat) :
    Nat → List Nat → List fed_job_info_t → Option (List fed_job_info_t × List Nat)
  | 0, buffer, tmp_list => some (tmp_list, buffer)
  | n + 1, buffer, tmp_list =>
    match _unpack_fed_job_info env buffer protocol_version with
    | none => none
    | some r => _load_fed_job_list_loop env protocol_version n r.2 (tmp_list ++ [r.1])

/-- The function `_load_fed_job_list` on the unread bytes of the buffer: the list
it returns (`none` for NULL) and the bytes left. -/
def _load_fed_job_list (env : Env) (buffer : List Nat) (protocol_version : Nat) :
    Option (List fed_job_info_t) × List Nat :=
  if protocol_version ≤ env.SLURM_17_11_PROTOCOL_VERSION then
    match env.unpack32 buffer with
    | none => (none, buffer)
    | some count =>
      if count.1 > env.NO_VAL32 then (none, count.2)
      else if count.1 ≠ env.NO_VAL32 then
        match _load_fed_job_list_loop env protocol_version count.1 count.2 [] with
        | none => (none, count.2)
        | some r => (some r.1, r.2)
      else (none, count.2)
  else (none, buffer)

/-- The `while ((tmp_info = list_pop(tmp_list)))` loop of `_state_load`
(`list_pop` takes the first entry of the list): `fed_job_list` afterwards. -/
def _state_load_loop (job_list : List job_record) :
    List fed_job_info_t → List fed_job_info_t → List fed_job_info_t
  | [], fed_job_list => fed_job_list
  | tmp_info :: tmp_list, fed_job_list =>
    if (find_job_record job_list tmp_info.job_id).isSome then
      _state_load_loop job_list tmp_list (fed_job_list ++ [tmp_info])
    else _state_load_loop job_list tmp_list fed_job_list

/-- The function `_state_load`: the federation record it returns (`none` for
NULL) and `fed_job_list` afterwards.  `state_file` holds the bytes of the state
file, `none` when it cannot be opened. -/
def _state_load (env : Env) (job_list : List job_record)
    (fed_job_list : List fed_job_info_t) (state_file : Option (List Nat))
    (job_list_only : Bool) : Option slurmdb_federation_rec_t × List fed_job_info_t :=
  match state_file with
  | none => (none, fed_job_list)
  | some data =>
    match env.unpack16 data with
    | none => (none, fed_job_list)
    | some ver =>
      if ver.1 > env.SLURM_PROTOCOL_VERSION ∨ ver.1 < env.SLURM_MIN_PROTOCOL_VERSION then
        (none, fed_job_list)
      else
        match env.unpack_time ver.2 with
        | none => (none, fed_job_list)
        | some buf_time =>
          let u := env.slurmdb_unpack_federation_rec ver.1 buf_time.2
          if u.1 ≠ SLURM_SUCCESS then (none, fed_job_list)
          else
            let ret_fed : Option slurmdb_federation_rec_t :=
              match u.2.1 with
              | none => none
              | some f =>
                if job_list_only ∨ f.name = none ∨ f.cluster_list.length = 0 then none
                else some f
            match (_load_fed_job_list env u.2.2 ver.1).1 with
            | some tmp_list => (ret_fed, _state_load_loop job_list tmp_list fed_job_list)
            | none => (ret_fed, fed_job_list)

/-- The packing layer reads back what it wrote: `unpack32`, `unpack64` and
`unpack_time` applied to the bytes of `pack32`, `pack64` and `pack_time`,
followed by any other bytes, return the value packed (within the range of its
type) and the bytes that follow. -/
def pack_unpack_inverse (env : Env) : Prop :=
  (∀ x rest, x < 2 ^ 32 → env.unpack32 (env.pack32 x ++ rest) = some (x, rest)) ∧
  (∀ x rest, x < 2 ^ 64 → env.unpack64 (env.pack64 x ++ rest) = some (x, rest)) ∧
  (∀ (t : Int) rest, -2 ^ 63 ≤ t → t < 2 ^ 63 →
    env.unpack_time (env.pack_time t ++ rest) = some (t, rest))

/-! ## Sibling submissions received from the origin -/

/-- The function `_q_sib_job_submission`: the update it queues for a SUBMIT
message received from cluster `cluster_name` (`msg->conn->cluster_name`); the
descriptor carried by the message gets the job id and the viable siblings of
the envelope.  `none` when the message carries no descriptor (the C code
dereferences it unchecked). -/
def _q_sib_job_submission (sib_msg : sib_msg_t) (cluster_name : String)
    (interactive_job : Bool) : Option fed_job_update_info_t :=
  match sib_msg.data_buffer with
  | none => none
  | some job_desc =>
    some
      { type := if interactive_job then FED_JOB_SUBMIT_INT else FED_JOB_SUBMIT_BATCH,
        job_id := sib_msg.job_id, cluster_lock := 0, start_time := 0, return_code := 0,
        siblings_str := "", submit_cluster := cluster_name, job_info_msg := [],
        submit_desc := some
          { job_desc with
            job_id := sib_msg.job_id, fed_siblings_viable := sib_msg.fed_siblings,
            resp_host := if interactive_job then sib_msg.resp_host else job_desc.resp_host } }

/-- The function `_persist_fed_job_response`. -/
def _persist_fed_job_response (env : Env) (conn : slurmdb_cluster_rec_t) (job_id : Nat)
    (return_code : Nat) : Int × List queued_rpc :=
  _queue_rpc env conn
    { msg_type := env.REQUEST_SIB_MSG,
      data := { sib_msg_zero with
                sib_msg_type := FED_JOB_SUBMIT_RESP, job_id := job_id,
                return_code := return_code } }
    job_id

/-- The function `_fed_mgr_job_allocate_sib` on the controller state; `none` when
it dereferences a NULL pointer (the sibling of an unknown name, the
`fed_details` of the job created).  The job record that the scheduler's
`job_allocate` creates is in `job_list` afterwards (the scheduler appends it);
the error code is sent as a `uint32_t`. -/
def _fed_mgr_job_allocate_sib (env : Env) (fed : Option Fed) (s : ctld_state)
    (sib_name : String) (job_desc : job_desc_msg_t) (interactive_job : Bool) :
    Option ctld_state :=
  let sibling := fed_mgr_get_cluster_by_name fed sib_name
  let error_code0 : Int :=
    match sibling with
    | none => env.ESLURM_INVALID_CLUSTER_NAME
    | some _ =>
      if job_desc.alloc_node = none ∨ job_desc.alloc_node = some "" then
        env.ESLURM_INVALID_NODE_NAME
      else SLURM_SUCCESS
  let error_code1 : Int :=
    if error_code0 = SLURM_SUCCESS then env.validate_job_create_req job_desc
    else error_code0
  match sibling with
  | none => none
  | some sib =>
    if error_code1 ≠ 0 then
      some { s with
        send_rpc := s.send_rpc ++
          (_persist_fed_job_response env sib job_desc.job_id
            (error_code1 % 2 ^ 32).toNat).2 }
    else
      let a := env.job_allocate job_desc interactive_job 0 sib.rpc_version
      let error_code2 : Int :=
        if job_desc.immediate ≠ 0 ∧ a.1 ≠ SLURM_SUCCESS then
          env.ESLURM_CAN_NOT_START_IMMEDIATELY
        else a.1
      match a.2 with
      | none =>
        some { s with
          send_rpc := s.send_rpc ++
            (_persist_fed_job_response env sib job_desc.job_id
              (error_code2 % 2 ^ 32).toNat).2 }
      | some job_ptr =>
        if a.1 ≠ 0 ∧ job_ptr.job_state = env.JOB_FAILED then
          some { s with
            job_list := s.job_list ++ [job_ptr],
            send_rpc := s.send_rpc ++
              (_persist_fed_job_response env sib job_desc.job_id
                (error_code2 % 2 ^ 32).toNat).2 }
        else
          match _add_fed_job_info s.fed_job_list job_ptr with
          | none => none
          | some l =>
            some { s with job_list := s.job_list ++ [job_ptr], fed_job_list := l }

/-- The function `_handle_fed_job_submission`; `none` when a NULL pointer is
dereferenced. -/
def _handle_fed_job_submission (env : Env) (fed : Option Fed) (s : ctld_state)
    (job_update_info : fed_job_update_info_t) : Option ctld_state :=
  let interactive_job : Bool := job_update_info.type == FED_JOB_SUBMIT_INT
  let s1 :=
    match find_job_record s.job_list job_update_info.job_id with
    | some job_ptr => purge_job_record s job_ptr.job_id
    | none => s
  match job_update_info.submit_desc with
  | none => none
  | some submit_desc =>
    _fed_mgr_job_allocate_sib env fed s1 job_update_info.submit_cluster submit_desc
      interactive_job

/-! ## Descriptions in the words of the specification -/

/-- The peers a revocation goes to, in the words of the spec ("walks the
bitmask ascending, skipping local and `except`"): the federation members whose
id `i` in `1..64` has bit `i - 1` set in `mask` and is neither `local_id` nor
`except_id`, by ascending id. -/
def revoke_targets_spec (fed : Fed) (local_id except_id mask : Nat) :
    List slurmdb_cluster_rec_t :=
  (List.range 64).filterMap (fun k =>
    if mask.testBit k ∧ k + 1 ≠ local_id ∧ k + 1 ≠ except_id then
      fed_mgr_get_cluster_by_id fed (k + 1)
    else none)

/-- The queue record of a REVOKE for `cluster`: a `REQUEST_SIB_MSG` of
`sib_msg_type` `FED_JOB_COMPLETE` with the given return code and start time,
never tried yet. -/
def revoke_rpc_spec (env : Env) (job_id return_code : Nat) (start_time : Int)
    (cluster : slurmdb_cluster_rec_t) : queued_rpc :=
  { cluster := cluster,
    agent_rec :=
      { buffer :=
          { msg_type := env.REQUEST_SIB_MSG,
            data := { sib_msg_type := FED_JOB_COMPLETE, job_id := job_id, cluster_id := 0,
                      start_time := start_time, return_code := return_code,
                      fed_siblings := 0, data_type := 0, data_version := 0,
                      data_offset := 0, data_buffer := none, req_uid := 0,
                      resp_host := none } },
        job_id := job_id, last_try := 0, last_defer := 0,
        msg_type := env.REQUEST_SIB_MSG } }

/-- A peer carries a cluster feature, in the words of the spec ("each peer's
feature set"): the peer has a feature list and `list_find_first` with
`slurm_find_char_in_list` finds the feature in it. -/
def cluster_has_feature (env : Env) (sib : slurmdb_cluster_rec_t) (feature : String) : Bool :=
  match sib.feature_list with
  | none => false
  | some l => l.any (fun x => env.slurm_find_char_in_list x feature)

/-- A peer is draining or inactive, in the words of the spec ("peers that are
DRAIN or INACTIVE"): its state carries the DRAIN flag or its base state is
INACTIVE. -/
def cluster_is_drain_or_inactive (env : Env) (c : slurmdb_cluster_rec_t) : Bool :=
  decide (c.fed_state &&& env.CLUSTER_FED_STATE_DRAIN ≠ 0) ||
    decide (c.fed_state &&& env.CLUSTER_FED_STATE_BASE = env.CLUSTER_FED_STATE_INACTIVE)

/-- A peer is among the "user-requested clusters or all peers" of the spec: no
cluster string is given, or it is "all", or it names no cluster, or one of its
names is the name of the peer (looked up with `fed_mgr_get_cluster_by_name`). -/
def cluster_is_requested (env : Env) (fed : Fed) (req_clusters : Option String)
    (c : slurmdb_cluster_rec_t) : Bool :=
  match req_clusters with
  | none => true
  | some names =>
    env.xstrcasecmp_eq names "all" || (env.slurm_addto_char_list names).isEmpty ||
      (env.slurm_addto_char_list names).any
        (fun n => fed_mgr_get_cluster_by_name (some fed) n == some c)

/-- The viable siblings in the words of the spec: "Viable = (user-requested
clusters or all peers) ∩ FeatureSibs, minus peers that are DRAIN or INACTIVE",
as the bitmap of the federation members that are requested, lie in
`feature_sibs` (no restriction when it is 0) and are neither draining nor
inactive. -/
def viable_sibs_spec (env : Env) (fed : Fed) (req_clusters : Option String)
    (feature_sibs : Nat) : Nat :=
  (fed.cluster_list.filter (fun c =>
      cluster_is_requested env fed req_clusters c &&
        (feature_sibs == 0 || feature_sibs &&& FED_SIBLING_BIT c.fed_id != 0) &&
        !cluster_is_drain_or_inactive env c)).foldl
    (fun b c => b ||| FED_SIBLING_BIT c.fed_id) 0


/-- The queue after a successful batched exchange, in the words of the spec
("delete those RPCs from the queue; leave failures to retry"): a request is
deleted if and only if it is in the batch of this pass and the bit at its
position in the batch is set in `success_bits` (a missing bit counts as not
set); a request of the batch that stays has been stamped, every other request
is unchanged.  `resp_inx` is the batch position of the next batched request. -/
def agent_remove_spec (now : Int) (success_bits : List Bool) :
    List agent_queue_t → Nat → List agent_queue_t
  | [], _ => []
  | rpc_rec :: rest, resp_inx =>
    if rpc_rec.last_try + rpc_rec.last_defer < now then
      if success_bits.getD resp_inx false then
        agent_remove_spec now success_bits rest (resp_inx + 1)
      else
        { rpc_rec with
          last_try := now, last_defer := _agent_thread_defer rpc_rec.last_defer } ::
          agent_remove_spec now success_bits rest (resp_inx + 1)
    else rpc_rec :: agent_remove_spec now success_bits rest resp_inx

/-- The peers an update reaches, in the words of the claim ("the non-local
federation members whose bit is in `update_sibs` and whose UPDATE RPC was
queued"), in list order; `idx` is the position of the head of the list in
`cluster_list`, and an RPC is queued when `_persist_update_job` appends a record
to the peer's `send_rpc` list. -/
def update_job_targets (env : Env) (fed : Fed) (job_id : Nat) (job_specs : job_desc_msg_t)
    (update_sibs : Nat) (uid : Nat) :
    List slurmdb_cluster_rec_t → Nat → List slurmdb_cluster_rec_t
  | [], _ => []
  | sibling :: rest, idx =>
    if idx ≠ fed.local_idx ∧ update_sibs &&& FED_SIBLING_BIT sibling.fed_id ≠ 0 ∧
        (_persist_update_job env sibling job_id job_specs uid).2 ≠ [] then
      sibling :: update_job_targets env fed job_id job_specs update_sibs uid rest (idx + 1)
    else update_job_targets env fed job_id job_specs update_sibs uid rest (idx + 1)

/-- One UPDATE_RESPONSE of job `job_id` handled for each cluster of `peers`, in
order: `fed_job_list` afterwards. -/
def handle_update_responses (fed : Fed) (job_id : Nat) :
    List slurmdb_cluster_rec_t → List fed_job_info_t → List fed_job_info_t
  | [], fed_job_list => fed_job_list
  | peer :: rest, fed_job_list =>
    handle_update_responses fed job_id rest
      (_handle_fed_job_update_response (some fed) fed_job_list
        (_q_sib_job_update_response job_id 0 peer.name))

/-! ## Concrete inputs -/

/-- The record of a federated job (origin cluster 1, local id 5) with siblings
on clusters 1 and 2 and no pending update. -/
def example_fed_job_info (cluster_lock : Nat) : fed_job_info_t :=
  { cluster_lock := cluster_lock, job_id := 67108869, siblings_active := 3,
    siblings_viable := 3, updating_sibs := List.replicate 64 0,
    updating_time := List.replicate 64 0 }

/-- A job table holding `example_fed_job_info` only. -/
def example_fed_job_list (cluster_lock : Nat) : List fed_job_info_t :=
  [example_fed_job_info cluster_lock]

/-- The record of `example_fed_job_info` with one update to cluster 2 pending
since time `t`. -/
def example_fed_job_info_updating (cluster_lock : Nat) (t : Int) : fed_job_info_t :=
  { example_fed_job_info cluster_lock with
    updating_sibs := (List.replicate 64 0).set 2 1,
    updating_time := (List.replicate 64 0).set 2 t }

/-- The record of `example_fed_job_info` with two updates pending: one to
cluster 2 since time 990 and one to cluster 3 since time 900. -/
def example_fed_job_info_two_updates : fed_job_info_t :=
  { example_fed_job_info 0 with
    updating_sibs := ((List.replicate 64 0).set 2 1).set 3 1,
    updating_time := ((List.replicate 64 0).set 2 990).set 3 900 }

/-- A federation of three clusters `c1`, `c2`, `c3` with ids 1, 2, 3; the local
cluster is the one at position `local_idx`. -/
def example_fed (local_idx : Nat) : Fed :=
  { cluster_list :=
      [{ name := "c1", fed_id := 1, fed_state := 1, feature_list := none },
       { name := "c2", fed_id := 2, fed_state := 1, feature_list := none },
       { name := "c3", fed_id := 3, fed_state := 1, feature_list := none }],
    local_idx := local_idx,
    local_rec := { name := "c1", fed_id := 1, fed_state := 1, feature_list := none } }

/-- Split a list of characters at commas (`acc` holds the current name in
reverse); empty names are dropped. -/
def split_commas : List Char → List Char → List (List Char)
  | [], acc => if acc.isEmpty then [] else [acc.reverse]
  | c :: cs, acc =>
    if c = ',' then
      (if acc.isEmpty then [] else [acc.reverse]) ++ split_commas cs []
    else split_commas cs (c :: acc)

/-- Big-endian bytes of a 16-bit value, as a packing layer in network byte order
writes them. -/
def example_pack16 (x : Nat) : List Nat := [x / 2 ^ 8 % 256, x % 256]

/-- Read a 16-bit value written by `example_pack16`. -/
def example_unpack16 : List Nat → Option (Nat × List Nat)
  | a :: b :: rest => some (a * 2 ^ 8 + b, rest)
  | _ => none

/-- Big-endian bytes of a 32-bit value. -/
def example_pack32 (x : Nat) : List Nat :=
  [x / 2 ^ 24 % 256, x / 2 ^ 16 % 256, x / 2 ^ 8 % 256, x % 256]

/-- Read a 32-bit value written by `example_pack32`. -/
def example_unpack32 : List Nat → Option (Nat × List Nat)
  | a :: b :: c :: d :: rest => some (a * 2 ^ 24 + b * 2 ^ 16 + c * 2 ^ 8 + d, rest)
  | _ => none

/-- Big-endian bytes of a 64-bit value: the upper and the lower 32 bits. -/
def example_pack64 (x : Nat) : List Nat :=
  example_pack32 (x / 2 ^ 32 % 2 ^ 32) ++ example_pack32 (x % 2 ^ 32)

/-- Read a 64-bit value written by `example_pack64`. -/
def example_unpack64 (b : List Nat) : Option (Nat × List Nat) :=
  match example_unpack32 b with
  | none => none
  | some (hi, b1) =>
    match example_unpack32 b1 with
    | none => none
    | some (lo, b2) => some (hi * 2 ^ 32 + lo, b2)

/-- A concrete environment.  Packing always succeeds, the requeue table never
matches, job descriptors copy the sibling bitmaps of the job record, a local
allocation creates a pending job with the descriptor's id and bitmaps, names
are split at commas, and the header macros and constants have the values of the
upstream headers (`JOB_STATE_BASE` is `0xff`, a finished base state is greater
than `JOB_SUSPENDED = 2`, `JOB_COMPLETING = 0x8000`, `JOB_REVOKED = 0x80000`).
The message type numbers are distinct values, nothing more; values are packed
as big-endian bytes, a `time_t` as the 64-bit two's complement of its value; a
sibling submission always validates; no federation record is read from a
snapshot. -/
def example_env : Env :=
  { pack_msg := fun _ => true,
    job_hold_requeue := fun _ => false,
    batch_requeue_fini := fun j => j,
    job_signal := fun j => j,
    copy_job_record_to_job_desc := fun j =>
      some { job_id := j.job_id, priority := j.priority, immediate := 0,
             clusters := j.clusters,
             cluster_features := (j.details.bind fun d => d.cluster_features),
             fed_siblings_active := (j.fed_details.map fun d => d.siblings_active).getD 0,
             fed_siblings_viable := (j.fed_details.map fun d => d.siblings_viable).getD 0,
             resp_host := none },
    job_allocate := fun d _ _ _ =>
      (0, some { job_id := d.job_id, job_state := 0, bit_flags := 0, priority := d.priority,
                 clusters := d.clusters,
                 details := some { submit_time := 10, cluster_features := d.cluster_features },
                 fed_details := some { cluster_lock := 0,
                                       siblings_active := d.fed_siblings_active,
                                       siblings_viable := d.fed_siblings_viable },
                 start_time := 0, end_time := 0, exit_code := 0, state_reason := 0,
                 state_desc := none }),
    slurm_addto_char_list := fun s => (split_commas s.data []).map String.mk,
    slurm_find_char_in_list := fun x key => x == key,
    xstrcasecmp_eq := fun a b => a.data.map Char.toLower == b.data.map Char.toLower,
    IS_JOB_PENDING := fun s => s &&& 0xff == 0,
    IS_JOB_RUNNING := fun s => s &&& 0xff == 1,
    IS_JOB_COMPLETE := fun s => s &&& 0xff == 3,
    IS_JOB_COMPLETED := fun s => decide (2 < s &&& 0xff) && (s &&& 0x8000 == 0),
    IS_JOB_COMPLETING := fun s => s &&& 0x8000 != 0,
    JOB_PENDING := 0,
    JOB_CANCELLED := 4,
    JOB_FAILED := 5,
    JOB_COMPLETING := 0x8000,
    JOB_REVOKED := 0x80000,
    JOB_REQUEUE_FED := 0x100000,
    SIB_JOB_FLUSH := 0x8,
    WAIT_NO_REASON := 0,
    CLUSTER_FED_STATE_BASE := 0xf,
    CLUSTER_FED_STATE_ACTIVE := 1,
    CLUSTER_FED_STATE_INACTIVE := 2,
    CLUSTER_FED_STATE_DRAIN := 0x10,
    REQUEST_SIB_MSG := 2040,
    REQUEST_RESOURCE_ALLOCATION := 4001,
    SLURM_PROTOCOL_VERSION := 8192,
    NO_VAL := 0xfffffffe,
    ESLURM_INVALID_JOB_ID := 2017,
    ESLURM_INVALID_CLUSTER_FEATURE := 7007,
    ESLURM_INVALID_CLUSTER_NAME := 7000,
    ESLURM_JOB_NOT_PENDING := 2022,
    RESPONSE_CTLD_MULT_MSG := 2042,
    RESPONSE_SLURM_RC := 8001,
    REQUEST_UPDATE_JOB := 3001,
    validate_job_create_req := fun _ => 0,
    ESLURM_INVALID_NODE_NAME := 2009,
    ESLURM_CAN_NOT_START_IMMEDIATELY := 2030,
    pack32 := example_pack32,
    unpack32 := example_unpack32,
    pack64 := example_pack64,
    unpack64 := example_unpack64,
    pack_time := fun t => example_pack64 (t % 2 ^ 64).toNat,
    unpack_time := fun b =>
      (example_unpack64 b).map
        (fun r => (if r.1 < 2 ^ 63 then (r.1 : Int) else (r.1 : Int) - 2 ^ 64, r.2)),
    unpack16 := example_unpack16,
    slurmdb_unpack_federation_rec := fun _ b => (0, none, b),
    SLURM_17_11_PROTOCOL_VERSION := 8192,
    SLURM_MIN_PROTOCOL_VERSION := 7680,
    NO_VAL32 := 0xfffffffe }

/-- The pending job record of job 67108869 (origin cluster 1, local id 5). -/
def example_job (cluster_lock siblings_active siblings_viable : Nat) : job_record :=
  { job_id := 67108869, job_state := 0, bit_flags := 0, priority := 100, clusters := none,
    details := some { submit_time := 10, cluster_features := none },
    fed_details := some { cluster_lock := cluster_lock, siblings_active := siblings_active,
                          siblings_viable := siblings_viable },
    start_time := 0, end_time := 0, exit_code := 0, state_reason := 0, state_desc := none }

/-- The `fed_job_info_t` of job 67108869 with the given lock and bitmaps and no
pending update. -/
def example_job_info (cluster_lock siblings_active siblings_viable : Nat) : fed_job_info_t :=
  { cluster_lock := cluster_lock, job_id := 67108869, siblings_active := siblings_active,
    siblings_viable := siblings_viable, updating_sibs := List.replicate 64 0,
    updating_time := List.replicate 64 0 }

/-- The controller state of the origin cluster tracking job 67108869: the job
record and its `fed_job_info_t`, nothing queued. -/
def example_state (job_ptr : job_record) (job_info : fed_job_info_t) : ctld_state :=
  { job_list := [job_ptr], fed_job_list := [job_info], send_rpc := [] }

/-- A received START message for job 67108869 naming `cluster_id` as the cluster
that started the job at time 500. -/
def example_start_msg (cluster_id : Nat) : sib_msg_t :=
  { sib_msg_zero with
    sib_msg_type := FED_JOB_START, job_id := 67108869, cluster_id := cluster_id,
    start_time := 500 }

/-- A job descriptor as a user submits it: no job id, priority 100, no cluster
or feature request. -/
def example_job_desc (clusters : Option String) : job_desc_msg_t :=
  { job_id := example_env.NO_VAL, priority := 100, immediate := 0, clusters := clusters,
    cluster_features := none, fed_siblings_active := 0, fed_siblings_viable := 0,
    resp_host := none }

/-- The request message that carries `example_job_desc`. -/
def example_job_msg (clusters : Option String) : job_msg_t :=
  { msg_type := 4003, protocol_version := 8192, body_offset := 0,
    buffer := some (example_job_desc clusters) }

/-- The controller state of cluster 1 right after `fed_mgr_job_allocate` has
accepted `example_job_desc` as job 67108869 (`none` if the call fails). -/
def example_fresh_state (clusters : Option String) : Option ctld_state :=
  (fed_mgr_job_allocate example_env (example_fed 0) [] (example_job_msg clusters)
      (example_job_desc clusters) false 1000 8192 67108869).bind
    (fun r => r.job_ptr.map
      (fun j => { job_list := [j], fed_job_list := r.fed_job_list, send_rpc := r.queued }))

/-- The controller state of cluster 1 holding job 67108869 as
`fed_mgr_job_allocate` leaves it when all three clusters are viable, with
nothing queued. -/
def example_submitted_state : ctld_state :=
  example_state (example_job 0 7 7) (example_job_info 0 7 7)

/-- The state after the steps `events` of job 67108869 from
`example_submitted_state` on cluster 1 (`example_submitted_state` itself if a
step dereferences a NULL pointer). -/
def example_run (events : List job_event) : ctld_state :=
  (run_events example_env (example_fed 0) 67108869 events example_submitted_state).getD
    example_submitted_state

/-- The environment `example_env` with a `copy_job_record_to_job_desc` that
returns NULL for every job record. -/
def example_env_no_copy : Env :=
  { example_env with copy_job_record_to_job_desc := fun _ => none }

/-- The job record of job 67108869 on cluster 1 once cluster 2 has started the
job at time 1200: revoked on the origin, locked by cluster 2, cluster 2 the only
active sibling. -/
def example_started_job : job_record :=
  { example_job 2 2 7 with job_state := 524288, start_time := 1200, end_time := 1200 }

/-- A federation of three clusters seen from `c1`: `c1` carries the feature
"gpu", `c2` carries "gpu" and "fast", `c3` has no feature list. -/
def example_feature_fed : Fed :=
  { cluster_list :=
      [{ name := "c1", fed_id := 1, fed_state := 1, feature_list := some ["gpu"] },
       { name := "c2", fed_id := 2, fed_state := 1, feature_list := some ["gpu", "fast"] },
       { name := "c3", fed_id := 3, fed_state := 1, feature_list := none }],
    local_idx := 0,
    local_rec := { name := "c1", fed_id := 1, fed_state := 1, feature_list := some ["gpu"] } }

/-- A federation of four clusters seen from `c1`: `c1` and `c2` active, `c3`
active and draining (state `0x11`), `c4` inactive (state 2). -/
def example_drain_fed : Fed :=
  { cluster_list :=
      [{ name := "c1", fed_id := 1, fed_state := 1, feature_list := none },
       { name := "c2", fed_id := 2, fed_state := 1, feature_list := none },
       { name := "c3", fed_id := 3, fed_state := 17, feature_list := none },
       { name := "c4", fed_id := 4, fed_state := 2, feature_list := none }],
    local_idx := 0,
    local_rec := { name := "c1", fed_id := 1, fed_state := 1, feature_list := none } }

/-- The record of cluster `c1` (id 1) with federation state `fed_state`. -/
def example_cluster (fed_state : Nat) : slurmdb_cluster_rec_t :=
  { name := "c1", fed_id := 1, fed_state := fed_state, feature_list := none }

/-- A queued request for job `job_id` (a REVOKE) with the given `last_try` and
`last_defer`. -/
def example_rpc (job_id : Nat) (last_try last_defer : Int) : agent_queue_t :=
  { buffer := revoke_req_msg example_env job_id 0 0, job_id := job_id,
    last_try := last_try, last_defer := last_defer, msg_type := 2040 }

/-- A peer that cannot be reached: the exchange fails. -/
def example_peer_down : List slurm_msg_t → Int × resp_msg_t :=
  fun _ => (SLURM_ERROR, { msg_type := 0, my_list := none })

/-- A peer that accepts every request of a batch: one `RESPONSE_SLURM_RC` with
return code 0 per request. -/
def example_peer_up : List slurm_msg_t → Int × resp_msg_t :=
  fun batch =>
    (SLURM_SUCCESS,
      { msg_type := 2042,
        my_list := some (batch.map (fun _ => some { msg_type := 8001, return_code := 0 })) })

/-- The bytes of a state file written at time 77 by a controller without
federation record whose job table holds job 67108869 and job 9. -/
def example_state_file : List Nat :=
  example_pack16 8192 ++ example_pack64 77 ++
    _dump_fed_job_list example_env
      (some [example_job_info 0 7 7, { example_job_info 0 3 3 with job_id := 9 }]) 8192

/-- The SUBMIT envelope that cluster 1 sends for its job 67108869 (batch, all
three clusters viable), carrying the job's descriptor. -/
def example_submit_msg : sib_msg_t :=
  { sib_msg_zero with
    sib_msg_type := FED_JOB_SUBMIT_BATCH, job_id := 67108869, fed_siblings := 7,
    data_buffer := some
      { job_id := 0, priority := 100, immediate := 0, clusters := none,
        cluster_features := none, fed_siblings_active := 3, fed_siblings_viable := 0,
        resp_host := none, alloc_node := some "login1" } }

/-- The update queued on cluster 2 for `example_submit_msg` received from
cluster `c1`. -/
def example_submit_info : fed_job_update_info_t :=
  (_q_sib_job_submission example_submit_msg "c1" false).getD
    (_q_sib_submit_response 67108869 "c1")


/-! # Theorems -/

/-! ## Lists: lookup and write-back -/

theorem getD_set_zero (l : List Nat) (i k : Nat) :
    (l.set i 0).getD k 0 = if k = i then 0 else l.getD k 0 := by
  simp only [List.getD_eq_getElem?_getD, List.getElem?_set]
  split_ifs <;> simp_all

theorem list_modify_first_append {α : Type} (p : α → Bool) (f : α → α)
    (pre post : List α) (a : α) (hpre : ∀ x ∈ pre, p x = false) (ha : p a = true) :
    list_modify_first p f (pre ++ a :: post) = pre ++ f a :: post := by
  induction pre with
  | nil => simp [list_modify_first, ha]
  | cons x xs ih =>
    have hx : p x = false := hpre x (List.mem_cons_self _ _)
    have hxs : ∀ y ∈ xs, p y = false := fun y hy => hpre y (List.mem_cons_of_mem _ hy)
    simp [list_modify_first, hx, ih hxs]

theorem find_append_first {α : Type} (p : α → Bool) (pre post : List α) (a : α)
    (hpre : ∀ x ∈ pre, p x = false) (ha : p a = true) :
    (pre ++ a :: post).find? p = some a := by
  induction pre with
  | nil => simp [List.find?_cons, ha]
  | cons x xs ih =>
    have hx : p x = false := hpre x (List.mem_cons_self _ _)
    have hxs : ∀ y ∈ xs, p y = false := fun y hy => hpre y (List.mem_cons_of_mem _ hy)
    simp [List.find?_cons, hx, ih hxs]

theorem find_split {α : Type} (p : α → Bool) (l : List α) (a : α)
    (h : l.find? p = some a) :
    p a = true ∧ ∃ pre post, l = pre ++ a :: post ∧ ∀ x ∈ pre, p x = false := by
  obtain ⟨ha, pre, post, hl, hpre⟩ := List.find?_eq_some.mp h
  refine ⟨ha, pre, post, hl, fun x hx => ?_⟩
  have := hpre x hx
  simpa using this

theorem list_modify_first_length {α : Type} (p : α → Bool) (f : α → α) (l : List α) :
    (list_modify_first p f l).length = l.length := by
  induction l with
  | nil => rfl
  | cons x xs ih => by_cases hx : p x <;> simp [list_modify_first, hx, ih]

/-- Looking a job up after its record was written back finds the new record. -/
theorem find_set_fed_job_info (l : List fed_job_info_t) (job_id : Nat)
    (old new : fed_job_info_t) (h : _find_fed_job_info l job_id = some old)
    (hid : new.job_id = job_id) :
    _find_fed_job_info (_set_fed_job_info l job_id new) job_id = some new := by
  obtain ⟨_, pre, post, hl, hpre⟩ := find_split _ l old h
  have hold : _list_find_fed_job_info_by_jobid job_id old = true := List.find?_some h
  unfold _find_fed_job_info _set_fed_job_info
  rw [hl, list_modify_first_append _ _ pre post old hpre hold]
  exact find_append_first _ pre post new hpre (by simp [_list_find_fed_job_info_by_jobid, hid])

/-- A write-back replaces the record found and nothing else. -/
theorem set_fed_job_info_split (l : List fed_job_info_t) (job_id : Nat)
    (old new : fed_job_info_t) (h : _find_fed_job_info l job_id = some old) :
    ∃ pre post, l = pre ++ old :: post ∧ (∀ x ∈ pre, x.job_id ≠ job_id) ∧
      _set_fed_job_info l job_id new = pre ++ new :: post := by
  obtain ⟨_, pre, post, hl, hpre⟩ := find_split _ l old h
  have hold : _list_find_fed_job_info_by_jobid job_id old = true := List.find?_some h
  refine ⟨pre, post, hl, fun x hx => ?_, ?_⟩
  · have := hpre x hx
    simpa [_list_find_fed_job_info_by_jobid] using this
  · unfold _set_fed_job_info
    rw [hl, list_modify_first_append _ _ pre post old hpre hold]

/-! ## The pending-update check -/

/-- Entry `i` of a `fed_job_info_t` counts a pending update inside the
`UPDATE_DELAY` window at time `now`. -/
theorem pending_loop_spec (now : Int) (n : Nat) :
    ∀ (i : Nat) (ji : fed_job_info_t),
      (_job_has_pending_updates_loop now n i ji).2.cluster_lock = ji.cluster_lock ∧
      (_job_has_pending_updates_loop now n i ji).2.job_id = ji.job_id ∧
      (_job_has_pending_updates_loop now n i ji).2.siblings_active = ji.siblings_active ∧
      (_job_has_pending_updates_loop now n i ji).2.siblings_viable = ji.siblings_viable ∧
      (_job_has_pending_updates_loop now n i ji).2.updating_time = ji.updating_time ∧
      ((_job_has_pending_updates_loop now n i ji).1 = true ↔
        ∃ k, i ≤ k ∧ k < i + n ∧ ji.updating_sibs.getD k 0 ≠ 0 ∧
          ji.updating_time.getD k 0 > now - UPDATE_DELAY) ∧
      ((_job_has_pending_updates_loop now n i ji).1 = false →
        ∀ k, i ≤ k → k < i + n →
          (_job_has_pending_updates_loop now n i ji).2.updating_sibs.getD k 0 = 0) ∧
      (∀ k, k < i ∨ i + n ≤ k →
          (_job_has_pending_updates_loop now n i ji).2.updating_sibs.getD k 0
            = ji.updating_sibs.getD k 0) := by
  induction n with
  | zero =>
    intro i ji
    have h0 : _job_has_pending_updates_loop now 0 i ji = (false, ji) := rfl
    rw [h0]
    refine ⟨rfl, rfl, rfl, rfl, rfl, ?_, ?_, ?_⟩
    · constructor
      · intro h; cases h
      · rintro ⟨k, hk1, hk2, _⟩; omega
    · intro _ k hk1 hk2; omega
    · intro k _; rfl
  | succ n ih =>
    intro i ji
    by_cases hs : ji.updating_sibs.getD i 0 = 0
    · -- nothing pending for `i`
      have hstep : _job_has_pending_updates_loop now (n + 1) i ji
          = _job_has_pending_updates_loop now n (i + 1) ji := by
        rw [_job_has_pending_updates_loop]
        exact if_neg (not_not.mpr hs)
      rw [hstep]
      obtain ⟨h1, h2, h3, h4, h5, h6, h7, h8⟩ := ih (i + 1) ji
      refine ⟨h1, h2, h3, h4, h5, ?_, ?_, ?_⟩
      · rw [h6]
        constructor
        · rintro ⟨k, hk1, hk2, hk3, hk4⟩
          exact ⟨k, by omega, by omega, hk3, hk4⟩
        · rintro ⟨k, hk1, hk2, hk3, hk4⟩
          have hki : k ≠ i := fun e => hk3 (e ▸ hs)
          exact ⟨k, by omega, by omega, hk3, hk4⟩
      · intro hf k hk1 hk2
        by_cases hki : k = i
        · subst hki
          rw [h8 k (Or.inl (by omega))]; exact hs
        · exact h7 hf k (by omega) (by omega)
      · intro k hk
        exact h8 k (by omega)
    · by_cases ht : ji.updating_time.getD i 0 > now - UPDATE_DELAY
      · -- a pending update inside the window: return true
        have hstep : _job_has_pending_updates_loop now (n + 1) i ji = (true, ji) := by
          rw [_job_has_pending_updates_loop, if_pos hs, if_pos ht]
        rw [hstep]
        refine ⟨rfl, rfl, rfl, rfl, rfl, ?_, ?_, ?_⟩
        · simp only [true_iff]
          exact ⟨i, le_refl _, by omega, hs, ht⟩
        · intro h; simp at h
        · intro k _; rfl
      · -- a stale counter: reset and go on
        have hstep : _job_has_pending_updates_loop now (n + 1) i ji
            = _job_has_pending_updates_loop now n (i + 1)
                { ji with updating_sibs := ji.updating_sibs.set i 0 } := by
          rw [_job_has_pending_updates_loop, if_pos hs, if_neg ht]
        rw [hstep]
        obtain ⟨h1, h2, h3, h4, h5, h6, h7, h8⟩ :=
          ih (i + 1) { ji with updating_sibs := ji.updating_sibs.set i 0 }
        refine ⟨h1, h2, h3, h4, h5, ?_, ?_, ?_⟩
        · rw [h6]
          simp only [getD_set_zero]
          constructor
          · rintro ⟨k, hk1, hk2, hk3, hk4⟩
            have hki : k ≠ i := by omega
            rw [if_neg hki] at hk3
            exact ⟨k, by omega, by omega, hk3, hk4⟩
          · rintro ⟨k, hk1, hk2, hk3, hk4⟩
            have hki : k ≠ i := fun e => ht (e ▸ hk4)
            refine ⟨k, by omega, by omega, ?_, hk4⟩
            rw [if_neg hki]; exact hk3
        · intro hf k hk1 hk2
          by_cases hki : k = i
          · subst hki
            rw [h8 k (Or.inl (by omega))]
            show (ji.updating_sibs.set k 0).getD k 0 = 0
            rw [getD_set_zero, if_pos rfl]
          · exact h7 hf k (by omega) (by omega)
        · intro k hk
          rw [h8 k (by omega)]
          simp only [getD_set_zero]
          rw [if_neg (by omega)]

/-- The counters the loop of `_job_has_pending_updates` leaves behind: entry `k`
of the range is reset to 0 when no entry of the range up to `k` is inside the
window, and keeps its value when one is (the loop has returned by then). -/
theorem pending_loop_counters (now : Int) (n : Nat) :
    ∀ (i : Nat) (ji : fed_job_info_t) (k : Nat), i ≤ k → k < i + n →
      ((∃ j, i ≤ j ∧ j ≤ k ∧ ji.updating_sibs.getD j 0 ≠ 0 ∧
          ji.updating_time.getD j 0 > now - UPDATE_DELAY) →
        (_job_has_pending_updates_loop now n i ji).2.updating_sibs.getD k 0
          = ji.updating_sibs.getD k 0) ∧
      ((¬ ∃ j, i ≤ j ∧ j ≤ k ∧ ji.updating_sibs.getD j 0 ≠ 0 ∧
          ji.updating_time.getD j 0 > now - UPDATE_DELAY) →
        (_job_has_pending_updates_loop now n i ji).2.updating_sibs.getD k 0 = 0) := by
  induction n with
  | zero => intro i ji k h1 h2; omega
  | succ n ih =>
    intro i ji k hk1 hk2
    by_cases hs : ji.updating_sibs.getD i 0 = 0
    · have hstep : _job_has_pending_updates_loop now (n + 1) i ji
          = _job_has_pending_updates_loop now n (i + 1) ji := by
        rw [_job_has_pending_updates_loop]
        exact if_neg (not_not.mpr hs)
      rw [hstep]
      by_cases hki : k = i
      · subst hki
        have h8 := (pending_loop_spec now n (k + 1) ji).2.2.2.2.2.2.2 k (Or.inl (by omega))
        rw [h8]
        exact ⟨fun _ => rfl, fun _ => hs⟩
      · obtain ⟨a, b⟩ := ih (i + 1) ji k (by omega) (by omega)
        constructor
        · rintro ⟨j, hj1, hj2, hj3, hj4⟩
          have hji : j ≠ i := fun e => hj3 (e ▸ hs)
          exact a ⟨j, by omega, hj2, hj3, hj4⟩
        · intro hno
          exact b (fun ⟨j, hj1, hj2, hj3, hj4⟩ => hno ⟨j, by omega, hj2, hj3, hj4⟩)
    · by_cases ht : ji.updating_time.getD i 0 > now - UPDATE_DELAY
      · have hstep : _job_has_pending_updates_loop now (n + 1) i ji = (true, ji) := by
          rw [_job_has_pending_updates_loop, if_pos hs, if_pos ht]
        rw [hstep]
        exact ⟨fun _ => rfl, fun hno => absurd ⟨i, le_refl _, hk1, hs, ht⟩ hno⟩
      · have hstep : _job_has_pending_updates_loop now (n + 1) i ji
            = _job_has_pending_updates_loop now n (i + 1)
                { ji with updating_sibs := ji.updating_sibs.set i 0 } := by
          rw [_job_has_pending_updates_loop, if_pos hs, if_neg ht]
        rw [hstep]
        by_cases hki : k = i
        · subst hki
          have h8 := (pending_loop_spec now n (k + 1)
            { ji with updating_sibs := ji.updating_sibs.set k 0 }).2.2.2.2.2.2.2 k
            (Or.inl (by omega))
          rw [h8]
          have h0 : (ji.updating_sibs.set k 0).getD k 0 = 0 := by
            rw [getD_set_zero, if_pos rfl]
          constructor
          · rintro ⟨j, hj1, hj2, hj3, hj4⟩
            have hjk : j = k := by omega
            subst hjk
            exact absurd hj4 ht
          · intro _; exact h0
        · obtain ⟨a, b⟩ := ih (i + 1) { ji with updating_sibs := ji.updating_sibs.set i 0 }
            k (by omega) (by omega)
          have hkk : (ji.updating_sibs.set i 0).getD k 0 = ji.updating_sibs.getD k 0 := by
            rw [getD_set_zero, if_neg hki]
          constructor
          · rintro ⟨j, hj1, hj2, hj3, hj4⟩
            have hji : j ≠ i := fun e => ht (e ▸ hj4)
            have := a ⟨j, by omega, hj2, (by
              show (ji.updating_sibs.set i 0).getD j 0 ≠ 0
              rw [getD_set_zero, if_neg hji]; exact hj3), hj4⟩
            rw [this]; exact hkk
          · intro hno
            apply b
            rintro ⟨j, hj1, hj2, hj3, hj4⟩
            have hji : j ≠ i := by omega
            apply hno
            refine ⟨j, by omega, hj2, ?_, hj4⟩
            have hj3' : (ji.updating_sibs.set i 0).getD j 0 ≠ 0 := hj3
            rw [getD_set_zero, if_neg hji] at hj3'
            exact hj3'

/-- The check of `_job_has_pending_updates` leaves every field but the counters
alone, answers true exactly when some peer `1..MAX_FED_CLUSTERS` has a non-zero
counter younger than `UPDATE_DELAY`, and when it answers false every counter
`1..MAX_FED_CLUSTERS` is 0 afterwards. -/
theorem job_has_pending_updates_spec (now : Int) (ji : fed_job_info_t) :
    (_job_has_pending_updates now ji).2.cluster_lock = ji.cluster_lock ∧
    (_job_has_pending_updates now ji).2.job_id = ji.job_id ∧
    (_job_has_pending_updates now ji).2.siblings_active = ji.siblings_active ∧
    (_job_has_pending_updates now ji).2.siblings_viable = ji.siblings_viable ∧
    (_job_has_pending_updates now ji).2.updating_time = ji.updating_time ∧
    ((_job_has_pending_updates now ji).1 = true ↔
      ∃ i, 1 ≤ i ∧ i ≤ MAX_FED_CLUSTERS ∧ ji.updating_sibs.getD i 0 > 0 ∧
        ji.updating_time.getD i 0 > now - UPDATE_DELAY) ∧
    ((_job_has_pending_updates now ji).1 = false →
      ∀ i, 1 ≤ i → i ≤ MAX_FED_CLUSTERS →
        (_job_has_pending_updates now ji).2.updating_sibs.getD i 0 = 0) := by
  obtain ⟨h1, h2, h3, h4, h5, h6, h7, _⟩ := pending_loop_spec now MAX_FED_CLUSTERS 1 ji
  refine ⟨h1, h2, h3, h4, h5, ?_, ?_⟩
  · unfold _job_has_pending_updates
    rw [h6]
    constructor
    · rintro ⟨k, hk1, hk2, hk3, hk4⟩
      exact ⟨k, hk1, by omega, Nat.pos_of_ne_zero hk3, hk4⟩
    · rintro ⟨k, hk1, hk2, hk3, hk4⟩
      exact ⟨k, hk1, by omega, Nat.pos_iff_ne_zero.mp hk3, hk4⟩
  · intro hf i hi1 hi2
    exact h7 hf i hi1 (by omega)

/-! ## The cluster lock -/

/-- C1: on a job whose `cluster_lock` is 0 and that has no pending update (no
peer `i` in `1..MAX_FED_CLUSTERS` with `updating_sibs[i] > 0` and
`updating_time[i]` inside the last `UPDATE_DELAY` = 60 seconds),
`fed_mgr_job_lock_set(job_id, P)` returns `SLURM_SUCCESS`; afterwards the job's
record has `cluster_lock = P` with `job_id`, `siblings_active`,
`siblings_viable` and `updating_time` as before, and every other record of
`fed_job_list` is unchanged and in place. -/
theorem fed_mgr_job_lock_set_grants_free_lock
    (fed_job_list : List fed_job_info_t) (now : Int) (job_id P : Nat)
    (job_info : fed_job_info_t)
    (hfind : _find_fed_job_info fed_job_list job_id = some job_info)
    (hlock : job_info.cluster_lock = 0)
    (hpend : ∀ i, 1 ≤ i → i ≤ MAX_FED_CLUSTERS →
      ¬ (job_info.updating_sibs.getD i 0 > 0 ∧
          job_info.updating_time.getD i 0 > now - UPDATE_DELAY)) :
    (fed_mgr_job_lock_set fed_job_list now job_id P).1 = SLURM_SUCCESS ∧
    ∃ pre post job_info',
      fed_job_list = pre ++ job_info :: post ∧ (∀ x ∈ pre, x.job_id ≠ job_id) ∧
      (fed_mgr_job_lock_set fed_job_list now job_id P).2 = pre ++ job_info' :: post ∧
      _find_fed_job_info (fed_mgr_job_lock_set fed_job_list now job_id P).2 job_id
        = some job_info' ∧
      job_info'.cluster_lock = P ∧
      job_info'.job_id = job_info.job_id ∧
      job_info'.siblings_active = job_info.siblings_active ∧
      job_info'.siblings_viable = job_info.siblings_viable ∧
      job_info'.updating_time = job_info.updating_time := by
  obtain ⟨h1, h2, h3, h4, h5, h6, _⟩ := job_has_pending_updates_spec now job_info
  have hnp : (_job_has_pending_updates now job_info).1 = false := by
    cases hb : (_job_has_pending_updates now job_info).1
    · rfl
    · obtain ⟨i, hi1, hi2, hi3, hi4⟩ := h6.mp hb
      exact absurd ⟨hi3, hi4⟩ (hpend i hi1 hi2)
  have hl0 : (_job_has_pending_updates now job_info).2.cluster_lock = 0 := by
    rw [h1, hlock]
  have hid : job_info.job_id = job_id := by
    have := List.find?_some hfind
    simpa [_list_find_fed_job_info_by_jobid] using this
  have hres : fed_mgr_job_lock_set fed_job_list now job_id P
      = (SLURM_SUCCESS, _set_fed_job_info fed_job_list job_id
          { (_job_has_pending_updates now job_info).2 with cluster_lock := P }) := by
    simp [fed_mgr_job_lock_set, hfind, hnp, hl0]
  obtain ⟨pre, post, hl, hpre, hset⟩ := set_fed_job_info_split fed_job_list job_id job_info
    { (_job_has_pending_updates now job_info).2 with cluster_lock := P } hfind
  rw [hres]
  refine ⟨rfl, pre, post, _, hl, hpre, hset, ?_, rfl, h2, h3, h4, h5⟩
  exact find_set_fed_job_info fed_job_list job_id job_info _ hfind (by
    show (_job_has_pending_updates now job_info).2.job_id = job_id
    rw [h2, hid])

theorem getD_replicate_zero (n i : Nat) : (List.replicate n (0 : Nat)).getD i 0 = 0 := by
  simp only [List.getD_eq_getElem?_getD, List.getElem?_replicate]
  split_ifs <;> rfl

/-- Witness for C1: cluster 2 asks for the free lock of job 67108869. -/
theorem fed_mgr_job_lock_set_grants_free_lock_witness :
    (fed_mgr_job_lock_set (example_fed_job_list 0) 1000 67108869 2).1 = SLURM_SUCCESS ∧
    ∃ pre post job_info',
      example_fed_job_list 0 = pre ++ example_fed_job_info 0 :: post ∧
      (∀ x ∈ pre, x.job_id ≠ 67108869) ∧
      (fed_mgr_job_lock_set (example_fed_job_list 0) 1000 67108869 2).2
        = pre ++ job_info' :: post ∧
      _find_fed_job_info (fed_mgr_job_lock_set (example_fed_job_list 0) 1000 67108869 2).2
        67108869 = some job_info' ∧
      job_info'.cluster_lock = 2 ∧
      job_info'.job_id = (example_fed_job_info 0).job_id ∧
      job_info'.siblings_active = (example_fed_job_info 0).siblings_active ∧
      job_info'.siblings_viable = (example_fed_job_info 0).siblings_viable ∧
      job_info'.updating_time = (example_fed_job_info 0).updating_time :=
  fed_mgr_job_lock_set_grants_free_lock (example_fed_job_list 0) 1000 67108869 2
    (example_fed_job_info 0) (by decide) (by decide) (by
      intro i _ _ h
      have h0 : (example_fed_job_info 0).updating_sibs.getD i 0 = 0 :=
        getD_replicate_zero 64 i
      rw [h0] at h
      exact absurd h.1 (by decide))

/-- C2 (counterexample): the lock of job 67108869 is held by cluster 2 and
there is no pending update; a further `fed_mgr_job_lock_set` by cluster 2
returns `SLURM_SUCCESS`, not an error. -/
theorem fed_mgr_job_lock_set_regrants_to_holder :
    (_find_fed_job_info (example_fed_job_list 2) 67108869).map (fun ji => ji.cluster_lock)
      = some 2 ∧
    (fed_mgr_job_lock_set (example_fed_job_list 2) 1000 67108869 2).1 = SLURM_SUCCESS ∧
    SLURM_SUCCESS ≠ SLURM_ERROR := by
  decide

/-- What `fed_mgr_job_lock_set` returns and stores once the job is found. -/
theorem fed_mgr_job_lock_set_found (fed_job_list : List fed_job_info_t) (now : Int)
    (job_id P : Nat) (job_info : fed_job_info_t)
    (hfind : _find_fed_job_info fed_job_list job_id = some job_info) :
    fed_mgr_job_lock_set fed_job_list now job_id P =
      if (_job_has_pending_updates now job_info).1 = true then
        (SLURM_ERROR, _set_fed_job_info fed_job_list job_id
          (_job_has_pending_updates now job_info).2)
      else if job_info.cluster_lock ≠ 0 ∧ job_info.cluster_lock ≠ P then
        (SLURM_ERROR, _set_fed_job_info fed_job_list job_id
          (_job_has_pending_updates now job_info).2)
      else
        (SLURM_SUCCESS, _set_fed_job_info fed_job_list job_id
          { (_job_has_pending_updates now job_info).2 with cluster_lock := P }) := by
  have h1 := (job_has_pending_updates_spec now job_info).1
  simp only [fed_mgr_job_lock_set, hfind, h1]

theorem find_fed_job_info_job_id (fed_job_list : List fed_job_info_t) (job_id : Nat)
    (job_info : fed_job_info_t)
    (hfind : _find_fed_job_info fed_job_list job_id = some job_info) :
    job_info.job_id = job_id := by
  have := List.find?_some hfind
  simpa [_list_find_fed_job_info_by_jobid] using this

/-- C2 (amended): on a job whose `cluster_lock` is non-zero,
`fed_mgr_job_lock_set(job_id, P)` returns `SLURM_ERROR` for every requesting
cluster `P` other than the lock holder, returns `SLURM_SUCCESS` for the lock
holder itself when no update is pending, and leaves `cluster_lock` unchanged in
every case. -/
theorem fed_mgr_job_lock_set_on_locked_job
    (fed_job_list : List fed_job_info_t) (now : Int) (job_id P : Nat)
    (job_info : fed_job_info_t)
    (hfind : _find_fed_job_info fed_job_list job_id = some job_info)
    (hlock : job_info.cluster_lock ≠ 0) :
    (P ≠ job_info.cluster_lock →
      (fed_mgr_job_lock_set fed_job_list now job_id P).1 = SLURM_ERROR) ∧
    (P = job_info.cluster_lock →
      (∀ i, 1 ≤ i → i ≤ MAX_FED_CLUSTERS →
        ¬ (job_info.updating_sibs.getD i 0 > 0 ∧
            job_info.updating_time.getD i 0 > now - UPDATE_DELAY)) →
      (fed_mgr_job_lock_set fed_job_list now job_id P).1 = SLURM_SUCCESS) ∧
    (∃ job_info',
      _find_fed_job_info (fed_mgr_job_lock_set fed_job_list now job_id P).2 job_id
        = some job_info' ∧
      job_info'.cluster_lock = job_info.cluster_lock) := by
  obtain ⟨h1, h2, _, _, _, h6, _⟩ := job_has_pending_updates_spec now job_info
  have hid := find_fed_job_info_job_id fed_job_list job_id job_info hfind
  rw [fed_mgr_job_lock_set_found fed_job_list now job_id P job_info hfind]
  refine ⟨?_, ?_, ?_⟩
  · intro hP
    by_cases hb : (_job_has_pending_updates now job_info).1 = true
    · rw [if_pos hb]
    · rw [if_neg hb, if_pos ⟨hlock, fun e => hP e.symm⟩]
  · intro hP hpend
    have hb : ¬ (_job_has_pending_updates now job_info).1 = true := by
      intro hb
      obtain ⟨i, hi1, hi2, hi3, hi4⟩ := h6.mp hb
      exact hpend i hi1 hi2 ⟨hi3, hi4⟩
    rw [if_neg hb, if_neg (fun h => h.2 hP.symm)]
  · by_cases hb : (_job_has_pending_updates now job_info).1 = true
    · rw [if_pos hb]
      exact ⟨_, find_set_fed_job_info fed_job_list job_id job_info _ hfind (by rw [h2, hid]),
        h1⟩
    · rw [if_neg hb]
      by_cases hc : job_info.cluster_lock ≠ 0 ∧ job_info.cluster_lock ≠ P
      · rw [if_pos hc]
        exact ⟨_, find_set_fed_job_info fed_job_list job_id job_info _ hfind
          (by rw [h2, hid]), h1⟩
      · rw [if_neg hc]
        refine ⟨_, find_set_fed_job_info fed_job_list job_id job_info _ hfind
          (by show (_job_has_pending_updates now job_info).2.job_id = job_id; rw [h2, hid]), ?_⟩
        show P = job_info.cluster_lock
        by_contra hne
        exact hc ⟨hlock, fun e => hne e.symm⟩

/-- Witness for C2 (amended): cluster 3 asks for the lock cluster 2 holds. -/
theorem fed_mgr_job_lock_set_on_locked_job_witness :
    ((3 : Nat) ≠ (example_fed_job_info 2).cluster_lock →
      (fed_mgr_job_lock_set (example_fed_job_list 2) 1000 67108869 3).1 = SLURM_ERROR) ∧
    ((3 : Nat) = (example_fed_job_info 2).cluster_lock →
      (∀ i, 1 ≤ i → i ≤ MAX_FED_CLUSTERS →
        ¬ ((example_fed_job_info 2).updating_sibs.getD i 0 > 0 ∧
            (example_fed_job_info 2).updating_time.getD i 0 > 1000 - UPDATE_DELAY)) →
      (fed_mgr_job_lock_set (example_fed_job_list 2) 1000 67108869 3).1 = SLURM_SUCCESS) ∧
    (∃ job_info',
      _find_fed_job_info (fed_mgr_job_lock_set (example_fed_job_list 2) 1000 67108869 3).2
        67108869 = some job_info' ∧
      job_info'.cluster_lock = (example_fed_job_info 2).cluster_lock) :=
  fed_mgr_job_lock_set_on_locked_job (example_fed_job_list 2) 1000 67108869 3
    (example_fed_job_info 2) (by decide) (by decide)

/-- C3 (counterexample): on cluster `c1` job 67108869 is updated at time 900 on
clusters 2 and 3, cluster 2 answers, and the job is updated again at time 990 on
cluster 2.  At time 1000 the update to cluster 2 is inside the window and the
one to cluster 3 is older than 60 seconds.  `fed_mgr_job_lock_set` denies the
lock, and the stale counter of cluster 3 is still 1 in the stored record: the
check returned at cluster 2 before it reached it. -/
theorem fed_mgr_job_lock_set_keeps_stale_counter :
    ((fed_mgr_update_job example_env (some (example_fed 0)) [example_fed_job_info 0]
        67108869 (example_job_desc none) 6 0 900).bind (fun r1 =>
      (fed_mgr_update_job example_env (some (example_fed 0))
        (_handle_fed_job_update_response (some (example_fed 0)) r1.2.1
          (_q_sib_job_update_response 67108869 0 "c2"))
        67108869 (example_job_desc none) 2 0 990).map (fun r2 => r2.2.1)))
      = some [example_fed_job_info_two_updates] ∧
    example_fed_job_info_two_updates.updating_sibs.getD 3 0 = 1 ∧
    example_fed_job_info_two_updates.updating_time.getD 3 0 = 900 ∧
    ¬ ((900 : Int) > 1000 - UPDATE_DELAY) ∧
    (fed_mgr_job_lock_set [example_fed_job_info_two_updates] 1000 67108869 1).1
      = SLURM_ERROR ∧
    (_find_fed_job_info
        (fed_mgr_job_lock_set [example_fed_job_info_two_updates] 1000 67108869 1).2
        67108869).map (fun ji => ji.updating_sibs.getD 3 0) = some 1 ∧
    (1 : Nat) ≠ 0 := by
  decide

/-- C3 (amended): once the job is found, `fed_mgr_job_lock_set(job_id, P)` on a
lock that is free for `P` (`cluster_lock` is 0 or `P`) returns `SLURM_ERROR` if
and only if some peer `i` in `1..MAX_FED_CLUSTERS` has `updating_sibs[i] > 0`
with `updating_time[i]` inside the 60-second window (`> now - UPDATE_DELAY`),
and a denied request leaves `cluster_lock` unchanged.  Counters that are not
inside the window do not block the lock.  In the stored record the counter of
peer `i` is 0 when no peer `1..i` has a counter inside the window, and is the
counter from before the call when some peer `1..i` has one (the check returns
at the first such peer); so whenever the pending-update check passes every
`updating_sibs[1..MAX_FED_CLUSTERS]` of the stored record is 0. -/
theorem fed_mgr_job_lock_set_pending_updates
    (fed_job_list : List fed_job_info_t) (now : Int) (job_id P : Nat)
    (job_info : fed_job_info_t)
    (hfind : _find_fed_job_info fed_job_list job_id = some job_info) :
    (job_info.cluster_lock = 0 ∨ job_info.cluster_lock = P →
      ((fed_mgr_job_lock_set fed_job_list now job_id P).1 = SLURM_ERROR ↔
        ∃ i, 1 ≤ i ∧ i ≤ MAX_FED_CLUSTERS ∧ job_info.updating_sibs.getD i 0 > 0 ∧
          job_info.updating_time.getD i 0 > now - UPDATE_DELAY)) ∧
    ((fed_mgr_job_lock_set fed_job_list now job_id P).1 = SLURM_ERROR →
      ∃ job_info',
        _find_fed_job_info (fed_mgr_job_lock_set fed_job_list now job_id P).2 job_id
          = some job_info' ∧
        job_info'.cluster_lock = job_info.cluster_lock) ∧
    (∃ job_info',
      _find_fed_job_info (fed_mgr_job_lock_set fed_job_list now job_id P).2 job_id
        = some job_info' ∧
      ∀ i, 1 ≤ i → i ≤ MAX_FED_CLUSTERS →
        ((¬ ∃ k, 1 ≤ k ∧ k ≤ i ∧ job_info.updating_sibs.getD k 0 > 0 ∧
            job_info.updating_time.getD k 0 > now - UPDATE_DELAY) →
          job_info'.updating_sibs.getD i 0 = 0) ∧
        ((∃ k, 1 ≤ k ∧ k ≤ i ∧ job_info.updating_sibs.getD k 0 > 0 ∧
            job_info.updating_time.getD k 0 > now - UPDATE_DELAY) →
          job_info'.updating_sibs.getD i 0 = job_info.updating_sibs.getD i 0)) ∧
    ((¬ ∃ i, 1 ≤ i ∧ i ≤ MAX_FED_CLUSTERS ∧ job_info.updating_sibs.getD i 0 > 0 ∧
          job_info.updating_time.getD i 0 > now - UPDATE_DELAY) →
      (_job_has_pending_updates now job_info).1 = false ∧
      ∃ job_info',
        _find_fed_job_info (fed_mgr_job_lock_set fed_job_list now job_id P).2 job_id
          = some job_info' ∧
        ∀ i, 1 ≤ i → i ≤ MAX_FED_CLUSTERS → job_info'.updating_sibs.getD i 0 = 0) := by
  obtain ⟨h1, h2, _, _, _, h6, h7⟩ := job_has_pending_updates_spec now job_info
  have hid := find_fed_job_info_job_id fed_job_list job_id job_info hfind
  have hne : SLURM_SUCCESS ≠ SLURM_ERROR := by decide
  have hcnt : ∀ i, 1 ≤ i → i ≤ MAX_FED_CLUSTERS →
      ((¬ ∃ k, 1 ≤ k ∧ k ≤ i ∧ job_info.updating_sibs.getD k 0 > 0 ∧
          job_info.updating_time.getD k 0 > now - UPDATE_DELAY) →
        (_job_has_pending_updates now job_info).2.updating_sibs.getD i 0 = 0) ∧
      ((∃ k, 1 ≤ k ∧ k ≤ i ∧ job_info.updating_sibs.getD k 0 > 0 ∧
          job_info.updating_time.getD k 0 > now - UPDATE_DELAY) →
        (_job_has_pending_updates now job_info).2.updating_sibs.getD i 0
          = job_info.updating_sibs.getD i 0) := by
    intro i hi1 hi2
    obtain ⟨a, b⟩ := pending_loop_counters now MAX_FED_CLUSTERS 1 job_info i hi1
      (by omega)
    constructor
    · intro hno
      exact b (fun ⟨k, hk1, hk2, hk3, hk4⟩ =>
        hno ⟨k, hk1, hk2, Nat.pos_of_ne_zero hk3, hk4⟩)
    · rintro ⟨k, hk1, hk2, hk3, hk4⟩
      exact a ⟨k, hk1, hk2, Nat.pos_iff_ne_zero.mp hk3, hk4⟩
  rw [fed_mgr_job_lock_set_found fed_job_list now job_id P job_info hfind]
  refine ⟨?_, ?_, ?_, ?_⟩
  · intro hfree
    rw [← h6]
    by_cases hb : (_job_has_pending_updates now job_info).1 = true
    · rw [if_pos hb]; exact ⟨fun _ => hb, fun _ => rfl⟩
    · have hc : ¬ (job_info.cluster_lock ≠ 0 ∧ job_info.cluster_lock ≠ P) := by
        rintro ⟨c1, c2⟩
        rcases hfree with h | h
        · exact c1 h
        · exact c2 h
      rw [if_neg hb, if_neg hc]
      exact ⟨fun h => absurd h hne, fun h => absurd h hb⟩
  · by_cases hb : (_job_has_pending_updates now job_info).1 = true
    · rw [if_pos hb]
      intro _
      exact ⟨_, find_set_fed_job_info fed_job_list job_id job_info _ hfind (by rw [h2, hid]),
        h1⟩
    · rw [if_neg hb]
      by_cases hc : job_info.cluster_lock ≠ 0 ∧ job_info.cluster_lock ≠ P
      · rw [if_pos hc]
        intro _
        exact ⟨_, find_set_fed_job_info fed_job_list job_id job_info _ hfind
          (by rw [h2, hid]), h1⟩
      · rw [if_neg hc]
        intro h
        exact absurd h hne
  · by_cases hb : (_job_has_pending_updates now job_info).1 = true
    · rw [if_pos hb]
      exact ⟨_, find_set_fed_job_info fed_job_list job_id job_info _ hfind
        (by rw [h2, hid]), hcnt⟩
    · rw [if_neg hb]
      by_cases hc : job_info.cluster_lock ≠ 0 ∧ job_info.cluster_lock ≠ P
      · rw [if_pos hc]
        exact ⟨_, find_set_fed_job_info fed_job_list job_id job_info _ hfind
          (by rw [h2, hid]), hcnt⟩
      · rw [if_neg hc]
        exact ⟨_, find_set_fed_job_info fed_job_list job_id job_info _ hfind
          (by show (_job_has_pending_updates now job_info).2.job_id = job_id; rw [h2, hid]),
          hcnt⟩
  · intro hnone
    have hb : ¬ (_job_has_pending_updates now job_info).1 = true :=
      fun hb => hnone (h6.mp hb)
    have hbf : (_job_has_pending_updates now job_info).1 = false := by
      simpa using hb
    refine ⟨hbf, ?_⟩
    rw [if_neg hb]
    by_cases hc : job_info.cluster_lock ≠ 0 ∧ job_info.cluster_lock ≠ P
    · rw [if_pos hc]
      exact ⟨_, find_set_fed_job_info fed_job_list job_id job_info _ hfind
        (by rw [h2, hid]), h7 hbf⟩
    · rw [if_neg hc]
      exact ⟨_, find_set_fed_job_info fed_job_list job_id job_info _ hfind
        (by show (_job_has_pending_updates now job_info).2.job_id = job_id; rw [h2, hid]),
        h7 hbf⟩

/-- Witness for C3: at time 1000 an update to cluster 2 is pending since 900,
outside the window. -/
theorem fed_mgr_job_lock_set_pending_updates_witness :
    ((example_fed_job_info_updating 0 900).cluster_lock = 0 ∨
        (example_fed_job_info_updating 0 900).cluster_lock = 1 →
      ((fed_mgr_job_lock_set [example_fed_job_info_updating 0 900] 1000 67108869 1).1
          = SLURM_ERROR ↔
        ∃ i, 1 ≤ i ∧ i ≤ MAX_FED_CLUSTERS ∧
          (example_fed_job_info_updating 0 900).updating_sibs.getD i 0 > 0 ∧
          (example_fed_job_info_updating 0 900).updating_time.getD i 0
            > 1000 - UPDATE_DELAY)) ∧
    ((fed_mgr_job_lock_set [example_fed_job_info_updating 0 900] 1000 67108869 1).1
        = SLURM_ERROR →
      ∃ job_info',
        _find_fed_job_info
          (fed_mgr_job_lock_set [example_fed_job_info_updating 0 900] 1000 67108869 1).2
          67108869 = some job_info' ∧
        job_info'.cluster_lock = (example_fed_job_info_updating 0 900).cluster_lock) ∧
    (∃ job_info',
      _find_fed_job_info
        (fed_mgr_job_lock_set [example_fed_job_info_updating 0 900] 1000 67108869 1).2
        67108869 = some job_info' ∧
      ∀ i, 1 ≤ i → i ≤ MAX_FED_CLUSTERS →
        ((¬ ∃ k, 1 ≤ k ∧ k ≤ i ∧
            (example_fed_job_info_updating 0 900).updating_sibs.getD k 0 > 0 ∧
            (example_fed_job_info_updating 0 900).updating_time.getD k 0
              > 1000 - UPDATE_DELAY) →
          job_info'.updating_sibs.getD i 0 = 0) ∧
        ((∃ k, 1 ≤ k ∧ k ≤ i ∧
            (example_fed_job_info_updating 0 900).updating_sibs.getD k 0 > 0 ∧
            (example_fed_job_info_updating 0 900).updating_time.getD k 0
              > 1000 - UPDATE_DELAY) →
          job_info'.updating_sibs.getD i 0
            = (example_fed_job_info_updating 0 900).updating_sibs.getD i 0)) ∧
    ((¬ ∃ i, 1 ≤ i ∧ i ≤ MAX_FED_CLUSTERS ∧
          (example_fed_job_info_updating 0 900).updating_sibs.getD i 0 > 0 ∧
          (example_fed_job_info_updating 0 900).updating_time.getD i 0
            > 1000 - UPDATE_DELAY) →
      (_job_has_pending_updates 1000 (example_fed_job_info_updating 0 900)).1 = false ∧
      ∃ job_info',
        _find_fed_job_info
          (fed_mgr_job_lock_set [example_fed_job_info_updating 0 900] 1000 67108869 1).2
          67108869 = some job_info' ∧
        ∀ i, 1 ≤ i → i ≤ MAX_FED_CLUSTERS → job_info'.updating_sibs.getD i 0 = 0) :=
  fed_mgr_job_lock_set_pending_updates [example_fed_job_info_updating 0 900] 1000 67108869 1
    (example_fed_job_info_updating 0 900) (by decide)

/-- The pending-update window on concrete inputs at time 1000: an update
pending since 941 blocks the lock, one pending since 940 (60 seconds old) does
not and has its counter reset. -/
theorem fed_mgr_job_lock_set_window_examples :
    (fed_mgr_job_lock_set [example_fed_job_info_updating 0 941] 1000 67108869 1).1
      = SLURM_ERROR ∧
    fed_mgr_job_lock_set [example_fed_job_info_updating 0 940] 1000 67108869 1
      = (SLURM_SUCCESS, [{ example_fed_job_info 1 with
          updating_time := (List.replicate 64 0).set 2 940 }]) := by
  decide

/-- C4 (counterexample): job 67108869 is not locked (`cluster_lock = 0`);
`fed_mgr_job_lock_unset` by cluster 2, which does not hold the lock, returns
`SLURM_SUCCESS`, not an error. -/
theorem fed_mgr_job_lock_unset_accepts_unlocked_job :
    (_find_fed_job_info (example_fed_job_list 0) 67108869).map (fun ji => ji.cluster_lock)
      = some 0 ∧
    (0 : Nat) ≠ 2 ∧
    (fed_mgr_job_lock_unset (example_fed_job_list 0) 67108869 2).1 = SLURM_SUCCESS ∧
    SLURM_SUCCESS ≠ SLURM_ERROR := by
  decide

/-- C4 (amended): `fed_mgr_job_lock_unset(job_id, P)` returns `SLURM_SUCCESS` and
leaves `cluster_lock = 0` (all other fields and records unchanged) when
`cluster_lock` is `P` or is already 0; for every other value of `cluster_lock`
(non-zero and different from `P`) it returns `SLURM_ERROR` and leaves
`fed_job_list` unchanged. -/
theorem fed_mgr_job_lock_unset_spec
    (fed_job_list : List fed_job_info_t) (job_id P : Nat) (job_info : fed_job_info_t)
    (hfind : _find_fed_job_info fed_job_list job_id = some job_info) :
    (job_info.cluster_lock = P ∨ job_info.cluster_lock = 0 →
      (fed_mgr_job_lock_unset fed_job_list job_id P).1 = SLURM_SUCCESS ∧
      _find_fed_job_info (fed_mgr_job_lock_unset fed_job_list job_id P).2 job_id
        = some { job_info with cluster_lock := 0 } ∧
      ∃ pre post, fed_job_list = pre ++ job_info :: post ∧
        (∀ x ∈ pre, x.job_id ≠ job_id) ∧
        (fed_mgr_job_lock_unset fed_job_list job_id P).2
          = pre ++ { job_info with cluster_lock := 0 } :: post) ∧
    (job_info.cluster_lock ≠ 0 ∧ job_info.cluster_lock ≠ P →
      fed_mgr_job_lock_unset fed_job_list job_id P = (SLURM_ERROR, fed_job_list)) := by
  have hid := find_fed_job_info_job_id fed_job_list job_id job_info hfind
  constructor
  · intro hfree
    have hc : ¬ (job_info.cluster_lock ≠ 0 ∧ job_info.cluster_lock ≠ P) := by
      rintro ⟨c1, c2⟩
      rcases hfree with h | h
      · exact c2 h
      · exact c1 h
    have hres : fed_mgr_job_lock_unset fed_job_list job_id P
        = (SLURM_SUCCESS, _set_fed_job_info fed_job_list job_id
            { job_info with cluster_lock := 0 }) := by
      simp only [fed_mgr_job_lock_unset, hfind, if_neg hc]
    rw [hres]
    refine ⟨rfl, find_set_fed_job_info fed_job_list job_id job_info _ hfind hid, ?_⟩
    obtain ⟨pre, post, hl, hpre, hset⟩ := set_fed_job_info_split fed_job_list job_id job_info
      { job_info with cluster_lock := 0 } hfind
    exact ⟨pre, post, hl, hpre, hset⟩
  · intro hc
    simp only [fed_mgr_job_lock_unset, hfind, if_pos hc]

/-- Witness for C4 (amended): cluster 2 releases the lock it holds. -/
theorem fed_mgr_job_lock_unset_spec_witness :
    ((example_fed_job_info 2).cluster_lock = 2 ∨ (example_fed_job_info 2).cluster_lock = 0 →
      (fed_mgr_job_lock_unset (example_fed_job_list 2) 67108869 2).1 = SLURM_SUCCESS ∧
      _find_fed_job_info (fed_mgr_job_lock_unset (example_fed_job_list 2) 67108869 2).2
        67108869 = some { example_fed_job_info 2 with cluster_lock := 0 } ∧
      ∃ pre post, example_fed_job_list 2 = pre ++ example_fed_job_info 2 :: post ∧
        (∀ x ∈ pre, x.job_id ≠ 67108869) ∧
        (fed_mgr_job_lock_unset (example_fed_job_list 2) 67108869 2).2
          = pre ++ { example_fed_job_info 2 with cluster_lock := 0 } :: post) ∧
    ((example_fed_job_info 2).cluster_lock ≠ 0 ∧ (example_fed_job_info 2).cluster_lock ≠ 2 →
      fed_mgr_job_lock_unset (example_fed_job_list 2) 67108869 2
        = (SLURM_ERROR, example_fed_job_list 2)) :=
  fed_mgr_job_lock_unset_spec (example_fed_job_list 2) 67108869 2 (example_fed_job_info 2)
    (by decide)

/-! ## Federated job ids -/

theorem shiftLeft_26_or (c l : Nat) (hl : l < 2 ^ 26) :
    c <<< 26 + l = (c <<< 26) ||| l := by
  rw [Nat.shiftLeft_eq, Nat.mul_comm]
  exact Nat.mul_add_lt_is_or hl c

theorem job_id_parts (c l : Nat) (hl : l < 2 ^ 26) :
    ((c <<< 26) ||| l) >>> 26 = c ∧ ((c <<< 26) ||| l) &&& (2 ^ 26 - 1) = l := by
  rw [← shiftLeft_26_or c l hl, Nat.shiftLeft_eq, Nat.shiftRight_eq_div_pow,
    Nat.and_pow_two_sub_one_eq_mod]
  constructor
  · rw [Nat.add_comm, Nat.add_mul_div_right _ _ (by positivity), Nat.div_eq_of_lt hl]
    omega
  · rw [Nat.add_comm, Nat.add_mul_mod_self_right, Nat.mod_eq_of_lt hl]

/-- C10: when the local cluster's federation id is `c` with `1 ≤ c ≤ 63` and
`l < 2^26`, `fed_mgr_get_job_id(l)` is the 32-bit value `(c << 26) | l`,
`fed_mgr_get_cluster_id` of it is `c` and `fed_mgr_get_local_id` of it is `l`;
and every 32-bit id is `(fed_mgr_get_cluster_id(id) << 26) |
fed_mgr_get_local_id(id)`, with `local = id & 0x03FFFFFF` and
`cluster = id >> 26`. -/
theorem fed_job_id_encoding :
    (∀ (fed : Fed) (c l : Nat), (fed_mgr_cluster_rec fed).fed_id = c → 1 ≤ c → c ≤ 63 →
      l < 2 ^ 26 →
      fed_mgr_get_job_id (some fed) l = (c <<< 26) ||| l ∧
      (c <<< 26) ||| l < 2 ^ 32 ∧
      fed_mgr_get_cluster_id (fed_mgr_get_job_id (some fed) l) = c ∧
      fed_mgr_get_local_id (fed_mgr_get_job_id (some fed) l) = l) ∧
    (∀ id : Nat, id < 2 ^ 32 →
      id = (fed_mgr_get_cluster_id id <<< 26) ||| fed_mgr_get_local_id id ∧
      fed_mgr_get_local_id id = id &&& 0x03FFFFFF ∧
      fed_mgr_get_cluster_id id = id >>> 26) := by
  constructor
  · intro fed c l hc h1 h63 hl
    have hshift : c <<< 26 < 2 ^ 32 := by
      rw [Nat.shiftLeft_eq]
      have : c * 2 ^ 26 ≤ 63 * 2 ^ 26 := Nat.mul_le_mul_right _ h63
      omega
    have hsum : c <<< 26 + l < 2 ^ 32 := by
      rw [Nat.shiftLeft_eq] at *
      have : c * 2 ^ 26 ≤ 63 * 2 ^ 26 := Nat.mul_le_mul_right _ h63
      omega
    have hid : fed_mgr_get_job_id (some fed) l = (c <<< 26) ||| l := by
      simp only [fed_mgr_get_job_id, hc, FED_MGR_CLUSTER_ID_BEGIN]
      rw [Nat.mod_eq_of_lt hshift, Nat.add_comm, Nat.mod_eq_of_lt hsum]
      exact shiftLeft_26_or c l hl
    obtain ⟨p1, p2⟩ := job_id_parts c l hl
    refine ⟨hid, ?_, ?_, ?_⟩
    · rw [← shiftLeft_26_or c l hl]; exact hsum
    · rw [hid]; exact p1
    · rw [hid]; exact p2
  · intro id _
    refine ⟨?_, rfl, rfl⟩
    have hmod : id % 2 ^ 26 < 2 ^ 26 := Nat.mod_lt _ (by positivity)
    have hl : fed_mgr_get_local_id id = id % 2 ^ 26 := by
      show id &&& (2 ^ 26 - 1) = id % 2 ^ 26
      exact Nat.and_pow_two_sub_one_eq_mod id 26
    have hc : fed_mgr_get_cluster_id id = id / 2 ^ 26 := by
      show id >>> 26 = id / 2 ^ 26
      exact Nat.shiftRight_eq_div_pow id 26
    rw [hl, hc, ← shiftLeft_26_or _ _ hmod, Nat.shiftLeft_eq]
    have := Nat.div_add_mod id (2 ^ 26)
    rw [Nat.mul_comm] at this
    exact this.symm

/-- Witness for C10: local id 5 on the cluster with federation id 1. -/
theorem fed_job_id_encoding_witness :
    (fed_mgr_get_job_id (some (example_fed 0)) 5 = (1 <<< 26) ||| 5 ∧
      (1 <<< 26) ||| 5 < 2 ^ 32 ∧
      fed_mgr_get_cluster_id (fed_mgr_get_job_id (some (example_fed 0)) 5) = 1 ∧
      fed_mgr_get_local_id (fed_mgr_get_job_id (some (example_fed 0)) 5) = 5) ∧
    (67108869 = (fed_mgr_get_cluster_id 67108869 <<< 26) ||| fed_mgr_get_local_id 67108869 ∧
      fed_mgr_get_local_id 67108869 = 67108869 &&& 0x03FFFFFF ∧
      fed_mgr_get_cluster_id 67108869 = 67108869 >>> 26) :=
  ⟨fed_job_id_encoding.1 (example_fed 0) 1 5 (by decide) (by decide) (by decide) (by decide),
   fed_job_id_encoding.2 67108869 (by decide)⟩

/-! ## Revoking siblings -/

theorem testBit_zero_iff_and_one (m : Nat) : m &&& 1 ≠ 0 ↔ m.testBit 0 = true := by
  rw [Nat.testBit_zero]
  have h : m &&& 1 = m % 2 := Nat.and_pow_two_sub_one_eq_mod m 1
  rw [h]
  have := Nat.mod_two_eq_zero_or_one m
  rcases this with h0 | h1
  · simp [h0]
  · simp [h1]

/-- The loop of `_revoke_sibling_jobs` visits the bits of `revoke_sibs` from the
lowest up, pairing bit `k` with cluster id `id + k`. -/
theorem revoke_sibling_jobs_loop_eq (env : Env) (fed : Fed) (job_id cluster_id : Nat)
    (start_time : Int) (n : Nat) :
    ∀ (revoke_sibs id : Nat),
      _revoke_sibling_jobs_loop env fed job_id cluster_id start_time n revoke_sibs id
        = ((List.range n).filterMap (fun k =>
            if revoke_sibs.testBit k ∧ id + k ≠ (fed_mgr_cluster_rec fed).fed_id ∧
                id + k ≠ cluster_id then
              fed_mgr_get_cluster_by_id fed (id + k)
            else none)).flatMap
          (fun c => (_persist_fed_job_revoke env c job_id 0 start_time).2) := by
  induction n with
  | zero => intro m id; simp [_revoke_sibling_jobs_loop]
  | succ n ih =>
    intro m id
    rw [_revoke_sibling_jobs_loop]
    by_cases hm : m = 0
    · subst hm
      simp
    · rw [if_neg hm, ih (m >>> 1) (id + 1), List.range_succ_eq_map]
      simp only [List.filterMap_cons, List.filterMap_map]
      have hrest : (List.filterMap ((fun k =>
            if m.testBit k ∧ id + k ≠ (fed_mgr_cluster_rec fed).fed_id ∧ id + k ≠ cluster_id
            then fed_mgr_get_cluster_by_id fed (id + k) else none) ∘ Nat.succ) (List.range n))
          = List.filterMap (fun k =>
            if (m >>> 1).testBit k ∧ id + 1 + k ≠ (fed_mgr_cluster_rec fed).fed_id ∧
                id + 1 + k ≠ cluster_id
            then fed_mgr_get_cluster_by_id fed (id + 1 + k) else none) (List.range n) := by
        congr 1
        funext k
        simp only [Function.comp, Nat.testBit_shiftRight, Nat.succ_eq_add_one]
        have e1 : id + (k + 1) = id + 1 + k := by omega
        have e2 : 1 + k = k + 1 := by omega
        rw [e1, e2]
      rw [hrest]
      by_cases hc : m &&& 1 ≠ 0 ∧ id ≠ (fed_mgr_cluster_rec fed).fed_id ∧ id ≠ cluster_id
      · have hc' : m.testBit 0 = true ∧ id + 0 ≠ (fed_mgr_cluster_rec fed).fed_id ∧
            id + 0 ≠ cluster_id := ⟨(testBit_zero_iff_and_one m).mp hc.1, hc.2.1, hc.2.2⟩
        rw [if_pos hc, if_pos hc']
        cases hg : fed_mgr_get_cluster_by_id fed id with
        | none => simp [hg]
        | some c => simp [hg]
      · have hc' : ¬ (m.testBit 0 = true ∧ id + 0 ≠ (fed_mgr_cluster_rec fed).fed_id ∧
            id + 0 ≠ cluster_id) :=
          fun h => hc ⟨(testBit_zero_iff_and_one m).mpr h.1, h.2.1, h.2.2⟩
        rw [if_neg hc, if_neg hc']
        simp

/-- With a request that packs, `_revoke_sibling_jobs` queues one REVOKE for each
peer of `revoke_targets_spec`, in that order, and nothing else. -/
theorem revoke_sibling_jobs_eq_spec (env : Env) (fed : Fed) (job_id cluster_id mask : Nat)
    (start_time : Int)
    (hpack : env.pack_msg (revoke_req_msg env job_id 0 start_time) = true) :
    _revoke_sibling_jobs env (some fed) job_id cluster_id mask start_time
      = (revoke_targets_spec fed (fed_mgr_cluster_rec fed).fed_id cluster_id mask).map
          (revoke_rpc_spec env job_id 0 start_time) := by
  have hq : ∀ c, (_persist_fed_job_revoke env c job_id 0 start_time).2
      = [revoke_rpc_spec env job_id 0 start_time c] := by
    intro c
    unfold _persist_fed_job_revoke _queue_rpc
    rw [if_pos hpack]
    rfl
  simp only [_revoke_sibling_jobs, revoke_sibling_jobs_loop_eq, revoke_targets_spec, hq]
  have e : ∀ k, 1 + k = k + 1 := fun k => by omega
  simp only [e]
  induction (List.filterMap (fun k =>
      if mask.testBit k = true ∧ k + 1 ≠ (fed_mgr_cluster_rec fed).fed_id ∧ k + 1 ≠ cluster_id
      then fed_mgr_get_cluster_by_id fed (k + 1) else none) (List.range 64)) with
  | nil => rfl
  | cons c cs ih => simp [List.flatMap_cons, ih]

/-- With a request that does not pack, `_revoke_sibling_jobs` queues nothing. -/
theorem revoke_sibling_jobs_pack_fails (env : Env) (fed : Option Fed)
    (job_id cluster_id mask : Nat) (start_time : Int)
    (hpack : env.pack_msg (revoke_req_msg env job_id 0 start_time) = false) :
    _revoke_sibling_jobs env fed job_id cluster_id mask start_time = [] := by
  cases fed with
  | none => rfl
  | some f =>
    have hq : ∀ c, (_persist_fed_job_revoke env c job_id 0 start_time).2 = [] := by
      intro c
      unfold _persist_fed_job_revoke _queue_rpc
      rw [hpack]
      rfl
    simp only [_revoke_sibling_jobs, revoke_sibling_jobs_loop_eq, hq]
    simp

/-- A peer is a revocation target exactly when it is the federation member
found for an id `k + 1 ≤ 64` whose bit `k` is set in `mask` and that is neither
the local id nor the excepted id. -/
theorem mem_revoke_targets_spec (fed : Fed) (local_id except_id mask : Nat)
    (c : slurmdb_cluster_rec_t) :
    c ∈ revoke_targets_spec fed local_id except_id mask ↔
      ∃ k, k < 64 ∧ mask.testBit k = true ∧ k + 1 ≠ local_id ∧ k + 1 ≠ except_id ∧
        fed_mgr_get_cluster_by_id fed (k + 1) = some c := by
  simp only [revoke_targets_spec, List.mem_filterMap, List.mem_range]
  constructor
  · rintro ⟨k, hk, h⟩
    by_cases hc : mask.testBit k = true ∧ k + 1 ≠ local_id ∧ k + 1 ≠ except_id
    · rw [if_pos hc] at h
      exact ⟨k, hk, hc.1, hc.2.1, hc.2.2, h⟩
    · rw [if_neg hc] at h
      cases h
  · rintro ⟨k, hk, h1, h2, h3, h4⟩
    exact ⟨k, hk, by rw [if_pos ⟨h1, h2, h3⟩]; exact h4⟩

/-! ## Sibling bitmaps -/

theorem FED_SIBLING_BIT_eq (x : Nat) (h1 : 1 ≤ x) (h2 : x ≤ 64) :
    FED_SIBLING_BIT x = 2 ^ (x - 1) := by
  unfold FED_SIBLING_BIT
  rw [Nat.one_shiftLeft]
  exact Nat.mod_eq_of_lt (Nat.pow_lt_pow_right (by decide) (by omega))

theorem FED_SIBLING_BIT_lt (x : Nat) : FED_SIBLING_BIT x < 2 ^ 64 :=
  Nat.mod_lt _ (by positivity)

theorem testBit_FED_SIBLING_BIT (x k : Nat) (h1 : 1 ≤ x) (h2 : x ≤ 64) :
    (FED_SIBLING_BIT x).testBit k = decide (k + 1 = x) := by
  rw [FED_SIBLING_BIT_eq x h1 h2, Nat.testBit_two_pow]
  by_cases h : k + 1 = x
  · have : x - 1 = k := by omega
    simp [h, this]
  · have : ¬ (x - 1 = k) := by omega
    simp [h, this]

theorem testBit_not64 (x k : Nat) :
    (not64 x).testBit k = (decide (k < 64) && !x.testBit k) := by
  unfold not64 UINT64_MAX
  rw [Nat.testBit_xor, Nat.testBit_two_pow_sub_one, Nat.testBit_mod_two_pow]
  by_cases h : k < 64 <;> cases x.testBit k <;> simp [h]

theorem not64_lt (x : Nat) : not64 x < 2 ^ 64 := by
  unfold not64 UINT64_MAX
  exact Nat.xor_lt_two_pow (by decide) (Nat.mod_lt _ (by positivity))

/-- Bit `k` of `a & ~FED_SIBLING_BIT(x)`. -/
theorem testBit_and_not_sibling_bit (a x k : Nat) (h1 : 1 ≤ x) (h2 : x ≤ 64) :
    (a &&& not64 (FED_SIBLING_BIT x)).testBit k
      = (a.testBit k && decide (k < 64) && !decide (k + 1 = x)) := by
  rw [Nat.testBit_and, testBit_not64, testBit_FED_SIBLING_BIT x k h1 h2, Bool.and_assoc]

/-- When no bit other than that of `x` is set in the low 64 bits of `mask`,
there is nobody to send a REVOKE to. -/
theorem revoke_targets_spec_nil (fed : Fed) (local_id x mask : Nat) (h1 : 1 ≤ x)
    (h2 : x ≤ 64) (h : mask &&& not64 (FED_SIBLING_BIT x) = 0) :
    revoke_targets_spec fed local_id x mask = [] := by
  unfold revoke_targets_spec
  rw [List.filterMap_eq_nil_iff]
  intro k hk
  have hk64 : k < 64 := List.mem_range.mp hk
  have hb := testBit_and_not_sibling_bit mask x k h1 h2
  rw [h, Nat.zero_testBit] at hb
  by_cases hc : mask.testBit k = true ∧ k + 1 ≠ local_id ∧ k + 1 ≠ x
  · exfalso
    have := hc.1
    have h3 := hc.2.2
    simp [this, hk64, h3] at hb
  · rw [if_neg hc]

/-! ## Starting a job -/

theorem is_fed_job_of_origin (fed : Fed) (job_ptr : job_record) (fd : job_fed_details_t)
    (P : Nat) (hfd : job_ptr.fed_details = some fd)
    (horigin : fed_mgr_get_cluster_id job_ptr.job_id = P) (hP : 1 ≤ P) :
    _is_fed_job (some fed) job_ptr = some P := by
  have hP0 : ¬ (P = 0) := by omega
  simp only [_is_fed_job, hfd, horigin, if_neg hP0]

/-- C5: on the origin cluster `P` (the local federation id and the cluster id in
the job id are both `P`, `1 ≤ P ≤ MAX_FED_CLUSTERS`), `fed_mgr_job_start`
returns `SLURM_ERROR`, changes neither the job record nor `fed_job_list` and
queues nothing when the job has no `fed_job_info_t`, when `cluster_lock` is 0,
or when `cluster_lock` is not `P`.  Otherwise it returns `SLURM_SUCCESS`, sets
`siblings_active` to the single bit `1 << (P - 1)` in the `fed_job_info_t` and
in the job's `fed_details` (where it also records `cluster_lock = P`), and,
the REVOKE request being packable, queues exactly one REVOKE with return code 0
and the given start time for each federation member other than `P` whose bit
was set in the previous `siblings_active`. -/
theorem fed_mgr_job_start_on_origin (env : Env) (fed : Fed)
    (fed_job_list : List fed_job_info_t) (job_ptr : job_record) (start_time : Int)
    (P : Nat) (fd : job_fed_details_t)
    (hlocal : (fed_mgr_cluster_rec fed).fed_id = P)
    (horigin : fed_mgr_get_cluster_id job_ptr.job_id = P)
    (hP1 : 1 ≤ P) (hP2 : P ≤ MAX_FED_CLUSTERS)
    (hfd : job_ptr.fed_details = some fd) :
    ((_find_fed_job_info fed_job_list job_ptr.job_id = none ∨
        ∃ ji, _find_fed_job_info fed_job_list job_ptr.job_id = some ji ∧
          (ji.cluster_lock = 0 ∨ ji.cluster_lock ≠ P)) →
      fed_mgr_job_start env (some fed) fed_job_list job_ptr start_time
        = some ⟨SLURM_ERROR, job_ptr, fed_job_list, []⟩) ∧
    (∀ ji, _find_fed_job_info fed_job_list job_ptr.job_id = some ji → ji.cluster_lock = P →
      ∃ r, fed_mgr_job_start env (some fed) fed_job_list job_ptr start_time = some r ∧
        r.rc = SLURM_SUCCESS ∧
        r.job_ptr = { job_ptr with
          fed_details := some { fd with cluster_lock := P, siblings_active := 1 <<< (P - 1) } } ∧
        _find_fed_job_info r.fed_job_list job_ptr.job_id
          = some { ji with siblings_active := 1 <<< (P - 1) } ∧
        (∃ pre post, fed_job_list = pre ++ ji :: post ∧
          r.fed_job_list = pre ++ { ji with siblings_active := 1 <<< (P - 1) } :: post) ∧
        (env.pack_msg (revoke_req_msg env job_ptr.job_id 0 start_time) = true →
          r.queued = (revoke_targets_spec fed P P ji.siblings_active).map
            (revoke_rpc_spec env job_ptr.job_id 0 start_time))) := by
  have hfed := is_fed_job_of_origin fed job_ptr fd P hfd horigin hP1
  have hP64 : P ≤ 64 := by unfold MAX_FED_CLUSTERS at hP2; omega
  have hbit : FED_SIBLING_BIT P = 1 <<< (P - 1) := by
    rw [FED_SIBLING_BIT_eq P hP1 hP64, Nat.one_shiftLeft]
  constructor
  · rintro (hnone | ⟨ji, hsome, hl⟩)
    · simp [fed_mgr_job_start, hfed, hlocal, hnone]
    · rcases hl with h0 | hne
      · simp [fed_mgr_job_start, hfed, hlocal, hsome, h0]
      · by_cases h0 : ji.cluster_lock = 0
        · simp [fed_mgr_job_start, hfed, hlocal, hsome, h0]
        · simp [fed_mgr_job_start, hfed, hlocal, hsome, h0, hne]
  · intro ji hsome hl
    have hid := find_fed_job_info_job_id fed_job_list job_ptr.job_id ji hsome
    have hl0 : ¬ ji.cluster_lock = 0 := by omega
    have hres : fed_mgr_job_start env (some fed) fed_job_list job_ptr start_time
        = some ⟨SLURM_SUCCESS,
            { job_ptr with
              fed_details := some { fd with cluster_lock := P,
                                            siblings_active := FED_SIBLING_BIT P } },
            _set_fed_job_info fed_job_list job_ptr.job_id
              { ji with siblings_active := FED_SIBLING_BIT P },
            if ji.siblings_active &&& not64 (FED_SIBLING_BIT P) ≠ 0 then
              _revoke_sibling_jobs env (some fed) job_ptr.job_id P ji.siblings_active
                start_time
            else []⟩ := by
      simp [fed_mgr_job_start, hfed, hlocal, hsome, hl, _fed_job_start_revoke, hfd]
      omega
    refine ⟨_, hres, rfl, ?_, ?_, ?_, ?_⟩
    · rw [hbit]
    · rw [← hbit]
      exact find_set_fed_job_info fed_job_list job_ptr.job_id ji _ hsome hid
    · obtain ⟨pre, post, hl1, _, hset⟩ := set_fed_job_info_split fed_job_list job_ptr.job_id ji
        { ji with siblings_active := FED_SIBLING_BIT P } hsome
      rw [← hbit]
      exact ⟨pre, post, hl1, hset⟩
    · intro hpack
      show (if ji.siblings_active &&& not64 (FED_SIBLING_BIT P) ≠ 0 then
              _revoke_sibling_jobs env (some fed) job_ptr.job_id P ji.siblings_active
                start_time
            else []) = _
      by_cases hz : ji.siblings_active &&& not64 (FED_SIBLING_BIT P) = 0
      · rw [if_neg (not_not.mpr hz), revoke_targets_spec_nil fed P P _ hP1 hP64 hz]
        rfl
      · rw [if_pos hz, revoke_sibling_jobs_eq_spec env fed _ _ _ _ hpack, hlocal]

/-- Witness for C5: cluster 1 is the origin of job 67108869, holds its lock and
starts it while clusters 1, 2 and 3 are active. -/
theorem fed_mgr_job_start_on_origin_witness :
    ∃ r, fed_mgr_job_start example_env (some (example_fed 0)) [example_job_info 1 7 7]
          (example_job 0 7 7) 500 = some r ∧
      r.rc = SLURM_SUCCESS ∧
      r.job_ptr = example_job 1 1 7 ∧
      _find_fed_job_info r.fed_job_list 67108869 = some (example_job_info 1 1 7) ∧
      r.queued = (revoke_targets_spec (example_fed 0) 1 1 7).map
        (revoke_rpc_spec example_env 67108869 0 500) :=
  match (fed_mgr_job_start_on_origin example_env (example_fed 0) [example_job_info 1 7 7]
      (example_job 0 7 7) 500 1 ⟨0, 7, 7⟩ (by decide) (by decide) (by decide) (by decide)
      rfl).2 (example_job_info 1 7 7) (by decide) rfl with
  | ⟨r, h1, h2, h3, h4, _, h6⟩ => ⟨r, h1, h2, h3, h4, h6 rfl⟩

/-- The start of C5's witness, evaluated: the REVOKE goes to clusters 2 and 3,
in this order. -/
theorem fed_mgr_job_start_example :
    (fed_mgr_job_start example_env (some (example_fed 0)) [example_job_info 1 7 7]
        (example_job 0 7 7) 500).map (fun r => r.queued.map (fun q => q.cluster.fed_id))
      = some [2, 3] ∧
    (fed_mgr_job_start example_env (some (example_fed 0)) [example_job_info 1 7 7]
        (example_job 0 7 7) 500).map
        (fun r => r.queued.map (fun q =>
          (q.agent_rec.buffer.data.sib_msg_type, q.agent_rec.buffer.data.return_code,
            q.agent_rec.buffer.data.start_time)))
      = some [(FED_JOB_COMPLETE, 0, 500), (FED_JOB_COMPLETE, 0, 500)] := by
  decide

/-! ## The START handler -/

theorem find_job_record_job_id (job_list : List job_record) (job_id : Nat)
    (job_ptr : job_record) (h : find_job_record job_list job_id = some job_ptr) :
    job_ptr.job_id = job_id := by
  have := List.find?_some h
  simpa using this

/-- Looking a job record up after it was written back finds the new record. -/
theorem find_set_job_record (job_list : List job_record) (job_id : Nat)
    (old new : job_record) (h : find_job_record job_list job_id = some old)
    (hid : new.job_id = job_id) :
    find_job_record (set_job_record job_list job_id new) job_id = some new := by
  obtain ⟨hold, pre, post, hl, hpre⟩ := find_split _ job_list old h
  unfold find_job_record set_job_record
  rw [hl, list_modify_first_append _ _ pre post old hpre hold]
  exact find_append_first _ pre post new hpre (by simp [hid])

/-- Unless the requeue table matches, `fed_mgr_job_revoke` leaves the job id
and the federation details of the job alone. -/
theorem fed_mgr_job_revoke_keeps_fed_details (env : Env) (fed : Option Fed)
    (job_ptr : job_record) (job_complete : Bool) (exit_code : Nat) (start_time : Int)
    (hreq : env.job_hold_requeue { job_ptr with exit_code := exit_code } = false) :
    (fed_mgr_job_revoke env fed job_ptr job_complete exit_code start_time).1.job_id
      = job_ptr.job_id ∧
    (fed_mgr_job_revoke env fed job_ptr job_complete exit_code start_time).1.fed_details
      = job_ptr.fed_details := by
  unfold fed_mgr_job_revoke
  by_cases hc : env.IS_JOB_COMPLETED job_ptr.job_state = true
  · simp [hc]
  · simp only [hc]
    cases fed with
    | none => simp
    | some f =>
      cases hfj : _is_fed_job (some f) job_ptr with
      | none => simp
      | some origin_id =>
        simp only [hreq]
        cases job_complete <;> simp

/-- On the origin cluster `fed_mgr_job_revoke` never purges the job record. -/
theorem fed_mgr_job_revoke_no_purge_on_origin (env : Env) (fed : Fed)
    (job_ptr : job_record) (job_complete : Bool) (exit_code : Nat) (start_time : Int)
    (horigin : fed_mgr_get_cluster_id job_ptr.job_id = (fed_mgr_cluster_rec fed).fed_id) :
    (fed_mgr_job_revoke env (some fed) job_ptr job_complete exit_code start_time).2
      = false := by
  unfold fed_mgr_job_revoke
  by_cases hc : env.IS_JOB_COMPLETED job_ptr.job_state = true
  · simp [hc]
  · simp only [hc]
    cases hfj : _is_fed_job (some fed) job_ptr with
    | none => simp
    | some origin_id =>
      have ho : origin_id = (fed_mgr_cluster_rec fed).fed_id := by
        unfold _is_fed_job at hfj
        cases hfd : job_ptr.fed_details with
        | none => simp [hfd] at hfj
        | some fd =>
          simp only [hfd] at hfj
          by_cases h0 : fed_mgr_get_cluster_id job_ptr.job_id = 0
          · simp [h0] at hfj
          · simp only [if_neg h0, Option.some.injEq] at hfj
            rw [← hfj, horigin]
      by_cases hr : env.job_hold_requeue { job_ptr with exit_code := exit_code } = true
      · simp [hr]
      · simp [hr, ho]

/-- C6 (counterexample): on the origin (cluster 1) the lock of job 67108869 is
recorded for cluster 2 and a START message arrives that names cluster 3 as lock
holder.  After `_handle_fed_job_start` the `fed_job_info_t` still has
`cluster_lock = 2` and `siblings_active` is the bit of cluster 2, not of the
`lockHolder` 3 of the message; the job's `fed_details` say the same. -/
theorem handle_fed_job_start_ignores_message_lock_holder :
    (_q_sib_job_start (example_start_msg 3)).cluster_lock = 3 ∧
    (_handle_fed_job_start example_env (example_fed 0)
        (example_state (example_job 0 7 7) (example_job_info 2 7 7))
        (_q_sib_job_start (example_start_msg 3))).bind
        (fun s => _find_fed_job_info s.fed_job_list 67108869)
      = some (example_job_info 2 2 7) ∧
    ((_handle_fed_job_start example_env (example_fed 0)
        (example_state (example_job 0 7 7) (example_job_info 2 7 7))
        (_q_sib_job_start (example_start_msg 3))).bind
        (fun s => find_job_record s.job_list 67108869)).bind (fun j => j.fed_details)
      = some { cluster_lock := 2, siblings_active := 2, siblings_viable := 7 } ∧
    (example_job_info 2 2 7).cluster_lock ≠ 3 ∧
    (example_job_info 2 2 7).siblings_active ≠ FED_SIBLING_BIT 3 := by
  decide

/-- The START handler on the origin cluster, for a job whose `fed_job_info_t`
records `cluster_lock = L` with `1 ≤ L ≤ MAX_FED_CLUSTERS`: it returns, leaves
`cluster_lock = L` and sets `siblings_active = 1 << (L - 1)` in the
`fed_job_info_t`, and (the requeue table not matching) records the same lock
and bitmap in the job's federation details. -/
theorem handle_fed_job_start_at_origin (env : Env) (fed : Fed)
    (s : ctld_state) (job_update_info : fed_job_update_info_t) (job_ptr : job_record)
    (fd : job_fed_details_t) (ji : fed_job_info_t) (L : Nat)
    (hjob : find_job_record s.job_list job_update_info.job_id = some job_ptr)
    (hfd : job_ptr.fed_details = some fd)
    (hinfo : _find_fed_job_info s.fed_job_list job_update_info.job_id = some ji)
    (horigin : fed_mgr_get_cluster_id job_update_info.job_id
      = (fed_mgr_cluster_rec fed).fed_id)
    (hL : ji.cluster_lock = L) (hL1 : 1 ≤ L) (hL2 : L ≤ MAX_FED_CLUSTERS) :
    ∃ s', _handle_fed_job_start env fed s job_update_info = some s' ∧
      _find_fed_job_info s'.fed_job_list job_update_info.job_id
        = some { ji with siblings_active := 1 <<< (L - 1) } ∧
      ((∀ j, env.job_hold_requeue j = false) →
        ∃ job', find_job_record s'.job_list job_update_info.job_id = some job' ∧
          job'.fed_details
            = some { fd with cluster_lock := L, siblings_active := 1 <<< (L - 1) }) := by
  have hL64 : L ≤ 64 := by unfold MAX_FED_CLUSTERS at hL2; omega
  have hbit : FED_SIBLING_BIT L = 1 <<< (L - 1) := by
    rw [FED_SIBLING_BIT_eq L hL1 hL64, Nat.one_shiftLeft]
  have hjid := find_job_record_job_id s.job_list job_update_info.job_id job_ptr hjob
  have hiid := find_fed_job_info_job_id s.fed_job_list job_update_info.job_id ji hinfo
  have hstart : _fed_job_start_revoke env (some fed) ji job_ptr job_update_info.start_time
      = some ({ ji with siblings_active := FED_SIBLING_BIT L },
          { job_ptr with
            fed_details := some { fd with cluster_lock := L,
                                          siblings_active := FED_SIBLING_BIT L } },
          if ji.siblings_active &&& not64 (FED_SIBLING_BIT L) ≠ 0 then
            _revoke_sibling_jobs env (some fed) job_ptr.job_id L ji.siblings_active
              job_update_info.start_time
          else []) := by
    simp only [_fed_job_start_revoke, hfd, hL]
  have hfi : _find_fed_job_info
      (_set_fed_job_info s.fed_job_list job_update_info.job_id
        { ji with siblings_active := FED_SIBLING_BIT L }) job_update_info.job_id
      = some { ji with siblings_active := 1 <<< (L - 1) } := by
    rw [← hbit]
    exact find_set_fed_job_info s.fed_job_list job_update_info.job_id ji _ hinfo hiid
  have hfj : find_job_record
      (set_job_record s.job_list job_update_info.job_id
        { job_ptr with
          fed_details := some { fd with cluster_lock := L,
                                        siblings_active := FED_SIBLING_BIT L } })
      job_update_info.job_id
      = some { job_ptr with
          fed_details := some { fd with cluster_lock := L,
                                        siblings_active := FED_SIBLING_BIT L } } :=
    find_set_job_record s.job_list job_update_info.job_id job_ptr _ hjob hjid
  by_cases hloc : L = (fed_mgr_cluster_rec fed).fed_id
  · -- the origin itself holds the lock: no revoke of the tracking job
    refine ⟨{ job_list := set_job_record s.job_list job_update_info.job_id
                { job_ptr with
                  fed_details := some { fd with cluster_lock := L,
                                                siblings_active := FED_SIBLING_BIT L } },
              fed_job_list := _set_fed_job_info s.fed_job_list job_update_info.job_id
                { ji with siblings_active := FED_SIBLING_BIT L },
              send_rpc := s.send_rpc ++
                (if ji.siblings_active &&& not64 (FED_SIBLING_BIT L) ≠ 0 then
                  _revoke_sibling_jobs env (some fed) job_ptr.job_id L ji.siblings_active
                    job_update_info.start_time
                else []) }, ?_, hfi, ?_⟩
    · simp only [_handle_fed_job_start, hjob, hinfo, hstart]
      rw [if_neg (by rw [hL]; exact not_not.mpr hloc)]
    · intro _
      exact ⟨_, hfj, by rw [hbit]⟩
  · -- a peer holds the lock: the origin's tracking job is revoked, not purged
    have hnp := fed_mgr_job_revoke_no_purge_on_origin env fed
      { job_ptr with
        fed_details := some { fd with cluster_lock := L,
                                      siblings_active := FED_SIBLING_BIT L } }
      false 0 job_update_info.start_time (by
        show fed_mgr_get_cluster_id job_ptr.job_id = _
        rw [hjid]; exact horigin)
    refine ⟨{ job_list := set_job_record
                (set_job_record s.job_list job_update_info.job_id
                  { job_ptr with
                    fed_details := some { fd with cluster_lock := L,
                                                  siblings_active := FED_SIBLING_BIT L } })
                job_update_info.job_id
                (fed_mgr_job_revoke env (some fed)
                  { job_ptr with
                    fed_details := some { fd with cluster_lock := L,
                                                  siblings_active := FED_SIBLING_BIT L } }
                  false 0 job_update_info.start_time).1,
              fed_job_list := _set_fed_job_info s.fed_job_list job_update_info.job_id
                { ji with siblings_active := FED_SIBLING_BIT L },
              send_rpc := s.send_rpc ++
                (if ji.siblings_active &&& not64 (FED_SIBLING_BIT L) ≠ 0 then
                  _revoke_sibling_jobs env (some fed) job_ptr.job_id L ji.siblings_active
                    job_update_info.start_time
                else []) }, ?_, ?_, ?_⟩
    · simp only [_handle_fed_job_start, hjob, hinfo, hstart]
      rw [if_pos (by rw [hL]; exact hloc)]
      simp only [hnp]
      rfl
    · exact hfi
    · intro hreq
      obtain ⟨k1, k2⟩ := fed_mgr_job_revoke_keeps_fed_details env (some fed)
        { job_ptr with
          fed_details := some { fd with cluster_lock := L,
                                        siblings_active := FED_SIBLING_BIT L } }
        false 0 job_update_info.start_time (hreq _)
      refine ⟨_, find_set_job_record _ job_update_info.job_id _ _ hfj ?_, ?_⟩
      · rw [k1]; exact hjid
      · rw [k2, hbit]

/-- C6 (amended): handling a queued START update at the origin declares the
cluster recorded in the `fed_job_info_t` by the preceding lock grant the owner,
whatever `lockHolder` the message carries: with `cluster_lock = L` recorded
(`1 ≤ L ≤ MAX_FED_CLUSTERS`) the handler returns, the `fed_job_info_t` keeps
`cluster_lock = L` and gets `siblings_active = 1 << (L - 1)`, and (the requeue
table not matching) the job's `fed_details` get the same `cluster_lock` and
`siblings_active`.  This is the outcome for the message's `lockHolder` exactly
when the message names the recorded lock holder. -/
theorem handle_fed_job_start_declares_recorded_lock_holder (env : Env) (fed : Fed)
    (s : ctld_state) (job_update_info : fed_job_update_info_t) (job_ptr : job_record)
    (fd : job_fed_details_t) (ji : fed_job_info_t) (L : Nat)
    (hjob : find_job_record s.job_list job_update_info.job_id = some job_ptr)
    (hfd : job_ptr.fed_details = some fd)
    (hinfo : _find_fed_job_info s.fed_job_list job_update_info.job_id = some ji)
    (horigin : fed_mgr_get_cluster_id job_update_info.job_id
      = (fed_mgr_cluster_rec fed).fed_id)
    (hL : ji.cluster_lock = L) (hL1 : 1 ≤ L) (hL2 : L ≤ MAX_FED_CLUSTERS) :
    ∃ s', _handle_fed_job_start env fed s job_update_info = some s' ∧
      _find_fed_job_info s'.fed_job_list job_update_info.job_id
        = some { ji with siblings_active := 1 <<< (L - 1) } ∧
      ((∀ j, env.job_hold_requeue j = false) →
        ∃ job', find_job_record s'.job_list job_update_info.job_id = some job' ∧
          job'.fed_details
            = some { fd with cluster_lock := L, siblings_active := 1 <<< (L - 1) }) :=
  handle_fed_job_start_at_origin env fed s job_update_info job_ptr fd ji L hjob hfd hinfo
    horigin hL hL1 hL2

/-- Witness for C6 (amended): the START message of the counterexample. -/
theorem handle_fed_job_start_declares_recorded_lock_holder_witness :
    ∃ s', _handle_fed_job_start example_env (example_fed 0)
          (example_state (example_job 0 7 7) (example_job_info 2 7 7))
          (_q_sib_job_start (example_start_msg 3)) = some s' ∧
      _find_fed_job_info s'.fed_job_list 67108869 = some (example_job_info 2 2 7) ∧
      ((∀ j, example_env.job_hold_requeue j = false) →
        ∃ job', find_job_record s'.job_list 67108869 = some job' ∧
          job'.fed_details
            = some { cluster_lock := 2, siblings_active := 2, siblings_viable := 7 }) :=
  handle_fed_job_start_declares_recorded_lock_holder example_env (example_fed 0)
    (example_state (example_job 0 7 7) (example_job_info 2 7 7))
    (_q_sib_job_start (example_start_msg 3)) (example_job 0 7 7) ⟨0, 7, 7⟩
    (example_job_info 2 7 7) 2 (by decide) rfl (by decide) (by decide) rfl (by decide)
    (by decide)

/-! ## Sibling bits as sets -/

theorem sibling_bit_cases (x : Nat) :
    FED_SIBLING_BIT x = 0 ∨ ∃ m, m < 64 ∧ FED_SIBLING_BIT x = 2 ^ m := by
  unfold FED_SIBLING_BIT
  rw [Nat.one_shiftLeft]
  by_cases h : x - 1 < 64
  · right
    exact ⟨x - 1, h, Nat.mod_eq_of_lt (Nat.pow_lt_pow_right (by decide) h)⟩
  · left
    have h64 : 64 ≤ x - 1 := by omega
    obtain ⟨d, hd⟩ := Nat.exists_eq_add_of_le h64
    rw [hd, Nat.pow_add]
    exact Nat.mul_mod_right _ _

theorem and_two_pow_ne_zero (a m : Nat) (h : a &&& 2 ^ m ≠ 0) : a.testBit m = true := by
  by_contra hm
  apply h
  apply Nat.eq_of_testBit_eq
  intro i
  rw [Nat.testBit_and, Nat.testBit_two_pow, Nat.zero_testBit]
  by_cases hi : m = i
  · subst hi
    simp [hm]
  · simp [hi]

theorem and_two_pow_eq_zero (a m : Nat) (h : a &&& 2 ^ m = 0) : a.testBit m = false := by
  have := congrArg (fun n => n.testBit m) h
  simp only [Nat.testBit_and, Nat.testBit_two_pow_self, Nat.zero_testBit, Bool.and_true] at this
  exact this

/-- A sibling bit that meets a bitmap lies inside it. -/
theorem sibling_bit_subset_of_and_ne_zero (a x k : Nat) (h : a &&& FED_SIBLING_BIT x ≠ 0)
    (hk : (FED_SIBLING_BIT x).testBit k = true) : a.testBit k = true := by
  rcases sibling_bit_cases x with h0 | ⟨m, _, hm⟩
  · rw [h0] at hk; simp at hk
  · rw [hm] at h hk
    rw [Nat.testBit_two_pow] at hk
    have : m = k := by simpa using hk
    subst this
    exact and_two_pow_ne_zero a m h

/-- A bitmap that meets the sibling bit of an id `x ≥ 1` has bit `x - 1` set,
and `x` is at most 64. -/
theorem and_sibling_bit_ne_zero (a x : Nat) (hx : 1 ≤ x) (h : a &&& FED_SIBLING_BIT x ≠ 0) :
    1 ≤ x ∧ x ≤ 64 ∧ a.testBit (x - 1) = true := by
  have h64 : x ≤ 64 := by
    by_contra hgt
    apply h
    have : FED_SIBLING_BIT x = 0 := by
      unfold FED_SIBLING_BIT
      rw [Nat.one_shiftLeft]
      obtain ⟨d, hd⟩ := Nat.exists_eq_add_of_le (show 64 ≤ x - 1 by omega)
      rw [hd, Nat.pow_add]
      exact Nat.mul_mod_right _ _
    rw [this, Nat.and_zero]
  refine ⟨hx, h64, ?_⟩
  rw [FED_SIBLING_BIT_eq x hx h64] at h
  exact and_two_pow_ne_zero a (x - 1) h

/-- A sibling bit has no bit at position 64 or above. -/
theorem sibling_bit_testBit_lt (x k : Nat) (hk : (FED_SIBLING_BIT x).testBit k = true) :
    k < 64 := by
  by_contra h
  have hlt := FED_SIBLING_BIT_lt x
  have : (FED_SIBLING_BIT x).testBit k = false :=
    Nat.testBit_lt_two_pow (lt_of_lt_of_le hlt (Nat.pow_le_pow_right (by decide) (by omega)))
  rw [this] at hk
  cases hk

/-! ## Submitting sibling jobs -/

theorem submit_sibling_jobs_loop_spec (env : Env) (fed : Fed) (sib_msg : sib_msg_t)
    (alloc_only : Bool) (dest_sibs : Nat) (l : List slurmdb_cluster_rec_t) :
    ∀ (idx : Nat) (acc : submit_result),
      (_submit_sibling_jobs_loop env fed sib_msg alloc_only dest_sibs l idx acc).job_desc
        = { acc.job_desc with
            fed_siblings_active :=
              (_submit_sibling_jobs_loop env fed sib_msg alloc_only dest_sibs l idx
                acc).job_desc.fed_siblings_active } ∧
      (∀ k, acc.job_desc.fed_siblings_active.testBit k = true →
        (_submit_sibling_jobs_loop env fed sib_msg alloc_only dest_sibs l idx
          acc).job_desc.fed_siblings_active.testBit k = true) ∧
      (∀ k, (_submit_sibling_jobs_loop env fed sib_msg alloc_only dest_sibs l idx
          acc).job_desc.fed_siblings_active.testBit k = true →
        acc.job_desc.fed_siblings_active.testBit k = true ∨ dest_sibs.testBit k = true) := by
  induction l with
  | nil =>
    intro idx acc
    exact ⟨rfl, fun k h => h, fun k h => Or.inl h⟩
  | cons sibling rest ih =>
    intro idx acc
    rw [_submit_sibling_jobs_loop]
    by_cases h1 : idx = fed.local_idx
    · rw [if_pos h1]; exact ih _ _
    · rw [if_neg h1]
      by_cases h2 : dest_sibs &&& FED_SIBLING_BIT sibling.fed_id = 0
      · rw [if_pos h2]; exact ih _ _
      · rw [if_neg h2]
        by_cases h3 : acc.job_desc.fed_siblings_active &&& FED_SIBLING_BIT sibling.fed_id ≠ 0
        · rw [if_pos h3]; exact ih _ _
        · rw [if_neg h3]
          by_cases h4 : (_queue_rpc env sibling
              { msg_type := env.REQUEST_SIB_MSG,
                data := { sib_msg with
                  sib_msg_type :=
                    if alloc_only then FED_JOB_SUBMIT_INT else FED_JOB_SUBMIT_BATCH } }
              0).1 = SLURM_SUCCESS
          · simp only [h4, if_true]
            obtain ⟨i1, i2, i3⟩ := ih (idx + 1)
              { ret_rc := acc.ret_rc,
                job_desc := { acc.job_desc with
                  fed_siblings_active :=
                    acc.job_desc.fed_siblings_active ||| FED_SIBLING_BIT sibling.fed_id },
                queued := acc.queued ++ (_queue_rpc env sibling
                  { msg_type := env.REQUEST_SIB_MSG,
                    data := { sib_msg with
                      sib_msg_type :=
                        if alloc_only then FED_JOB_SUBMIT_INT else FED_JOB_SUBMIT_BATCH } }
                  0).2 }
            refine ⟨?_, ?_, ?_⟩
            · rw [i1]
            · intro k hk
              apply i2
              show (acc.job_desc.fed_siblings_active ||| FED_SIBLING_BIT sibling.fed_id).testBit k
                = true
              rw [Nat.testBit_or, hk]; rfl
            · intro k hk
              rcases i3 k hk with h | h
              · have h' : (acc.job_desc.fed_siblings_active
                    ||| FED_SIBLING_BIT sibling.fed_id).testBit k = true := h
                rw [Nat.testBit_or] at h'
                rcases Bool.or_eq_true _ _ |>.mp h' with a | b
                · exact Or.inl a
                · exact Or.inr (sibling_bit_subset_of_and_ne_zero dest_sibs _ k h2 b)
              · exact Or.inr h
          · simp only [h4, if_false]
            exact ih _ _

/-- The function `_submit_sibling_jobs` changes nothing of the descriptor but
`fed_siblings_active`, which only grows, and only by bits of `dest_sibs`. -/
theorem submit_sibling_jobs_spec (env : Env) (fed : Fed) (job_desc : job_desc_msg_t)
    (msg : job_msg_t) (alloc_only : Bool) (dest_sibs : Nat) :
    (_submit_sibling_jobs env fed job_desc msg alloc_only dest_sibs).job_desc
      = { job_desc with
          fed_siblings_active :=
            (_submit_sibling_jobs env fed job_desc msg alloc_only
              dest_sibs).job_desc.fed_siblings_active } ∧
    (∀ k, job_desc.fed_siblings_active.testBit k = true →
      (_submit_sibling_jobs env fed job_desc msg alloc_only
        dest_sibs).job_desc.fed_siblings_active.testBit k = true) ∧
    (∀ k, (_submit_sibling_jobs env fed job_desc msg alloc_only
        dest_sibs).job_desc.fed_siblings_active.testBit k = true →
      job_desc.fed_siblings_active.testBit k = true ∨ dest_sibs.testBit k = true) :=
  submit_sibling_jobs_loop_spec env fed _ alloc_only dest_sibs fed.cluster_list 0
    { ret_rc := SLURM_SUCCESS, job_desc := job_desc, queued := [] }

theorem job_record_fed_details_eta (job_ptr : job_record) (fd : job_fed_details_t)
    (hfd : job_ptr.fed_details = some fd) :
    job_ptr = { job_ptr with
      fed_details := some { fd with siblings_active := fd.siblings_active } } := by
  cases job_ptr
  simp only at hfd
  subst hfd
  rfl

/-- The function `_prepare_submit_siblings` on a job with federation details
returns, changes nothing of the job record but `siblings_active`, which only
grows; with a descriptor that copies the job's bitmaps, it grows only by bits of
`dest_sibs` or of `siblings_viable`. -/
theorem prepare_submit_siblings_spec (env : Env) (fed : Fed) (job_ptr : job_record)
    (dest_sibs : Nat) (fd : job_fed_details_t) (hfd : job_ptr.fed_details = some fd) :
    ∃ rc A q,
      _prepare_submit_siblings env (some fed) job_ptr dest_sibs
        = some (rc, { job_ptr with fed_details := some { fd with siblings_active := A } }, q) ∧
      (∀ k, fd.siblings_active.testBit k = true → A.testBit k = true) ∧
      ((∀ d, env.copy_job_record_to_job_desc job_ptr = some d →
          d.fed_siblings_active = fd.siblings_active ∧
          d.fed_siblings_viable = fd.siblings_viable) →
        ∀ k, A.testBit k = true →
          fd.siblings_active.testBit k = true ∨ dest_sibs.testBit k = true ∨
            fd.siblings_viable.testBit k = true) := by
  unfold _prepare_submit_siblings
  cases hfj : _is_fed_job (some fed) job_ptr with
  | none =>
    refine ⟨SLURM_SUCCESS, fd.siblings_active, [], ?_, fun k h => h, fun _ k h => Or.inl h⟩
    simp only
    rw [← job_record_fed_details_eta job_ptr fd hfd]
  | some origin_id =>
    simp only
    cases hcp : env.copy_job_record_to_job_desc job_ptr with
    | none =>
      refine ⟨SLURM_ERROR, fd.siblings_active, [], ?_, fun k h => h, fun _ k h => Or.inl h⟩
      simp only
      rw [← job_record_fed_details_eta job_ptr fd hfd]
    | some job_desc =>
      simp only [hfd]
      obtain ⟨s1, s2, s3⟩ := submit_sibling_jobs_spec env fed job_desc
        { msg_type := env.REQUEST_RESOURCE_ALLOCATION,
          protocol_version := env.SLURM_PROTOCOL_VERSION, body_offset := 0,
          buffer := some job_desc } false dest_sibs
      refine ⟨SLURM_SUCCESS, _, _, rfl, ?_, ?_⟩
      · intro k hk
        rw [Nat.testBit_or, hk]; rfl
      · intro hcopy k hk
        obtain ⟨c1, c2⟩ := hcopy job_desc rfl
        rw [Nat.testBit_or] at hk
        rcases Bool.or_eq_true _ _ |>.mp hk with a | b
        · exact Or.inl a
        · have hv : (_submit_sibling_jobs env fed job_desc
              { msg_type := env.REQUEST_RESOURCE_ALLOCATION,
                protocol_version := env.SLURM_PROTOCOL_VERSION, body_offset := 0,
                buffer := some job_desc } false dest_sibs).job_desc.fed_siblings_viable
              = fd.siblings_viable := by
            rw [s1]; exact c2
          have hsub : ∀ k, (_submit_sibling_jobs env fed job_desc
              { msg_type := env.REQUEST_RESOURCE_ALLOCATION,
                protocol_version := env.SLURM_PROTOCOL_VERSION, body_offset := 0,
                buffer := some job_desc } false dest_sibs).job_desc.fed_siblings_active.testBit k
                = true →
              fd.siblings_active.testBit k = true ∨ dest_sibs.testBit k = true := by
            intro k hk
            rcases s3 k hk with h | h
            · left; rw [← c1]; exact h
            · right; exact h
          rw [hv] at b
          by_cases hloc : fd.siblings_viable &&&
              FED_SIBLING_BIT (fed_mgr_cluster_rec fed).fed_id ≠ 0
          · rw [if_pos hloc, Nat.testBit_or] at b
            rcases Bool.or_eq_true _ _ |>.mp b with b1 | b2
            · rcases hsub k b1 with h | h
              · exact Or.inl h
              · exact Or.inr (Or.inl h)
            · exact Or.inr (Or.inr
                (sibling_bit_subset_of_and_ne_zero fd.siblings_viable _ k hloc b2))
          · rw [if_neg hloc] at b
            rcases hsub k b with h | h
            · exact Or.inl h
            · exact Or.inr (Or.inl h)

/-! ## The delta update -/

theorem add_remove_rem_sibs_spec (env : Env) (fed : Fed) (job_ptr : job_record)
    (origin_id rem_sibs : Nat) (now : Int) (fd : job_fed_details_t)
    (hfd : job_ptr.fed_details = some fd) (hreq : no_requeue_hold env) :
    ∃ J q, _add_remove_rem_sibs env fed job_ptr origin_id rem_sibs now = some (J, q) ∧
      J.job_id = job_ptr.job_id ∧
      J.fed_details = some { fd with
        siblings_active :=
          if rem_sibs ≠ 0 then fd.siblings_active &&& not64 rem_sibs
          else fd.siblings_active } := by
  unfold _add_remove_rem_sibs
  by_cases hrem : rem_sibs ≠ 0
  · simp only [if_pos hrem]
    by_cases hc : fed_mgr_is_origin_job (some fed) job_ptr = true ∧
        rem_sibs &&& FED_SIBLING_BIT origin_id ≠ 0
    · obtain ⟨k1, k2⟩ := fed_mgr_job_revoke_keeps_fed_details env (some fed) job_ptr false 0
        now (hreq _)
      simp only [if_pos hc, k2, hfd]
      exact ⟨_, _, rfl, k1, rfl⟩
    · simp only [if_neg hc, hfd]
      exact ⟨_, _, rfl, rfl, rfl⟩
  · simp only [if_neg hrem]
    refine ⟨_, _, rfl, rfl, ?_⟩
    rw [hfd]

theorem add_remove_add_sibs_spec (env : Env) (fed : Fed) (job_ptr : job_record)
    (add_sibs : Nat) (fd : job_fed_details_t) (hfd : job_ptr.fed_details = some fd) :
    ∃ J q A, _add_remove_add_sibs env fed job_ptr add_sibs = some (J, q) ∧
      J = { job_ptr with fed_details := some { fd with siblings_active := A } } ∧
      (∀ k, fd.siblings_active.testBit k = true → A.testBit k = true) ∧
      (copy_keeps_sibling_bitmaps env →
        ∀ k, A.testBit k = true →
          fd.siblings_active.testBit k = true ∨ fd.siblings_viable.testBit k = true) := by
  unfold _add_remove_add_sibs
  by_cases hc : job_ptr.priority ≠ 0 ∧ add_sibs ≠ 0
  · simp only [if_pos hc, hfd]
    obtain ⟨rc, A, q, hp, hlow, hup⟩ :=
      prepare_submit_siblings_spec env fed job_ptr fd.siblings_viable fd hfd
    rw [hp]
    refine ⟨_, _, A, rfl, rfl, hlow, ?_⟩
    intro hcopy k hk
    rcases hup (fun d hd => hcopy job_ptr d fd hd hfd) k hk with h | h | h
    · exact Or.inl h
    · exact Or.inr h
    · exact Or.inr h
  · simp only [if_neg hc]
    exact ⟨_, _, fd.siblings_active, rfl, job_record_fed_details_eta job_ptr fd hfd,
      fun k h => h, fun _ k h => Or.inl h⟩

theorem add_remove_unrevoke_spec (env : Env) (fed : Fed) (job_ptr : job_record)
    (origin_id add_sibs : Nat) :
    (_add_remove_unrevoke env fed job_ptr origin_id add_sibs).job_id = job_ptr.job_id ∧
    (_add_remove_unrevoke env fed job_ptr origin_id add_sibs).fed_details
      = job_ptr.fed_details := by
  unfold _add_remove_unrevoke
  split <;> exact ⟨rfl, rfl⟩

/-- Bit `k` of `old & ~(~new & old)`: the bits of `old` below 64 that are in
`new`. -/
theorem testBit_and_not_rem (old new k : Nat) :
    (old &&& not64 (not64 new &&& old)).testBit k
      = (old.testBit k && decide (k < 64) && new.testBit k) := by
  rw [Nat.testBit_and, testBit_not64, Nat.testBit_and, testBit_not64]
  by_cases h : k < 64 <;> cases old.testBit k <;> cases new.testBit k <;> simp [h]

theorem testBit_rem_eq_zero (old new k : Nat) (h : not64 new &&& old = 0) (hk : k < 64)
    (ho : old.testBit k = true) : new.testBit k = true := by
  have := congrArg (fun n => n.testBit k) h
  simp only [Nat.testBit_and, testBit_not64, Nat.zero_testBit, ho, hk, decide_True,
    Bool.true_and, Bool.and_true] at this
  simpa using this

/-- The function `_add_remove_sibling_jobs` on a job with details and federation
details, the requeue table not matching: it returns, keeps the job id, sets
`siblings_viable` to the recomputed viable set `new`, keeps every active bit
that is in `new`, and copies both bitmaps into the job's `fed_job_info_t`.  With
`siblings_active` a 64-bit value and a descriptor that copies the bitmaps, the
new `siblings_active` lies inside `new`. -/
theorem add_remove_sibling_jobs_spec (env : Env) (fed : Fed)
    (fed_job_list : List fed_job_info_t) (job_ptr : job_record) (now : Int)
    (fd : job_fed_details_t) (det : job_details)
    (hfd : job_ptr.fed_details = some fd) (hdet : job_ptr.details = some det)
    (hreq : no_requeue_hold env) :
    ∃ r A, _add_remove_sibling_jobs env fed fed_job_list job_ptr now = some r ∧
      r.job_ptr.job_id = job_ptr.job_id ∧
      r.job_ptr.fed_details = some { fd with
        siblings_viable := _get_viable_sibs env fed job_ptr.clusters
          (_validate_cluster_features env (some fed) det.cluster_features).2,
        siblings_active := A } ∧
      (∀ k, k < 64 → fd.siblings_active.testBit k = true →
        (_get_viable_sibs env fed job_ptr.clusters
          (_validate_cluster_features env (some fed) det.cluster_features).2).testBit k = true →
        A.testBit k = true) ∧
      (copy_keeps_sibling_bitmaps env → fd.siblings_active < 2 ^ 64 →
        ∀ k, A.testBit k = true →
          (_get_viable_sibs env fed job_ptr.clusters
            (_validate_cluster_features env (some fed) det.cluster_features).2).testBit k
            = true) ∧
      r.fed_job_list =
        (match _find_fed_job_info fed_job_list job_ptr.job_id with
         | none => fed_job_list
         | some ji => _set_fed_job_info fed_job_list job_ptr.job_id
            { ji with
              siblings_viable := _get_viable_sibs env fed job_ptr.clusters
                (_validate_cluster_features env (some fed) det.cluster_features).2,
              siblings_active := A }) := by
  generalize hnew : _get_viable_sibs env fed job_ptr.clusters
    (_validate_cluster_features env (some fed) det.cluster_features).2 = new
  unfold _add_remove_sibling_jobs
  split
  case h_2 hno => exact absurd hdet (hno fd det hfd)
  rename_i fd' det' h1 h2
  rw [hfd] at h1
  rw [hdet] at h2
  cases h1
  cases h2
  simp only [hnew]
  obtain ⟨J, q1, hA, hJid, hJfd⟩ := add_remove_rem_sibs_spec env fed
    { job_ptr with fed_details := some { fd with siblings_viable := new } }
    (fed_mgr_get_cluster_id job_ptr.job_id) (not64 new &&& fd.siblings_active) now
    { fd with siblings_viable := new } rfl hreq
  rw [hA]
  simp only
  obtain ⟨J', q2, A, hB, hJ', hlow, hup⟩ := add_remove_add_sibs_spec env fed J
    (new &&& not64 fd.siblings_active) _ hJfd
  rw [hB]
  simp only
  obtain ⟨u1, u2⟩ := add_remove_unrevoke_spec env fed J'
    (fed_mgr_get_cluster_id job_ptr.job_id) (new &&& not64 fd.siblings_active)
  have hJ'id : J'.job_id = job_ptr.job_id := by rw [hJ']; exact hJid
  have hJ'fd : J'.fed_details = some { fd with siblings_viable := new, siblings_active := A } := by
    rw [hJ']
  have hUid := u1.trans hJ'id
  have hUfd := u2.trans hJ'fd
  have hupd : _update_fed_job_info_sibs fed_job_list
      (_add_remove_unrevoke env fed J' (fed_mgr_get_cluster_id job_ptr.job_id)
        (new &&& not64 fd.siblings_active))
      = some (match _find_fed_job_info fed_job_list job_ptr.job_id with
              | none => fed_job_list
              | some ji => _set_fed_job_info fed_job_list job_ptr.job_id
                  { ji with siblings_viable := new, siblings_active := A }) := by
    unfold _update_fed_job_info_sibs
    rw [hUid, hUfd]
    cases _find_fed_job_info fed_job_list job_ptr.job_id <;> rfl
  rw [hupd]
  refine ⟨_, A, rfl, hUid, hUfd, ?_, ?_, rfl⟩
  · intro k hk ho hn
    apply hlow
    show (if not64 new &&& fd.siblings_active ≠ 0 then
        fd.siblings_active &&& not64 (not64 new &&& fd.siblings_active)
      else fd.siblings_active).testBit k = true
    split
    · rw [testBit_and_not_rem, ho, hn]; simp [hk]
    · exact ho
  · intro hcopy h64 k hk
    rcases hup hcopy k hk with h | h
    · have h' : (if not64 new &&& fd.siblings_active ≠ 0 then
          fd.siblings_active &&& not64 (not64 new &&& fd.siblings_active)
        else fd.siblings_active).testBit k = true := h
      by_cases hrem : not64 new &&& fd.siblings_active ≠ 0
      · rw [if_pos hrem, testBit_and_not_rem] at h'
        simp only [Bool.and_eq_true] at h'
        exact h'.2
      · rw [if_neg hrem] at h'
        have hk64 : k < 64 := by
          by_contra hge
          have : fd.siblings_active.testBit k = false :=
            Nat.testBit_lt_two_pow
              (lt_of_lt_of_le h64 (Nat.pow_le_pow_right (by decide) (by omega)))
          rw [this] at h'; cases h'
        exact testBit_rem_eq_zero _ _ k (not_not.mp hrem) hk64 h'
    · exact h

/-! ## Reconciliation -/

theorem testBit_and_not64_sibling_bit (a x k : Nat) :
    (a &&& not64 (FED_SIBLING_BIT x)).testBit k
      = (a.testBit k && decide (k < 64) && !(FED_SIBLING_BIT x).testBit k) := by
  rw [Nat.testBit_and, testBit_not64, Bool.and_assoc]

/-- The actions of `_reconcile_fed_job` on a job with federation details `fd`,
the requeue table not matching and signals leaving the federation details
alone: they return, keep the job id and change nothing of the federation
details but `siblings_active`; every active bit other than the sender's
survives; while the job's `cluster_lock` is non-zero no bit is added; and with a
descriptor that copies the bitmaps and a viable sender, every new bit is a
viable one. -/
theorem reconcile_fed_job_actions_spec (env : Env) (fed : Fed) (job_ptr : job_record)
    (fd : job_fed_details_t) (rec_sib : reconcile_sib_t)
    (hfd : job_ptr.fed_details = some fd) (hreq : no_requeue_hold env)
    (hsig : signal_keeps_fed_details env) :
    ∃ J q A, _reconcile_fed_job_actions env fed job_ptr fd rec_sib = some (J, q) ∧
      J.job_id = job_ptr.job_id ∧
      J.fed_details = some { fd with siblings_active := A } ∧
      (∀ k, k < 64 → fd.siblings_active.testBit k = true →
        (FED_SIBLING_BIT rec_sib.sibling_id).testBit k = false → A.testBit k = true) ∧
      (fd.cluster_lock ≠ 0 → ∀ k, A.testBit k = true → fd.siblings_active.testBit k = true) ∧
      (copy_keeps_sibling_bitmaps env →
        (fed_mgr_get_cluster_id job_ptr.job_id ≠ rec_sib.sibling_id →
          fd.siblings_viable &&& FED_SIBLING_BIT rec_sib.sibling_id ≠ 0) →
        ∀ k, A.testBit k = true →
          fd.siblings_active.testBit k = true ∨ fd.siblings_viable.testBit k = true) := by
  have hsame : ∀ J : job_record, J.job_id = job_ptr.job_id → J.fed_details = some fd →
      ∀ q : List queued_rpc, ∃ J' q' A, some (J, q) = some (J', q') ∧
        J'.job_id = job_ptr.job_id ∧
        J'.fed_details = some { fd with siblings_active := A } ∧
        (∀ k, k < 64 → fd.siblings_active.testBit k = true →
          (FED_SIBLING_BIT rec_sib.sibling_id).testBit k = false → A.testBit k = true) ∧
        (fd.cluster_lock ≠ 0 → ∀ k, A.testBit k = true →
          fd.siblings_active.testBit k = true) ∧
        (copy_keeps_sibling_bitmaps env →
          (fed_mgr_get_cluster_id job_ptr.job_id ≠ rec_sib.sibling_id →
            fd.siblings_viable &&& FED_SIBLING_BIT rec_sib.sibling_id ≠ 0) →
          ∀ k, A.testBit k = true →
            fd.siblings_active.testBit k = true ∨ fd.siblings_viable.testBit k = true) := by
    intro J h1 h2 q
    exact ⟨J, q, fd.siblings_active, rfl, h1, h2, fun k _ h _ => h, fun _ k h => h,
      fun _ _ k h => Or.inl h⟩
  have hcleared : ∀ J : job_record, J.job_id = job_ptr.job_id →
      J.fed_details = some { fd with
        siblings_active := fd.siblings_active &&& not64 (FED_SIBLING_BIT rec_sib.sibling_id) } →
      ∀ q : List queued_rpc, ∃ J' q' A, some (J, q) = some (J', q') ∧
        J'.job_id = job_ptr.job_id ∧
        J'.fed_details = some { fd with siblings_active := A } ∧
        (∀ k, k < 64 → fd.siblings_active.testBit k = true →
          (FED_SIBLING_BIT rec_sib.sibling_id).testBit k = false → A.testBit k = true) ∧
        (fd.cluster_lock ≠ 0 → ∀ k, A.testBit k = true →
          fd.siblings_active.testBit k = true) ∧
        (copy_keeps_sibling_bitmaps env →
          (fed_mgr_get_cluster_id job_ptr.job_id ≠ rec_sib.sibling_id →
            fd.siblings_viable &&& FED_SIBLING_BIT rec_sib.sibling_id ≠ 0) →
          ∀ k, A.testBit k = true →
            fd.siblings_active.testBit k = true ∨ fd.siblings_viable.testBit k = true) := by
    intro J h1 h2 q
    have hsub : ∀ k, (fd.siblings_active &&& not64 (FED_SIBLING_BIT rec_sib.sibling_id)).testBit k
        = true → fd.siblings_active.testBit k = true := by
      intro k hk
      rw [testBit_and_not64_sibling_bit] at hk
      simp only [Bool.and_eq_true] at hk
      exact hk.1.1
    refine ⟨J, q, _, rfl, h1, h2, ?_, fun _ k h => hsub k h, fun _ _ k h => Or.inl (hsub k h)⟩
    intro k hk ha hb
    rw [testBit_and_not64_sibling_bit, ha, hb]
    simp [hk]
  unfold _reconcile_fed_job_actions
  simp only
  by_cases horig : fed_mgr_get_cluster_id job_ptr.job_id = rec_sib.sibling_id
  · -- the job originates on the sender
    rw [if_pos horig]
    have hsigJ := hsig { job_ptr with bit_flags := job_ptr.bit_flags ||| env.SIB_JOB_FLUSH }
    cases hfound : List.find? (fun r => r.job_id == job_ptr.job_id) rec_sib.job_info_msg with
    | none => exact hsame _ hsigJ.1 (hsigJ.2.trans hfd) _
    | some remote_job =>
      simp only
      by_cases hc : env.IS_JOB_COMPLETED remote_job.job_state = true
      · rw [if_pos hc]; exact hsame _ hsigJ.1 (hsigJ.2.trans hfd) _
      · rw [if_neg hc]; exact hsame _ rfl hfd _
  · rw [if_neg horig]
    cases hfound : List.find? (fun r => r.job_id == job_ptr.job_id) rec_sib.job_info_msg with
    | none =>
      simp only
      by_cases hl0 : fd.cluster_lock = 0
      · rw [if_pos hl0]
        obtain ⟨rc, A, q, hp, hlow, hup⟩ := prepare_submit_siblings_spec env fed
          { job_ptr with
            fed_details := some { fd with
              siblings_active :=
                fd.siblings_active &&& not64 (FED_SIBLING_BIT rec_sib.sibling_id) } }
          (FED_SIBLING_BIT rec_sib.sibling_id)
          { fd with
            siblings_active :=
              fd.siblings_active &&& not64 (FED_SIBLING_BIT rec_sib.sibling_id) } rfl
        rw [hp]
        refine ⟨_, _, A, rfl, rfl, rfl, ?_, fun h => absurd hl0 h, ?_⟩
        · intro k hk ha hb
          apply hlow
          show (fd.siblings_active &&& not64 (FED_SIBLING_BIT rec_sib.sibling_id)).testBit k
            = true
          rw [testBit_and_not64_sibling_bit, ha, hb]
          simp [hk]
        · intro hcopy hviable k hk
          rcases hup (fun d hd => hcopy _ d _ hd rfl) k hk with h | h | h
          · have h' : (fd.siblings_active
                &&& not64 (FED_SIBLING_BIT rec_sib.sibling_id)).testBit k = true := h
            rw [testBit_and_not64_sibling_bit] at h'
            simp only [Bool.and_eq_true] at h'
            exact Or.inl h'.1.1
          · exact Or.inr (sibling_bit_subset_of_and_ne_zero _ _ k (hviable horig) h)
          · exact Or.inr h
      · rw [if_neg hl0]
        by_cases hls : fd.cluster_lock = rec_sib.sibling_id
        · rw [if_pos hls]
          obtain ⟨k1, k2⟩ := fed_mgr_job_revoke_keeps_fed_details env (some fed)
            { job_ptr with
              fed_details := some { fd with
                siblings_active :=
                  fd.siblings_active &&& not64 (FED_SIBLING_BIT rec_sib.sibling_id) } }
            true 0 job_ptr.start_time (hreq _)
          exact hcleared _ k1 k2 _
        · rw [if_neg hls]
          apply hcleared <;> rfl
    | some remote_job =>
      simp only
      by_cases hls : fd.cluster_lock = rec_sib.sibling_id
      · rw [if_pos hls]
        by_cases hc : env.IS_JOB_COMPLETE remote_job.job_state = true
        · rw [if_pos hc]
          obtain ⟨k1, k2⟩ := fed_mgr_job_revoke_keeps_fed_details env (some fed) job_ptr
            true remote_job.exit_code job_ptr.start_time (hreq _)
          exact hsame _ k1 (k2.trans hfd) _
        · rw [if_neg hc]; exact hsame _ rfl hfd _
      · rw [if_neg hls]
        by_cases hl0 : fd.cluster_lock ≠ 0
        · rw [if_pos hl0]; exact hsame _ rfl hfd _
        · rw [if_neg hl0]
          by_cases hb : fd.siblings_active &&& FED_SIBLING_BIT rec_sib.sibling_id = 0
          · rw [if_pos hb]
            refine ⟨_, _, _, rfl, rfl, rfl, ?_, fun h => absurd h hl0, ?_⟩
            · intro k _ ha _
              rw [Nat.testBit_or, ha]; rfl
            · intro _ hviable k hk
              rw [Nat.testBit_or] at hk
              rcases Bool.or_eq_true _ _ |>.mp hk with a | b
              · exact Or.inl a
              · exact Or.inr (sibling_bit_subset_of_and_ne_zero _ _ k (hviable horig) b)
          · rw [if_neg hb]; exact hsame _ rfl hfd _

theorem fed_job_info_eta_active (ji : fed_job_info_t) (a v : Nat)
    (ha : ji.siblings_active = a) (hv : ji.siblings_viable = v) :
    ({ ji with siblings_viable := v, siblings_active := a } : fed_job_info_t) = ji := by
  cases ji
  simp only at ha hv
  subst ha hv
  rfl

/-- The function `_reconcile_fed_job` on a job whose `fed_job_info_t` carries the
same bitmaps as its federation details (requeue table not matching, signals
leaving the federation details alone): it returns, keeps the job id, changes
nothing of the federation details and of the `fed_job_info_t` but
`siblings_active`, which stays the same in both; the bounds on the new
`siblings_active` are those of `reconcile_fed_job_actions_spec`. -/
theorem reconcile_fed_job_spec (env : Env) (fed : Fed) (fed_job_list : List fed_job_info_t)
    (job_ptr : job_record) (rec_sib : reconcile_sib_t) (fd : job_fed_details_t)
    (ji : fed_job_info_t)
    (hfd : job_ptr.fed_details = some fd)
    (hfind : _find_fed_job_info fed_job_list job_ptr.job_id = some ji)
    (hsa : ji.siblings_active = fd.siblings_active)
    (hsv : ji.siblings_viable = fd.siblings_viable)
    (hreq : no_requeue_hold env) (hsig : signal_keeps_fed_details env) :
    ∃ r A, _reconcile_fed_job env fed fed_job_list job_ptr rec_sib = some r ∧
      r.job_ptr.job_id = job_ptr.job_id ∧
      r.job_ptr.fed_details = some { fd with siblings_active := A } ∧
      _find_fed_job_info r.fed_job_list job_ptr.job_id
        = some { ji with siblings_active := A } ∧
      (∀ k, k < 64 → fd.siblings_active.testBit k = true →
        (FED_SIBLING_BIT rec_sib.sibling_id).testBit k = false → A.testBit k = true) ∧
      (fd.cluster_lock ≠ 0 → ∀ k, A.testBit k = true → fd.siblings_active.testBit k = true) ∧
      (copy_keeps_sibling_bitmaps env →
        ∀ k, A.testBit k = true →
          fd.siblings_active.testBit k = true ∨ fd.siblings_viable.testBit k = true) := by
  have hji : ({ ji with siblings_active := fd.siblings_active } : fed_job_info_t) = ji := by
    have := fed_job_info_eta_active ji fd.siblings_active ji.siblings_viable hsa rfl
    exact this
  have hearly : ∃ r A, some (⟨SLURM_SUCCESS, job_ptr, fed_job_list, []⟩ : job_op_result) = some r ∧
      r.job_ptr.job_id = job_ptr.job_id ∧
      r.job_ptr.fed_details = some { fd with siblings_active := A } ∧
      _find_fed_job_info r.fed_job_list job_ptr.job_id
        = some { ji with siblings_active := A } ∧
      (∀ k, k < 64 → fd.siblings_active.testBit k = true →
        (FED_SIBLING_BIT rec_sib.sibling_id).testBit k = false → A.testBit k = true) ∧
      (fd.cluster_lock ≠ 0 → ∀ k, A.testBit k = true → fd.siblings_active.testBit k = true) ∧
      (copy_keeps_sibling_bitmaps env →
        ∀ k, A.testBit k = true →
          fd.siblings_active.testBit k = true ∨ fd.siblings_viable.testBit k = true) := by
    refine ⟨_, fd.siblings_active, rfl, rfl, hfd, ?_, fun k _ h _ => h, fun _ k h => h,
      fun _ k h => Or.inl h⟩
    rw [hji]; exact hfind
  unfold _reconcile_fed_job
  split
  case h_2 => exact hearly
  rename_i fd' det h1 h2
  rw [hfd] at h1
  cases h1
  by_cases hg : det.submit_time ≥ rec_sib.sync_time ∨
        env.IS_JOB_COMPLETED job_ptr.job_state = true ∨
        env.IS_JOB_COMPLETING job_ptr.job_state = true ∨
        (fed_mgr_get_cluster_id job_ptr.job_id ≠ rec_sib.sibling_id ∧
          (fed_mgr_is_origin_job (some fed) job_ptr = false ∨
            fd.siblings_viable &&& FED_SIBLING_BIT rec_sib.sibling_id = 0))
  · rw [if_pos hg]; exact hearly
  · rw [if_neg hg]
    have hviable : fed_mgr_get_cluster_id job_ptr.job_id ≠ rec_sib.sibling_id →
        fd.siblings_viable &&& FED_SIBLING_BIT rec_sib.sibling_id ≠ 0 := by
      intro ho hz
      exact hg (Or.inr (Or.inr (Or.inr ⟨ho, Or.inr hz⟩)))
    obtain ⟨J, q, A, hact, hJid, hJfd, hlow, hmono, hup⟩ :=
      reconcile_fed_job_actions_spec env fed job_ptr fd rec_sib hfd hreq hsig
    rw [hact]
    have hupd : _update_fed_job_info_sibs fed_job_list J
        = some (_set_fed_job_info fed_job_list job_ptr.job_id
            { ji with siblings_active := A }) := by
      unfold _update_fed_job_info_sibs
      rw [hJid, hfind, hJfd]
      simp only
      have : ({ ji with siblings_viable := fd.siblings_viable, siblings_active := A }
          : fed_job_info_t) = { ji with siblings_active := A } := by
        rw [← hsv]
      rw [this]
    simp only [hupd]
    refine ⟨_, A, rfl, hJid, hJfd, ?_, hlow, hmono, fun hcopy => hup hcopy hviable⟩
    exact find_set_fed_job_info fed_job_list job_ptr.job_id ji _ hfind
      (find_fed_job_info_job_id fed_job_list job_ptr.job_id ji hfind)

/-! ## Steps of a tracked job -/

/-- After `fed_mgr_job_lock_set` the job is still tracked with the same bitmaps,
and its `cluster_lock` is what it was or the requesting cluster. -/
theorem tracked_lock_set (env : Env) (fed : Fed) (job_id : Nat) (s s' : ctld_state)
    (now : Int) (P : Nat) (j : job_record) (fd : job_fed_details_t) (ji : fed_job_info_t)
    (ht : job_tracked s job_id j fd ji)
    (hstep : apply_event env fed job_id s (.lock_set now P) = some s') :
    ∃ ji', job_tracked s' job_id j fd ji' ∧
      ji'.siblings_active = ji.siblings_active ∧
      (ji'.cluster_lock = ji.cluster_lock ∨ ji'.cluster_lock = P) := by
  obtain ⟨t1, t2, t3, t4, t5⟩ := ht
  obtain ⟨h1, h2, h3, h4, _, _, _⟩ := job_has_pending_updates_spec now ji
  have hid := find_fed_job_info_job_id s.fed_job_list job_id ji t3
  simp only [apply_event, Option.some.injEq] at hstep
  subst hstep
  rw [fed_mgr_job_lock_set_found s.fed_job_list now job_id P ji t3]
  have key : ∀ (rc : Int) (x : fed_job_info_t), x.job_id = job_id →
      x.siblings_active = ji.siblings_active → x.siblings_viable = ji.siblings_viable →
      (x.cluster_lock = ji.cluster_lock ∨ x.cluster_lock = P) →
      ∃ ji', job_tracked
          { s with fed_job_list := (rc, _set_fed_job_info s.fed_job_list job_id x).2 }
          job_id j fd ji' ∧
        ji'.siblings_active = ji.siblings_active ∧
        (ji'.cluster_lock = ji.cluster_lock ∨ ji'.cluster_lock = P) := by
    intro rc x hx ha hv hl
    exact ⟨x, ⟨t1, t2, find_set_fed_job_info s.fed_job_list job_id ji x t3 hx,
      ha.trans t4, hv.trans t5⟩, ha, hl⟩
  split
  · exact key _ _ (h2.trans hid) h3 h4 (Or.inl h1)
  · split
    · exact key _ _ (h2.trans hid) h3 h4 (Or.inl h1)
    · exact key _ _ (h2.trans hid) h3 h4 (Or.inr rfl)

/-- After `fed_mgr_job_lock_unset` the job is still tracked with the same
bitmaps, and its `cluster_lock` is what it was or 0. -/
theorem tracked_lock_unset (env : Env) (fed : Fed) (job_id : Nat) (s s' : ctld_state)
    (P : Nat) (j : job_record) (fd : job_fed_details_t) (ji : fed_job_info_t)
    (ht : job_tracked s job_id j fd ji)
    (hstep : apply_event env fed job_id s (.lock_unset P) = some s') :
    ∃ ji', job_tracked s' job_id j fd ji' ∧
      ji'.siblings_active = ji.siblings_active ∧
      (ji'.cluster_lock = ji.cluster_lock ∨ ji'.cluster_lock = 0) := by
  obtain ⟨t1, t2, t3, t4, t5⟩ := ht
  have hid := find_fed_job_info_job_id s.fed_job_list job_id ji t3
  simp only [apply_event, Option.some.injEq] at hstep
  subst hstep
  simp only [fed_mgr_job_lock_unset, t3]
  split
  · exact ⟨ji, ⟨t1, t2, t3, t4, t5⟩, rfl, Or.inl rfl⟩
  · exact ⟨{ ji with cluster_lock := 0 },
      ⟨t1, t2, find_set_fed_job_info s.fed_job_list job_id ji _ t3 hid, t4, t5⟩, rfl,
      Or.inr rfl⟩

/-- On the origin cluster `fed_mgr_job_start` either changes nothing (an error)
or, the local cluster `P` holding the lock, records `cluster_lock = P` and
`siblings_active = FED_SIBLING_BIT(P)`. -/
theorem fed_mgr_job_start_origin_result (env : Env) (fed : Fed)
    (fed_job_list : List fed_job_info_t) (job_ptr : job_record) (start_time : Int)
    (P : Nat) (fd : job_fed_details_t)
    (hlocal : (fed_mgr_cluster_rec fed).fed_id = P)
    (horigin : fed_mgr_get_cluster_id job_ptr.job_id = P) (hP1 : 1 ≤ P)
    (hfd : job_ptr.fed_details = some fd) :
    ∃ r, fed_mgr_job_start env (some fed) fed_job_list job_ptr start_time = some r ∧
      ((r.job_ptr = job_ptr ∧ r.fed_job_list = fed_job_list) ∨
        ∃ ji, _find_fed_job_info fed_job_list job_ptr.job_id = some ji ∧
          ji.cluster_lock = P ∧
          r.job_ptr = { job_ptr with
            fed_details := some { fd with cluster_lock := P,
                                          siblings_active := FED_SIBLING_BIT P } } ∧
          r.fed_job_list = _set_fed_job_info fed_job_list job_ptr.job_id
            { ji with siblings_active := FED_SIBLING_BIT P }) := by
  have hfed := is_fed_job_of_origin fed job_ptr fd P hfd horigin hP1
  cases hfind : _find_fed_job_info fed_job_list job_ptr.job_id with
  | none =>
    exact ⟨⟨SLURM_ERROR, job_ptr, fed_job_list, []⟩,
      by simp [fed_mgr_job_start, hfed, hlocal, hfind], Or.inl ⟨rfl, rfl⟩⟩
  | some ji =>
    by_cases h0 : ji.cluster_lock = 0
    · exact ⟨⟨SLURM_ERROR, job_ptr, fed_job_list, []⟩,
        by simp [fed_mgr_job_start, hfed, hlocal, hfind, h0], Or.inl ⟨rfl, rfl⟩⟩
    · by_cases hne : ji.cluster_lock = P
      · refine ⟨⟨SLURM_SUCCESS,
            { job_ptr with
              fed_details := some { fd with cluster_lock := P,
                                            siblings_active := FED_SIBLING_BIT P } },
            _set_fed_job_info fed_job_list job_ptr.job_id
              { ji with siblings_active := FED_SIBLING_BIT P },
            if ji.siblings_active &&& not64 (FED_SIBLING_BIT P) ≠ 0 then
              _revoke_sibling_jobs env (some fed) job_ptr.job_id P ji.siblings_active
                start_time
            else []⟩, ?_, Or.inr ⟨ji, rfl, hne, rfl, rfl⟩⟩
        simp [fed_mgr_job_start, hfed, hlocal, hfind, hne, _fed_job_start_revoke, hfd]
        omega
      · exact ⟨⟨SLURM_ERROR, job_ptr, fed_job_list, []⟩,
          by simp [fed_mgr_job_start, hfed, hlocal, hfind, h0, hne], Or.inl ⟨rfl, rfl⟩⟩

theorem testBit_FED_SIBLING_BIT_self (P : Nat) (h1 : 1 ≤ P) (h2 : P ≤ MAX_FED_CLUSTERS) :
    (FED_SIBLING_BIT P).testBit (P - 1) = true := by
  rw [testBit_FED_SIBLING_BIT P (P - 1) h1 (by unfold MAX_FED_CLUSTERS at h2; omega)]
  simp
  omega

/-- After `fed_mgr_job_start` on the origin cluster `P` the job is still tracked;
either nothing changed, or the lock is `P` in the `fed_job_info_t` and in the
federation details and `siblings_active` is the bit of `P`. -/
theorem tracked_start (env : Env) (fed : Fed) (job_id : Nat) (s s' : ctld_state)
    (start_time : Int) (P : Nat) (j : job_record) (fd : job_fed_details_t)
    (ji : fed_job_info_t)
    (hlocal : (fed_mgr_cluster_rec fed).fed_id = P)
    (horigin : fed_mgr_get_cluster_id job_id = P) (hP1 : 1 ≤ P)
    (ht : job_tracked s job_id j fd ji)
    (hstep : apply_event env fed job_id s (.start start_time) = some s') :
    ∃ j' fd' ji', job_tracked s' job_id j' fd' ji' ∧
      ji'.cluster_lock = ji.cluster_lock ∧
      ji'.siblings_viable = ji.siblings_viable ∧
      ((fd' = fd ∧ ji' = ji) ∨
        (ji.cluster_lock = P ∧ fd'.cluster_lock = P ∧
          ji'.siblings_active = FED_SIBLING_BIT P)) := by
  obtain ⟨t1, t2, t3, t4, t5⟩ := ht
  have hjid := find_job_record_job_id s.job_list job_id j t1
  have hiid := find_fed_job_info_job_id s.fed_job_list job_id ji t3
  obtain ⟨r, hr, hcases⟩ := fed_mgr_job_start_origin_result env fed s.fed_job_list j
    start_time P fd hlocal (by rw [hjid]; exact horigin) hP1 t2
  simp only [apply_event, t1, hr, Option.map_some', Option.some.injEq] at hstep
  subst hstep
  rcases hcases with ⟨c1, c2⟩ | ⟨ji0, c0, c1, c2, c3⟩
  · refine ⟨j, fd, ji, ⟨?_, t2, ?_, t4, t5⟩, rfl, rfl, Or.inl ⟨rfl, rfl⟩⟩
    · show find_job_record (set_job_record s.job_list job_id r.job_ptr) job_id = some j
      rw [c1]
      exact find_set_job_record s.job_list job_id j j t1 hjid
    · show _find_fed_job_info r.fed_job_list job_id = some ji
      rw [c2]; exact t3
  · rw [hjid, t3] at c0
    cases c0
    refine ⟨r.job_ptr, { fd with cluster_lock := P, siblings_active := FED_SIBLING_BIT P },
      { ji with siblings_active := FED_SIBLING_BIT P }, ⟨?_, ?_, ?_, rfl, t5⟩, rfl, rfl,
      Or.inr ⟨c1, rfl, rfl⟩⟩
    · show find_job_record (set_job_record s.job_list job_id r.job_ptr) job_id = some _
      exact find_set_job_record s.job_list job_id j _ t1 (by rw [c2]; exact hjid)
    · rw [c2]
    · show _find_fed_job_info r.fed_job_list job_id = some _
      rw [c3, hjid]
      exact find_set_fed_job_info s.fed_job_list job_id ji _ t3 hiid

/-- After the START handler on the origin cluster, for a job locked by `L`, the
job is still tracked, the lock is `L` in the `fed_job_info_t` and in the
federation details, and `siblings_active` is the bit of `L`. -/
theorem tracked_start_msg (env : Env) (fed : Fed) (job_id : Nat) (s s' : ctld_state)
    (start_time : Int) (cluster_id : Nat) (j : job_record) (fd : job_fed_details_t)
    (ji : fed_job_info_t)
    (horigin : fed_mgr_get_cluster_id job_id = (fed_mgr_cluster_rec fed).fed_id)
    (hreq : no_requeue_hold env)
    (hL1 : 1 ≤ ji.cluster_lock) (hL2 : ji.cluster_lock ≤ MAX_FED_CLUSTERS)
    (ht : job_tracked s job_id j fd ji)
    (hstep : apply_event env fed job_id s (.start_msg start_time cluster_id) = some s') :
    ∃ j' fd' ji', job_tracked s' job_id j' fd' ji' ∧
      ji'.cluster_lock = ji.cluster_lock ∧ fd'.cluster_lock = ji.cluster_lock ∧
      ji'.siblings_viable = ji.siblings_viable ∧
      ji'.siblings_active = 1 <<< (ji.cluster_lock - 1) := by
  obtain ⟨t1, t2, t3, t4, t5⟩ := ht
  obtain ⟨s1, h1, h2, h3⟩ := handle_fed_job_start_at_origin env fed s
    (_q_sib_job_start
      { sib_msg_zero with
        sib_msg_type := FED_JOB_START, job_id := job_id, cluster_id := cluster_id,
        start_time := start_time })
    j fd ji ji.cluster_lock t1 t2 t3 horigin rfl hL1 hL2
  obtain ⟨job', h4, h5⟩ := h3 hreq
  have hs : s' = s1 := by
    have : apply_event env fed job_id s (.start_msg start_time cluster_id) = some s1 := h1
    rw [this] at hstep
    exact (Option.some.inj hstep).symm
  subst hs
  exact ⟨job', _, _, ⟨h4, h5, h2, rfl, t5⟩, rfl, rfl, rfl, rfl⟩

/-- After the REMOVE_ACTIVE_SIB_BIT handler the job is still tracked with the
same lock and viable set; `siblings_active` is unchanged or has lost the bit of
the peer named in the update. -/
theorem tracked_remove_active_sib_bit (env : Env) (fed : Fed) (job_id : Nat)
    (s s' : ctld_state) (cluster_name : String) (j : job_record) (fd : job_fed_details_t)
    (ji : fed_job_info_t) (ht : job_tracked s job_id j fd ji)
    (hstep : apply_event env fed job_id s (.remove_active_sib_bit cluster_name) = some s') :
    ∃ j' fd' ji', job_tracked s' job_id j' fd' ji' ∧
      ji'.cluster_lock = ji.cluster_lock ∧ fd'.cluster_lock = fd.cluster_lock ∧
      ji'.siblings_viable = ji.siblings_viable ∧
      (ji'.siblings_active = ji.siblings_active ∨
        ∃ sibling, fed_mgr_get_cluster_by_name (some fed) cluster_name = some sibling ∧
          ji'.siblings_active
            = ji.siblings_active &&& not64 (FED_SIBLING_BIT sibling.fed_id)) := by
  obtain ⟨t1, t2, t3, t4, t5⟩ := ht
  have hjid := find_job_record_job_id s.job_list job_id j t1
  have hiid := find_fed_job_info_job_id s.fed_job_list job_id ji t3
  have hjob : find_job_record s.job_list (_q_sib_submit_response job_id cluster_name).job_id
      = some j := t1
  have hinfo : _find_fed_job_info s.fed_job_list
      (_q_sib_submit_response job_id cluster_name).job_id = some ji := t3
  simp only [apply_event, _handle_fed_job_remove_active_sib_bit, hjob, hinfo] at hstep
  cases hsib : fed_mgr_get_cluster_by_name (some fed)
      (_q_sib_submit_response job_id cluster_name).siblings_str with
  | none =>
    rw [hsib] at hstep
    simp only [Option.some.injEq] at hstep
    subst hstep
    exact ⟨j, fd, ji, ⟨t1, t2, t3, t4, t5⟩, rfl, rfl, rfl, Or.inl rfl⟩
  | some sibling =>
    rw [hsib] at hstep
    simp only [t2, Option.some.injEq] at hstep
    subst hstep
    refine ⟨{ j with
        fed_details := some { fd with
          siblings_active :=
            ji.siblings_active &&& not64 (FED_SIBLING_BIT sibling.fed_id) } },
      _, { ji with
        siblings_active := ji.siblings_active &&& not64 (FED_SIBLING_BIT sibling.fed_id) },
      ⟨?_, rfl, ?_, rfl, t5⟩, rfl, rfl, rfl, Or.inr ⟨sibling, hsib, rfl⟩⟩
    · exact find_set_job_record s.job_list job_id j _ t1 hjid
    · exact find_set_fed_job_info s.fed_job_list job_id ji _ t3 hiid

/-- The function `fed_mgr_update_job_clusters` either changes nothing of the job
but its `clusters` string, or is `_add_remove_sibling_jobs` on the job with the
new `clusters` string. -/
theorem update_job_clusters_cases (env : Env) (fed : Fed)
    (fed_job_list : List fed_job_info_t) (job_ptr : job_record) (spec_clusters : String)
    (now : Int) (r : job_op_result)
    (hr : fed_mgr_update_job_clusters env (some fed) fed_job_list job_ptr spec_clusters now
      = some r) :
    (∃ rc j1, r = ⟨rc, j1, fed_job_list, []⟩ ∧ j1.job_id = job_ptr.job_id ∧
        j1.fed_details = job_ptr.fed_details) ∨
    (∃ j1, j1.job_id = job_ptr.job_id ∧ j1.fed_details = job_ptr.fed_details ∧
        _add_remove_sibling_jobs env fed fed_job_list j1 now = some r) := by
  unfold fed_mgr_update_job_clusters at hr
  split at hr
  · rename_i f o fd e1 e2 e3
    cases e1
    by_cases h1 : env.IS_JOB_PENDING job_ptr.job_state = false ∨ fd.cluster_lock ≠ 0
    · rw [if_pos h1] at hr
      exact Or.inl ⟨_, job_ptr, (Option.some.inj hr).symm, rfl, rfl⟩
    · rw [if_neg h1] at hr
      by_cases h2 : (_validate_cluster_names env (some fed) spec_clusters).1 ≠ SLURM_SUCCESS
      · rw [if_pos h2] at hr
        exact Or.inl ⟨_, job_ptr, (Option.some.inj hr).symm, rfl, rfl⟩
      · rw [if_neg h2] at hr
        simp only at hr
        by_cases h3 : fed_mgr_is_origin_job (some fed)
            { job_ptr with
              clusters := if spec_clusters = "" then none else some spec_clusters } = true
        · rw [if_pos h3] at hr
          exact Or.inr ⟨{ job_ptr with
            clusters := if spec_clusters = "" then none else some spec_clusters },
            rfl, rfl, hr⟩
        · rw [if_neg h3] at hr
          exact Or.inl ⟨_, _, (Option.some.inj hr).symm, rfl, rfl⟩
  · exact Or.inl ⟨_, job_ptr, (Option.some.inj hr).symm, rfl, rfl⟩

/-- The function `fed_mgr_update_job_cluster_features` either changes nothing of
the job but its `cluster_features` string, or is `_add_remove_sibling_jobs` on
the job with the new `cluster_features` string. -/
theorem update_job_cluster_features_cases (env : Env) (fed : Fed)
    (fed_job_list : List fed_job_info_t) (job_ptr : job_record) (req_features : String)
    (now : Int) (r : job_op_result)
    (hr : fed_mgr_update_job_cluster_features env (some fed) fed_job_list job_ptr
      req_features now = some r) :
    (∃ rc j1, r = ⟨rc, j1, fed_job_list, []⟩ ∧ j1.job_id = job_ptr.job_id ∧
        j1.fed_details = job_ptr.fed_details) ∨
    (∃ j1, j1.job_id = job_ptr.job_id ∧ j1.fed_details = job_ptr.fed_details ∧
        _add_remove_sibling_jobs env fed fed_job_list j1 now = some r) := by
  unfold fed_mgr_update_job_cluster_features at hr
  split at hr
  · rename_i f o fd e1 e2 e3
    cases e1
    by_cases h1 : env.IS_JOB_PENDING job_ptr.job_state = false ∨ fd.cluster_lock ≠ 0
    · rw [if_pos h1] at hr
      exact Or.inl ⟨_, job_ptr, (Option.some.inj hr).symm, rfl, rfl⟩
    · rw [if_neg h1] at hr
      by_cases h2 : (_validate_cluster_features env (some fed) (some req_features)).1
          ≠ SLURM_SUCCESS
      · rw [if_pos h2] at hr
        exact Or.inl ⟨_, job_ptr, (Option.some.inj hr).symm, rfl, rfl⟩
      · rw [if_neg h2] at hr
        cases hdet : job_ptr.details with
        | none =>
          rw [hdet] at hr
          cases hr
        | some det =>
          rw [hdet] at hr
          simp only at hr
          by_cases h3 : fed_mgr_is_origin_job (some fed)
              { job_ptr with
                details := some { det with
                  cluster_features :=
                    if req_features = "" then none else some req_features } } = true
          · rw [if_pos h3] at hr
            exact Or.inr ⟨{ job_ptr with
              details := some { det with
                cluster_features :=
                  if req_features = "" then none else some req_features } },
              rfl, rfl, hr⟩
          · rw [if_neg h3] at hr
            exact Or.inl ⟨_, _, (Option.some.inj hr).symm, rfl, rfl⟩
  · exact Or.inl ⟨_, job_ptr, (Option.some.inj hr).symm, rfl, rfl⟩

/-- What a job update leaves of a tracked job: the job is still tracked with the
same lock; every active bit below 64 that is viable afterwards is still active;
and either nothing changed, or (with 64-bit bitmaps and a descriptor that copies
them) every active bit is viable afterwards. -/
theorem tracked_update_result (env : Env) (fed : Fed) (job_id : Nat) (s : ctld_state)
    (now : Int) (r : job_op_result) (j : job_record) (fd : job_fed_details_t)
    (ji : fed_job_info_t) (hreq : no_requeue_hold env)
    (ht : job_tracked s job_id j fd ji)
    (hcases : (∃ rc j1, r = ⟨rc, j1, s.fed_job_list, []⟩ ∧ j1.job_id = j.job_id ∧
        j1.fed_details = j.fed_details) ∨
      (∃ j1, j1.job_id = j.job_id ∧ j1.fed_details = j.fed_details ∧
        _add_remove_sibling_jobs env fed s.fed_job_list j1 now = some r)) :
    ∃ j' fd' ji', job_tracked (store_job_op s job_id r) job_id j' fd' ji' ∧
      ji'.cluster_lock = ji.cluster_lock ∧ fd'.cluster_lock = fd.cluster_lock ∧
      (∀ k, k < 64 → ji.siblings_active.testBit k = true →
        ji'.siblings_viable.testBit k = true → ji'.siblings_active.testBit k = true) ∧
      ((fd' = fd ∧ ji' = ji) ∨
        (copy_keeps_sibling_bitmaps env → ji.siblings_active < 2 ^ 64 →
          ∀ k, ji'.siblings_active.testBit k = true →
            ji'.siblings_viable.testBit k = true)) := by
  obtain ⟨t1, t2, t3, t4, t5⟩ := ht
  have hjid := find_job_record_job_id s.job_list job_id j t1
  have hiid := find_fed_job_info_job_id s.fed_job_list job_id ji t3
  rcases hcases with ⟨rc, j1, hr, h1, h2⟩ | ⟨j1, h1, h2, hr⟩
  · subst hr
    refine ⟨j1, fd, ji, ⟨?_, h2.trans t2, t3, t4, t5⟩, rfl, rfl, fun k _ h _ => h,
      Or.inl ⟨rfl, rfl⟩⟩
    exact find_set_job_record s.job_list job_id j j1 t1 (h1.trans hjid)
  · cases hdet : j1.details with
    | none =>
      simp only [_add_remove_sibling_jobs, h2, t2, hdet] at hr
      cases hr
    | some det =>
      obtain ⟨r', A, hr', c1, c2, c3, c4, c5⟩ := add_remove_sibling_jobs_spec env fed
        s.fed_job_list j1 now fd det (h2.trans t2) hdet hreq
      have hrr : r' = r := Option.some.inj (hr'.symm.trans hr)
      subst hrr
      rw [h1, hjid, t3] at c5
      refine ⟨r'.job_ptr,
        { fd with
          siblings_viable := _get_viable_sibs env fed j1.clusters
            (_validate_cluster_features env (some fed) det.cluster_features).2,
          siblings_active := A },
        { ji with
          siblings_viable := _get_viable_sibs env fed j1.clusters
            (_validate_cluster_features env (some fed) det.cluster_features).2,
          siblings_active := A },
        ⟨?_, c2, ?_, rfl, rfl⟩, rfl, rfl, ?_, Or.inr ?_⟩
      · exact find_set_job_record s.job_list job_id j _ t1 (c1.trans (h1.trans hjid))
      · show _find_fed_job_info r'.fed_job_list job_id = some _
        rw [c5]
        exact find_set_fed_job_info s.fed_job_list job_id ji _ t3 hiid
      · intro k hk ha hv
        exact c3 k hk (by rw [← t4]; exact ha) hv
      · intro hcopy h64 k hk
        exact c4 hcopy (by rw [← t4]; exact h64) k hk

/-- After the reconciliation of a tracked job with the job list of a peer
(requeue table not matching, signals leaving the federation details alone) the
job is still tracked with the same lock and viable set; every active bit below
64 other than that of the peer survives; while the job's federation details
carry a lock no bit is added; and with a descriptor that copies the bitmaps
every bit added is a viable one. -/
theorem tracked_sync (env : Env) (fed : Fed) (job_id : Nat) (s s' : ctld_state)
    (sib_name : String) (job_info_msg : List slurm_job_info_t) (sync_time : Int)
    (j : job_record) (fd : job_fed_details_t) (ji : fed_job_info_t)
    (hreq : no_requeue_hold env) (hsig : signal_keeps_fed_details env)
    (ht : job_tracked s job_id j fd ji)
    (hstep : apply_event env fed job_id s (.sync sib_name job_info_msg sync_time) = some s') :
    ∃ j' fd' ji', job_tracked s' job_id j' fd' ji' ∧
      ji'.cluster_lock = ji.cluster_lock ∧ fd'.cluster_lock = fd.cluster_lock ∧
      ji'.siblings_viable = ji.siblings_viable ∧
      (∀ k, k < 64 → ji.siblings_active.testBit k = true →
        (∀ sib, fed_mgr_get_cluster_by_name (some fed) sib_name = some sib →
          (FED_SIBLING_BIT sib.fed_id).testBit k = false) →
        ji'.siblings_active.testBit k = true) ∧
      (fd.cluster_lock ≠ 0 →
        ∀ k, ji'.siblings_active.testBit k = true → ji.siblings_active.testBit k = true) ∧
      (copy_keeps_sibling_bitmaps env →
        ∀ k, ji'.siblings_active.testBit k = true →
          ji.siblings_active.testBit k = true ∨ ji.siblings_viable.testBit k = true) := by
  obtain ⟨t1, t2, t3, t4, t5⟩ := ht
  have hjid := find_job_record_job_id s.job_list job_id j t1
  have hiid := find_fed_job_info_job_id s.fed_job_list job_id ji t3
  simp only [apply_event] at hstep
  cases hsib : fed_mgr_get_cluster_by_name (some fed) sib_name with
  | none =>
    rw [hsib] at hstep
    simp only [Option.some.injEq] at hstep
    subst hstep
    exact ⟨j, fd, ji, ⟨t1, t2, t3, t4, t5⟩, rfl, rfl, rfl, fun k _ h _ => h, fun _ k h => h,
      fun _ k h => Or.inl h⟩
  | some sib =>
    rw [hsib] at hstep
    simp only [t1] at hstep
    obtain ⟨r, A, hr, c1, c2, c3, c4, c5, c6⟩ := reconcile_fed_job_spec env fed
      s.fed_job_list j
      { job_info_msg := job_info_msg, sibling_id := sib.fed_id, sibling_name := sib.name,
        sync_time := sync_time }
      fd ji t2 (by rw [hjid]; exact t3) t4 t5 hreq hsig
    rw [hr] at hstep
    simp only [Option.map_some', Option.some.injEq] at hstep
    subst hstep
    rw [hjid] at c3
    refine ⟨r.job_ptr, { fd with siblings_active := A }, { ji with siblings_active := A },
      ⟨?_, c2, c3, rfl, t5⟩, rfl, rfl, rfl, ?_, ?_, ?_⟩
    · exact find_set_job_record s.job_list job_id j _ t1 (c1.trans hjid)
    · intro k hk ha hb
      exact c4 k hk (by rw [← t4]; exact ha) (hb sib rfl)
    · intro hl k hk
      rw [t4]; exact c5 hl k hk
    · intro hcopy k hk
      rw [t4, t5]; exact c6 hcopy k hk

/-! ## The lock holder stays active along guarded steps -/

theorem sibling_bit_testBit_ne (x L : Nat) (hx : 1 ≤ x) (hL : 1 ≤ L) (hne : x ≠ L) :
    (FED_SIBLING_BIT x).testBit (L - 1) = false := by
  by_cases h64 : x ≤ 64
  · rw [testBit_FED_SIBLING_BIT x (L - 1) hx h64]
    have : ¬ (L - 1 + 1 = x) := by omega
    simp [this]
  · rcases sibling_bit_cases x with h0 | ⟨m, hm, hpow⟩
    · rw [h0]; simp
    · exfalso
      unfold FED_SIBLING_BIT at hpow
      rw [Nat.one_shiftLeft] at hpow
      have h64' : 64 ≤ x - 1 := by omega
      obtain ⟨d, hd⟩ := Nat.exists_eq_add_of_le h64'
      rw [hd, Nat.pow_add, Nat.mul_mod_right] at hpow
      have : 0 < 2 ^ m := by positivity
      omega

theorem get_cluster_by_name_mem (fed : Fed) (name : String) (c : slurmdb_cluster_rec_t)
    (h : fed_mgr_get_cluster_by_name (some fed) name = some c) : c ∈ fed.cluster_list :=
  List.mem_of_find?_eq_some h

/-- After `fed_mgr_job_lock_set` the job is still tracked with the same bitmaps;
its `cluster_lock` is what it was, or the call returned `SLURM_SUCCESS` and it
is the requesting cluster. -/
theorem tracked_lock_set_rc (env : Env) (fed : Fed) (job_id : Nat) (s s' : ctld_state)
    (now : Int) (P : Nat) (j : job_record) (fd : job_fed_details_t) (ji : fed_job_info_t)
    (ht : job_tracked s job_id j fd ji)
    (hstep : apply_event env fed job_id s (.lock_set now P) = some s') :
    ∃ ji', job_tracked s' job_id j fd ji' ∧
      ji'.siblings_active = ji.siblings_active ∧
      (ji'.cluster_lock = ji.cluster_lock ∨
        ((fed_mgr_job_lock_set s.fed_job_list now job_id P).1 = SLURM_SUCCESS ∧
          ji'.cluster_lock = P)) := by
  obtain ⟨t1, t2, t3, t4, t5⟩ := ht
  obtain ⟨h1, h2, h3, h4, _, _, _⟩ := job_has_pending_updates_spec now ji
  have hid := find_fed_job_info_job_id s.fed_job_list job_id ji t3
  simp only [apply_event, Option.some.injEq] at hstep
  subst hstep
  rw [fed_mgr_job_lock_set_found s.fed_job_list now job_id P ji t3]
  have key : ∀ (rc : Int) (x : fed_job_info_t), x.job_id = job_id →
      x.siblings_active = ji.siblings_active → x.siblings_viable = ji.siblings_viable →
      (x.cluster_lock = ji.cluster_lock ∨ (rc = SLURM_SUCCESS ∧ x.cluster_lock = P)) →
      ∃ ji', job_tracked
          { s with fed_job_list := (rc, _set_fed_job_info s.fed_job_list job_id x).2 }
          job_id j fd ji' ∧
        ji'.siblings_active = ji.siblings_active ∧
        (ji'.cluster_lock = ji.cluster_lock ∨
          ((rc, _set_fed_job_info s.fed_job_list job_id x).1 = SLURM_SUCCESS ∧
            ji'.cluster_lock = P)) := by
    intro rc x hx ha hv hl
    exact ⟨x, ⟨t1, t2, find_set_fed_job_info s.fed_job_list job_id ji x t3 hx,
      ha.trans t4, hv.trans t5⟩, ha, hl⟩
  split
  · exact key _ _ (h2.trans hid) h3 h4 (Or.inl h1)
  · split
    · exact key _ _ (h2.trans hid) h3 h4 (Or.inl h1)
    · exact key _ _ (h2.trans hid) h3 h4 (Or.inr ⟨rfl, rfl⟩)

/-- After the START handler on the origin cluster the job is still tracked, the
`fed_job_info_t` keeps its `cluster_lock`, and `siblings_active` is the sibling
bit of that lock. -/
theorem tracked_start_msg_lock (env : Env) (fed : Fed) (job_id : Nat) (s s' : ctld_state)
    (start_time : Int) (cluster_id : Nat) (j : job_record) (fd : job_fed_details_t)
    (ji : fed_job_info_t)
    (horigin : fed_mgr_get_cluster_id job_id = (fed_mgr_cluster_rec fed).fed_id)
    (hreq : no_requeue_hold env)
    (ht : job_tracked s job_id j fd ji)
    (hstep : apply_event env fed job_id s (.start_msg start_time cluster_id) = some s') :
    ∃ j' fd' ji', job_tracked s' job_id j' fd' ji' ∧
      ji'.cluster_lock = ji.cluster_lock ∧
      ji'.siblings_active = FED_SIBLING_BIT ji.cluster_lock := by
  obtain ⟨t1, t2, t3, t4, t5⟩ := ht
  have hjid := find_job_record_job_id s.job_list job_id j t1
  have hiid := find_fed_job_info_job_id s.fed_job_list job_id ji t3
  have hstart : _fed_job_start_revoke env (some fed) ji j start_time
      = some ({ ji with siblings_active := FED_SIBLING_BIT ji.cluster_lock },
          { j with
            fed_details := some { fd with cluster_lock := ji.cluster_lock,
                                          siblings_active := FED_SIBLING_BIT ji.cluster_lock } },
          if ji.siblings_active &&& not64 (FED_SIBLING_BIT ji.cluster_lock) ≠ 0 then
            _revoke_sibling_jobs env (some fed) j.job_id ji.cluster_lock ji.siblings_active
              start_time
          else []) := by
    simp only [_fed_job_start_revoke, t2]
  have hfi : _find_fed_job_info
      (_set_fed_job_info s.fed_job_list job_id
        { ji with siblings_active := FED_SIBLING_BIT ji.cluster_lock }) job_id
      = some { ji with siblings_active := FED_SIBLING_BIT ji.cluster_lock } :=
    find_set_fed_job_info s.fed_job_list job_id ji _ t3 hiid
  have hfj : find_job_record
      (set_job_record s.job_list job_id
        { j with
          fed_details := some { fd with cluster_lock := ji.cluster_lock,
                                        siblings_active := FED_SIBLING_BIT ji.cluster_lock } })
      job_id
      = some { j with
          fed_details := some { fd with cluster_lock := ji.cluster_lock,
                                        siblings_active := FED_SIBLING_BIT ji.cluster_lock } } :=
    find_set_job_record s.job_list job_id j _ t1 hjid
  simp only [apply_event, _handle_fed_job_start, _q_sib_job_start, t1, t3, hstart] at hstep
  by_cases hloc : ji.cluster_lock = (fed_mgr_cluster_rec fed).fed_id
  · rw [if_neg (not_not.mpr hloc)] at hstep
    simp only [Option.some.injEq] at hstep
    subst hstep
    exact ⟨_, _, _, ⟨hfj, rfl, hfi, rfl, t5⟩, rfl, rfl⟩
  · rw [if_pos hloc] at hstep
    have hnp := fed_mgr_job_revoke_no_purge_on_origin env fed
      { j with
        fed_details := some { fd with cluster_lock := ji.cluster_lock,
                                      siblings_active := FED_SIBLING_BIT ji.cluster_lock } }
      false 0 start_time (by
        show fed_mgr_get_cluster_id j.job_id = _
        rw [hjid]; exact horigin)
    obtain ⟨k1, k2⟩ := fed_mgr_job_revoke_keeps_fed_details env (some fed)
      { j with
        fed_details := some { fd with cluster_lock := ji.cluster_lock,
                                      siblings_active := FED_SIBLING_BIT ji.cluster_lock } }
      false 0 start_time (hreq _)
    simp only [hnp, Option.some.injEq] at hstep
    subst hstep
    refine ⟨_, _, _, ⟨find_set_job_record _ job_id _ _ hfj (by rw [k1]; exact hjid), k2, hfi,
      rfl, t5⟩, rfl, rfl⟩

/-- When `reconcile_skips` holds, `_reconcile_fed_job` returns without touching
the job. -/
theorem reconcile_fed_job_of_skips (env : Env) (fed : Fed) (fed_job_list : List fed_job_info_t)
    (job_ptr : job_record) (rec_sib : reconcile_sib_t)
    (h : reconcile_skips env fed job_ptr rec_sib = true) :
    _reconcile_fed_job env fed fed_job_list job_ptr rec_sib
      = some ⟨SLURM_SUCCESS, job_ptr, fed_job_list, []⟩ := by
  unfold reconcile_skips at h
  unfold _reconcile_fed_job
  split
  · rename_i fd det h1 h2
    simp only [h1, h2, decide_eq_true_eq] at h
    rw [if_pos h]
  · rfl

/-- When the sender's job list holds the job, `_reconcile_fed_job` clears no bit
of `siblings_active` (requeue table not matching, signals leaving the federation
details alone). -/
theorem reconcile_fed_job_found_active (env : Env) (fed : Fed)
    (fed_job_list : List fed_job_info_t) (job_ptr : job_record) (rec_sib : reconcile_sib_t)
    (fd : job_fed_details_t) (remote_job : slurm_job_info_t) (r : job_op_result)
    (hfd : job_ptr.fed_details = some fd)
    (hreq : no_requeue_hold env) (hsig : signal_keeps_fed_details env)
    (hfound : rec_sib.job_info_msg.find? (fun x => x.job_id == job_ptr.job_id)
      = some remote_job)
    (hr : _reconcile_fed_job env fed fed_job_list job_ptr rec_sib = some r) :
    ∃ fd', r.job_ptr.fed_details = some fd' ∧
      ∀ k, fd.siblings_active.testBit k = true → fd'.siblings_active.testBit k = true := by
  have hact : ∃ J q fd', _reconcile_fed_job_actions env fed job_ptr fd rec_sib = some (J, q) ∧
      J.fed_details = some fd' ∧
      ∀ k, fd.siblings_active.testBit k = true → fd'.siblings_active.testBit k = true := by
    unfold _reconcile_fed_job_actions
    simp only [hfound]
    by_cases h1 : fed_mgr_get_cluster_id job_ptr.job_id = rec_sib.sibling_id
    · rw [if_pos h1]
      by_cases h2 : env.IS_JOB_COMPLETED remote_job.job_state = true
      · rw [if_pos h2]
        exact ⟨_, _, fd, rfl, (hsig _).2.trans hfd, fun k h => h⟩
      · rw [if_neg h2]
        exact ⟨_, _, fd, rfl, hfd, fun k h => h⟩
    · rw [if_neg h1]
      by_cases h2 : fd.cluster_lock = rec_sib.sibling_id
      · rw [if_pos h2]
        by_cases h3 : env.IS_JOB_COMPLETE remote_job.job_state = true
        · rw [if_pos h3]
          exact ⟨_, _, fd, rfl,
            (fed_mgr_job_revoke_keeps_fed_details env (some fed) job_ptr true
              remote_job.exit_code job_ptr.start_time (hreq _)).2.trans hfd, fun k h => h⟩
        · rw [if_neg h3]
          exact ⟨_, _, fd, rfl, hfd, fun k h => h⟩
      · rw [if_neg h2]
        by_cases h3 : fd.cluster_lock ≠ 0
        · rw [if_pos h3]
          exact ⟨_, _, fd, rfl, hfd, fun k h => h⟩
        · rw [if_neg h3]
          by_cases h4 : fd.siblings_active &&& FED_SIBLING_BIT rec_sib.sibling_id = 0
          · rw [if_pos h4]
            refine ⟨_, _, _, rfl, rfl, fun k h => ?_⟩
            show (fd.siblings_active ||| FED_SIBLING_BIT rec_sib.sibling_id).testBit k = true
            rw [Nat.testBit_or, h, Bool.true_or]
          · rw [if_neg h4]
            exact ⟨_, _, fd, rfl, hfd, fun k h => h⟩
  unfold _reconcile_fed_job at hr
  split at hr
  · rename_i fd0 det h1 h2
    rw [hfd] at h1
    cases h1
    split at hr
    · cases hr
      exact ⟨fd, hfd, fun k h => h⟩
    · obtain ⟨J, q, fd', ha, hJ, hb⟩ := hact
      rw [ha] at hr
      simp only at hr
      split at hr
      · cases hr
      · cases hr
        exact ⟨fd', hJ, hb⟩
  · cases hr
    exact ⟨fd, hfd, fun k h => h⟩

/-- Unless `_reconcile_fed_job` takes the branch that clears the sender's bit, it
clears no bit of `siblings_active` (requeue table not matching, signals leaving
the federation details alone). -/
theorem reconcile_fed_job_keeps_active (env : Env) (fed : Fed)
    (fed_job_list : List fed_job_info_t) (job_ptr : job_record) (rec_sib : reconcile_sib_t)
    (fd : job_fed_details_t) (r : job_op_result)
    (hfd : job_ptr.fed_details = some fd)
    (hreq : no_requeue_hold env) (hsig : signal_keeps_fed_details env)
    (hnc : reconcile_clears_sender env fed job_ptr rec_sib = false)
    (hr : _reconcile_fed_job env fed fed_job_list job_ptr rec_sib = some r) :
    ∃ fd', r.job_ptr.fed_details = some fd' ∧
      ∀ k, fd.siblings_active.testBit k = true → fd'.siblings_active.testBit k = true := by
  cases hskip : reconcile_skips env fed job_ptr rec_sib with
  | true =>
    rw [reconcile_fed_job_of_skips env fed fed_job_list job_ptr rec_sib hskip] at hr
    cases hr
    exact ⟨fd, hfd, fun k h => h⟩
  | false =>
    cases hfind : rec_sib.job_info_msg.find? (fun x => x.job_id == job_ptr.job_id) with
    | some remote_job =>
      exact reconcile_fed_job_found_active env fed fed_job_list job_ptr rec_sib fd remote_job r
        hfd hreq hsig hfind hr
    | none =>
      have horig : fed_mgr_get_cluster_id job_ptr.job_id = rec_sib.sibling_id := by
        unfold reconcile_clears_sender at hnc
        simpa [hskip, hfind] using hnc
      have hact : _reconcile_fed_job_actions env fed job_ptr fd rec_sib
          = some (env.job_signal
              { job_ptr with bit_flags := job_ptr.bit_flags ||| env.SIB_JOB_FLUSH }, []) := by
        unfold _reconcile_fed_job_actions
        simp only [hfind, if_pos horig]
      unfold _reconcile_fed_job at hr
      split at hr
      · rename_i fd0 det e1 e2
        rw [hfd] at e1
        cases e1
        split at hr
        · cases hr
          exact ⟨fd, hfd, fun k h => h⟩
        · rw [hact] at hr
          simp only at hr
          split at hr
          · cases hr
          · cases hr
            exact ⟨fd, (hsig _).2.trans hfd, fun k h => h⟩
      · cases hr
        exact ⟨fd, hfd, fun k h => h⟩

/-- A reconciliation in which `_reconcile_fed_job` does not take the branch that
clears the sender's bit leaves a tracked job tracked, keeps its lock and clears
no active bit. -/
theorem tracked_sync_harmless (env : Env) (fed : Fed) (job_id : Nat) (s s' : ctld_state)
    (sib_name : String) (job_info_msg : List slurm_job_info_t) (sync_time : Int)
    (j : job_record) (fd : job_fed_details_t) (ji : fed_job_info_t) (sib : slurmdb_cluster_rec_t)
    (hreq : no_requeue_hold env) (hsig : signal_keeps_fed_details env)
    (ht : job_tracked s job_id j fd ji)
    (hsib : fed_mgr_get_cluster_by_name (some fed) sib_name = some sib)
    (hh : reconcile_clears_sender env fed j
      { job_info_msg := job_info_msg, sibling_id := sib.fed_id, sibling_name := sib.name,
        sync_time := sync_time } = false)
    (hstep : apply_event env fed job_id s (.sync sib_name job_info_msg sync_time) = some s') :
    ∃ j' fd' ji', job_tracked s' job_id j' fd' ji' ∧
      ji'.cluster_lock = ji.cluster_lock ∧
      ∀ k, ji.siblings_active.testBit k = true → ji'.siblings_active.testBit k = true := by
  obtain ⟨j', fd', ji', ht', hl, _, _, _, _, _⟩ := tracked_sync env fed job_id s s'
    sib_name job_info_msg sync_time j fd ji hreq hsig ht hstep
  refine ⟨j', fd', ji', ht', hl, ?_⟩
  obtain ⟨t1, t2, t3, t4, t5⟩ := ht
  obtain ⟨u1, u2, u3, u4, u5⟩ := ht'
  have hjid := find_job_record_job_id s.job_list job_id j t1
  simp only [apply_event, hsib, t1] at hstep
  cases hr : _reconcile_fed_job env fed s.fed_job_list j
      { job_info_msg := job_info_msg, sibling_id := sib.fed_id, sibling_name := sib.name,
        sync_time := sync_time } with
  | none => rw [hr] at hstep; cases hstep
  | some r =>
    rw [hr] at hstep
    simp only [Option.map_some', Option.some.injEq] at hstep
    subst hstep
    have hrid : r.job_ptr.job_id = job_id := by
      obtain ⟨r', A, hr', c1, _⟩ := reconcile_fed_job_spec env fed s.fed_job_list j
        { job_info_msg := job_info_msg, sibling_id := sib.fed_id, sibling_name := sib.name,
          sync_time := sync_time }
        fd ji t2 (by rw [hjid]; exact t3) t4 t5 hreq hsig
      rw [hr'] at hr
      cases hr
      exact c1.trans hjid
    have hj' : j' = r.job_ptr := by
      have := find_set_job_record s.job_list job_id j r.job_ptr t1 hrid
      have u1' : find_job_record (set_job_record s.job_list job_id r.job_ptr) job_id
          = some j' := u1
      rw [this] at u1'
      exact (Option.some.inj u1').symm
    subst hj'
    have hsub : ∀ k, fd.siblings_active.testBit k = true →
        fd'.siblings_active.testBit k = true := by
      obtain ⟨fd'', e1, e2⟩ := reconcile_fed_job_keeps_active env fed s.fed_job_list j
        { job_info_msg := job_info_msg, sibling_id := sib.fed_id,
          sibling_name := sib.name, sync_time := sync_time }
        fd r t2 hreq hsig hh hr
      rw [u2] at e1
      cases e1
      exact e2
    intro k hk
    rw [u4]
    exact hsub k (by rw [← t4]; exact hk)

/-- The loop of `_submit_sibling_jobs` sets the bit of a sibling at a position
other than the local one whose bit is in `dest_sibs` and whose request packs. -/
theorem submit_sibling_jobs_loop_sets_bit (env : Env) (fed : Fed) (sib_msg : sib_msg_t)
    (alloc_only : Bool) (dest_sibs : Nat) (c : slurmdb_cluster_rec_t)
    (hdest : dest_sibs &&& FED_SIBLING_BIT c.fed_id ≠ 0)
    (hpack : env.pack_msg
      { msg_type := env.REQUEST_SIB_MSG,
        data := { sib_msg with
          sib_msg_type :=
            if alloc_only then FED_JOB_SUBMIT_INT else FED_JOB_SUBMIT_BATCH } } = true)
    (l : List slurmdb_cluster_rec_t) :
    ∀ (idx : Nat) (acc : submit_result) (i : Nat), (i, c) ∈ l.enumFrom idx →
      i ≠ fed.local_idx →
      ∀ k, (FED_SIBLING_BIT c.fed_id).testBit k = true →
        (_submit_sibling_jobs_loop env fed sib_msg alloc_only dest_sibs l idx
          acc).job_desc.fed_siblings_active.testBit k = true := by
  induction l with
  | nil =>
    intro idx acc i hmem
    simp at hmem
  | cons sibling rest ih =>
    intro idx acc i hmem hne k hk
    rw [List.enumFrom_cons, List.mem_cons] at hmem
    rw [_submit_sibling_jobs_loop]
    rcases hmem with hhead | htail
    · have hi : i = idx := congrArg Prod.fst hhead
      have hc : c = sibling := congrArg Prod.snd hhead
      subst hi
      subst hc
      rw [if_neg hne, if_neg hdest]
      by_cases h3 : acc.job_desc.fed_siblings_active &&& FED_SIBLING_BIT c.fed_id ≠ 0
      · rw [if_pos h3]
        exact (submit_sibling_jobs_loop_spec env fed sib_msg alloc_only dest_sibs rest
          (i + 1) acc).2.1 k (sibling_bit_subset_of_and_ne_zero _ _ k h3 hk)
      · rw [if_neg h3]
        have h4 : (_queue_rpc env c
            { msg_type := env.REQUEST_SIB_MSG,
              data := { sib_msg with
                sib_msg_type :=
                  if alloc_only then FED_JOB_SUBMIT_INT else FED_JOB_SUBMIT_BATCH } }
            0).1 = SLURM_SUCCESS := by
          unfold _queue_rpc
          rw [if_pos hpack]
        simp only [h4, if_true]
        apply (submit_sibling_jobs_loop_spec env fed sib_msg alloc_only dest_sibs rest
          (i + 1) _).2.1 k
        show (acc.job_desc.fed_siblings_active ||| FED_SIBLING_BIT c.fed_id).testBit k = true
        rw [Nat.testBit_or, hk, Bool.or_true]
    · by_cases h1 : idx = fed.local_idx
      · rw [if_pos h1]; exact ih _ _ i htail hne k hk
      · rw [if_neg h1]
        by_cases h2 : dest_sibs &&& FED_SIBLING_BIT sibling.fed_id = 0
        · rw [if_pos h2]; exact ih _ _ i htail hne k hk
        · rw [if_neg h2]
          by_cases h3 : acc.job_desc.fed_siblings_active &&& FED_SIBLING_BIT sibling.fed_id ≠ 0
          · rw [if_pos h3]; exact ih _ _ i htail hne k hk
          · rw [if_neg h3]
            exact ih _ _ i htail hne k hk

/-- A member of `cluster_list` whose id is not the local cluster's stands at a
position other than the local one. -/
theorem mem_enum_of_fed_id_ne (fed : Fed) (c : slurmdb_cluster_rec_t)
    (hmem : c ∈ fed.cluster_list) (hne : c.fed_id ≠ (fed_mgr_cluster_rec fed).fed_id) :
    ∃ i, (i, c) ∈ fed.cluster_list.enumFrom 0 ∧ i ≠ fed.local_idx := by
  obtain ⟨n, hn⟩ := List.get_of_mem hmem
  refine ⟨n.1, ?_, ?_⟩
  · rw [List.mk_mem_enumFrom_iff_le_and_getElem?_sub]
    refine ⟨Nat.zero_le _, ?_⟩
    rw [Nat.sub_zero, List.getElem?_eq_getElem n.2]
    exact congrArg some hn
  · intro h
    apply hne
    unfold fed_mgr_cluster_rec
    rw [← h, List.getD_eq_getElem _ _ n.2]
    exact congrArg slurmdb_cluster_rec_t.fed_id hn.symm

/-- When `reconcile_resubmits` holds for a sender `1..64` that is a member of the
federation and does not list the job, `_reconcile_fed_job` on a job of the local
cluster leaves the sender's bit set in `siblings_active`. -/
theorem reconcile_fed_job_resubmits_active (env : Env) (fed : Fed)
    (fed_job_list : List fed_job_info_t) (job_ptr : job_record) (rec_sib : reconcile_sib_t)
    (fd : job_fed_details_t) (sib : slurmdb_cluster_rec_t) (r : job_op_result)
    (hfd : job_ptr.fed_details = some fd)
    (horigin : fed_mgr_get_cluster_id job_ptr.job_id = (fed_mgr_cluster_rec fed).fed_id)
    (hP1 : 1 ≤ (fed_mgr_cluster_rec fed).fed_id)
    (hmem : sib ∈ fed.cluster_list) (hsid : sib.fed_id = rec_sib.sibling_id)
    (h1 : 1 ≤ rec_sib.sibling_id) (h2 : rec_sib.sibling_id ≤ 64)
    (hskip : reconcile_skips env fed job_ptr rec_sib = false)
    (hnf : rec_sib.job_info_msg.find? (fun x => x.job_id == job_ptr.job_id) = none)
    (hres : reconcile_resubmits env fed job_ptr rec_sib = true)
    (hr : _reconcile_fed_job env fed fed_job_list job_ptr rec_sib = some r) :
    ∃ fd', r.job_ptr.fed_details = some fd' ∧
      fd'.siblings_active.testBit (rec_sib.sibling_id - 1) = true := by
  unfold reconcile_resubmits at hres
  simp only [hfd, Bool.and_eq_true, decide_eq_true_eq] at hres
  obtain ⟨⟨hl0, hnl⟩, hcp⟩ := hres
  cases hcopy : env.copy_job_record_to_job_desc
      { job_ptr with
        fed_details := some { fd with
          siblings_active :=
            fd.siblings_active &&& not64 (FED_SIBLING_BIT rec_sib.sibling_id) } } with
  | none => rw [hcopy] at hcp; cases hcp
  | some d =>
    rw [hcopy] at hcp
    simp only at hcp
    have hbit : (FED_SIBLING_BIT rec_sib.sibling_id).testBit (rec_sib.sibling_id - 1) = true := by
      rw [testBit_FED_SIBLING_BIT _ _ h1 h2]
      simp only [decide_eq_true_eq]
      omega
    have hdest : FED_SIBLING_BIT rec_sib.sibling_id &&& FED_SIBLING_BIT sib.fed_id ≠ 0 := by
      rw [hsid]
      intro h0
      have := congrArg (fun n => n.testBit (rec_sib.sibling_id - 1)) h0
      simp only [Nat.testBit_and, hbit, Nat.zero_testBit, Bool.and_self] at this
      cases this
    obtain ⟨i, himem, hine⟩ := mem_enum_of_fed_id_ne fed sib hmem (by rw [hsid]; exact hnl)
    have hset := submit_sibling_jobs_loop_sets_bit env fed
      { sib_msg_zero with
        data_buffer := some d, data_offset := 0,
        data_type := env.REQUEST_RESOURCE_ALLOCATION,
        data_version := env.SLURM_PROTOCOL_VERSION, fed_siblings := d.fed_siblings_viable,
        job_id := d.job_id, resp_host := d.resp_host }
      false (FED_SIBLING_BIT rec_sib.sibling_id) sib hdest hcp fed.cluster_list 0
      { ret_rc := SLURM_SUCCESS, job_desc := d, queued := [] } i himem hine
      (rec_sib.sibling_id - 1) (by rw [hsid]; exact hbit)
    have hfj : ∃ o, _is_fed_job (some fed)
        { job_ptr with
          fed_details := some { fd with
            siblings_active :=
              fd.siblings_active &&& not64 (FED_SIBLING_BIT rec_sib.sibling_id) } }
        = some o := by
      unfold _is_fed_job
      have : ¬ fed_mgr_get_cluster_id job_ptr.job_id = 0 := by omega
      simp only [this, if_false]
      exact ⟨_, rfl⟩
    obtain ⟨o, hfj⟩ := hfj
    have hact : ∃ J q fd', _reconcile_fed_job_actions env fed job_ptr fd rec_sib = some (J, q) ∧
        J.fed_details = some fd' ∧
        fd'.siblings_active.testBit (rec_sib.sibling_id - 1) = true := by
      unfold _reconcile_fed_job_actions
      have hne : ¬ fed_mgr_get_cluster_id job_ptr.job_id = rec_sib.sibling_id := by
        rw [horigin]; exact fun h => hnl h.symm
      simp only [hnf, if_neg hne, if_pos hl0]
      unfold _prepare_submit_siblings
      simp only [hfj, hcopy, Option.map_some']
      refine ⟨_, _, _, rfl, rfl, ?_⟩
      simp only [Nat.testBit_or]
      have hset' : (_submit_sibling_jobs env fed d
          { msg_type := env.REQUEST_RESOURCE_ALLOCATION,
            protocol_version := env.SLURM_PROTOCOL_VERSION, body_offset := 0,
            buffer := some d }
          false (FED_SIBLING_BIT rec_sib.sibling_id)).job_desc.fed_siblings_active.testBit
            (rec_sib.sibling_id - 1) = true := hset
      split
      · rw [Nat.testBit_or, hset']
        simp
      · rw [hset']
        simp
    unfold _reconcile_fed_job at hr
    unfold reconcile_skips at hskip
    split at hr
    · rename_i fd0 det e1 e2
      rw [hfd] at e1
      cases e1
      simp only [hfd, e2, decide_eq_false_iff_not] at hskip
      rw [if_neg hskip] at hr
      obtain ⟨J, q, fd', ha, hJ, hb⟩ := hact
      rw [ha] at hr
      simp only at hr
      split at hr
      · cases hr
      · cases hr
        exact ⟨fd', hJ, hb⟩
    · rename_i hno
      cases hdet : job_ptr.details with
      | none => simp [hfd, hdet] at hskip
      | some det => exact absurd hdet (hno fd det hfd)

/-- A reconciliation with a sender `1..64` in which `_reconcile_fed_job` clears
the sender's bit of a job of the local cluster and `reconcile_resubmits` holds
leaves a tracked job tracked, keeps its lock and leaves the sender's bit set in
`siblings_active`. -/
theorem tracked_sync_resubmits (env : Env) (fed : Fed) (job_id : Nat) (s s' : ctld_state)
    (sib_name : String) (job_info_msg : List slurm_job_info_t) (sync_time : Int)
    (j : job_record) (fd : job_fed_details_t) (ji : fed_job_info_t) (sib : slurmdb_cluster_rec_t)
    (hreq : no_requeue_hold env) (hsig : signal_keeps_fed_details env)
    (horigin : fed_mgr_get_cluster_id job_id = (fed_mgr_cluster_rec fed).fed_id)
    (hP1 : 1 ≤ (fed_mgr_cluster_rec fed).fed_id)
    (ht : job_tracked s job_id j fd ji)
    (hsib : fed_mgr_get_cluster_by_name (some fed) sib_name = some sib)
    (h1 : 1 ≤ sib.fed_id) (h2 : sib.fed_id ≤ 64)
    (hcl : reconcile_clears_sender env fed j
      { job_info_msg := job_info_msg, sibling_id := sib.fed_id, sibling_name := sib.name,
        sync_time := sync_time } = true)
    (hres : reconcile_resubmits env fed j
      { job_info_msg := job_info_msg, sibling_id := sib.fed_id, sibling_name := sib.name,
        sync_time := sync_time } = true)
    (hstep : apply_event env fed job_id s (.sync sib_name job_info_msg sync_time) = some s') :
    ∃ j' fd' ji', job_tracked s' job_id j' fd' ji' ∧
      ji'.cluster_lock = ji.cluster_lock ∧
      ji'.siblings_active.testBit (sib.fed_id - 1) = true := by
  obtain ⟨j', fd', ji', ht', hl, _, _, _, _, _⟩ := tracked_sync env fed job_id s s'
    sib_name job_info_msg sync_time j fd ji hreq hsig ht hstep
  refine ⟨j', fd', ji', ht', hl, ?_⟩
  obtain ⟨t1, t2, t3, t4, t5⟩ := ht
  obtain ⟨u1, u2, u3, u4, u5⟩ := ht'
  have hjid := find_job_record_job_id s.job_list job_id j t1
  unfold reconcile_clears_sender at hcl
  simp only [Bool.and_eq_true, Bool.not_eq_true', decide_eq_true_eq,
    Option.isNone_iff_eq_none] at hcl
  obtain ⟨⟨hskip, _⟩, hnf⟩ := hcl
  simp only [apply_event, hsib, t1] at hstep
  cases hr : _reconcile_fed_job env fed s.fed_job_list j
      { job_info_msg := job_info_msg, sibling_id := sib.fed_id, sibling_name := sib.name,
        sync_time := sync_time } with
  | none => rw [hr] at hstep; cases hstep
  | some r =>
    rw [hr] at hstep
    simp only [Option.map_some', Option.some.injEq] at hstep
    subst hstep
    have hrid : r.job_ptr.job_id = job_id := by
      obtain ⟨r', A, hr', c1, _⟩ := reconcile_fed_job_spec env fed s.fed_job_list j
        { job_info_msg := job_info_msg, sibling_id := sib.fed_id, sibling_name := sib.name,
          sync_time := sync_time }
        fd ji t2 (by rw [hjid]; exact t3) t4 t5 hreq hsig
      rw [hr'] at hr
      cases hr
      exact c1.trans hjid
    have hj' : j' = r.job_ptr := by
      have := find_set_job_record s.job_list job_id j r.job_ptr t1 hrid
      have u1' : find_job_record (set_job_record s.job_list job_id r.job_ptr) job_id
          = some j' := u1
      rw [this] at u1'
      exact (Option.some.inj u1').symm
    subst hj'
    obtain ⟨fd'', e1, e2⟩ := reconcile_fed_job_resubmits_active env fed s.fed_job_list j
      { job_info_msg := job_info_msg, sibling_id := sib.fed_id, sibling_name := sib.name,
        sync_time := sync_time }
      fd sib r t2 (by rw [hjid]; exact horigin) hP1
      (get_cluster_by_name_mem fed sib_name sib hsib) rfl h1 h2 hskip hnf hres hr
    rw [u2] at e1
    cases e1
    rw [u4]
    exact e2

/-- One guarded step keeps the lock holder of a tracked job active. -/
theorem lock_holder_active_step (env : Env) (fed : Fed) (job_id : Nat) (s s' : ctld_state)
    (e : job_event)
    (hreq : no_requeue_hold env) (hsig : signal_keeps_fed_details env)
    (horigin : fed_mgr_get_cluster_id job_id = (fed_mgr_cluster_rec fed).fed_id)
    (hP1 : 1 ≤ (fed_mgr_cluster_rec fed).fed_id)
    (hP2 : (fed_mgr_cluster_rec fed).fed_id ≤ MAX_FED_CLUSTERS)
    (hids : ∀ c ∈ fed.cluster_list, 1 ≤ c.fed_id)
    (hinv : lock_holder_active s job_id)
    (hg : lock_holder_guard env fed job_id s e = true)
    (hstep : apply_event env fed job_id s e = some s') :
    lock_holder_active s' job_id := by
  obtain ⟨j, fd, ji, ht, hlock⟩ := hinv
  have t3 := ht.2.2.1
  have h63 : ∀ L, 1 ≤ L → L ≤ 64 → L - 1 < 64 := by
    intro L _ hL; omega
  have hP64 : (fed_mgr_cluster_rec fed).fed_id ≤ 64 := by
    unfold MAX_FED_CLUSTERS at hP2; omega
  cases e with
  | lock_set now P =>
    simp only [lock_holder_guard, t3, Bool.or_eq_true, decide_eq_true_eq] at hg
    obtain ⟨ji', ht', ha, hl⟩ := tracked_lock_set_rc env fed job_id s s' now P j fd ji ht hstep
    refine ⟨j, fd, ji', ht', ?_⟩
    rcases hl with hl | ⟨hrc, hl⟩
    · rw [hl, ha]; exact hlock
    · rcases hg with (hg | hg) | hg
      · exact absurd hrc hg
      · exact Or.inl (hl.trans hg)
      · rw [hl, ha]
        by_cases hP0 : P = 0
        · exact Or.inl hP0
        · exact Or.inr (and_sibling_bit_ne_zero _ P (by omega) hg)
  | lock_unset P =>
    obtain ⟨ji', ht', ha, hl⟩ := tracked_lock_unset env fed job_id s s' P j fd ji ht hstep
    refine ⟨j, fd, ji', ht', ?_⟩
    rcases hl with hl | hl
    · rw [hl, ha]; exact hlock
    · exact Or.inl hl
  | start start_time =>
    obtain ⟨j', fd', ji', ht', hl, _, hc⟩ := tracked_start env fed job_id s s' start_time
      (fed_mgr_cluster_rec fed).fed_id j fd ji rfl horigin hP1 ht hstep
    refine ⟨j', fd', ji', ht', ?_⟩
    rcases hc with ⟨_, c2⟩ | ⟨c1, _, c3⟩
    · rw [c2]; exact hlock
    · rw [hl, c1, c3]
      exact Or.inr ⟨hP1, hP64, testBit_FED_SIBLING_BIT_self _ hP1 hP2⟩
  | start_msg start_time cluster_id =>
    obtain ⟨j', fd', ji', ht', hl, ha⟩ := tracked_start_msg_lock env fed job_id s s'
      start_time cluster_id j fd ji horigin hreq ht hstep
    refine ⟨j', fd', ji', ht', ?_⟩
    rcases hlock with h0 | ⟨l1, l2, _⟩
    · exact Or.inl (hl.trans h0)
    · right
      rw [hl, ha]
      refine ⟨l1, l2, ?_⟩
      rw [testBit_FED_SIBLING_BIT _ _ l1 l2]
      simp only [decide_eq_true_eq]
      omega
  | remove_active_sib_bit cluster_name =>
    obtain ⟨j', fd', ji', ht', hl, _, _, hc⟩ := tracked_remove_active_sib_bit env fed job_id
      s s' cluster_name j fd ji ht hstep
    refine ⟨j', fd', ji', ht', ?_⟩
    rcases hlock with h0 | ⟨l1, l2, l3⟩
    · exact Or.inl (hl.trans h0)
    · right
      rw [hl]
      refine ⟨l1, l2, ?_⟩
      rcases hc with hc | ⟨sibling, hs, hc⟩
      · rw [hc]; exact l3
      · simp only [lock_holder_guard, t3, hs, Bool.or_eq_true, decide_eq_true_eq] at hg
        have hg' : sibling.fed_id ≠ ji.cluster_lock := by
          rcases hg with hg | hg
          · omega
          · exact hg
        rw [hc, testBit_and_not64_sibling_bit, l3,
          sibling_bit_testBit_ne sibling.fed_id ji.cluster_lock
            (hids sibling (get_cluster_by_name_mem fed cluster_name sibling hs)) l1 hg']
        simp [h63 _ l1 l2]
  | sync sib_name job_info_msg sync_time =>
    obtain ⟨j', fd', ji', ht', hl, _, _, hlow, _, _⟩ := tracked_sync env fed job_id s s'
      sib_name job_info_msg sync_time j fd ji hreq hsig ht hstep
    rcases hlock with h0 | ⟨l1, l2, l3⟩
    · exact ⟨j', fd', ji', ht', Or.inl (hl.trans h0)⟩
    · cases hs : fed_mgr_get_cluster_by_name (some fed) sib_name with
      | none =>
        refine ⟨j', fd', ji', ht', Or.inr ?_⟩
        rw [hl]
        refine ⟨l1, l2, hlow _ (h63 _ l1 l2) l3 ?_⟩
        intro sib hs'
        rw [hs] at hs'
        cases hs'
      | some sib =>
        simp only [lock_holder_guard, t3, hs, ht.1, Bool.or_eq_true, decide_eq_true_eq,
          Bool.not_eq_true'] at hg
        rcases hg with (h0 | hne) | hnc | hres
        · omega
        · refine ⟨j', fd', ji', ht', Or.inr ?_⟩
          rw [hl]
          refine ⟨l1, l2, hlow _ (h63 _ l1 l2) l3 ?_⟩
          intro sib' hs'
          rw [hs] at hs'
          cases hs'
          exact sibling_bit_testBit_ne sib.fed_id ji.cluster_lock
            (hids sib (get_cluster_by_name_mem fed sib_name sib hs)) l1 hne
        · obtain ⟨j2, fd2, ji2, ht2, hl2, hsub⟩ := tracked_sync_harmless env fed job_id s s'
            sib_name job_info_msg sync_time j fd ji sib hreq hsig ht hs hnc hstep
          refine ⟨j2, fd2, ji2, ht2, Or.inr ?_⟩
          rw [hl2]
          exact ⟨l1, l2, hsub _ l3⟩
        · by_cases hne : sib.fed_id = ji.cluster_lock
          · cases hcl : reconcile_clears_sender env fed j
                { job_info_msg := job_info_msg, sibling_id := sib.fed_id,
                  sibling_name := sib.name, sync_time := sync_time } with
            | false =>
              obtain ⟨j2, fd2, ji2, ht2, hl2, hsub⟩ := tracked_sync_harmless env fed job_id s
                s' sib_name job_info_msg sync_time j fd ji sib hreq hsig ht hs hcl hstep
              refine ⟨j2, fd2, ji2, ht2, Or.inr ?_⟩
              rw [hl2]
              exact ⟨l1, l2, hsub _ l3⟩
            | true =>
              obtain ⟨j2, fd2, ji2, ht2, hl2, hb⟩ := tracked_sync_resubmits env fed job_id
                s s' sib_name job_info_msg sync_time j fd ji sib hreq hsig horigin hP1 ht hs
                (by rw [hne]; exact l1) (by rw [hne]; exact l2) hcl hres hstep
              refine ⟨j2, fd2, ji2, ht2, Or.inr ?_⟩
              rw [hl2]
              rw [hne] at hb
              exact ⟨l1, l2, hb⟩
          · refine ⟨j', fd', ji', ht', Or.inr ?_⟩
            rw [hl]
            refine ⟨l1, l2, hlow _ (h63 _ l1 l2) l3 ?_⟩
            intro sib' hs'
            rw [hs] at hs'
            cases hs'
            exact sibling_bit_testBit_ne sib.fed_id ji.cluster_lock
              (hids sib (get_cluster_by_name_mem fed sib_name sib hs)) l1 hne
  | update_clusters spec_clusters now =>
    have t1 := ht.1
    have hstep' := hstep
    simp only [apply_event, t1] at hstep'
    cases hr : fed_mgr_update_job_clusters env (some fed) s.fed_job_list j spec_clusters now with
    | none => rw [hr] at hstep'; cases hstep'
    | some r =>
      rw [hr] at hstep'
      simp only [Option.map_some', Option.some.injEq] at hstep'
      obtain ⟨j', fd', ji', ht', hl, _, hlow, _⟩ := tracked_update_result env fed job_id s now
        r j fd ji hreq ht (update_job_clusters_cases env fed s.fed_job_list j spec_clusters
          now r hr)
      rw [hstep'] at ht'
      refine ⟨j', fd', ji', ht', ?_⟩
      rcases hlock with h0 | ⟨l1, l2, l3⟩
      · exact Or.inl (hl.trans h0)
      · right
        have hne : ¬ ji.cluster_lock = 0 := by omega
        simp only [lock_holder_guard, t3, hstep, ht'.2.2.1, hne, decide_False,
          Bool.false_or, Bool.or_eq_true, decide_eq_true_eq] at hg
        rcases hg with hg | hg
        · rw [hg]
          exact ⟨l1, l2, l3⟩
        · rw [hl]
          exact ⟨l1, l2, hlow _ (h63 _ l1 l2) l3 hg⟩
  | update_cluster_features req_features now =>
    have t1 := ht.1
    have hstep' := hstep
    simp only [apply_event, t1] at hstep'
    cases hr : fed_mgr_update_job_cluster_features env (some fed) s.fed_job_list j
        req_features now with
    | none => rw [hr] at hstep'; cases hstep'
    | some r =>
      rw [hr] at hstep'
      simp only [Option.map_some', Option.some.injEq] at hstep'
      obtain ⟨j', fd', ji', ht', hl, _, hlow, _⟩ := tracked_update_result env fed job_id s now
        r j fd ji hreq ht (update_job_cluster_features_cases env fed s.fed_job_list j
          req_features now r hr)
      rw [hstep'] at ht'
      refine ⟨j', fd', ji', ht', ?_⟩
      rcases hlock with h0 | ⟨l1, l2, l3⟩
      · exact Or.inl (hl.trans h0)
      · right
        have hne : ¬ ji.cluster_lock = 0 := by omega
        simp only [lock_holder_guard, t3, hstep, ht'.2.2.1, hne, decide_False,
          Bool.false_or, Bool.or_eq_true, decide_eq_true_eq] at hg
        rcases hg with hg | hg
        · rw [hg]
          exact ⟨l1, l2, l3⟩
        · rw [hl]
          exact ⟨l1, l2, hlow _ (h63 _ l1 l2) l3 hg⟩

/-! ## A freshly submitted job -/

theorem fed_mgr_job_allocate_fresh (env : Env) (fed : Fed)
    (fed_job_list : List fed_job_info_t) (msg : job_msg_t) (job_desc : job_desc_msg_t)
    (alloc_only : Bool) (uid protocol_version next_job_id : Nat) (r : allocate_result)
    (j0 : job_record)
    (halloc : fed_mgr_job_allocate env fed fed_job_list msg job_desc alloc_only uid
      protocol_version next_job_id = some r)
    (hrc : r.rc = SLURM_SUCCESS) (hjob : r.job_ptr = some j0)
    (hnew : _find_fed_job_info fed_job_list j0.job_id = none) :
    ∃ fd ji, j0.fed_details = some fd ∧
      _find_fed_job_info r.fed_job_list j0.job_id = some ji ∧
      ji.cluster_lock = 0 ∧ ji.siblings_active = fd.siblings_active ∧
      ji.siblings_viable = fd.siblings_viable ∧
      (∀ k, fd.siblings_active.testBit k = true →
        fd.siblings_viable.testBit k = true ∨
          (FED_SIBLING_BIT (fed_mgr_cluster_rec fed).fed_id).testBit k = true) := by
  have herr : SLURM_ERROR ≠ SLURM_SUCCESS := by decide
  unfold fed_mgr_job_allocate at halloc
  by_cases h1 : job_desc.job_id ≠ env.NO_VAL
  · rw [if_pos h1] at halloc
    cases halloc
    exact absurd hrc herr
  rw [if_neg h1] at halloc
  simp only [] at halloc
  by_cases h2 : (_validate_cluster_features env (some fed) job_desc.cluster_features).1
      ≠ SLURM_SUCCESS
  · rw [if_pos h2] at halloc
    cases halloc
    exact absurd hrc herr
  rw [if_neg h2] at halloc
  split at halloc
  · cases halloc
    exact absurd hrc herr
  rename_i job_ptr ha
  split at halloc
  · cases halloc
    exact absurd hrc herr
  split at halloc
  · cases halloc
  rename_i fd hfd
  split at halloc
  · cases halloc
  rename_i l hl
  cases halloc
  simp only [Option.some.injEq] at hjob
  subst hjob
  simp only [_add_fed_job_info, Option.some.injEq] at hl
  subst hl
  simp only [_find_fed_job_info] at hnew ⊢
  have hf : ∀ (x : fed_job_info_t) (id : Nat), x.job_id = id →
      fed_job_list.find? (_list_find_fed_job_info_by_jobid id) = none →
      (fed_job_list ++ [x]).find? (_list_find_fed_job_info_by_jobid id) = some x := by
    intro x id hx hn
    rw [List.find?_append, hn]
    simp [_list_find_fed_job_info_by_jobid, hx]
  refine ⟨_, _, rfl, hf _ _ rfl hnew, rfl, rfl, rfl, ?_⟩
  · intro k hk
    simp only [] at hk
    have hd2 : ∀ (d : job_desc_msg_t) (b : Nat),
        (if d.fed_siblings_viable &&& b ≠ 0 then
            { d with fed_siblings_active := d.fed_siblings_active ||| b } else d
          ).fed_siblings_active.testBit k = true →
        d.fed_siblings_active.testBit k = true ∨ b.testBit k = true := by
      intro d b h
      by_cases hc : d.fed_siblings_viable &&& b ≠ 0
      · rw [if_pos hc] at h
        simpa [Nat.testBit_or] using h
      · rw [if_neg hc] at h
        exact Or.inl h
    have hz : ∀ (d : job_desc_msg_t), d.fed_siblings_active = 0 →
        d.fed_siblings_active.testBit k = true → False := by
      intro d h0 h
      rw [h0] at h
      simp at h
    by_cases hheld : (job_desc.priority == 0) = true
    · rw [if_pos hheld] at hk
      rcases hd2 { job_desc with
          job_id := next_job_id,
          fed_siblings_viable := _get_viable_sibs env fed job_desc.clusters
            (_validate_cluster_features env (some fed) job_desc.cluster_features).2,
          fed_siblings_active := 0 }
        (FED_SIBLING_BIT (fed_mgr_cluster_rec fed).fed_id) hk with h | h
      · exact (hz _ rfl h).elim
      · exact Or.inr h
    · rw [if_neg hheld] at hk
      rcases (submit_sibling_jobs_spec env fed _ msg alloc_only fd.siblings_viable).2.2 k hk
        with h | h
      · rcases hd2 { job_desc with
            job_id := next_job_id,
            fed_siblings_viable := _get_viable_sibs env fed job_desc.clusters
              (_validate_cluster_features env (some fed) job_desc.cluster_features).2,
            fed_siblings_active := 0 }
          (FED_SIBLING_BIT (fed_mgr_cluster_rec fed).fed_id) h with h | h
        · exact (hz _ rfl h).elim
        · exact Or.inr h
      · exact Or.inl h

theorem freshly_submitted_tracked (env : Env) (fed : Fed) (s : ctld_state) (job_id : Nat)
    (hfresh : freshly_submitted env fed s job_id) :
    ∃ j fd ji, job_tracked s job_id j fd ji ∧ ji.cluster_lock = 0 ∧
      (∀ k, ji.siblings_active.testBit k = true →
        ji.siblings_viable.testBit k = true ∨
          (FED_SIBLING_BIT (fed_mgr_cluster_rec fed).fed_id).testBit k = true) := by
  obtain ⟨fl, msg, jd, ao, uid, pv, nx, r, j0, halloc, hrc, hjob, hid, hnew, hjl, hfl⟩ := hfresh
  subst hid
  obtain ⟨fd, ji, h1, h2, h3, h4, h5, h6⟩ := fed_mgr_job_allocate_fresh env fed fl msg jd ao
    uid pv nx r j0 halloc hrc hjob hnew
  refine ⟨j0, fd, ji, ⟨hjl, h1, by rw [hfl]; exact h2, h4, h5⟩, h3, ?_⟩
  intro k hk
  rw [h4] at hk
  rw [h5]
  exact h6 k hk

theorem lock_holder_active_run (env : Env) (fed : Fed) (job_id : Nat)
    (hreq : no_requeue_hold env) (hsig : signal_keeps_fed_details env)
    (horigin : fed_mgr_get_cluster_id job_id = (fed_mgr_cluster_rec fed).fed_id)
    (hP1 : 1 ≤ (fed_mgr_cluster_rec fed).fed_id)
    (hP2 : (fed_mgr_cluster_rec fed).fed_id ≤ MAX_FED_CLUSTERS)
    (hids : ∀ c ∈ fed.cluster_list, 1 ≤ c.fed_id)
    (events : List job_event) :
    ∀ (s0 s : ctld_state), lock_holder_active s0 job_id →
      guards_hold env fed job_id (lock_holder_guard env fed job_id) events s0 = true →
      run_events env fed job_id events s0 = some s →
      lock_holder_active s job_id := by
  induction events with
  | nil =>
    intro s0 s hinv _ hrun
    simp only [run_events, Option.some.injEq] at hrun
    rw [← hrun]; exact hinv
  | cons e es ih =>
    intro s0 s hinv hg hrun
    simp only [run_events, guards_hold, Bool.and_eq_true] at hrun hg
    cases hstep : apply_event env fed job_id s0 e with
    | none => rw [hstep] at hrun; cases hrun
    | some s1 =>
      rw [hstep] at hrun hg
      exact ih s1 s
        (lock_holder_active_step env fed job_id s0 s1 e hreq hsig horigin hP1 hP2 hids hinv
          hg.1 hstep)
        hg.2 hrun

/-! ## C7: the lock holder and the active siblings -/

/-- C7 (counterexample): from a freshly submitted job, `fed_mgr_job_lock_set` for
cluster 2 followed by the handling of REMOVE_ACTIVE_SIB_BIT from cluster "c2"
reaches a `fed_job_info_t` with `cluster_lock` 2 and `siblings_active` 5: the lock
is held and the sibling bit of the lock holder is clear.  Four more runs from
the same job end with the lock held and the holder's bit clear, each with one
step that `lock_holder_guard` rejects after steps that it accepts: the lock is
granted to cluster 3 after its sibling was removed (lock 3, active 3); cluster 2
starts the job and then reports a job list without it (lock 2, active 0); the
job's clusters are changed to "c1,c3" while cluster 2 holds the lock
(lock 2, active 5); and, where `copy_job_record_to_job_desc` returns NULL,
cluster 2 holds the lock of the job that has not started and reports a job list
without it, so that nothing is resubmitted (lock 2, active 5). -/
theorem lock_holder_dropped_from_siblings_active :
    freshly_submitted example_env (example_fed 0) example_submitted_state 67108869 ∧
    run_events example_env (example_fed 0) 67108869
        [.lock_set 1000 2, .remove_active_sib_bit "c2"] example_submitted_state
      = some (example_state (example_job 0 5 7) (example_job_info 2 5 7)) ∧
    _find_fed_job_info (example_state (example_job 0 5 7) (example_job_info 2 5 7)).fed_job_list
        67108869 = some (example_job_info 2 5 7) ∧
    (example_job_info 2 5 7).cluster_lock ≠ 0 ∧
    (example_job_info 2 5 7).siblings_active
      &&& FED_SIBLING_BIT (example_job_info 2 5 7).cluster_lock = 0 ∧
    (guards_hold example_env (example_fed 0) 67108869
        (lock_holder_guard example_env (example_fed 0) 67108869)
        [.lock_set 1000 2] example_submitted_state = true ∧
      lock_holder_guard example_env (example_fed 0) 67108869 (example_run [.lock_set 1000 2])
        (.remove_active_sib_bit "c2") = false) ∧
    (guards_hold example_env (example_fed 0) 67108869
        (lock_holder_guard example_env (example_fed 0) 67108869)
        [.remove_active_sib_bit "c3"] example_submitted_state = true ∧
      lock_holder_guard example_env (example_fed 0) 67108869
        (example_run [.remove_active_sib_bit "c3"]) (.lock_set 1000 3) = false ∧
      (run_events example_env (example_fed 0) 67108869
          [.remove_active_sib_bit "c3", .lock_set 1000 3] example_submitted_state).bind
          (fun s => _find_fed_job_info s.fed_job_list 67108869)
        = some (example_job_info 3 3 7) ∧
      (example_job_info 3 3 7).siblings_active &&& FED_SIBLING_BIT 3 = 0) ∧
    (guards_hold example_env (example_fed 0) 67108869
        (lock_holder_guard example_env (example_fed 0) 67108869)
        [.lock_set 1000 2, .start_msg 1200 2] example_submitted_state = true ∧
      lock_holder_guard example_env (example_fed 0) 67108869
        (example_run [.lock_set 1000 2, .start_msg 1200 2]) (.sync "c2" [] 2000) = false ∧
      (run_events example_env (example_fed 0) 67108869
          [.lock_set 1000 2, .start_msg 1200 2, .sync "c2" [] 2000]
          example_submitted_state).bind
          (fun s => _find_fed_job_info s.fed_job_list 67108869)
        = some (example_job_info 2 0 7) ∧
      (example_job_info 2 0 7).siblings_active &&& FED_SIBLING_BIT 2 = 0) ∧
    (guards_hold example_env (example_fed 0) 67108869
        (lock_holder_guard example_env (example_fed 0) 67108869)
        [.lock_set 1000 2] example_submitted_state = true ∧
      lock_holder_guard example_env (example_fed 0) 67108869 (example_run [.lock_set 1000 2])
        (.update_clusters "c1,c3" 1100) = false ∧
      (run_events example_env (example_fed 0) 67108869
          [.lock_set 1000 2, .update_clusters "c1,c3" 1100] example_submitted_state).bind
          (fun s => _find_fed_job_info s.fed_job_list 67108869)
        = some (example_job_info 2 5 5) ∧
      (example_job_info 2 5 5).siblings_active &&& FED_SIBLING_BIT 2 = 0) ∧
    (freshly_submitted example_env_no_copy (example_fed 0) example_submitted_state 67108869 ∧
      guards_hold example_env_no_copy (example_fed 0) 67108869
        (lock_holder_guard example_env_no_copy (example_fed 0) 67108869)
        [.lock_set 1000 2] example_submitted_state = true ∧
      guards_hold example_env_no_copy (example_fed 0) 67108869
        (lock_holder_guard example_env_no_copy (example_fed 0) 67108869)
        [.lock_set 1000 2, .sync "c2" [] 2000] example_submitted_state = false ∧
      (run_events example_env_no_copy (example_fed 0) 67108869
          [.lock_set 1000 2, .sync "c2" [] 2000] example_submitted_state).bind
          (fun s => _find_fed_job_info s.fed_job_list 67108869)
        = some (example_job_info 2 5 7) ∧
      (example_job_info 2 5 7).siblings_active &&& FED_SIBLING_BIT 2 = 0) :=
  ⟨⟨[], example_job_msg none, example_job_desc none, false, 1000, 8192, 67108869, _, _,
      rfl, by decide, rfl, by decide, by decide, by decide, by decide⟩,
    by decide, by decide, by decide, by decide, by decide, by decide, by decide, by decide,
    ⟨[], example_job_msg none, example_job_desc none, false, 1000, 8192, 67108869, _, _,
      rfl, by decide, rfl, by decide, by decide, by decide, by decide⟩,
    by decide, by decide, by decide, by decide⟩

/-- C7 (amended): on the origin cluster of a job (cluster ids 1..63, no requeue
hold, `job_signal` keeping the federation details), every `fed_job_info_t`
reached from the freshly submitted job by lock_set, lock_unset, start, START
handling, REMOVE_ACTIVE_SIB_BIT handling, delta update and reconciliation steps
has `cluster_lock` 0 or the sibling bit of `cluster_lock` set in
`siblings_active`, provided every step satisfies `lock_holder_guard`: a lock
request that is granted names cluster id 0 or a cluster whose sibling bit is set
in `siblings_active`, a REMOVE_ACTIVE_SIB_BIT does not come from the lock
holder, a reconciliation with the lock holder does not clear the holder's bit
(it returns early, the job originates on the sender, or the holder's job list
holds the job) or resubmits the sibling of the job that has not started, and a
delta update that changes the `fed_job_info_t` leaves the lock holder viable. -/
theorem lock_holder_in_siblings_active (env : Env) (fed : Fed) (job_id : Nat)
    (s0 s : ctld_state) (events : List job_event)
    (hreq : no_requeue_hold env) (hsig : signal_keeps_fed_details env)
    (horigin : fed_mgr_get_cluster_id job_id = (fed_mgr_cluster_rec fed).fed_id)
    (hP1 : 1 ≤ (fed_mgr_cluster_rec fed).fed_id)
    (hP2 : (fed_mgr_cluster_rec fed).fed_id ≤ MAX_FED_CLUSTERS)
    (hids : ∀ c ∈ fed.cluster_list, 1 ≤ c.fed_id)
    (hfresh : freshly_submitted env fed s0 job_id)
    (hguard : guards_hold env fed job_id (lock_holder_guard env fed job_id) events s0 = true)
    (hrun : run_events env fed job_id events s0 = some s) :
    ∃ ji, _find_fed_job_info s.fed_job_list job_id = some ji ∧
      (ji.cluster_lock = 0 ∨ ji.siblings_active &&& FED_SIBLING_BIT ji.cluster_lock ≠ 0) := by
  obtain ⟨j0, fd0, ji0, ht0, hl0, _⟩ := freshly_submitted_tracked env fed s0 job_id hfresh
  obtain ⟨j, fd, ji, ht, hlock⟩ := lock_holder_active_run env fed job_id hreq hsig horigin
    hP1 hP2 hids events s0 s ⟨j0, fd0, ji0, ht0, Or.inl hl0⟩ hguard hrun
  refine ⟨ji, ht.2.2.1, ?_⟩
  rcases hlock with h0 | ⟨l1, l2, l3⟩
  · exact Or.inl h0
  · right
    intro hz
    rw [FED_SIBLING_BIT_eq _ l1 l2] at hz
    rw [and_two_pow_eq_zero _ _ hz] at l3
    cases l3

/-- Witness for C7: cluster 2 is granted the lock, reports a job list without
the job and has the sibling resubmitted, and starts the job; it then reports the
job as running, a reconciliation older than the job is skipped, cluster 3 is
denied the lock and a change of the job's clusters is rejected.  Every step
satisfies `lock_holder_guard`, and the lock holder 2 is the active sibling at
the end. -/
theorem lock_holder_in_siblings_active_witness :
    freshly_submitted example_env (example_fed 0) example_submitted_state 67108869 ∧
    guards_hold example_env (example_fed 0) 67108869
        (lock_holder_guard example_env (example_fed 0) 67108869)
        [.lock_set 1000 2, .sync "c2" [] 2000, .start_msg 1200 2,
          .sync "c2" [⟨67108869, 1, 0⟩] 2000,
          .sync "c2" [] 5, .lock_set 1001 3, .update_clusters "c1" 1100,
          .remove_active_sib_bit "c3"]
        example_submitted_state = true ∧
    (example_run
        [.lock_set 1000 2, .sync "c2" [] 2000, .start_msg 1200 2,
          .sync "c2" [⟨67108869, 1, 0⟩] 2000,
          .sync "c2" [] 5, .lock_set 1001 3, .update_clusters "c1" 1100,
          .remove_active_sib_bit "c3"]).fed_job_list
      = [example_job_info 2 2 7] ∧
    (example_run [.lock_set 1000 2, .sync "c2" [] 2000]).fed_job_list
      = [example_job_info 2 7 7] ∧
    (example_run [.lock_set 1000 2, .sync "c2" [] 2000]).send_rpc.map
        (fun q => (q.cluster.name, q.agent_rec.buffer.data.sib_msg_type))
      = [("c2", FED_JOB_SUBMIT_BATCH)] ∧
    ∃ ji, _find_fed_job_info
        (example_run
          [.lock_set 1000 2, .sync "c2" [] 2000, .start_msg 1200 2,
            .sync "c2" [⟨67108869, 1, 0⟩] 2000,
            .sync "c2" [] 5, .lock_set 1001 3, .update_clusters "c1" 1100,
            .remove_active_sib_bit "c3"]).fed_job_list
        67108869 = some ji ∧
      (ji.cluster_lock = 0 ∨ ji.siblings_active &&& FED_SIBLING_BIT ji.cluster_lock ≠ 0) :=
  ⟨⟨[], example_job_msg none, example_job_desc none, false, 1000, 8192, 67108869, _, _,
      rfl, by decide, rfl, by decide, by decide, by decide, by decide⟩,
    by decide, by decide, by decide, by decide,
    lock_holder_in_siblings_active example_env (example_fed 0) 67108869
      example_submitted_state
      (example_run
        [.lock_set 1000 2, .sync "c2" [] 2000, .start_msg 1200 2,
          .sync "c2" [⟨67108869, 1, 0⟩] 2000,
          .sync "c2" [] 5, .lock_set 1001 3, .update_clusters "c1" 1100,
          .remove_active_sib_bit "c3"])
      [.lock_set 1000 2, .sync "c2" [] 2000, .start_msg 1200 2,
        .sync "c2" [⟨67108869, 1, 0⟩] 2000,
        .sync "c2" [] 5, .lock_set 1001 3, .update_clusters "c1" 1100,
        .remove_active_sib_bit "c3"]
      (fun _ => rfl) (fun _ => ⟨rfl, rfl⟩) (by decide) (by decide) (by decide) (by decide)
      ⟨[], example_job_msg none, example_job_desc none, false, 1000, 8192, 67108869, _, _,
        rfl, by decide, rfl, by decide, by decide, by decide, by decide⟩
      (by decide) (by decide)⟩

/-! ## C8: the active siblings, the viable siblings and the origin -/

theorem testBit_of_and_eq (a b : Nat) (h : a &&& b = a) (k : Nat)
    (hk : a.testBit k = true) : b.testBit k = true := by
  rw [← h, Nat.testBit_and, Bool.and_eq_true] at hk
  exact hk.2

/-- C8 (counterexample): cluster 3 takes the lock of a freshly submitted job, a
delta update to clusters "c1,c2" leaves `siblings_viable` 3, and the START from
cluster 3 makes `_fed_job_start_revoke` set `siblings_active` to 4: the bit of
cluster 3 is active, but it is neither viable nor the bit of the origin
(cluster 1). -/
theorem started_sibling_outside_viable_and_origin :
    freshly_submitted example_env (example_fed 0) example_submitted_state 67108869 ∧
    (run_events example_env (example_fed 0) 67108869
        [.lock_set 1000 3, .update_clusters "c1,c2" 1100] example_submitted_state).map
        (fun s => s.fed_job_list) = some [example_job_info 3 3 3] ∧
    (_fed_job_start_revoke example_env (some (example_fed 0)) (example_job_info 3 3 3)
        (example_job 0 3 3) 1200).map (fun p => p.1) = some (example_job_info 3 4 3) ∧
    (run_events example_env (example_fed 0) 67108869
        [.lock_set 1000 3, .update_clusters "c1,c2" 1100, .start_msg 1200 3]
        example_submitted_state).map
        (fun s => s.fed_job_list) = some [example_job_info 3 4 3] ∧
    fed_mgr_get_cluster_id 67108869 = 1 ∧
    (example_job_info 3 4 3).siblings_active.testBit 2 = true ∧
    (example_job_info 3 4 3).siblings_viable.testBit 2 = false ∧
    (FED_SIBLING_BIT (fed_mgr_get_cluster_id 67108869)).testBit 2 = false :=
  ⟨⟨[], example_job_msg none, example_job_desc none, false, 1000, 8192, 67108869, _, _,
      rfl, by decide, rfl, by decide, by decide, by decide, by decide⟩,
    by decide, by decide, by decide, by decide, by decide, by decide, by decide⟩

/-- C8 (amended): with no requeue hold, `job_signal` keeping the federation
details and `copy_job_record_to_job_desc` keeping the sibling bitmaps:
(a) after a successful `fed_mgr_job_allocate` on the origin, `siblings_active`
is a subset of `siblings_viable` united with the origin's sibling bit;
(b) after `_add_remove_sibling_jobs`, `siblings_active` is a subset of the new
`siblings_viable`;
(c) after `_fed_job_start_revoke`, `siblings_active` is exactly the sibling bit
of the lock holder, which is inside `siblings_viable` united with the origin's
bit if and only if the lock holder is viable or is the origin;
(d) `_reconcile_fed_job` keeps `siblings_active` inside `siblings_viable` united
with the origin's bit when it was inside before. -/
theorem siblings_active_within_viable_or_origin (env : Env) (fed : Fed)
    (hreq : no_requeue_hold env) (hsig : signal_keeps_fed_details env)
    (hcopy : copy_keeps_sibling_bitmaps env) :
    (∀ (fed_job_list : List fed_job_info_t) (msg : job_msg_t) (job_desc : job_desc_msg_t)
        (alloc_only : Bool) (uid protocol_version next_job_id : Nat) (r : allocate_result)
        (j0 : job_record),
      fed_mgr_job_allocate env fed fed_job_list msg job_desc alloc_only uid
        protocol_version next_job_id = some r →
      r.rc = SLURM_SUCCESS → r.job_ptr = some j0 →
      _find_fed_job_info fed_job_list j0.job_id = none →
      fed_mgr_get_cluster_id j0.job_id = (fed_mgr_cluster_rec fed).fed_id →
      ∃ ji, _find_fed_job_info r.fed_job_list j0.job_id = some ji ∧
        ∀ k, ji.siblings_active.testBit k = true →
          ji.siblings_viable.testBit k = true ∨
            (FED_SIBLING_BIT (fed_mgr_get_cluster_id j0.job_id)).testBit k = true) ∧
    (∀ (fed_job_list : List fed_job_info_t) (job_ptr : job_record) (now : Int)
        (fd : job_fed_details_t) (det : job_details) (ji : fed_job_info_t),
      job_ptr.fed_details = some fd → job_ptr.details = some det →
      _find_fed_job_info fed_job_list job_ptr.job_id = some ji →
      fd.siblings_active < 2 ^ 64 →
      ∃ r ji', _add_remove_sibling_jobs env fed fed_job_list job_ptr now = some r ∧
        _find_fed_job_info r.fed_job_list job_ptr.job_id = some ji' ∧
        ∀ k, ji'.siblings_active.testBit k = true → ji'.siblings_viable.testBit k = true) ∧
    (∀ (job_info : fed_job_info_t) (job_ptr : job_record) (start_time : Int)
        (fd : job_fed_details_t),
      job_ptr.fed_details = some fd →
      1 ≤ job_info.cluster_lock → job_info.cluster_lock ≤ MAX_FED_CLUSTERS →
      1 ≤ fed_mgr_get_cluster_id job_ptr.job_id →
      fed_mgr_get_cluster_id job_ptr.job_id ≤ MAX_FED_CLUSTERS →
      ∃ ji' j' q, _fed_job_start_revoke env (some fed) job_info job_ptr start_time
          = some (ji', j', q) ∧
        ji'.siblings_active = FED_SIBLING_BIT job_info.cluster_lock ∧
        ji'.siblings_viable = job_info.siblings_viable ∧
        ((∀ k, ji'.siblings_active.testBit k = true →
            ji'.siblings_viable.testBit k = true ∨
              (FED_SIBLING_BIT (fed_mgr_get_cluster_id job_ptr.job_id)).testBit k = true) ↔
          (job_info.siblings_viable.testBit (job_info.cluster_lock - 1) = true ∨
            job_info.cluster_lock = fed_mgr_get_cluster_id job_ptr.job_id))) ∧
    (∀ (fed_job_list : List fed_job_info_t) (job_ptr : job_record)
        (rec_sib : reconcile_sib_t) (fd : job_fed_details_t) (ji : fed_job_info_t),
      job_ptr.fed_details = some fd →
      _find_fed_job_info fed_job_list job_ptr.job_id = some ji →
      ji.siblings_active = fd.siblings_active → ji.siblings_viable = fd.siblings_viable →
      (∀ k, ji.siblings_active.testBit k = true →
        ji.siblings_viable.testBit k = true ∨
          (FED_SIBLING_BIT (fed_mgr_get_cluster_id job_ptr.job_id)).testBit k = true) →
      ∃ r ji', _reconcile_fed_job env fed fed_job_list job_ptr rec_sib = some r ∧
        _find_fed_job_info r.fed_job_list job_ptr.job_id = some ji' ∧
        ∀ k, ji'.siblings_active.testBit k = true →
          ji'.siblings_viable.testBit k = true ∨
            (FED_SIBLING_BIT (fed_mgr_get_cluster_id job_ptr.job_id)).testBit k = true) := by
  refine ⟨?_, ?_, ?_, ?_⟩
  · intro fl msg jd ao uid pv nx r j0 halloc hrc hjob hnew horigin
    obtain ⟨fd, ji, _, h2, _, h4, h5, h6⟩ := fed_mgr_job_allocate_fresh env fed fl msg jd ao
      uid pv nx r j0 halloc hrc hjob hnew
    refine ⟨ji, h2, ?_⟩
    intro k hk
    rw [h4] at hk
    rw [h5, horigin]
    exact h6 k hk
  · intro fl job_ptr now fd det ji hfd hdet hfind h64
    obtain ⟨r, A, hr, _, _, _, c4, c5⟩ := add_remove_sibling_jobs_spec env fed fl job_ptr now
      fd det hfd hdet hreq
    rw [hfind] at c5
    refine ⟨r,
      { ji with
        siblings_viable := _get_viable_sibs env fed job_ptr.clusters
          (_validate_cluster_features env (some fed) det.cluster_features).2,
        siblings_active := A }, hr, ?_, ?_⟩
    · rw [c5]
      exact find_set_fed_job_info fl job_ptr.job_id ji _ hfind
        (find_fed_job_info_job_id fl job_ptr.job_id ji hfind)
    · intro k hk
      exact c4 hcopy h64 k hk
  · intro job_info job_ptr start_time fd hfd hL1 hL2 hO1 hO2
    have hL64 : job_info.cluster_lock ≤ 64 := by unfold MAX_FED_CLUSTERS at hL2; omega
    have hO64 : fed_mgr_get_cluster_id job_ptr.job_id ≤ 64 := by
      unfold MAX_FED_CLUSTERS at hO2; omega
    refine ⟨{ job_info with siblings_active := FED_SIBLING_BIT job_info.cluster_lock },
      { job_ptr with fed_details := some { fd with
          cluster_lock := job_info.cluster_lock,
          siblings_active := FED_SIBLING_BIT job_info.cluster_lock } },
      if job_info.siblings_active &&& not64 (FED_SIBLING_BIT job_info.cluster_lock) ≠ 0 then
        _revoke_sibling_jobs env (some fed) job_ptr.job_id job_info.cluster_lock
          job_info.siblings_active start_time
      else [],
      by rw [_fed_job_start_revoke, hfd], rfl, rfl, ?_⟩
    constructor
    · intro H
      rcases H (job_info.cluster_lock - 1)
        (testBit_FED_SIBLING_BIT_self _ hL1 hL2) with h | h
      · exact Or.inl h
      · right
        rw [testBit_FED_SIBLING_BIT _ _ hO1 hO64, decide_eq_true_eq] at h
        omega
    · intro H k hk
      have hk' : (FED_SIBLING_BIT job_info.cluster_lock).testBit k = true := hk
      rw [testBit_FED_SIBLING_BIT _ _ hL1 hL64, decide_eq_true_eq] at hk'
      have hkL : k = job_info.cluster_lock - 1 := by omega
      rcases H with h | h
      · left
        rw [hkL]
        exact h
      · right
        rw [testBit_FED_SIBLING_BIT _ _ hO1 hO64, decide_eq_true_eq]
        omega
  · intro fl job_ptr rec_sib fd ji hfd hfind hsa hsv hinv
    obtain ⟨r, A, hr, _, _, c3, _, _, c6⟩ := reconcile_fed_job_spec env fed fl job_ptr
      rec_sib fd ji hfd hfind hsa hsv hreq hsig
    refine ⟨r, { ji with siblings_active := A }, hr, c3, ?_⟩
    intro k hk
    rcases c6 hcopy k hk with h | h
    · exact hinv k (by rw [hsa]; exact h)
    · left
      show ji.siblings_viable.testBit k = true
      rw [hsv]; exact h

theorem example_env_copy_keeps_sibling_bitmaps : copy_keeps_sibling_bitmaps example_env := by
  intro j d fd h1 h2
  simp only [example_env, Option.some.injEq] at h1
  subst h1
  simp only [h2, Option.map_some', Option.getD_some, and_self]

theorem siblings_active_within_viable_or_origin_witness :
    (∃ r j0, fed_mgr_job_allocate example_env (example_fed 0) [] (example_job_msg none)
        (example_job_desc none) false 1000 8192 67108869 = some r ∧
      r.rc = SLURM_SUCCESS ∧ r.job_ptr = some j0 ∧
      ∃ ji, _find_fed_job_info r.fed_job_list j0.job_id = some ji ∧
        ∀ k, ji.siblings_active.testBit k = true →
          ji.siblings_viable.testBit k = true ∨
            (FED_SIBLING_BIT (fed_mgr_get_cluster_id j0.job_id)).testBit k = true) ∧
    (∃ r ji', _add_remove_sibling_jobs example_env (example_fed 0) [example_job_info 0 7 7]
          { example_job 0 7 7 with clusters := some "c1,c2" } 1100 = some r ∧
        _find_fed_job_info r.fed_job_list 67108869 = some ji' ∧
        ∀ k, ji'.siblings_active.testBit k = true → ji'.siblings_viable.testBit k = true) ∧
    (∃ ji' j' q, _fed_job_start_revoke example_env (some (example_fed 0))
          (example_job_info 2 7 7) (example_job 0 7 7) 1200 = some (ji', j', q) ∧
        ji'.siblings_active = FED_SIBLING_BIT 2 ∧
        ji'.siblings_viable = 7 ∧
        ((∀ k, ji'.siblings_active.testBit k = true →
            ji'.siblings_viable.testBit k = true ∨
              (FED_SIBLING_BIT (fed_mgr_get_cluster_id 67108869)).testBit k = true) ↔
          (Nat.testBit 7 (2 - 1) = true ∨ 2 = fed_mgr_get_cluster_id 67108869))) ∧
    (∃ r ji', _reconcile_fed_job example_env (example_fed 0) [example_job_info 0 3 7]
          (example_job 0 3 7) ⟨[], 3, "c3", 100⟩ = some r ∧
        _find_fed_job_info r.fed_job_list 67108869 = some ji' ∧
        ∀ k, ji'.siblings_active.testBit k = true →
          ji'.siblings_viable.testBit k = true ∨
            (FED_SIBLING_BIT (fed_mgr_get_cluster_id 67108869)).testBit k = true) :=
  ⟨⟨_, _, rfl, by decide, rfl,
      (siblings_active_within_viable_or_origin example_env (example_fed 0) (fun _ => rfl)
        (fun _ => ⟨rfl, rfl⟩) example_env_copy_keeps_sibling_bitmaps).1
        [] (example_job_msg none) (example_job_desc none) false 1000 8192 67108869 _ _
        rfl (by decide) rfl (by decide) (by decide)⟩,
    (siblings_active_within_viable_or_origin example_env (example_fed 0) (fun _ => rfl)
      (fun _ => ⟨rfl, rfl⟩) example_env_copy_keeps_sibling_bitmaps).2.1
      [example_job_info 0 7 7] { example_job 0 7 7 with clusters := some "c1,c2" } 1100
      _ _ (example_job_info 0 7 7) rfl rfl (by decide) (by decide),
    (siblings_active_within_viable_or_origin example_env (example_fed 0) (fun _ => rfl)
      (fun _ => ⟨rfl, rfl⟩) example_env_copy_keeps_sibling_bitmaps).2.2.1
      (example_job_info 2 7 7) (example_job 0 7 7) 1200 _ rfl (by decide) (by decide)
      (by decide) (by decide),
    (siblings_active_within_viable_or_origin example_env (example_fed 0) (fun _ => rfl)
      (fun _ => ⟨rfl, rfl⟩) example_env_copy_keeps_sibling_bitmaps).2.2.2
      [example_job_info 0 3 7] (example_job 0 3 7) ⟨[], 3, "c3", 100⟩ _
      (example_job_info 0 3 7) rfl (by decide) rfl rfl
      (fun k hk => Or.inl (testBit_of_and_eq 3 7 (by decide) k hk))⟩

/-! ## C9: the active siblings of a started job -/

theorem started_step (env : Env) (fed : Fed) (job_id L : Nat) (s s' : ctld_state)
    (e : job_event)
    (hreq : no_requeue_hold env) (hsig : signal_keeps_fed_details env)
    (horigin : fed_mgr_get_cluster_id job_id = (fed_mgr_cluster_rec fed).fed_id)
    (hL1 : 1 ≤ L) (hL2 : L ≤ MAX_FED_CLUSTERS)
    (hinv : started_lock_kept s job_id L)
    (he : is_started_job_event e = true)
    (hstep : apply_event env fed job_id s e = some s') :
    started_lock_kept s' job_id L ∧
    ∃ ji ji', _find_fed_job_info s.fed_job_list job_id = some ji ∧
      _find_fed_job_info s'.fed_job_list job_id = some ji' ∧
      ji.cluster_lock = L ∧ ji'.cluster_lock = L ∧
      (∀ k, ji'.siblings_active.testBit k = true → (FED_SIBLING_BIT L).testBit k = true) ∧
      ((∃ t c, e = .start_msg t c) → ji'.siblings_active = FED_SIBLING_BIT L) ∧
      ((∀ t c, e ≠ .start_msg t c) →
        ∀ k, ji'.siblings_active.testBit k = true → ji.siblings_active.testBit k = true) := by
  obtain ⟨j, fd, ji, ht, hl, hfl, hsub⟩ := hinv
  have hL64 : L ≤ 64 := by unfold MAX_FED_CLUSTERS at hL2; omega
  cases e with
  | start_msg t c =>
    obtain ⟨j', fd', ji', ht', h1, h2, _, h4⟩ := tracked_start_msg env fed job_id s s' t c
      j fd ji horigin hreq (by rw [hl]; exact hL1) (by rw [hl]; exact hL2) ht hstep
    have hbit : ji'.siblings_active = FED_SIBLING_BIT L := by
      rw [h4, hl, FED_SIBLING_BIT_eq L hL1 hL64, Nat.one_shiftLeft]
    have hsub' : ∀ k, ji'.siblings_active.testBit k = true →
        (FED_SIBLING_BIT L).testBit k = true := by
      intro k hk; rw [← hbit]; exact hk
    exact ⟨⟨j', fd', ji', ht', h1.trans hl, h2.trans hl, hsub'⟩,
      ji, ji', ht.2.2.1, ht'.2.2.1, hl, h1.trans hl, hsub', fun _ => hbit,
      fun hne => absurd rfl (hne t c)⟩
  | remove_active_sib_bit cluster_name =>
    obtain ⟨j', fd', ji', ht', h1, h2, _, hc⟩ := tracked_remove_active_sib_bit env fed job_id
      s s' cluster_name j fd ji ht hstep
    have hmono : ∀ k, ji'.siblings_active.testBit k = true →
        ji.siblings_active.testBit k = true := by
      intro k hk
      rcases hc with hc | ⟨sibling, _, hc⟩
      · rw [← hc]; exact hk
      · rw [hc, testBit_and_not64_sibling_bit, Bool.and_eq_true, Bool.and_eq_true] at hk
        exact hk.1.1
    exact ⟨⟨j', fd', ji', ht', h1.trans hl, h2.trans hfl, fun k hk => hsub k (hmono k hk)⟩,
      ji, ji', ht.2.2.1, ht'.2.2.1, hl, h1.trans hl, fun k hk => hsub k (hmono k hk),
      fun h => (by obtain ⟨t, c, h⟩ := h; cases h), fun _ => hmono⟩
  | sync sib_name job_info_msg sync_time =>
    obtain ⟨j', fd', ji', ht', h1, h2, _, _, hdec, _⟩ := tracked_sync env fed job_id s s'
      sib_name job_info_msg sync_time j fd ji hreq hsig ht hstep
    have hmono : ∀ k, ji'.siblings_active.testBit k = true →
        ji.siblings_active.testBit k = true := hdec (by rw [hfl]; omega)
    exact ⟨⟨j', fd', ji', ht', h1.trans hl, h2.trans hfl, fun k hk => hsub k (hmono k hk)⟩,
      ji, ji', ht.2.2.1, ht'.2.2.1, hl, h1.trans hl, fun k hk => hsub k (hmono k hk),
      fun h => (by obtain ⟨t, c, h⟩ := h; cases h), fun _ => hmono⟩
  | lock_set _ _ => cases he
  | lock_unset _ => cases he
  | start _ => cases he
  | update_clusters _ _ => cases he
  | update_cluster_features _ _ => cases he

theorem started_run (env : Env) (fed : Fed) (job_id L : Nat)
    (hreq : no_requeue_hold env) (hsig : signal_keeps_fed_details env)
    (horigin : fed_mgr_get_cluster_id job_id = (fed_mgr_cluster_rec fed).fed_id)
    (hL1 : 1 ≤ L) (hL2 : L ≤ MAX_FED_CLUSTERS) (events : List job_event) :
    ∀ (s0 s : ctld_state), started_lock_kept s0 job_id L →
      events.all is_started_job_event = true →
      run_events env fed job_id events s0 = some s →
      started_lock_kept s job_id L := by
  induction events with
  | nil =>
    intro s0 s hinv _ hrun
    simp only [run_events, Option.some.injEq] at hrun
    rw [← hrun]; exact hinv
  | cons e es ih =>
    intro s0 s hinv hall hrun
    simp only [List.all_cons, Bool.and_eq_true] at hall
    simp only [run_events] at hrun
    cases hstep : apply_event env fed job_id s0 e with
    | none => rw [hstep] at hrun; cases hrun
    | some s1 =>
      rw [hstep] at hrun
      exact ih s1 s
        (started_step env fed job_id L s0 s1 e hreq hsig horigin hL1 hL2 hinv hall.1 hstep).1
        hall.2 hrun

theorem example_job_started :
    job_started (example_run [.lock_set 1000 2, .start_msg 1200 2]) 67108869 2 :=
  ⟨example_started_job, ⟨2, 2, 7⟩, example_job_info 2 2 7,
    ⟨by decide, rfl, by decide, rfl, rfl⟩, rfl, rfl, by decide⟩

/-- C9 (counterexample): job 67108869 has been started by cluster 2
(`cluster_lock` 2, `siblings_active` 2); the handling of REMOVE_ACTIVE_SIB_BIT
from "c2" clears the bit of cluster 2, and the handling of a further START then
sets that bit again while `cluster_lock` is 2 all along. -/
theorem start_handling_sets_cleared_bit :
    job_started (example_run [.lock_set 1000 2, .start_msg 1200 2]) 67108869 2 ∧
    (run_events example_env (example_fed 0) 67108869 [.remove_active_sib_bit "c2"]
        (example_run [.lock_set 1000 2, .start_msg 1200 2])).map (fun s => s.fed_job_list)
      = some [example_job_info 2 0 7] ∧
    (run_events example_env (example_fed 0) 67108869
        [.remove_active_sib_bit "c2", .start_msg 1300 2]
        (example_run [.lock_set 1000 2, .start_msg 1200 2])).map (fun s => s.fed_job_list)
      = some [example_job_info 2 2 7] ∧
    (example_job_info 2 0 7).cluster_lock ≠ 0 ∧
    (example_job_info 2 0 7).siblings_active.testBit 1 = false ∧
    (example_job_info 2 2 7).cluster_lock ≠ 0 ∧
    (example_job_info 2 2 7).siblings_active.testBit 1 = true :=
  ⟨example_job_started,
    by decide, by decide, by decide, by decide, by decide, by decide⟩

/-- C9 (amended): on the origin, once a job has been started by cluster `L`
(`1 ≤ L ≤ 63`), along every sequence of START, REMOVE_ACTIVE_SIB_BIT and SYNC
steps `cluster_lock` stays `L` and `siblings_active` stays inside the sibling bit
of `L`; a REMOVE_ACTIVE_SIB_BIT or SYNC step sets no bit of `siblings_active`
that was clear before it, and a START step sets `siblings_active` to the sibling
bit of `L` (so it sets that bit again if it had been cleared). -/
theorem siblings_active_decreases_after_start (env : Env) (fed : Fed) (job_id L : Nat)
    (s0 s s' : ctld_state) (events : List job_event) (e : job_event)
    (hreq : no_requeue_hold env) (hsig : signal_keeps_fed_details env)
    (horigin : fed_mgr_get_cluster_id job_id = (fed_mgr_cluster_rec fed).fed_id)
    (hL1 : 1 ≤ L) (hL2 : L ≤ MAX_FED_CLUSTERS)
    (hstarted : job_started s0 job_id L)
    (hevents : events.all is_started_job_event = true)
    (he : is_started_job_event e = true)
    (hrun : run_events env fed job_id events s0 = some s)
    (hstep : apply_event env fed job_id s e = some s') :
    ∃ ji ji', _find_fed_job_info s.fed_job_list job_id = some ji ∧
      _find_fed_job_info s'.fed_job_list job_id = some ji' ∧
      ji.cluster_lock = L ∧ ji'.cluster_lock = L ∧
      (∀ k, ji'.siblings_active.testBit k = true → (FED_SIBLING_BIT L).testBit k = true) ∧
      ((∃ t c, e = .start_msg t c) → ji'.siblings_active = FED_SIBLING_BIT L) ∧
      ((∀ t c, e ≠ .start_msg t c) →
        ∀ k, ji'.siblings_active.testBit k = true → ji.siblings_active.testBit k = true) := by
  obtain ⟨j0, fd0, ji0, ht0, h1, h2, h3⟩ := hstarted
  have hinv0 : started_lock_kept s0 job_id L :=
    ⟨j0, fd0, ji0, ht0, h1, h2, fun k hk => by rw [← h3]; exact hk⟩
  exact (started_step env fed job_id L s s' e hreq hsig horigin hL1 hL2
    (started_run env fed job_id L hreq hsig horigin hL1 hL2 events s0 s hinv0 hevents hrun)
    he hstep).2

theorem siblings_active_decreases_after_start_witness :
    job_started (example_run [.lock_set 1000 2, .start_msg 1200 2]) 67108869 2 ∧
    ∃ ji ji', _find_fed_job_info
        (example_run [.lock_set 1000 2, .start_msg 1200 2, .start_msg 1300 2]).fed_job_list
        67108869 = some ji ∧
      _find_fed_job_info
        (example_run [.lock_set 1000 2, .start_msg 1200 2, .start_msg 1300 2,
          .sync "c3" [] 2000]).fed_job_list 67108869 = some ji' ∧
      ji.cluster_lock = 2 ∧ ji'.cluster_lock = 2 ∧
      (∀ k, ji'.siblings_active.testBit k = true → (FED_SIBLING_BIT 2).testBit k = true) ∧
      ((∃ t c, job_event.sync "c3" [] 2000 = .start_msg t c) →
        ji'.siblings_active = FED_SIBLING_BIT 2) ∧
      ((∀ t c, job_event.sync "c3" [] 2000 ≠ .start_msg t c) →
        ∀ k, ji'.siblings_active.testBit k = true → ji.siblings_active.testBit k = true) :=
  ⟨example_job_started,
    siblings_active_decreases_after_start example_env (example_fed 0) 67108869 2
      (example_run [.lock_set 1000 2, .start_msg 1200 2])
      (example_run [.lock_set 1000 2, .start_msg 1200 2, .start_msg 1300 2])
      (example_run [.lock_set 1000 2, .start_msg 1200 2, .start_msg 1300 2,
        .sync "c3" [] 2000])
      [.start_msg 1300 2] (.sync "c3" [] 2000)
      (fun _ => rfl) (fun _ => ⟨rfl, rfl⟩) (by decide) (by decide) (by decide)
      example_job_started
      (by decide) (by decide) (by decide) (by decide)⟩

/-! ## C11: the walk of `_revoke_sibling_jobs` -/

theorem testBit_ge_of_lt_two_pow (mask n k : Nat) (hmask : mask < 2 ^ n) (hk : n ≤ k) :
    mask.testBit k = false :=
  Nat.testBit_lt_two_pow (lt_of_lt_of_le hmask (Nat.pow_le_pow_right (by decide) hk))

/-- Fuel beyond the width of the mask changes nothing: for a mask below `2 ^ n`
the loop with `n + m` rounds queues what the loop with `n` rounds queues. -/
theorem revoke_sibling_jobs_loop_fuel (env : Env) (fed : Fed) (job_id cluster_id : Nat)
    (start_time : Int) (n m mask id : Nat) (hmask : mask < 2 ^ n) :
    _revoke_sibling_jobs_loop env fed job_id cluster_id start_time (n + m) mask id
      = _revoke_sibling_jobs_loop env fed job_id cluster_id start_time n mask id := by
  rw [revoke_sibling_jobs_loop_eq, revoke_sibling_jobs_loop_eq, List.range_add,
    List.filterMap_append]
  have hnil : List.filterMap (fun k =>
        if mask.testBit k = true ∧ id + k ≠ (fed_mgr_cluster_rec fed).fed_id ∧
            id + k ≠ cluster_id then
          fed_mgr_get_cluster_by_id fed (id + k)
        else none) (List.map (fun x => n + x) (List.range m)) = [] := by
    rw [List.filterMap_eq_nil_iff]
    intro k hk
    rw [List.mem_map] at hk
    obtain ⟨x, _, hx⟩ := hk
    have hb := testBit_ge_of_lt_two_pow mask n k hmask (by omega)
    rw [if_neg (fun h => by rw [hb] at h; exact Bool.false_ne_true h.1)]
  rw [hnil, List.append_nil]

theorem get_cluster_by_id_fed_id (fed : Fed) (id : Nat) (c : slurmdb_cluster_rec_t)
    (h : fed_mgr_get_cluster_by_id fed id = some c) : c.fed_id = id := by
  have := List.find?_some h
  simpa using this

theorem get_cluster_by_id_of_mem (fed : Fed) (c : slurmdb_cluster_rec_t)
    (huniq : fed.cluster_list.Pairwise (fun a b => a.fed_id ≠ b.fed_id))
    (hc : c ∈ fed.cluster_list) : fed_mgr_get_cluster_by_id fed c.fed_id = some c := by
  unfold fed_mgr_get_cluster_by_id
  generalize fed.cluster_list = l at huniq hc
  induction l with
  | nil => cases hc
  | cons x xs ih =>
    rw [List.pairwise_cons] at huniq
    rcases List.mem_cons.mp hc with h | h
    · subst h
      simp [List.find?_cons]
    · have hne : x.fed_id ≠ c.fed_id := huniq.1 c h
      rw [List.find?_cons]
      have hb : (x.fed_id == c.fed_id) = false := by simpa using hne
      rw [hb]
      exact ih huniq.2 h

theorem revoke_targets_spec_sorted (fed : Fed) (local_id except_id mask : Nat) :
    (revoke_targets_spec fed local_id except_id mask).Pairwise
      (fun a b => a.fed_id < b.fed_id) := by
  unfold revoke_targets_spec
  rw [List.pairwise_filterMap]
  refine List.Pairwise.imp ?_ (List.pairwise_lt_range 64)
  intro a b hab c hc d hd
  by_cases h1 : mask.testBit a = true ∧ a + 1 ≠ local_id ∧ a + 1 ≠ except_id
  · by_cases h2 : mask.testBit b = true ∧ b + 1 ≠ local_id ∧ b + 1 ≠ except_id
    · rw [Option.mem_def, if_pos h1] at hc
      rw [Option.mem_def, if_pos h2] at hd
      rw [get_cluster_by_id_fed_id fed _ c hc, get_cluster_by_id_fed_id fed _ d hd]
      omega
    · rw [Option.mem_def, if_neg h2] at hd
      cases hd
  · rw [Option.mem_def, if_neg h1] at hc
    cases hc

/-- C11: with the REVOKE request packable, a 64-bit `mask` and federation members
of distinct ids, `_revoke_sibling_jobs(job_id, except, mask, start_time)` queues
one REVOKE per target and nothing else, where the targets are exactly the
federation members whose id `i` has bit `i - 1` set in `mask` and is neither the
local id nor `except`, each once and by ascending id; every record queued is a
`REQUEST_SIB_MSG` of type `FED_JOB_COMPLETE` with return code 0 and the given
start time; and the walk is over after 64 rounds, whatever more it is allowed. -/
theorem revoke_sibling_jobs_walk (env : Env) (fed : Fed) (job_id cluster_id mask : Nat)
    (start_time : Int)
    (hpack : env.pack_msg (revoke_req_msg env job_id 0 start_time) = true)
    (hmask : mask < 2 ^ 64)
    (huniq : fed.cluster_list.Pairwise (fun a b => a.fed_id ≠ b.fed_id)) :
    ∃ targets : List slurmdb_cluster_rec_t,
      _revoke_sibling_jobs env (some fed) job_id cluster_id mask start_time
        = targets.map (revoke_rpc_spec env job_id 0 start_time) ∧
      targets.Pairwise (fun a b => a.fed_id < b.fed_id) ∧
      (∀ c, c ∈ targets ↔
        c ∈ fed.cluster_list ∧ 1 ≤ c.fed_id ∧ mask.testBit (c.fed_id - 1) = true ∧
          c.fed_id ≠ (fed_mgr_cluster_rec fed).fed_id ∧ c.fed_id ≠ cluster_id) ∧
      (∀ q ∈ _revoke_sibling_jobs env (some fed) job_id cluster_id mask start_time,
        q.agent_rec.msg_type = env.REQUEST_SIB_MSG ∧
        q.agent_rec.buffer.data.sib_msg_type = FED_JOB_COMPLETE ∧
        q.agent_rec.buffer.data.job_id = job_id ∧
        q.agent_rec.buffer.data.return_code = 0 ∧
        q.agent_rec.buffer.data.start_time = start_time) ∧
      (∀ m, _revoke_sibling_jobs_loop env fed job_id cluster_id start_time (64 + m) mask 1
        = _revoke_sibling_jobs env (some fed) job_id cluster_id mask start_time) := by
  have heq := revoke_sibling_jobs_eq_spec env fed job_id cluster_id mask start_time hpack
  refine ⟨revoke_targets_spec fed (fed_mgr_cluster_rec fed).fed_id cluster_id mask, heq,
    revoke_targets_spec_sorted fed _ _ _, ?_, ?_, ?_⟩
  · intro c
    rw [mem_revoke_targets_spec]
    constructor
    · rintro ⟨k, _, hb, h1, h2, hget⟩
      have hid := get_cluster_by_id_fed_id fed _ c hget
      refine ⟨List.mem_of_find?_eq_some hget, by omega, ?_, by omega, by omega⟩
      rw [hid]
      exact hb
    · rintro ⟨hc, h1, hb, h2, h3⟩
      refine ⟨c.fed_id - 1, ?_, hb, by omega, by omega, ?_⟩
      · by_contra hge
        rw [testBit_ge_of_lt_two_pow mask 64 (c.fed_id - 1) hmask (by omega)] at hb
        cases hb
      · have e : c.fed_id - 1 + 1 = c.fed_id := by omega
        rw [e]
        exact get_cluster_by_id_of_mem fed c huniq hc
  · intro q hq
    rw [heq, List.mem_map] at hq
    obtain ⟨c, _, hc⟩ := hq
    subst hc
    exact ⟨rfl, rfl, rfl, rfl, rfl⟩
  · intro m
    exact revoke_sibling_jobs_loop_fuel env fed job_id cluster_id start_time 64 m mask 1 hmask

/-- Witness for C11: on cluster 1 of the federation c1, c2, c3, revoking the
siblings of mask 7 except cluster 2 queues one REVOKE, for c3. -/
theorem revoke_sibling_jobs_walk_witness :
    _revoke_sibling_jobs example_env (some (example_fed 0)) 67108869 2 7 500
      = [revoke_rpc_spec example_env 67108869 0 500
          { name := "c3", fed_id := 3, fed_state := 1, feature_list := none }] ∧
    ∃ targets : List slurmdb_cluster_rec_t,
      _revoke_sibling_jobs example_env (some (example_fed 0)) 67108869 2 7 500
        = targets.map (revoke_rpc_spec example_env 67108869 0 500) ∧
      targets.Pairwise (fun a b => a.fed_id < b.fed_id) ∧
      (∀ c, c ∈ targets ↔
        c ∈ (example_fed 0).cluster_list ∧ 1 ≤ c.fed_id ∧
          Nat.testBit 7 (c.fed_id - 1) = true ∧
          c.fed_id ≠ (fed_mgr_cluster_rec (example_fed 0)).fed_id ∧ c.fed_id ≠ 2) ∧
      (∀ q ∈ _revoke_sibling_jobs example_env (some (example_fed 0)) 67108869 2 7 500,
        q.agent_rec.msg_type = example_env.REQUEST_SIB_MSG ∧
        q.agent_rec.buffer.data.sib_msg_type = FED_JOB_COMPLETE ∧
        q.agent_rec.buffer.data.job_id = 67108869 ∧
        q.agent_rec.buffer.data.return_code = 0 ∧
        q.agent_rec.buffer.data.start_time = 500) ∧
      (∀ m, _revoke_sibling_jobs_loop example_env (example_fed 0) 67108869 2 500 (64 + m) 7 1
        = _revoke_sibling_jobs example_env (some (example_fed 0)) 67108869 2 7 500) :=
  ⟨by decide,
    revoke_sibling_jobs_walk example_env (example_fed 0) 67108869 2 7 500 rfl (by decide)
      (by decide)⟩

/-! ## C12: the state `fed_mgr_job_revoke` leaves -/

theorem testBit_not32 (x k : Nat) :
    (not32 x).testBit k = (decide (k < 32) && !x.testBit k) := by
  unfold not32
  rw [Nat.testBit_xor, Nat.testBit_two_pow_sub_one, Nat.testBit_mod_two_pow]
  by_cases h : k < 32 <;> cases x.testBit k <;> simp [h]

/-- Setting a flag and clearing it again leaves the other bits: for a 32-bit
value `c` sharing no bit with the flag `r`, `(r | c) & ~r = c`. -/
theorem or_and_not32_cancel (r c : Nat) (hdisj : r &&& c = 0) (h32 : c < 2 ^ 32) :
    (r ||| c) &&& not32 r = c := by
  apply Nat.eq_of_testBit_eq
  intro k
  rw [Nat.testBit_and, Nat.testBit_or, testBit_not32]
  have h1 : (r &&& c).testBit k = false := by rw [hdisj]; simp
  rw [Nat.testBit_and] at h1
  by_cases hk : k < 32
  · cases hr : r.testBit k <;> cases hc : c.testBit k <;> simp_all
  · have hc : c.testBit k = false := testBit_ge_of_lt_two_pow c 32 k h32 (by omega)
    simp [hk, hc]

/-- C12 (counterexample): `fed_mgr_job_revoke` with `job_complete` true on the
pending federated job 67108869 (exit code outside the requeue table) leaves
`job_state` 4 (`JOB_CANCELLED`), not 524292 (`JOB_REVOKED | JOB_CANCELLED`). -/
theorem fed_mgr_job_revoke_complete_drops_revoked :
    example_env.IS_JOB_COMPLETED (example_job 0 7 7).job_state = false ∧
    _is_fed_job (some (example_fed 0)) (example_job 0 7 7) = some 1 ∧
    example_env.job_hold_requeue { example_job 0 7 7 with exit_code := 0 } = false ∧
    (fed_mgr_job_revoke example_env (some (example_fed 0)) (example_job 0 7 7) true 0
      500).1.job_state = 4 ∧
    example_env.JOB_REVOKED ||| example_env.JOB_CANCELLED = 524292 ∧
    (fed_mgr_job_revoke example_env (some (example_fed 0)) (example_job 0 7 7) true 0
      500).1.job_state ≠ example_env.JOB_REVOKED ||| example_env.JOB_CANCELLED := by
  decide

/-- C12 (amended): for a federated job, `JOB_CANCELLED` being a 32-bit value
that shares no bit with the flag `JOB_REVOKED`: a job that is already completed
is left unchanged; a job that is not completed and whose exit code does not
match the requeue table is left with `job_state` `JOB_CANCELLED` when
`job_complete` is true (`JOB_REVOKED | JOB_CANCELLED` is set and `JOB_REVOKED`
removed again) and `JOB_REVOKED` otherwise, with `start_time` and `end_time`
both the given start time, the given exit code, reason `WAIT_NO_REASON` and no
`state_desc`; the record is purged exactly on a cluster other than the origin. -/
theorem fed_mgr_job_revoke_final_state (env : Env) (fed : Fed) (job_ptr : job_record)
    (job_complete : Bool) (exit_code : Nat) (start_time : Int) (origin_id : Nat)
    (hfed : _is_fed_job (some fed) job_ptr = some origin_id)
    (hdisj : env.JOB_REVOKED &&& env.JOB_CANCELLED = 0)
    (h32 : env.JOB_CANCELLED < 2 ^ 32) :
    (env.IS_JOB_COMPLETED job_ptr.job_state = true →
      fed_mgr_job_revoke env (some fed) job_ptr job_complete exit_code start_time
        = (job_ptr, false)) ∧
    (env.IS_JOB_COMPLETED job_ptr.job_state = false →
      env.job_hold_requeue { job_ptr with exit_code := exit_code } = false →
      fed_mgr_job_revoke env (some fed) job_ptr job_complete exit_code start_time
        = ({ job_ptr with
              exit_code := exit_code,
              job_state := if job_complete = true then env.JOB_CANCELLED
                           else env.JOB_REVOKED,
              start_time := start_time, end_time := start_time,
              state_reason := env.WAIT_NO_REASON, state_desc := none },
           origin_id != (fed_mgr_cluster_rec fed).fed_id)) := by
  constructor
  · intro hc
    simp [fed_mgr_job_revoke, hc]
  · intro hc hreq
    unfold fed_mgr_job_revoke
    simp only [hc, hfed, hreq]
    cases job_complete
    · simp
    · simp [or_and_not32_cancel _ _ hdisj h32]

/-- Witness for C12: revoking the pending job 67108869 as complete, with exit
code 3 at time 500, on its origin. -/
theorem fed_mgr_job_revoke_final_state_witness :
    example_env.IS_JOB_COMPLETED (example_job 0 7 7).job_state = false ∧
    example_env.job_hold_requeue { example_job 0 7 7 with exit_code := 3 } = false ∧
    fed_mgr_job_revoke example_env (some (example_fed 0)) (example_job 0 7 7) true 3 500
      = ({ example_job 0 7 7 with
            exit_code := 3,
            job_state := if true = true then example_env.JOB_CANCELLED
                         else example_env.JOB_REVOKED,
            start_time := 500, end_time := 500,
            state_reason := example_env.WAIT_NO_REASON, state_desc := none },
         1 != (fed_mgr_cluster_rec (example_fed 0)).fed_id) :=
  ⟨by decide, by decide,
    (fed_mgr_job_revoke_final_state example_env (example_fed 0) (example_job 0 7 7) true 3
      500 1 (by decide) (by decide) (by decide)).2 (by decide) (by decide)⟩

/-! ## C13: a preselected job id -/

/-- C13: `fed_mgr_job_allocate` on a descriptor whose `job_id` is not `NO_VAL`
returns `SLURM_ERROR` with `alloc_code` `ESLURM_INVALID_JOB_ID`; no job id is
handed out and `*job_id_ptr` is not set, no job record is created, nothing is
queued and `fed_job_list` is as before; the outcome depends neither on the next
job id nor on what `job_allocate` would do. -/
theorem fed_mgr_job_allocate_rejects_job_id (env : Env) (fed : Fed)
    (fed_job_list : List fed_job_info_t) (msg : job_msg_t) (job_desc : job_desc_msg_t)
    (alloc_only : Bool) (uid protocol_version next_job_id : Nat)
    (hid : job_desc.job_id ≠ env.NO_VAL) :
    fed_mgr_job_allocate env fed fed_job_list msg job_desc alloc_only uid protocol_version
        next_job_id
      = some { rc := SLURM_ERROR, alloc_code := env.ESLURM_INVALID_JOB_ID,
               job_id_ptr := none, job_ptr := none, fed_job_list := fed_job_list,
               queued := [] } ∧
    (∀ (other_job_id : Nat)
        (other_allocate : job_desc_msg_t → Bool → Nat → Nat → Int × Option job_record),
      fed_mgr_job_allocate { env with job_allocate := other_allocate } fed fed_job_list msg
          job_desc alloc_only uid protocol_version other_job_id
        = fed_mgr_job_allocate env fed fed_job_list msg job_desc alloc_only uid
            protocol_version next_job_id) := by
  constructor
  · unfold fed_mgr_job_allocate
    rw [if_pos hid]
  · intro other_job_id other_allocate
    unfold fed_mgr_job_allocate
    rw [if_pos hid, if_pos (show job_desc.job_id ≠
      ({ env with job_allocate := other_allocate } : Env).NO_VAL from hid)]

/-- Witness for C13: a descriptor that asks for job id 5. -/
theorem fed_mgr_job_allocate_rejects_job_id_witness :
    ({ example_job_desc none with job_id := 5 } : job_desc_msg_t).job_id
      ≠ example_env.NO_VAL ∧
    fed_mgr_job_allocate example_env (example_fed 0) [example_job_info 0 7 7]
        (example_job_msg none) { example_job_desc none with job_id := 5 } false 1000 8192
        67108870
      = some { rc := SLURM_ERROR, alloc_code := example_env.ESLURM_INVALID_JOB_ID,
               job_id_ptr := none, job_ptr := none,
               fed_job_list := [example_job_info 0 7 7], queued := [] } :=
  ⟨by decide,
    (fed_mgr_job_allocate_rejects_job_id example_env (example_fed 0) [example_job_info 0 7 7]
      (example_job_msg none) { example_job_desc none with job_id := 5 } false 1000 8192
      67108870 (by decide)).1⟩

/-! ## C14: validation of the requested cluster features -/

/-- The flag `found` of the inner loop of `_validate_cluster_features`, for a
loop entered with the accumulator `acc`: it ends up true exactly when it was
true already or some cluster of the list carries the feature. -/
theorem validate_cluster_features_sibs_fold (env : Env) (feature : String)
    (cluster_list : List slurmdb_cluster_rec_t) :
    ∀ (acc : Nat × Bool),
      (cluster_list.foldl
        (fun (acc : Nat × Bool) sib =>
          match sib.feature_list with
          | none => acc
          | some l =>
            if l.any (fun x => env.slurm_find_char_in_list x feature) then
              (acc.1 ||| FED_SIBLING_BIT sib.fed_id, true)
            else acc) acc).2 = true ↔
      (acc.2 = true ∨ ∃ sib ∈ cluster_list, ∃ l, sib.feature_list = some l ∧
        l.any (fun x => env.slurm_find_char_in_list x feature) = true) := by
  induction cluster_list with
  | nil => intro acc; simp
  | cons c cs ih =>
    intro acc
    rw [List.foldl_cons, ih]
    cases hfl : c.feature_list with
    | none =>
      simp only [List.mem_cons]
      constructor
      · rintro (h | ⟨sib, hs, l, h1, h2⟩)
        · exact Or.inl h
        · exact Or.inr ⟨sib, Or.inr hs, l, h1, h2⟩
      · rintro (h | ⟨sib, hs | hs, l, h1, h2⟩)
        · exact Or.inl h
        · subst hs
          rw [hfl] at h1
          cases h1
        · exact Or.inr ⟨sib, hs, l, h1, h2⟩
    | some l0 =>
      simp only [List.mem_cons]
      by_cases hany : l0.any (fun x => env.slurm_find_char_in_list x feature) = true
      · simp only [hany, if_true, true_or, true_iff]
        exact Or.inr ⟨c, Or.inl rfl, l0, hfl, hany⟩
      · simp only [hany, if_false]
        constructor
        · rintro (h | ⟨sib, hs, l, h1, h2⟩)
          · exact Or.inl h
          · exact Or.inr ⟨sib, Or.inr hs, l, h1, h2⟩
        · rintro (h | ⟨sib, hs | hs, l, h1, h2⟩)
          · exact Or.inl h
          · subst hs
            rw [hfl] at h1
            cases h1
            exact absurd h2 hany
          · exact Or.inr ⟨sib, hs, l, h1, h2⟩

theorem validate_cluster_features_sibs_found (env : Env)
    (cluster_list : List slurmdb_cluster_rec_t) (feature : String) (feature_sibs : Nat) :
    (_validate_cluster_features_sibs env cluster_list feature feature_sibs).2 = true ↔
      ∃ sib ∈ cluster_list, ∃ l, sib.feature_list = some l ∧
        l.any (fun x => env.slurm_find_char_in_list x feature) = true := by
  unfold _validate_cluster_features_sibs
  rw [validate_cluster_features_sibs_fold]
  simp

theorem validate_cluster_features_loop_rc (env : Env)
    (cluster_list : List slurmdb_cluster_rec_t) (features : List String) :
    ∀ (feature_sibs : Nat),
      ((_validate_cluster_features_loop env cluster_list features feature_sibs).1
          = SLURM_SUCCESS ∨
        (_validate_cluster_features_loop env cluster_list features feature_sibs).1
          = SLURM_ERROR) ∧
      ((_validate_cluster_features_loop env cluster_list features feature_sibs).1
          ≠ SLURM_SUCCESS ↔
        ∃ feature ∈ features, ¬ ∃ sib ∈ cluster_list, ∃ l, sib.feature_list = some l ∧
          l.any (fun x => env.slurm_find_char_in_list x feature) = true) := by
  induction features with
  | nil =>
    intro fs
    simp [_validate_cluster_features_loop]
  | cons f rest ih =>
    intro fs
    rw [_validate_cluster_features_loop]
    by_cases hfound : (_validate_cluster_features_sibs env cluster_list f fs).2 = true
    · simp only [hfound, if_true]
      have hf := (validate_cluster_features_sibs_found env cluster_list f fs).mp hfound
      refine ⟨(ih _).1, ?_⟩
      rw [(ih _).2]
      constructor
      · rintro ⟨g, hg, hn⟩
        exact ⟨g, List.mem_cons_of_mem _ hg, hn⟩
      · rintro ⟨g, hg, hn⟩
        rcases List.mem_cons.mp hg with h | h
        · subst h
          exact absurd hf hn
        · exact ⟨g, h, hn⟩
    · have hnf : ¬ ∃ sib ∈ cluster_list, ∃ l, sib.feature_list = some l ∧
          l.any (fun x => env.slurm_find_char_in_list x f) = true :=
        fun h => hfound ((validate_cluster_features_sibs_found env cluster_list f fs).mpr h)
      have hb : (_validate_cluster_features_sibs env cluster_list f fs).2 = false := by
        simpa using hfound
      simp only [hb, Bool.false_eq_true, if_false]
      refine ⟨Or.inr trivial, ?_⟩
      constructor
      · intro _
        exact ⟨f, List.mem_cons_self _ _, hnf⟩
      · intro _
        show SLURM_ERROR ≠ SLURM_SUCCESS
        decide

theorem cluster_has_feature_iff (env : Env) (sib : slurmdb_cluster_rec_t) (feature : String) :
    cluster_has_feature env sib feature = true ↔
      ∃ l, sib.feature_list = some l ∧
        l.any (fun x => env.slurm_find_char_in_list x feature) = true := by
  unfold cluster_has_feature
  cases sib.feature_list with
  | none => simp
  | some l => simp

/-- C14: in a federation `_validate_cluster_features` returns `SLURM_SUCCESS` or
`SLURM_ERROR`, and it fails if and only if at least one requested feature is
carried by no cluster of the federation; with no feature string, or one that
names no feature, it succeeds with the bitmap 0; and when it fails,
`fed_mgr_job_allocate` (on a descriptor without a preselected job id) returns
`SLURM_ERROR` with `alloc_code` `ESLURM_INVALID_CLUSTER_FEATURE`, creating and
queueing nothing. -/
theorem validate_cluster_features_fails_iff (env : Env) (fed : Fed)
    (spec_features : Option String) :
    ((_validate_cluster_features env (some fed) spec_features).1 = SLURM_SUCCESS ∨
      (_validate_cluster_features env (some fed) spec_features).1 = SLURM_ERROR) ∧
    ((_validate_cluster_features env (some fed) spec_features).1 ≠ SLURM_SUCCESS ↔
      ∃ sf, spec_features = some sf ∧
        ∃ feature ∈ env.slurm_addto_char_list sf,
          ∀ sib ∈ fed.cluster_list, cluster_has_feature env sib feature = false) ∧
    (spec_features = none →
      _validate_cluster_features env (some fed) spec_features = (SLURM_SUCCESS, 0)) ∧
    (∀ sf, spec_features = some sf → env.slurm_addto_char_list sf = [] →
      _validate_cluster_features env (some fed) spec_features = (SLURM_SUCCESS, 0)) ∧
    (∀ (fed_job_list : List fed_job_info_t) (msg : job_msg_t) (job_desc : job_desc_msg_t)
        (alloc_only : Bool) (uid protocol_version next_job_id : Nat),
      job_desc.job_id = env.NO_VAL → job_desc.cluster_features = spec_features →
      (_validate_cluster_features env (some fed) spec_features).1 ≠ SLURM_SUCCESS →
      fed_mgr_job_allocate env fed fed_job_list msg job_desc alloc_only uid protocol_version
          next_job_id
        = some { rc := SLURM_ERROR, alloc_code := env.ESLURM_INVALID_CLUSTER_FEATURE,
                 job_id_ptr := none, job_ptr := none, fed_job_list := fed_job_list,
                 queued := [] }) := by
  have hcarried : ∀ feature,
      (¬ ∃ sib ∈ fed.cluster_list, ∃ l, sib.feature_list = some l ∧
        l.any (fun x => env.slurm_find_char_in_list x feature) = true) ↔
      ∀ sib ∈ fed.cluster_list, cluster_has_feature env sib feature = false := by
    intro feature
    constructor
    · intro h sib hs
      cases hc : cluster_has_feature env sib feature with
      | false => rfl
      | true => exact absurd ⟨sib, hs, (cluster_has_feature_iff env sib feature).mp hc⟩ h
    · rintro h ⟨sib, hs, hl⟩
      have := (cluster_has_feature_iff env sib feature).mpr hl
      rw [h sib hs] at this
      cases this
  refine ⟨?_, ?_, ?_, ?_, ?_⟩
  · cases spec_features with
    | none => exact Or.inl rfl
    | some sf => exact (validate_cluster_features_loop_rc env fed.cluster_list _ 0).1
  · cases spec_features with
    | none =>
      constructor
      · intro h
        exact absurd rfl h
      · rintro ⟨sf, h, _⟩
        cases h
    | some sf =>
      show (_validate_cluster_features_loop env fed.cluster_list
        (env.slurm_addto_char_list sf) 0).1 ≠ SLURM_SUCCESS ↔ _
      rw [(validate_cluster_features_loop_rc env fed.cluster_list _ 0).2]
      constructor
      · rintro ⟨feature, hf, hn⟩
        exact ⟨sf, rfl, feature, hf, (hcarried feature).mp hn⟩
      · rintro ⟨sf', hsf, feature, hf, hn⟩
        cases hsf
        exact ⟨feature, hf, (hcarried feature).mpr hn⟩
  · intro h
    rw [h]
    rfl
  · intro sf h hnil
    rw [h]
    show _validate_cluster_features_loop env fed.cluster_list
      (env.slurm_addto_char_list sf) 0 = _
    rw [hnil]
    rfl
  · intro fed_job_list msg job_desc alloc_only uid pv nx hid hcf hfail
    unfold fed_mgr_job_allocate
    rw [if_neg (not_not.mpr hid)]
    simp only []
    rw [hcf, if_pos hfail]

/-- Witness for C14: in the federation where only "gpu" and "fast" are carried,
the request "gpu,big" fails on "big", and `fed_mgr_job_allocate` rejects the
submission. -/
theorem validate_cluster_features_fails_iff_witness :
    (∃ feature ∈ example_env.slurm_addto_char_list "gpu,big",
      ∀ sib ∈ example_feature_fed.cluster_list,
        cluster_has_feature example_env sib feature = false) ∧
    (_validate_cluster_features example_env (some example_feature_fed)
      (some "gpu,big")).1 ≠ SLURM_SUCCESS ∧
    fed_mgr_job_allocate example_env example_feature_fed [] (example_job_msg none)
        { example_job_desc none with cluster_features := some "gpu,big" } false 1000 8192
        67108869
      = some { rc := SLURM_ERROR,
               alloc_code := example_env.ESLURM_INVALID_CLUSTER_FEATURE,
               job_id_ptr := none, job_ptr := none, fed_job_list := [], queued := [] } :=
  ⟨by decide,
    (validate_cluster_features_fails_iff example_env example_feature_fed
      (some "gpu,big")).2.1.mpr ⟨"gpu,big", rfl, by decide⟩,
    (validate_cluster_features_fails_iff example_env example_feature_fed
      (some "gpu,big")).2.2.2.2 [] (example_job_msg none)
      { example_job_desc none with cluster_features := some "gpu,big" } false 1000 8192
      67108869 (by decide) rfl (by decide)⟩

/-! ## C15: the viable siblings -/

theorem foldl_or_testBit {α : Type} (f : α → Nat) (k : Nat) (l : List α) :
    ∀ (acc : Nat),
      (l.foldl (fun b c => b ||| f c) acc).testBit k = true ↔
        (acc.testBit k = true ∨ ∃ c ∈ l, (f c).testBit k = true) := by
  induction l with
  | nil => intro acc; simp
  | cons x xs ih =>
    intro acc
    rw [List.foldl_cons, ih, Nat.testBit_or, Bool.or_eq_true]
    simp only [List.mem_cons]
    constructor
    · rintro ((h | h) | ⟨c, hc, h⟩)
      · exact Or.inl h
      · exact Or.inr ⟨x, Or.inl rfl, h⟩
      · exact Or.inr ⟨c, Or.inr hc, h⟩
    · rintro (h | ⟨c, hc | hc, h⟩)
      · exact Or.inl (Or.inl h)
      · subst hc
        exact Or.inl (Or.inr h)
      · exact Or.inr ⟨c, hc, h⟩

theorem get_all_sibling_bits_testBit (fed : Fed) (k : Nat) :
    (_get_all_sibling_bits (some fed)).testBit k = true ↔
      ∃ c ∈ fed.cluster_list, (FED_SIBLING_BIT c.fed_id).testBit k = true := by
  unfold _get_all_sibling_bits
  rw [foldl_or_testBit (fun c : slurmdb_cluster_rec_t => FED_SIBLING_BIT c.fed_id)]
  simp

/-- Every bit that `_validate_cluster_names` adds is the bit of a federation
member, whether or not all names are known. -/
theorem validate_cluster_names_loop_upper (fed : Fed) (k : Nat) (names : List String) :
    ∀ (acc : Nat),
      (_validate_cluster_names_loop (some fed) names acc).2.testBit k = true →
        (acc.testBit k = true ∨
          ∃ c ∈ fed.cluster_list, (FED_SIBLING_BIT c.fed_id).testBit k = true) := by
  induction names with
  | nil => intro acc h; exact Or.inl h
  | cons n rest ih =>
    intro acc h
    rw [_validate_cluster_names_loop] at h
    cases hg : fed_mgr_get_cluster_by_name (some fed) n with
    | none =>
      rw [hg] at h
      exact Or.inl h
    | some c =>
      rw [hg] at h
      rcases ih _ h with h1 | h1
      · rw [Nat.testBit_or, Bool.or_eq_true] at h1
        rcases h1 with h1 | h1
        · exact Or.inl h1
        · exact Or.inr ⟨c, get_cluster_by_name_mem fed n c hg, h1⟩
      · exact Or.inr h1

/-- When every name is the name of a federation member, `_validate_cluster_names`
succeeds and collects the bits of the members named. -/
theorem validate_cluster_names_loop_valid (fed : Fed) (k : Nat) (names : List String) :
    ∀ (acc : Nat),
      (∀ n ∈ names, fed_mgr_get_cluster_by_name (some fed) n ≠ none) →
      (_validate_cluster_names_loop (some fed) names acc).1 = SLURM_SUCCESS ∧
      ((_validate_cluster_names_loop (some fed) names acc).2.testBit k = true ↔
        (acc.testBit k = true ∨
          ∃ n ∈ names, ∃ c, fed_mgr_get_cluster_by_name (some fed) n = some c ∧
            (FED_SIBLING_BIT c.fed_id).testBit k = true)) := by
  induction names with
  | nil => intro acc _; simp [_validate_cluster_names_loop]
  | cons n rest ih =>
    intro acc hvalid
    rw [_validate_cluster_names_loop]
    cases hg : fed_mgr_get_cluster_by_name (some fed) n with
    | none => exact absurd hg (hvalid n (List.mem_cons_self _ _))
    | some c =>
      simp only []
      obtain ⟨h1, h2⟩ := ih (acc ||| FED_SIBLING_BIT c.fed_id)
        (fun m hm => hvalid m (List.mem_cons_of_mem _ hm))
      refine ⟨h1, ?_⟩
      rw [h2, Nat.testBit_or, Bool.or_eq_true]
      simp only [List.mem_cons]
      constructor
      · rintro ((h | h) | ⟨m, hm, d, hd, h⟩)
        · exact Or.inl h
        · exact Or.inr ⟨n, Or.inl rfl, c, hg, h⟩
        · exact Or.inr ⟨m, Or.inr hm, d, hd, h⟩
      · rintro (h | ⟨m, hm | hm, d, hd, h⟩)
        · exact Or.inl (Or.inl h)
        · subst hm
          rw [hg] at hd
          cases hd
          exact Or.inl (Or.inr h)
        · exact Or.inr ⟨m, hm, d, hd, h⟩

theorem cluster_is_drain_or_inactive_iff (env : Env) (c : slurmdb_cluster_rec_t) :
    cluster_is_drain_or_inactive env c = true ↔
      (c.fed_state &&& env.CLUSTER_FED_STATE_DRAIN ≠ 0 ∨
        c.fed_state &&& env.CLUSTER_FED_STATE_BASE = env.CLUSTER_FED_STATE_INACTIVE) := by
  unfold cluster_is_drain_or_inactive
  rw [Bool.or_eq_true, decide_eq_true_eq, decide_eq_true_eq]

/-- The walk of `_remove_inactive_sibs` over the members keeps a bit exactly when
no draining or inactive member owns it. -/
theorem remove_inactive_sibs_fold (env : Env) (k : Nat) (l : List slurmdb_cluster_rec_t) :
    ∀ (v : Nat),
      (l.foldl (_remove_inactive_sibs env) v).testBit k = true ↔
        (v.testBit k = true ∧
          ∀ sib ∈ l, cluster_is_drain_or_inactive env sib = true →
            (k < 64 ∧ (FED_SIBLING_BIT sib.fed_id).testBit k = false)) := by
  induction l with
  | nil => intro v; simp
  | cons x xs ih =>
    intro v
    rw [List.foldl_cons, ih]
    simp only [List.mem_cons, forall_eq_or_imp]
    by_cases hx : cluster_is_drain_or_inactive env x = true
    · have hx' := (cluster_is_drain_or_inactive_iff env x).mp hx
      rw [_remove_inactive_sibs, if_pos hx', testBit_and_not64_sibling_bit]
      simp only [Bool.and_eq_true, decide_eq_true_eq, Bool.not_eq_true', hx, true_implies]
      tauto
    · have hx' : ¬ (x.fed_state &&& env.CLUSTER_FED_STATE_DRAIN ≠ 0 ∨
          x.fed_state &&& env.CLUSTER_FED_STATE_BASE = env.CLUSTER_FED_STATE_INACTIVE) :=
        fun h => hx ((cluster_is_drain_or_inactive_iff env x).mpr h)
      rw [_remove_inactive_sibs, if_neg hx']
      have hxf : cluster_is_drain_or_inactive env x = false := by simpa using hx
      simp only [hxf, Bool.false_eq_true, false_implies, true_and]

theorem eq_of_fed_id_eq (fed : Fed)
    (huniq : fed.cluster_list.Pairwise (fun a b => a.fed_id ≠ b.fed_id))
    (c d : slurmdb_cluster_rec_t) (hc : c ∈ fed.cluster_list) (hd : d ∈ fed.cluster_list)
    (h : c.fed_id = d.fed_id) : c = d := by
  have h1 := get_cluster_by_id_of_mem fed c huniq hc
  have h2 := get_cluster_by_id_of_mem fed d huniq hd
  rw [h, h2] at h1
  exact (Option.some.inj h1).symm

theorem and_sibling_bit_ne_zero_iff (a x : Nat) (h1 : 1 ≤ x) (h2 : x ≤ 64) :
    a &&& FED_SIBLING_BIT x ≠ 0 ↔ a.testBit (x - 1) = true := by
  rw [FED_SIBLING_BIT_eq x h1 h2]
  constructor
  · exact and_two_pow_ne_zero a (x - 1)
  · intro h hz
    rw [and_two_pow_eq_zero a (x - 1) hz] at h
    cases h

/-- The bits `_get_viable_sibs` starts from (the requested clusters, or all
members when that bitmap is 0), for a request whose names are all names of
federation members: the bits of the requested members. -/
theorem requested_sibs_testBit (env : Env) (fed : Fed) (req_clusters : Option String)
    (k : Nat) :
    (∀ names, req_clusters = some names → env.xstrcasecmp_eq names "all" = false →
      ∀ n ∈ env.slurm_addto_char_list names,
        fed_mgr_get_cluster_by_name (some fed) n ≠ none) →
    (∀ c ∈ fed.cluster_list, 1 ≤ c.fed_id ∧ c.fed_id ≤ 64) →
    ((if (match req_clusters with
          | some c => (_validate_cluster_names env (some fed) c).2
          | none => 0) = 0 then _get_all_sibling_bits (some fed)
      else (match req_clusters with
          | some c => (_validate_cluster_names env (some fed) c).2
          | none => 0)).testBit k = true ↔
      ∃ c ∈ fed.cluster_list, cluster_is_requested env fed req_clusters c = true ∧
        (FED_SIBLING_BIT c.fed_id).testBit k = true) := by
  intro hvalid hids
  cases req_clusters with
  | none =>
    simp only [if_true, cluster_is_requested, true_and]
    exact get_all_sibling_bits_testBit fed k
  | some s =>
    simp only []
    by_cases hall : env.xstrcasecmp_eq s "all" = true
    · have hv : (_validate_cluster_names env (some fed) s).2 = _get_all_sibling_bits (some fed) := by
        rw [_validate_cluster_names, if_pos hall]
      rw [hv, ite_self, get_all_sibling_bits_testBit]
      simp only [cluster_is_requested, hall, Bool.true_or, true_and]
    · have hall' : env.xstrcasecmp_eq s "all" = false := by simpa using hall
      have hv : (_validate_cluster_names env (some fed) s).2
          = (_validate_cluster_names_loop (some fed) (env.slurm_addto_char_list s) 0).2 := by
        rw [_validate_cluster_names, if_neg hall]
      have hloop := fun j => (validate_cluster_names_loop_valid fed j
        (env.slurm_addto_char_list s) 0 (hvalid s rfl hall')).2
      rw [hv]
      cases hnames : env.slurm_addto_char_list s with
      | nil =>
        rw [hnames] at hloop
        simp only [_validate_cluster_names_loop, if_true]
        rw [get_all_sibling_bits_testBit]
        simp only [cluster_is_requested, hall', hnames, List.isEmpty_nil, Bool.or_true,
          Bool.true_or, true_and]
      | cons n rest =>
        rw [← hnames]
        have hne : (_validate_cluster_names_loop (some fed) (env.slurm_addto_char_list s) 0).2
            ≠ 0 := by
          cases hg : fed_mgr_get_cluster_by_name (some fed) n with
          | none =>
            exact absurd hg (hvalid s rfl hall' n (by rw [hnames]; exact List.mem_cons_self _ _))
          | some c =>
            have hc := hids c (get_cluster_by_name_mem fed n c hg)
            have hbit : (FED_SIBLING_BIT c.fed_id).testBit (c.fed_id - 1) = true := by
              rw [testBit_FED_SIBLING_BIT _ _ hc.1 hc.2, decide_eq_true_eq]
              omega
            have hset := (hloop (c.fed_id - 1)).mpr
              (Or.inr ⟨n, by rw [hnames]; exact List.mem_cons_self _ _, c, hg, hbit⟩)
            intro hz
            rw [hz] at hset
            simp at hset
        rw [if_neg hne, hloop k]
        simp only [Nat.zero_testBit, Bool.false_eq_true, false_or]
        constructor
        · rintro ⟨m, hm, c, hg, hb⟩
          refine ⟨c, get_cluster_by_name_mem fed m c hg, ?_, hb⟩
          simp only [cluster_is_requested, hall', Bool.false_or, Bool.or_eq_true,
            List.any_eq_true, beq_iff_eq]
          exact Or.inr ⟨m, hm, hg⟩
        · rintro ⟨c, _, hr, hb⟩
          simp only [cluster_is_requested, hall', Bool.false_or, Bool.or_eq_true,
            List.any_eq_true, beq_iff_eq] at hr
          rcases hr with hr | ⟨m, hm, hg⟩
          · rw [hnames] at hr
            simp at hr
          · exact ⟨m, hm, c, hg, hb⟩

/-- Bit `k` of the result of `_get_viable_sibs`, for every request. -/
theorem get_viable_sibs_testBit (env : Env) (fed : Fed) (req_clusters : Option String)
    (feature_sibs k : Nat) :
    (_get_viable_sibs env fed req_clusters feature_sibs).testBit k = true ↔
      ((if (match req_clusters with
            | some c => (_validate_cluster_names env (some fed) c).2
            | none => 0) = 0 then _get_all_sibling_bits (some fed)
        else (match req_clusters with
            | some c => (_validate_cluster_names env (some fed) c).2
            | none => 0)).testBit k = true ∧
        (feature_sibs ≠ 0 → feature_sibs.testBit k = true) ∧
        ∀ sib ∈ fed.cluster_list, cluster_is_drain_or_inactive env sib = true →
          (k < 64 ∧ (FED_SIBLING_BIT sib.fed_id).testBit k = false)) := by
  unfold _get_viable_sibs
  simp only []
  rw [remove_inactive_sibs_fold]
  by_cases hf : feature_sibs ≠ 0
  · rw [if_pos hf, Nat.testBit_and, Bool.and_eq_true]
    constructor
    · rintro ⟨⟨h1, h2⟩, h3⟩
      exact ⟨h1, fun _ => h2, h3⟩
    · rintro ⟨h1, h2, h3⟩
      exact ⟨⟨h1, h2 hf⟩, h3⟩
  · rw [if_neg hf]
    constructor
    · rintro ⟨h1, h3⟩
      exact ⟨h1, fun h => absurd h hf, h3⟩
    · rintro ⟨h1, _, h3⟩
      exact ⟨h1, h3⟩

theorem viable_sibs_spec_testBit (env : Env) (fed : Fed) (req_clusters : Option String)
    (feature_sibs k : Nat) :
    (viable_sibs_spec env fed req_clusters feature_sibs).testBit k = true ↔
      ∃ c ∈ fed.cluster_list, cluster_is_requested env fed req_clusters c = true ∧
        (feature_sibs = 0 ∨ feature_sibs &&& FED_SIBLING_BIT c.fed_id ≠ 0) ∧
        cluster_is_drain_or_inactive env c = false ∧
        (FED_SIBLING_BIT c.fed_id).testBit k = true := by
  unfold viable_sibs_spec
  rw [foldl_or_testBit (fun c : slurmdb_cluster_rec_t => FED_SIBLING_BIT c.fed_id)]
  simp only [Nat.zero_testBit, Bool.false_eq_true, false_or, List.mem_filter,
    Bool.and_eq_true, Bool.or_eq_true, beq_iff_eq, bne_iff_ne, Bool.not_eq_true']
  constructor
  · rintro ⟨c, ⟨hc, ⟨h1, h2⟩, h3⟩, h4⟩
    exact ⟨c, hc, h1, h2, h3, h4⟩
  · rintro ⟨c, hc, h1, h2, h3, h4⟩
    exact ⟨c, ⟨hc, ⟨h1, h2⟩, h3⟩, h4⟩

/-- Every bit of the result of `_get_viable_sibs` is the bit of a federation
member, for every request. -/
theorem get_viable_sibs_subset_members (env : Env) (fed : Fed)
    (req_clusters : Option String) (feature_sibs k : Nat)
    (hk : (_get_viable_sibs env fed req_clusters feature_sibs).testBit k = true) :
    ∃ c ∈ fed.cluster_list, (FED_SIBLING_BIT c.fed_id).testBit k = true := by
  have h1 := ((get_viable_sibs_testBit env fed req_clusters feature_sibs k).mp hk).1
  cases req_clusters with
  | none =>
    simp only [if_true] at h1
    exact (get_all_sibling_bits_testBit fed k).mp h1
  | some s =>
    simp only [] at h1
    by_cases hz : (_validate_cluster_names env (some fed) s).2 = 0
    · rw [if_pos hz] at h1
      exact (get_all_sibling_bits_testBit fed k).mp h1
    · rw [if_neg hz] at h1
      unfold _validate_cluster_names at h1
      by_cases hall : env.xstrcasecmp_eq s "all" = true
      · rw [if_pos hall] at h1
        exact (get_all_sibling_bits_testBit fed k).mp h1
      · rw [if_neg hall] at h1
        rcases validate_cluster_names_loop_upper fed k _ 0 h1 with h | h
        · simp at h
        · exact h

/-- The result of `_get_viable_sibs` holds the bit of no draining or inactive
member, for every request. -/
theorem get_viable_sibs_no_drain (env : Env) (fed : Fed) (req_clusters : Option String)
    (feature_sibs : Nat) (sib : slurmdb_cluster_rec_t) (hs : sib ∈ fed.cluster_list)
    (hd : cluster_is_drain_or_inactive env sib = true) :
    _get_viable_sibs env fed req_clusters feature_sibs &&& FED_SIBLING_BIT sib.fed_id = 0 := by
  apply Nat.eq_of_testBit_eq
  intro k
  rw [Nat.testBit_and, Nat.zero_testBit]
  cases hk : (_get_viable_sibs env fed req_clusters feature_sibs).testBit k with
  | false => rfl
  | true =>
    have h := ((get_viable_sibs_testBit env fed req_clusters feature_sibs k).mp hk).2.2
      sib hs hd
    rw [h.2]
    rfl

/-- For a request whose names are all names of federation members, in a
federation whose members have distinct ids in `1..64`, `_get_viable_sibs`
computes the viable siblings of the spec. -/
theorem get_viable_sibs_eq_spec (env : Env) (fed : Fed) (req_clusters : Option String)
    (feature_sibs : Nat)
    (hvalid : ∀ names, req_clusters = some names → env.xstrcasecmp_eq names "all" = false →
      ∀ n ∈ env.slurm_addto_char_list names, fed_mgr_get_cluster_by_name (some fed) n ≠ none)
    (hids : ∀ c ∈ fed.cluster_list, 1 ≤ c.fed_id ∧ c.fed_id ≤ 64)
    (huniq : fed.cluster_list.Pairwise (fun a b => a.fed_id ≠ b.fed_id)) :
    _get_viable_sibs env fed req_clusters feature_sibs
      = viable_sibs_spec env fed req_clusters feature_sibs := by
  apply Nat.eq_of_testBit_eq
  intro k
  rw [Bool.eq_iff_iff, get_viable_sibs_testBit, viable_sibs_spec_testBit,
    requested_sibs_testBit env fed req_clusters k hvalid hids]
  have hbit : ∀ c ∈ fed.cluster_list,
      ((FED_SIBLING_BIT c.fed_id).testBit k = true ↔ k + 1 = c.fed_id) := by
    intro c hc
    rw [testBit_FED_SIBLING_BIT _ _ (hids c hc).1 (hids c hc).2, decide_eq_true_eq]
  constructor
  · rintro ⟨⟨c, hc, hr, hb⟩, hf, hd⟩
    have hkc := (hbit c hc).mp hb
    refine ⟨c, hc, hr, ?_, ?_, hb⟩
    · by_cases hz : feature_sibs = 0
      · exact Or.inl hz
      · right
        rw [and_sibling_bit_ne_zero_iff _ _ (hids c hc).1 (hids c hc).2]
        have e : c.fed_id - 1 = k := by omega
        rw [e]
        exact hf hz
    · cases hdc : cluster_is_drain_or_inactive env c with
      | false => rfl
      | true =>
        have := (hd c hc hdc).2
        rw [hb] at this
        cases this
  · rintro ⟨c, hc, hr, hf, hd, hb⟩
    have hkc := (hbit c hc).mp hb
    refine ⟨⟨c, hc, hr, hb⟩, ?_, ?_⟩
    · intro hz
      rcases hf with h | h
      · exact absurd h hz
      · rw [and_sibling_bit_ne_zero_iff _ _ (hids c hc).1 (hids c hc).2] at h
        have e : c.fed_id - 1 = k := by omega
        rw [e] at h
        exact h
    · intro sib hs hds
      refine ⟨by have := (hids c hc).2; omega, ?_⟩
      cases hsb : (FED_SIBLING_BIT sib.fed_id).testBit k with
      | false => rfl
      | true =>
        have hks := (hbit sib hs).mp hsb
        have heq : sib = c := eq_of_fed_id_eq fed huniq sib c hs hc (by omega)
        rw [heq, hd] at hds
        cases hds

/-- C15 (counterexample): on the federation c1, c2, c3 (all active) the request
"c9,c2" names the member c2 and the unknown cluster c9; `_get_viable_sibs`
returns 7 (c1, c2 and c3), although only c2 is requested (bitmap 2).  For the
request "c2,c9,c3" it returns 2, without the requested member c3. -/
theorem get_viable_sibs_unknown_cluster_name :
    example_env.slurm_addto_char_list "c9,c2" = ["c9", "c2"] ∧
    fed_mgr_get_cluster_by_name (some (example_fed 0)) "c9" = none ∧
    _get_viable_sibs example_env (example_fed 0) (some "c9,c2") 0 = 7 ∧
    viable_sibs_spec example_env (example_fed 0) (some "c9,c2") 0 = 2 ∧
    _get_viable_sibs example_env (example_fed 0) (some "c2,c9,c3") 0 = 2 ∧
    viable_sibs_spec example_env (example_fed 0) (some "c2,c9,c3") 0 = 6 := by
  decide

/-- C15 (amended): for every federation, request and feature bitmap the result
of `_get_viable_sibs` holds the bit of no member that is draining or inactive
and only bits of federation members; and when the members have distinct ids in
`1..64` and every requested name is the name of a member (or the request is
"all", or absent, or empty), the result is the bitmap of the requested members
(all members when none are requested) that lie in `feature_sibs` (no
restriction when `feature_sibs` is 0) and are neither draining nor inactive. -/
theorem get_viable_sibs_known_names (env : Env) (fed : Fed) (req_clusters : Option String)
    (feature_sibs : Nat) :
    (∀ sib ∈ fed.cluster_list, cluster_is_drain_or_inactive env sib = true →
      _get_viable_sibs env fed req_clusters feature_sibs &&& FED_SIBLING_BIT sib.fed_id
        = 0) ∧
    (∀ k, (_get_viable_sibs env fed req_clusters feature_sibs).testBit k = true →
      ∃ c ∈ fed.cluster_list, (FED_SIBLING_BIT c.fed_id).testBit k = true) ∧
    ((∀ names, req_clusters = some names → env.xstrcasecmp_eq names "all" = false →
        ∀ n ∈ env.slurm_addto_char_list names,
          fed_mgr_get_cluster_by_name (some fed) n ≠ none) →
      (∀ c ∈ fed.cluster_list, 1 ≤ c.fed_id ∧ c.fed_id ≤ 64) →
      fed.cluster_list.Pairwise (fun a b => a.fed_id ≠ b.fed_id) →
      _get_viable_sibs env fed req_clusters feature_sibs
        = viable_sibs_spec env fed req_clusters feature_sibs) :=
  ⟨fun sib hs hd => get_viable_sibs_no_drain env fed req_clusters feature_sibs sib hs hd,
    fun k hk => get_viable_sibs_subset_members env fed req_clusters feature_sibs k hk,
    fun hvalid hids huniq =>
      get_viable_sibs_eq_spec env fed req_clusters feature_sibs hvalid hids huniq⟩

/-- Witness for C15: in the federation c1, c2 (active), c3 (draining), c4
(inactive) the request "c2,c3,c4" leaves c2 alone. -/
theorem get_viable_sibs_known_names_witness :
    (∀ n ∈ example_env.slurm_addto_char_list "c2,c3,c4",
      fed_mgr_get_cluster_by_name (some example_drain_fed) n ≠ none) ∧
    cluster_is_drain_or_inactive example_env
      { name := "c3", fed_id := 3, fed_state := 17, feature_list := none } = true ∧
    _get_viable_sibs example_env example_drain_fed (some "c2,c3,c4") 0
      &&& FED_SIBLING_BIT 3 = 0 ∧
    viable_sibs_spec example_env example_drain_fed (some "c2,c3,c4") 0 = 2 ∧
    _get_viable_sibs example_env example_drain_fed (some "c2,c3,c4") 0
      = viable_sibs_spec example_env example_drain_fed (some "c2,c3,c4") 0 :=
  ⟨by decide, by decide,
    (get_viable_sibs_known_names example_env example_drain_fed (some "c2,c3,c4") 0).1
      { name := "c3", fed_id := 3, fed_state := 17, feature_list := none } (by decide)
      (by decide),
    by decide,
    (get_viable_sibs_known_names example_env example_drain_fed (some "c2,c3,c4") 0).2.2
      (fun names h _ => by cases h; decide) (by decide) (by decide)⟩

/-! ## C16: the active siblings after submission -/

/-- The loop of `_submit_sibling_jobs`, exactly: a bit is active afterwards when
it was active before or belongs to a sibling at a position other than the local
one whose bit is in `dest_sibs` and whose request was queued; and every record
queued goes to such a sibling. -/
theorem submit_sibling_jobs_loop_exact (env : Env) (fed : Fed) (sib_msg : sib_msg_t)
    (alloc_only : Bool) (dest_sibs : Nat) (l : List slurmdb_cluster_rec_t) :
    ∀ (idx : Nat) (acc : submit_result),
      (∀ k, (_submit_sibling_jobs_loop env fed sib_msg alloc_only dest_sibs l idx
          acc).job_desc.fed_siblings_active.testBit k = true ↔
        (acc.job_desc.fed_siblings_active.testBit k = true ∨
          ∃ p ∈ l.enumFrom idx, p.1 ≠ fed.local_idx ∧
            dest_sibs &&& FED_SIBLING_BIT p.2.fed_id ≠ 0 ∧
            (_queue_rpc env p.2
              { msg_type := env.REQUEST_SIB_MSG,
                data := { sib_msg with
                  sib_msg_type :=
                    if alloc_only then FED_JOB_SUBMIT_INT else FED_JOB_SUBMIT_BATCH } }
              0).1 = SLURM_SUCCESS ∧
            (FED_SIBLING_BIT p.2.fed_id).testBit k = true)) ∧
      (∃ Q, (_submit_sibling_jobs_loop env fed sib_msg alloc_only dest_sibs l idx acc).queued
          = acc.queued ++ Q ∧
        ∀ q ∈ Q, ∃ p ∈ l.enumFrom idx, p.1 ≠ fed.local_idx ∧
          dest_sibs &&& FED_SIBLING_BIT p.2.fed_id ≠ 0 ∧
          q ∈ (_queue_rpc env p.2
            { msg_type := env.REQUEST_SIB_MSG,
              data := { sib_msg with
                sib_msg_type :=
                  if alloc_only then FED_JOB_SUBMIT_INT else FED_JOB_SUBMIT_BATCH } }
            0).2) := by
  induction l with
  | nil =>
    intro idx acc
    refine ⟨fun k => ?_, [], by simp [_submit_sibling_jobs_loop], by simp⟩
    simp [_submit_sibling_jobs_loop]
  | cons sibling rest ih =>
    intro idx acc
    rw [_submit_sibling_jobs_loop]
    simp only [List.enumFrom_cons, List.mem_cons, exists_eq_or_imp]
    by_cases h1 : idx = fed.local_idx
    · rw [if_pos h1]
      obtain ⟨i1, Q, i2, i3⟩ := ih (idx + 1) acc
      refine ⟨fun k => ?_, Q, i2, fun q hq => ?_⟩
      · rw [i1 k]
        simp only [h1, ne_eq, not_true_eq_false, false_and, false_or]
      · exact Or.inr (i3 q hq)
    · rw [if_neg h1]
      by_cases h2 : dest_sibs &&& FED_SIBLING_BIT sibling.fed_id = 0
      · rw [if_pos h2]
        obtain ⟨i1, Q, i2, i3⟩ := ih (idx + 1) acc
        refine ⟨fun k => ?_, Q, i2, fun q hq => ?_⟩
        · rw [i1 k]
          simp only [h2, ne_eq, not_true_eq_false, false_and, and_false, false_or]
        · exact Or.inr (i3 q hq)
      · rw [if_neg h2]
        by_cases h3 : acc.job_desc.fed_siblings_active &&& FED_SIBLING_BIT sibling.fed_id ≠ 0
        · rw [if_pos h3]
          obtain ⟨i1, Q, i2, i3⟩ := ih (idx + 1) acc
          refine ⟨fun k => ?_, Q, i2, fun q hq => ?_⟩
          · rw [i1 k]
            constructor
            · rintro (h | h)
              · exact Or.inl h
              · exact Or.inr (Or.inr h)
            · rintro (h | ⟨_, _, _, hb⟩ | h)
              · exact Or.inl h
              · exact Or.inl (sibling_bit_subset_of_and_ne_zero _ _ k h3 hb)
              · exact Or.inr h
          · exact Or.inr (i3 q hq)
        · rw [if_neg h3]
          by_cases h4 : (_queue_rpc env sibling
              { msg_type := env.REQUEST_SIB_MSG,
                data := { sib_msg with
                  sib_msg_type :=
                    if alloc_only then FED_JOB_SUBMIT_INT else FED_JOB_SUBMIT_BATCH } }
              0).1 = SLURM_SUCCESS
          · simp only [h4, if_true]
            obtain ⟨i1, Q, i2, i3⟩ := ih (idx + 1)
              { ret_rc := acc.ret_rc,
                job_desc := { acc.job_desc with
                  fed_siblings_active :=
                    acc.job_desc.fed_siblings_active ||| FED_SIBLING_BIT sibling.fed_id },
                queued := acc.queued ++ (_queue_rpc env sibling
                  { msg_type := env.REQUEST_SIB_MSG,
                    data := { sib_msg with
                      sib_msg_type :=
                        if alloc_only then FED_JOB_SUBMIT_INT else FED_JOB_SUBMIT_BATCH } }
                  0).2 }
            refine ⟨fun k => ?_,
              (_queue_rpc env sibling
                { msg_type := env.REQUEST_SIB_MSG,
                  data := { sib_msg with
                    sib_msg_type :=
                      if alloc_only then FED_JOB_SUBMIT_INT else FED_JOB_SUBMIT_BATCH } }
                0).2 ++ Q,
              by rw [i2, List.append_assoc], fun q hq => ?_⟩
            · rw [i1 k]
              simp only [Nat.testBit_or, Bool.or_eq_true]
              constructor
              · rintro ((h | h) | h)
                · exact Or.inl h
                · exact Or.inr (Or.inl ⟨h1, h2, trivial, h⟩)
                · exact Or.inr (Or.inr h)
              · rintro (h | ⟨_, _, _, hb⟩ | h)
                · exact Or.inl (Or.inl h)
                · exact Or.inl (Or.inr hb)
                · exact Or.inr h
            · rcases List.mem_append.mp hq with hq | hq
              · exact Or.inl ⟨h1, h2, hq⟩
              · exact Or.inr (i3 q hq)
          · simp only [h4, if_false]
            obtain ⟨i1, Q, i2, i3⟩ := ih (idx + 1)
              { ret_rc := SLURM_ERROR, job_desc := acc.job_desc,
                queued := acc.queued ++ (_queue_rpc env sibling
                  { msg_type := env.REQUEST_SIB_MSG,
                    data := { sib_msg with
                      sib_msg_type :=
                        if alloc_only then FED_JOB_SUBMIT_INT else FED_JOB_SUBMIT_BATCH } }
                  0).2 }
            refine ⟨fun k => ?_,
              (_queue_rpc env sibling
                { msg_type := env.REQUEST_SIB_MSG,
                  data := { sib_msg with
                    sib_msg_type :=
                      if alloc_only then FED_JOB_SUBMIT_INT else FED_JOB_SUBMIT_BATCH } }
                0).2 ++ Q,
              by rw [i2, List.append_assoc], fun q hq => ?_⟩
            · rw [i1 k]
              constructor
              · rintro (h | h)
                · exact Or.inl h
                · exact Or.inr (Or.inr h)
              · rintro (h | ⟨_, _, hs, _⟩ | h)
                · exact Or.inl h
                · exact hs.elim
                · exact Or.inr h
            · rcases List.mem_append.mp hq with hq | hq
              · exact Or.inl ⟨h1, h2, hq⟩
              · exact Or.inr (i3 q hq)

/-- What `_submit_sibling_jobs` leaves in `fed_siblings_active` and in the
queue, in terms of the request `submit_req_msg` and the positions of the
members in `cluster_list`. -/
theorem submit_sibling_jobs_exact (env : Env) (fed : Fed) (job_desc : job_desc_msg_t)
    (msg : job_msg_t) (alloc_only : Bool) (dest_sibs : Nat) :
    (∀ k, (_submit_sibling_jobs env fed job_desc msg alloc_only
        dest_sibs).job_desc.fed_siblings_active.testBit k = true ↔
      (job_desc.fed_siblings_active.testBit k = true ∨
        ∃ p ∈ fed.cluster_list.enum, p.1 ≠ fed.local_idx ∧
          dest_sibs &&& FED_SIBLING_BIT p.2.fed_id ≠ 0 ∧
          (_queue_rpc env p.2 (submit_req_msg env job_desc msg alloc_only) 0).1
            = SLURM_SUCCESS ∧
          (FED_SIBLING_BIT p.2.fed_id).testBit k = true)) ∧
    (∀ q ∈ (_submit_sibling_jobs env fed job_desc msg alloc_only dest_sibs).queued,
      ∃ p ∈ fed.cluster_list.enum, p.1 ≠ fed.local_idx ∧
        dest_sibs &&& FED_SIBLING_BIT p.2.fed_id ≠ 0 ∧
        q ∈ (_queue_rpc env p.2 (submit_req_msg env job_desc msg alloc_only) 0).2) := by
  obtain ⟨h1, Q, h2, h3⟩ := submit_sibling_jobs_loop_exact env fed
    { sib_msg_zero with
      data_buffer := msg.buffer, data_offset := msg.body_offset, data_type := msg.msg_type,
      data_version := msg.protocol_version, fed_siblings := job_desc.fed_siblings_viable,
      job_id := job_desc.job_id, resp_host := job_desc.resp_host }
    alloc_only dest_sibs fed.cluster_list 0
    { ret_rc := SLURM_SUCCESS, job_desc := job_desc, queued := [] }
  refine ⟨fun k => h1 k, fun q hq => ?_⟩
  have hq' : q ∈ Q := by
    have : (_submit_sibling_jobs env fed job_desc msg alloc_only dest_sibs).queued
        = [] ++ Q := h2
    rw [this, List.nil_append] at hq
    exact hq
  exact h3 q hq'

theorem and_eq_zero_of_or_and_eq_zero (a b c : Nat) (h : (a ||| b) &&& c = 0) :
    a &&& c = 0 := by
  apply Nat.eq_of_testBit_eq
  intro k
  have hk := congrArg (fun n => n.testBit k) h
  simp only [Nat.testBit_and, Nat.testBit_or, Nat.zero_testBit] at hk ⊢
  cases ha : a.testBit k <;> cases hc : c.testBit k <;> simp_all

/-- What `_queue_rpc` does: it returns `SLURM_SUCCESS` with one record appended
to the peer's queue, or `SLURM_ERROR` with nothing appended. -/
theorem queue_rpc_cases (env : Env) (cluster : slurmdb_cluster_rec_t) (req : slurm_msg_t)
    (job_id : Nat) :
    (env.pack_msg req = true ∧
      _queue_rpc env cluster req job_id
        = (SLURM_SUCCESS,
            [{ cluster := cluster,
               agent_rec := { buffer := req, job_id := job_id, last_try := 0,
                              last_defer := 0, msg_type := req.msg_type } }])) ∨
    (env.pack_msg req = false ∧ _queue_rpc env cluster req job_id = (SLURM_ERROR, [])) := by
  unfold _queue_rpc
  cases h : env.pack_msg req
  · exact Or.inr ⟨rfl, by simp⟩
  · exact Or.inl ⟨rfl, by simp⟩

/-- The loop of `_submit_sibling_jobs` and its queue: the records it appends are
one request each for siblings at a position other than the local one whose bit
is in `dest_sibs` and was not active when the loop was entered, and a bit is
active afterwards exactly when it was active before or is the bit of a sibling
one of the appended records goes to. -/
theorem submit_sibling_jobs_loop_records (env : Env) (fed : Fed) (sib_msg : sib_msg_t)
    (alloc_only : Bool) (dest_sibs : Nat) (l : List slurmdb_cluster_rec_t) :
    ∀ (idx : Nat) (acc : submit_result),
      ∃ Q, (_submit_sibling_jobs_loop env fed sib_msg alloc_only dest_sibs l idx acc).queued
          = acc.queued ++ Q ∧
        (∀ q ∈ Q, ∃ p ∈ l.enumFrom idx, p.1 ≠ fed.local_idx ∧
          dest_sibs &&& FED_SIBLING_BIT p.2.fed_id ≠ 0 ∧
          acc.job_desc.fed_siblings_active &&& FED_SIBLING_BIT p.2.fed_id = 0 ∧
          env.pack_msg
            { msg_type := env.REQUEST_SIB_MSG,
              data := { sib_msg with
                sib_msg_type :=
                  if alloc_only then FED_JOB_SUBMIT_INT else FED_JOB_SUBMIT_BATCH } } = true ∧
          q = { cluster := p.2,
                agent_rec :=
                  { buffer :=
                      { msg_type := env.REQUEST_SIB_MSG,
                        data := { sib_msg with
                          sib_msg_type :=
                            if alloc_only then FED_JOB_SUBMIT_INT
                            else FED_JOB_SUBMIT_BATCH } },
                    job_id := 0, last_try := 0, last_defer := 0,
                    msg_type := env.REQUEST_SIB_MSG } }) ∧
        (∀ k, (_submit_sibling_jobs_loop env fed sib_msg alloc_only dest_sibs l idx
            acc).job_desc.fed_siblings_active.testBit k = true ↔
          (acc.job_desc.fed_siblings_active.testBit k = true ∨
            ∃ q ∈ Q, (FED_SIBLING_BIT q.cluster.fed_id).testBit k = true)) := by
  induction l with
  | nil =>
    intro idx acc
    refine ⟨[], by simp [_submit_sibling_jobs_loop], by simp, fun k => ?_⟩
    simp [_submit_sibling_jobs_loop]
  | cons sibling rest ih =>
    intro idx acc
    rw [_submit_sibling_jobs_loop]
    simp only [List.enumFrom_cons, List.mem_cons, exists_eq_or_imp]
    by_cases h1 : idx = fed.local_idx
    · rw [if_pos h1]
      obtain ⟨Q, i2, i3, i1⟩ := ih (idx + 1) acc
      exact ⟨Q, i2, fun q hq => Or.inr (i3 q hq), i1⟩
    · rw [if_neg h1]
      by_cases h2 : dest_sibs &&& FED_SIBLING_BIT sibling.fed_id = 0
      · rw [if_pos h2]
        obtain ⟨Q, i2, i3, i1⟩ := ih (idx + 1) acc
        exact ⟨Q, i2, fun q hq => Or.inr (i3 q hq), i1⟩
      · rw [if_neg h2]
        by_cases h3 : acc.job_desc.fed_siblings_active &&& FED_SIBLING_BIT sibling.fed_id ≠ 0
        · rw [if_pos h3]
          obtain ⟨Q, i2, i3, i1⟩ := ih (idx + 1) acc
          exact ⟨Q, i2, fun q hq => Or.inr (i3 q hq), i1⟩
        · rw [if_neg h3]
          have h3' : acc.job_desc.fed_siblings_active &&& FED_SIBLING_BIT sibling.fed_id = 0 :=
            not_not.mp h3
          rcases queue_rpc_cases env sibling
              { msg_type := env.REQUEST_SIB_MSG,
                data := { sib_msg with
                  sib_msg_type :=
                    if alloc_only then FED_JOB_SUBMIT_INT else FED_JOB_SUBMIT_BATCH } }
              0 with ⟨hp, h4⟩ | ⟨hp, h4⟩
          · simp only [h4, if_true]
            obtain ⟨Q, i2, i3, i1⟩ := ih (idx + 1)
              { ret_rc := acc.ret_rc,
                job_desc := { acc.job_desc with
                  fed_siblings_active :=
                    acc.job_desc.fed_siblings_active ||| FED_SIBLING_BIT sibling.fed_id },
                queued := acc.queued ++
                  [{ cluster := sibling,
                     agent_rec :=
                       { buffer :=
                           { msg_type := env.REQUEST_SIB_MSG,
                             data := { sib_msg with
                               sib_msg_type :=
                                 if alloc_only then FED_JOB_SUBMIT_INT
                                 else FED_JOB_SUBMIT_BATCH } },
                         job_id := 0, last_try := 0, last_defer := 0,
                         msg_type := env.REQUEST_SIB_MSG } }] }
            refine ⟨_ :: Q, by rw [i2, List.append_assoc]; rfl, fun q hq => ?_, fun k => ?_⟩
            · rcases List.mem_cons.mp hq with hq | hq
              · exact Or.inl ⟨h1, h2, h3', hp, hq⟩
              · obtain ⟨p, hp1, hp2, hp3, hp4, hp5, hp6⟩ := i3 q hq
                exact Or.inr ⟨p, hp1, hp2, hp3,
                  and_eq_zero_of_or_and_eq_zero _ _ _ hp4, hp5, hp6⟩
            · rw [i1 k]
              simp only [Nat.testBit_or, Bool.or_eq_true, List.mem_cons, exists_eq_or_imp]
              constructor
              · rintro ((h | h) | h)
                · exact Or.inl h
                · exact Or.inr (Or.inl h)
                · exact Or.inr (Or.inr h)
              · rintro (h | h | h)
                · exact Or.inl (Or.inl h)
                · exact Or.inl (Or.inr h)
                · exact Or.inr h
          · have herr : SLURM_ERROR ≠ SLURM_SUCCESS := by decide
            simp only [h4, herr, if_false, List.append_nil]
            obtain ⟨Q, i2, i3, i1⟩ := ih (idx + 1)
              { ret_rc := SLURM_ERROR, job_desc := acc.job_desc, queued := acc.queued }
            exact ⟨Q, i2, fun q hq => Or.inr (i3 q hq), i1⟩

theorem or_and_eq_zero (a b c : Nat) (ha : a &&& c = 0) (hb : b &&& c = 0) :
    (a ||| b) &&& c = 0 := by
  apply Nat.eq_of_testBit_eq
  intro k
  have hak := congrArg (fun n => n.testBit k) ha
  have hbk := congrArg (fun n => n.testBit k) hb
  simp only [Nat.testBit_and, Nat.testBit_or, Nat.zero_testBit] at hak hbk ⊢
  cases h1 : a.testBit k <;> cases h2 : b.testBit k <;> cases h3 : c.testBit k <;> simp_all

/-- Two different cluster ids in `1..64` have disjoint sibling bits. -/
theorem sibling_bits_disjoint (x y : Nat) (hx1 : 1 ≤ x) (hx2 : x ≤ 64) (hy1 : 1 ≤ y)
    (hy2 : y ≤ 64) (hne : x ≠ y) : FED_SIBLING_BIT x &&& FED_SIBLING_BIT y = 0 := by
  apply Nat.eq_of_testBit_eq
  intro k
  rw [Nat.testBit_and, testBit_FED_SIBLING_BIT x k hx1 hx2,
    testBit_FED_SIBLING_BIT y k hy1 hy2, Nat.zero_testBit]
  by_cases h : k + 1 = x
  · have : ¬ (k + 1 = y) := by omega
    simp [this]
  · simp [h]

/-- The queue of the loop of `_submit_sibling_jobs` when the siblings of the list
have pairwise disjoint bits and none of those at a position other than the local
one is active yet: when the request packs, one record is appended for each
sibling at a position other than the local one whose bit is in `dest_sibs`, in
list order; when it does not pack, nothing is appended. -/
theorem submit_sibling_jobs_loop_queue (env : Env) (fed : Fed) (sib_msg : sib_msg_t)
    (alloc_only : Bool) (dest_sibs : Nat) (l : List slurmdb_cluster_rec_t) :
    ∀ (idx : Nat) (acc : submit_result),
      l.Pairwise (fun a b => FED_SIBLING_BIT a.fed_id &&& FED_SIBLING_BIT b.fed_id = 0) →
      (∀ p ∈ l.enumFrom idx, p.1 ≠ fed.local_idx →
        acc.job_desc.fed_siblings_active &&& FED_SIBLING_BIT p.2.fed_id = 0) →
      (_submit_sibling_jobs_loop env fed sib_msg alloc_only dest_sibs l idx acc).queued
        = acc.queued ++
          if env.pack_msg
              { msg_type := env.REQUEST_SIB_MSG,
                data := { sib_msg with
                  sib_msg_type :=
                    if alloc_only then FED_JOB_SUBMIT_INT else FED_JOB_SUBMIT_BATCH } }
              = true then
            ((l.enumFrom idx).filter (fun p =>
                decide (p.1 ≠ fed.local_idx) &&
                  decide (dest_sibs &&& FED_SIBLING_BIT p.2.fed_id ≠ 0))).map
              (fun p =>
                { cluster := p.2,
                  agent_rec :=
                    { buffer :=
                        { msg_type := env.REQUEST_SIB_MSG,
                          data := { sib_msg with
                            sib_msg_type :=
                              if alloc_only then FED_JOB_SUBMIT_INT
                              else FED_JOB_SUBMIT_BATCH } },
                      job_id := 0, last_try := 0, last_defer := 0,
                      msg_type := env.REQUEST_SIB_MSG } })
          else [] := by
  induction l with
  | nil =>
    intro idx acc _ _
    simp [_submit_sibling_jobs_loop]
  | cons sibling rest ih =>
    intro idx acc hpw hd
    rw [List.pairwise_cons] at hpw
    have hd' : ∀ p ∈ rest.enumFrom (idx + 1), p.1 ≠ fed.local_idx →
        acc.job_desc.fed_siblings_active &&& FED_SIBLING_BIT p.2.fed_id = 0 := by
      intro p hp
      exact hd p (by rw [List.enumFrom_cons]; exact List.mem_cons_of_mem _ hp)
    rw [_submit_sibling_jobs_loop, List.enumFrom_cons, List.filter_cons]
    by_cases h1 : idx = fed.local_idx
    · rw [if_pos h1, ih (idx + 1) acc hpw.2 hd']
      simp only [h1, ne_eq, not_true_eq_false, decide_False, Bool.false_and,
        Bool.false_eq_true, if_false]
    · rw [if_neg h1]
      by_cases h2 : dest_sibs &&& FED_SIBLING_BIT sibling.fed_id = 0
      · rw [if_pos h2, ih (idx + 1) acc hpw.2 hd']
        simp only [h2, ne_eq, not_true_eq_false, decide_False, Bool.and_false,
          Bool.false_eq_true, if_false]
      · rw [if_neg h2]
        have h3 : acc.job_desc.fed_siblings_active &&& FED_SIBLING_BIT sibling.fed_id = 0 :=
          hd (idx, sibling) (by rw [List.enumFrom_cons]; exact List.mem_cons_self _ _) h1
        rw [if_neg (not_not.mpr h3)]
        have hcond : (decide (idx ≠ fed.local_idx) &&
            decide (dest_sibs &&& FED_SIBLING_BIT sibling.fed_id ≠ 0)) = true := by
          simp [h1, h2]
        rw [if_pos hcond]
        rcases queue_rpc_cases env sibling
            { msg_type := env.REQUEST_SIB_MSG,
              data := { sib_msg with
                sib_msg_type :=
                  if alloc_only then FED_JOB_SUBMIT_INT else FED_JOB_SUBMIT_BATCH } }
            0 with ⟨hp, h4⟩ | ⟨hp, h4⟩
        · simp only [h4, if_true]
          rw [ih (idx + 1) _ hpw.2 (by
            intro p hp1 hp2
            exact or_and_eq_zero _ _ _ (hd' p hp1 hp2)
              (hpw.1 p.2 (List.snd_mem_of_mem_enumFrom hp1)))]
          simp only [hp, if_true, List.map_cons, List.append_assoc, List.singleton_append]
        · have herr : SLURM_ERROR ≠ SLURM_SUCCESS := by decide
          simp only [h4, herr, if_false, List.append_nil]
          rw [ih (idx + 1)
            { ret_rc := SLURM_ERROR, job_desc := acc.job_desc, queued := acc.queued }
            hpw.2 hd']
          simp only [hp, Bool.false_eq_true, if_false]

/-- The records `_submit_sibling_jobs` queues and the bits it sets, in terms of
the request `submit_req_msg`: every record is that request, for a member at a
position other than the local one whose bit is in `dest_sibs` and was not
active; a bit is active afterwards exactly when it was active before or is the
bit of the cluster of a queued record. -/
theorem submit_sibling_jobs_records (env : Env) (fed : Fed) (job_desc : job_desc_msg_t)
    (msg : job_msg_t) (alloc_only : Bool) (dest_sibs : Nat) :
    (∀ q ∈ (_submit_sibling_jobs env fed job_desc msg alloc_only dest_sibs).queued,
      ∃ p ∈ fed.cluster_list.enum, p.1 ≠ fed.local_idx ∧
        dest_sibs &&& FED_SIBLING_BIT p.2.fed_id ≠ 0 ∧
        job_desc.fed_siblings_active &&& FED_SIBLING_BIT p.2.fed_id = 0 ∧
        env.pack_msg (submit_req_msg env job_desc msg alloc_only) = true ∧
        q = { cluster := p.2,
              agent_rec :=
                { buffer := submit_req_msg env job_desc msg alloc_only,
                  job_id := 0, last_try := 0, last_defer := 0,
                  msg_type := env.REQUEST_SIB_MSG } }) ∧
    (∀ k, (_submit_sibling_jobs env fed job_desc msg alloc_only
        dest_sibs).job_desc.fed_siblings_active.testBit k = true ↔
      (job_desc.fed_siblings_active.testBit k = true ∨
        ∃ q ∈ (_submit_sibling_jobs env fed job_desc msg alloc_only dest_sibs).queued,
          (FED_SIBLING_BIT q.cluster.fed_id).testBit k = true)) := by
  obtain ⟨Q, h2, h3, h1⟩ := submit_sibling_jobs_loop_records env fed
    { sib_msg_zero with
      data_buffer := msg.buffer, data_offset := msg.body_offset, data_type := msg.msg_type,
      data_version := msg.protocol_version, fed_siblings := job_desc.fed_siblings_viable,
      job_id := job_desc.job_id, resp_host := job_desc.resp_host }
    alloc_only dest_sibs fed.cluster_list 0
    { ret_rc := SLURM_SUCCESS, job_desc := job_desc, queued := [] }
  have hQ : (_submit_sibling_jobs env fed job_desc msg alloc_only dest_sibs).queued = Q := by
    have : (_submit_sibling_jobs env fed job_desc msg alloc_only dest_sibs).queued
        = [] ++ Q := h2
    rw [this, List.nil_append]
  rw [hQ]
  exact ⟨fun q hq => h3 q hq, fun k => h1 k⟩

/-- The queue of `_submit_sibling_jobs` in a federation whose members have
pairwise disjoint sibling bits, when no member at a position other than the
local one is active yet: one `submit_req_msg` record for each member at a
position other than the local one whose bit is in `dest_sibs`, in the order of
the cluster list, when the request packs, and nothing when it does not. -/
theorem submit_sibling_jobs_queue (env : Env) (fed : Fed) (job_desc : job_desc_msg_t)
    (msg : job_msg_t) (alloc_only : Bool) (dest_sibs : Nat)
    (hpw : fed.cluster_list.Pairwise
      (fun a b => FED_SIBLING_BIT a.fed_id &&& FED_SIBLING_BIT b.fed_id = 0))
    (hd : ∀ p ∈ fed.cluster_list.enum, p.1 ≠ fed.local_idx →
      job_desc.fed_siblings_active &&& FED_SIBLING_BIT p.2.fed_id = 0) :
    (_submit_sibling_jobs env fed job_desc msg alloc_only dest_sibs).queued
      = if env.pack_msg (submit_req_msg env job_desc msg alloc_only) = true then
          (fed.cluster_list.enum.filter (fun p =>
              decide (p.1 ≠ fed.local_idx) &&
                decide (dest_sibs &&& FED_SIBLING_BIT p.2.fed_id ≠ 0))).map
            (fun p =>
              { cluster := p.2,
                agent_rec :=
                  { buffer := submit_req_msg env job_desc msg alloc_only,
                    job_id := 0, last_try := 0, last_defer := 0,
                    msg_type := env.REQUEST_SIB_MSG } })
        else [] := by
  have h := submit_sibling_jobs_loop_queue env fed
    { sib_msg_zero with
      data_buffer := msg.buffer, data_offset := msg.body_offset, data_type := msg.msg_type,
      data_version := msg.protocol_version, fed_siblings := job_desc.fed_siblings_viable,
      job_id := job_desc.job_id, resp_host := job_desc.resp_host }
    alloc_only dest_sibs fed.cluster_list 0
    { ret_rc := SLURM_SUCCESS, job_desc := job_desc, queued := [] } hpw hd
  rw [List.nil_append] at h
  exact h

/-- In a federation whose members have pairwise different ids in
`1..MAX_FED_CLUSTERS`, the sibling bits of the members are pairwise disjoint. -/
theorem fed_sibling_bits_pairwise (fed : Fed)
    (huniq : fed.cluster_list.Pairwise (fun a b => a.fed_id ≠ b.fed_id))
    (hids : ∀ c ∈ fed.cluster_list, 1 ≤ c.fed_id ∧ c.fed_id ≤ MAX_FED_CLUSTERS) :
    fed.cluster_list.Pairwise
      (fun a b => FED_SIBLING_BIT a.fed_id &&& FED_SIBLING_BIT b.fed_id = 0) := by
  have h64 : ∀ c ∈ fed.cluster_list, 1 ≤ c.fed_id ∧ c.fed_id ≤ 64 := by
    intro c hc
    have := hids c hc
    unfold MAX_FED_CLUSTERS at this
    omega
  rw [List.pairwise_iff_getElem] at huniq ⊢
  intro i j hi hj hij
  exact sibling_bits_disjoint _ _ (h64 _ (List.getElem_mem _)).1
    (h64 _ (List.getElem_mem _)).2 (h64 _ (List.getElem_mem _)).1
    (h64 _ (List.getElem_mem _)).2 (huniq i j hi hj hij)

/-- In a federation whose members have pairwise different ids in
`1..MAX_FED_CLUSTERS`, the sibling bits of the members are pairwise disjoint,
and the bit of a member at a position other than the local one is disjoint from
the local cluster's bit. -/
theorem fed_sibling_bits_disjoint (fed : Fed)
    (huniq : fed.cluster_list.Pairwise (fun a b => a.fed_id ≠ b.fed_id))
    (hids : ∀ c ∈ fed.cluster_list, 1 ≤ c.fed_id ∧ c.fed_id ≤ MAX_FED_CLUSTERS)
    (hloc : fed.local_idx < fed.cluster_list.length) :
    fed.cluster_list.Pairwise
      (fun a b => FED_SIBLING_BIT a.fed_id &&& FED_SIBLING_BIT b.fed_id = 0) ∧
    ∀ p ∈ fed.cluster_list.enum, p.1 ≠ fed.local_idx →
      FED_SIBLING_BIT (fed_mgr_cluster_rec fed).fed_id &&& FED_SIBLING_BIT p.2.fed_id = 0 := by
  have h64 : ∀ c ∈ fed.cluster_list, 1 ≤ c.fed_id ∧ c.fed_id ≤ 64 := by
    intro c hc
    have := hids c hc
    unfold MAX_FED_CLUSTERS at this
    omega
  constructor
  · rw [List.pairwise_iff_getElem] at huniq ⊢
    intro i j hi hj hij
    exact sibling_bits_disjoint _ _ (h64 _ (List.getElem_mem _)).1
      (h64 _ (List.getElem_mem _)).2 (h64 _ (List.getElem_mem _)).1
      (h64 _ (List.getElem_mem _)).2 (huniq i j hi hj hij)
  · rintro ⟨i, c⟩ hp hne
    obtain ⟨hi, hc⟩ := List.mem_enum hp
    have hl : fed_mgr_cluster_rec fed = fed.cluster_list[fed.local_idx] := by
      unfold fed_mgr_cluster_rec
      exact List.getD_eq_getElem _ _ hloc
    rw [hl]
    simp only at hne hc ⊢
    have hc' : c = fed.cluster_list.get ⟨i, hi⟩ := hc
    rw [hc', List.get_eq_getElem]
    rw [List.pairwise_iff_getElem] at huniq
    have hne' : fed.cluster_list[fed.local_idx].fed_id ≠ fed.cluster_list[i].fed_id := by
      rcases Nat.lt_or_gt_of_ne hne with h | h
      · exact fun e => huniq i fed.local_idx hi hloc h e.symm
      · exact huniq fed.local_idx i hloc hi h
    exact sibling_bits_disjoint _ _ (h64 _ (List.getElem_mem _)).1
      (h64 _ (List.getElem_mem _)).2 (h64 _ (List.getElem_mem _)).1
      (h64 _ (List.getElem_mem _)).2 hne'

/-- C16: after a successful `fed_mgr_job_allocate` (`job_allocate` storing the
descriptor's viable siblings in the job record), with `V` the viable siblings of
the job: a bit is set in the job's `siblings_active` exactly when it is the
local cluster's bit and the local cluster is in `V`, or the job is not held and
it is the bit of a member other than the local one that is in `V` and whose
SUBMIT request was queued.  The queue and the bitmap agree: a bit is set
exactly when it is that local bit or the bit of the cluster of a record the call
queued, and every record queued is the job's SUBMIT request (`submit_req_msg`)
for a member other than the local one that is in `V`.  For a job submitted held
(priority 0) nothing is queued and `siblings_active` holds at most the local
bit.  For a job not held, in a federation whose members have pairwise different
ids in `1..MAX_FED_CLUSTERS`, the queue is exactly one SUBMIT record for each
member other than the local one that is in `V`, in the order of the cluster
list, when the request packs, and empty when it does not.  One
`fed_job_info_t` is appended to `fed_job_list`, for this job, unlocked, with
the job's `siblings_active` and `siblings_viable`. -/
theorem fed_mgr_job_allocate_active_siblings (env : Env) (fed : Fed)
    (fed_job_list : List fed_job_info_t) (msg : job_msg_t) (job_desc : job_desc_msg_t)
    (alloc_only : Bool) (uid protocol_version next_job_id : Nat) (r : allocate_result)
    (hkeep : job_allocate_keeps_viable env)
    (halloc : fed_mgr_job_allocate env fed fed_job_list msg job_desc alloc_only uid
      protocol_version next_job_id = some r)
    (hrc : r.rc = SLURM_SUCCESS) :
    ∃ job_ptr fd ji,
      r.job_ptr = some job_ptr ∧ job_ptr.fed_details = some fd ∧
      r.job_id_ptr = some job_ptr.job_id ∧
      fd.siblings_viable = _get_viable_sibs env fed job_desc.clusters
        (_validate_cluster_features env (some fed) job_desc.cluster_features).2 ∧
      (∀ k, fd.siblings_active.testBit k = true ↔
        ((fd.siblings_viable &&& FED_SIBLING_BIT (fed_mgr_cluster_rec fed).fed_id ≠ 0 ∧
            (FED_SIBLING_BIT (fed_mgr_cluster_rec fed).fed_id).testBit k = true) ∨
          (job_desc.priority ≠ 0 ∧
            ∃ p ∈ fed.cluster_list.enum, p.1 ≠ fed.local_idx ∧
              fd.siblings_viable &&& FED_SIBLING_BIT p.2.fed_id ≠ 0 ∧
              (_queue_rpc env p.2
                (submit_req_msg env
                  { job_desc with job_id := next_job_id,
                                  fed_siblings_viable := fd.siblings_viable }
                  msg alloc_only) 0).1 = SLURM_SUCCESS ∧
              (FED_SIBLING_BIT p.2.fed_id).testBit k = true))) ∧
      (∀ k, fd.siblings_active.testBit k = true ↔
        ((fd.siblings_viable &&& FED_SIBLING_BIT (fed_mgr_cluster_rec fed).fed_id ≠ 0 ∧
            (FED_SIBLING_BIT (fed_mgr_cluster_rec fed).fed_id).testBit k = true) ∨
          ∃ q ∈ r.queued, (FED_SIBLING_BIT q.cluster.fed_id).testBit k = true)) ∧
      (∀ q ∈ r.queued,
        job_desc.priority ≠ 0 ∧
        ∃ p ∈ fed.cluster_list.enum, p.1 ≠ fed.local_idx ∧
          fd.siblings_viable &&& FED_SIBLING_BIT p.2.fed_id ≠ 0 ∧
          env.pack_msg
            (submit_req_msg env
              { job_desc with job_id := next_job_id,
                              fed_siblings_viable := fd.siblings_viable }
              msg alloc_only) = true ∧
          q = { cluster := p.2,
                agent_rec :=
                  { buffer := submit_req_msg env
                      { job_desc with job_id := next_job_id,
                                      fed_siblings_viable := fd.siblings_viable }
                      msg alloc_only,
                    job_id := 0, last_try := 0, last_defer := 0,
                    msg_type := env.REQUEST_SIB_MSG } }) ∧
      (job_desc.priority = 0 →
        r.queued = [] ∧
        ∀ k, fd.siblings_active.testBit k = true →
          (FED_SIBLING_BIT (fed_mgr_cluster_rec fed).fed_id).testBit k = true) ∧
      (job_desc.priority ≠ 0 →
        fed.cluster_list.Pairwise (fun a b => a.fed_id ≠ b.fed_id) →
        (∀ c ∈ fed.cluster_list, 1 ≤ c.fed_id ∧ c.fed_id ≤ MAX_FED_CLUSTERS) →
        fed.local_idx < fed.cluster_list.length →
        r.queued
          = if env.pack_msg
                (submit_req_msg env
                  { job_desc with job_id := next_job_id,
                                  fed_siblings_viable := fd.siblings_viable }
                  msg alloc_only) = true then
              (fed.cluster_list.enum.filter (fun p =>
                  decide (p.1 ≠ fed.local_idx) &&
                    decide (fd.siblings_viable &&& FED_SIBLING_BIT p.2.fed_id ≠ 0))).map
                (fun p =>
                  { cluster := p.2,
                    agent_rec :=
                      { buffer := submit_req_msg env
                          { job_desc with job_id := next_job_id,
                                          fed_siblings_viable := fd.siblings_viable }
                          msg alloc_only,
                        job_id := 0, last_try := 0, last_defer := 0,
                        msg_type := env.REQUEST_SIB_MSG } })
            else []) ∧
      r.fed_job_list = fed_job_list ++ [ji] ∧
      ji.job_id = job_ptr.job_id ∧ ji.cluster_lock = 0 ∧
      ji.siblings_active = fd.siblings_active ∧
      ji.siblings_viable = fd.siblings_viable := by
  have herr : SLURM_ERROR ≠ SLURM_SUCCESS := by decide
  unfold fed_mgr_job_allocate at halloc
  by_cases h1 : job_desc.job_id ≠ env.NO_VAL
  · rw [if_pos h1] at halloc
    cases halloc
    exact absurd hrc herr
  rw [if_neg h1] at halloc
  simp only [] at halloc
  by_cases h2 : (_validate_cluster_features env (some fed) job_desc.cluster_features).1
      ≠ SLURM_SUCCESS
  · rw [if_pos h2] at halloc
    cases halloc
    exact absurd hrc herr
  rw [if_neg h2] at halloc
  split at halloc
  · cases halloc
    exact absurd hrc herr
  rename_i job_ptr0 ha
  split at halloc
  · cases halloc
    exact absurd hrc herr
  split at halloc
  · cases halloc
  rename_i fd0 hfd0
  split at halloc
  · cases halloc
  rename_i l hl
  cases halloc
  simp only [_add_fed_job_info, Option.some.injEq] at hl
  subst hl
  have hv : fd0.siblings_viable = _get_viable_sibs env fed job_desc.clusters
      (_validate_cluster_features env (some fed) job_desc.cluster_features).2 :=
    hkeep _ _ _ _ job_ptr0 fd0 ha hfd0
  generalize _get_viable_sibs env fed job_desc.clusters
    (_validate_cluster_features env (some fed) job_desc.cluster_features).2 = V at hv ha ⊢
  subst hv
  have hlocal : ∀ k,
      (if fd0.siblings_viable &&& FED_SIBLING_BIT (fed_mgr_cluster_rec fed).fed_id ≠ 0 then
        ({ job_desc with
            job_id := next_job_id, fed_siblings_viable := fd0.siblings_viable,
            fed_siblings_active := 0 ||| FED_SIBLING_BIT (fed_mgr_cluster_rec fed).fed_id }
          : job_desc_msg_t)
      else
        { job_desc with
            job_id := next_job_id, fed_siblings_viable := fd0.siblings_viable,
            fed_siblings_active := 0 }).fed_siblings_active.testBit k = true ↔
      (fd0.siblings_viable &&& FED_SIBLING_BIT (fed_mgr_cluster_rec fed).fed_id ≠ 0 ∧
        (FED_SIBLING_BIT (fed_mgr_cluster_rec fed).fed_id).testBit k = true) := by
    intro k
    by_cases hc : fd0.siblings_viable
        &&& FED_SIBLING_BIT (fed_mgr_cluster_rec fed).fed_id ≠ 0
    · rw [if_pos hc]
      simp only [Nat.zero_or]
      exact ⟨fun h => ⟨hc, h⟩, fun h => h.2⟩
    · rw [if_neg hc]
      simp only [Nat.zero_testBit, Bool.false_eq_true, false_iff]
      exact fun h => hc h.1
  have hreq : submit_req_msg env
      (if fd0.siblings_viable &&& FED_SIBLING_BIT (fed_mgr_cluster_rec fed).fed_id ≠ 0 then
        ({ job_desc with
            job_id := next_job_id, fed_siblings_viable := fd0.siblings_viable,
            fed_siblings_active := 0 ||| FED_SIBLING_BIT (fed_mgr_cluster_rec fed).fed_id }
          : job_desc_msg_t)
      else
        { job_desc with
            job_id := next_job_id, fed_siblings_viable := fd0.siblings_viable,
            fed_siblings_active := 0 }) msg alloc_only
      = submit_req_msg env
          { job_desc with job_id := next_job_id, fed_siblings_viable := fd0.siblings_viable }
          msg alloc_only := by
    by_cases hc : fd0.siblings_viable
        &&& FED_SIBLING_BIT (fed_mgr_cluster_rec fed).fed_id ≠ 0
    · rw [if_pos hc]; rfl
    · rw [if_neg hc]; rfl
  by_cases hheld : (job_desc.priority == 0) = true
  · have hp : job_desc.priority = 0 := by simpa using hheld
    rw [if_pos hheld]
    refine ⟨_, _, _, rfl, rfl, rfl, rfl, ?_, ?_, ?_, ?_, ?_, rfl, rfl, rfl, rfl, rfl⟩
    · intro k
      rw [show ∀ (x : job_fed_details_t) (a : Nat),
        ({ x with siblings_active := a } : job_fed_details_t).siblings_active = a
        from fun _ _ => rfl]
      simp only []
      rw [hlocal k]
      constructor
      · exact fun h => Or.inl h
      · rintro (h | ⟨h, _⟩)
        · exact h
        · exact absurd hp h
    · intro k
      rw [show ∀ (x : job_fed_details_t) (a : Nat),
        ({ x with siblings_active := a } : job_fed_details_t).siblings_active = a
        from fun _ _ => rfl]
      simp only []
      rw [hlocal k]
      constructor
      · exact fun h => Or.inl h
      · rintro (h | ⟨q, hq, _⟩)
        · exact h
        · cases hq
    · intro q hq
      cases hq
    · intro _
      refine ⟨rfl, fun k hk => ?_⟩
      exact ((hlocal k).mp hk).2
    · intro h0
      exact absurd hp h0
  · have hp : job_desc.priority ≠ 0 := by simpa using hheld
    rw [if_neg hheld]
    obtain ⟨e1, e2⟩ := submit_sibling_jobs_exact env fed
      (if fd0.siblings_viable &&& FED_SIBLING_BIT (fed_mgr_cluster_rec fed).fed_id ≠ 0 then
        ({ job_desc with
            job_id := next_job_id, fed_siblings_viable := fd0.siblings_viable,
            fed_siblings_active := 0 ||| FED_SIBLING_BIT (fed_mgr_cluster_rec fed).fed_id }
          : job_desc_msg_t)
      else
        { job_desc with
            job_id := next_job_id, fed_siblings_viable := fd0.siblings_viable,
            fed_siblings_active := 0 }) msg alloc_only fd0.siblings_viable
    obtain ⟨f1, f2⟩ := submit_sibling_jobs_records env fed
      (if fd0.siblings_viable &&& FED_SIBLING_BIT (fed_mgr_cluster_rec fed).fed_id ≠ 0 then
        ({ job_desc with
            job_id := next_job_id, fed_siblings_viable := fd0.siblings_viable,
            fed_siblings_active := 0 ||| FED_SIBLING_BIT (fed_mgr_cluster_rec fed).fed_id }
          : job_desc_msg_t)
      else
        { job_desc with
            job_id := next_job_id, fed_siblings_viable := fd0.siblings_viable,
            fed_siblings_active := 0 }) msg alloc_only fd0.siblings_viable
    have f3 := submit_sibling_jobs_queue env fed
      (if fd0.siblings_viable &&& FED_SIBLING_BIT (fed_mgr_cluster_rec fed).fed_id ≠ 0 then
        ({ job_desc with
            job_id := next_job_id, fed_siblings_viable := fd0.siblings_viable,
            fed_siblings_active := 0 ||| FED_SIBLING_BIT (fed_mgr_cluster_rec fed).fed_id }
          : job_desc_msg_t)
      else
        { job_desc with
            job_id := next_job_id, fed_siblings_viable := fd0.siblings_viable,
            fed_siblings_active := 0 }) msg alloc_only fd0.siblings_viable
    rw [hreq] at e1 e2 f1 f3
    refine ⟨_, _, _, rfl, rfl, rfl, rfl, ?_, ?_, ?_, ?_, ?_, rfl, rfl, rfl, rfl, rfl⟩
    · intro k
      have := e1 k
      rw [hlocal k] at this
      rw [show ∀ (x : job_fed_details_t) (a : Nat),
        ({ x with siblings_active := a } : job_fed_details_t).siblings_active = a
        from fun _ _ => rfl]
      rw [this]
      constructor
      · rintro (h | h)
        · exact Or.inl h
        · exact Or.inr ⟨hp, h⟩
      · rintro (h | ⟨_, h⟩)
        · exact Or.inl h
        · exact Or.inr h
    · intro k
      have := f2 k
      rw [hlocal k] at this
      rw [show ∀ (x : job_fed_details_t) (a : Nat),
        ({ x with siblings_active := a } : job_fed_details_t).siblings_active = a
        from fun _ _ => rfl]
      exact this
    · intro q hq
      obtain ⟨p, hp1, hp2, hp3, _, hp5, hp6⟩ := f1 q hq
      exact ⟨hp, p, hp1, hp2, hp3, hp5, hp6⟩
    · intro h0
      exact absurd h0 hp
    · intro _ huniq hids hloc
      obtain ⟨g1, g2⟩ := fed_sibling_bits_disjoint fed huniq hids hloc
      refine f3 g1 (fun p hp1 hp2 => ?_)
      by_cases hc : fd0.siblings_viable
          &&& FED_SIBLING_BIT (fed_mgr_cluster_rec fed).fed_id ≠ 0
      · rw [if_pos hc]
        show (0 ||| FED_SIBLING_BIT (fed_mgr_cluster_rec fed).fed_id)
          &&& FED_SIBLING_BIT p.2.fed_id = 0
        rw [Nat.zero_or]
        exact g2 p hp1 hp2
      · rw [if_neg hc]
        exact Nat.zero_and _

theorem example_env_job_allocate_keeps_viable : job_allocate_keeps_viable example_env := by
  intro d alloc_only uid protocol_version j fd h1 h2
  simp only [example_env, Option.some.injEq] at h1
  subst h1
  simp only [Option.some.injEq] at h2
  subst h2
  rfl

/-- Witness for C16: the submission of `example_job_desc` on cluster 1 of the
federation c1, c2, c3 as job 67108869 queues one batch SUBMIT for c2 and one for
c3 and leaves all three siblings active. -/
theorem fed_mgr_job_allocate_active_siblings_witness :
    (fed_mgr_job_allocate example_env (example_fed 0) [] (example_job_msg none)
        (example_job_desc none) false 1000 8192 67108869).map (fun r => r.fed_job_list)
      = some [example_job_info 0 7 7] ∧
    (fed_mgr_job_allocate example_env (example_fed 0) [] (example_job_msg none)
        (example_job_desc none) false 1000 8192 67108869).map
        (fun r => r.queued.map
          (fun q => (q.cluster.name, q.agent_rec.buffer.data.sib_msg_type,
            q.agent_rec.buffer.data.job_id)))
      = some [("c2", FED_JOB_SUBMIT_BATCH, 67108869), ("c3", FED_JOB_SUBMIT_BATCH, 67108869)] ∧
    ∃ r, fed_mgr_job_allocate example_env (example_fed 0) [] (example_job_msg none)
        (example_job_desc none) false 1000 8192 67108869 = some r ∧
      r.rc = SLURM_SUCCESS ∧
      ∃ job_ptr fd ji,
        r.job_ptr = some job_ptr ∧ job_ptr.fed_details = some fd ∧
        fd.siblings_viable = _get_viable_sibs example_env (example_fed 0) none
          (_validate_cluster_features example_env (some (example_fed 0)) none).2 ∧
        (∀ k, fd.siblings_active.testBit k = true ↔
          ((fd.siblings_viable
                &&& FED_SIBLING_BIT (fed_mgr_cluster_rec (example_fed 0)).fed_id ≠ 0 ∧
              (FED_SIBLING_BIT (fed_mgr_cluster_rec (example_fed 0)).fed_id).testBit k
                = true) ∨
            ((example_job_desc none).priority ≠ 0 ∧
              ∃ p ∈ (example_fed 0).cluster_list.enum, p.1 ≠ (example_fed 0).local_idx ∧
                fd.siblings_viable &&& FED_SIBLING_BIT p.2.fed_id ≠ 0 ∧
                (_queue_rpc example_env p.2
                  (submit_req_msg example_env
                    { example_job_desc none with
                      job_id := 67108869, fed_siblings_viable := fd.siblings_viable }
                    (example_job_msg none) false) 0).1 = SLURM_SUCCESS ∧
                (FED_SIBLING_BIT p.2.fed_id).testBit k = true))) ∧
        (∀ k, fd.siblings_active.testBit k = true ↔
          ((fd.siblings_viable
                &&& FED_SIBLING_BIT (fed_mgr_cluster_rec (example_fed 0)).fed_id ≠ 0 ∧
              (FED_SIBLING_BIT (fed_mgr_cluster_rec (example_fed 0)).fed_id).testBit k
                = true) ∨
            ∃ q ∈ r.queued, (FED_SIBLING_BIT q.cluster.fed_id).testBit k = true)) ∧
        r.queued
          = (if example_env.pack_msg
                (submit_req_msg example_env
                  { example_job_desc none with
                    job_id := 67108869, fed_siblings_viable := fd.siblings_viable }
                  (example_job_msg none) false) = true then
              ((example_fed 0).cluster_list.enum.filter (fun p =>
                  decide (p.1 ≠ (example_fed 0).local_idx) &&
                    decide (fd.siblings_viable &&& FED_SIBLING_BIT p.2.fed_id ≠ 0))).map
                (fun p =>
                  { cluster := p.2,
                    agent_rec :=
                      { buffer := submit_req_msg example_env
                          { example_job_desc none with
                            job_id := 67108869, fed_siblings_viable := fd.siblings_viable }
                          (example_job_msg none) false,
                        job_id := 0, last_try := 0, last_defer := 0,
                        msg_type := example_env.REQUEST_SIB_MSG } })
            else []) ∧
        r.fed_job_list = [] ++ [ji] ∧
        ji.job_id = job_ptr.job_id ∧ ji.cluster_lock = 0 ∧
        ji.siblings_active = fd.siblings_active ∧
        ji.siblings_viable = fd.siblings_viable :=
  ⟨by decide, by decide, _, rfl, by decide,
    match fed_mgr_job_allocate_active_siblings example_env (example_fed 0) []
        (example_job_msg none) (example_job_desc none) false 1000 8192 67108869 _
        example_env_job_allocate_keeps_viable rfl (by decide) with
    | ⟨job_ptr, fd, ji, h1, h2, _, h4, h5, h5b, _, _, h7, h8, h9, h10, h11, h12⟩ =>
      ⟨job_ptr, fd, ji, h1, h2, h4, h5, h5b,
        h7 (by decide) (by decide) (by decide) (by decide), h8, h9, h10, h11, h12⟩⟩

/-! ## C17: a delta update -/

/-- The loop of `_submit_sibling_jobs` queues a record only for a sibling that
is not the local one, has its bit in `dest_sibs`, and was not active when the
loop was entered. -/
theorem submit_sibling_jobs_loop_queued (env : Env) (fed : Fed) (sib_msg : sib_msg_t)
    (alloc_only : Bool) (dest_sibs : Nat) (l : List slurmdb_cluster_rec_t) :
    ∀ (idx : Nat) (acc : submit_result),
      ∀ q ∈ (_submit_sibling_jobs_loop env fed sib_msg alloc_only dest_sibs l idx acc).queued,
        q ∈ acc.queued ∨
        ∃ p ∈ l.enumFrom idx, p.1 ≠ fed.local_idx ∧
          dest_sibs &&& FED_SIBLING_BIT p.2.fed_id ≠ 0 ∧
          acc.job_desc.fed_siblings_active &&& FED_SIBLING_BIT p.2.fed_id = 0 ∧
          q ∈ (_queue_rpc env p.2
            { msg_type := env.REQUEST_SIB_MSG,
              data := { sib_msg with
                sib_msg_type :=
                  if alloc_only then FED_JOB_SUBMIT_INT else FED_JOB_SUBMIT_BATCH } }
            0).2 := by
  induction l with
  | nil =>
    intro idx acc q hq
    exact Or.inl hq
  | cons sibling rest ih =>
    intro idx acc q hq
    rw [_submit_sibling_jobs_loop] at hq
    simp only [List.enumFrom_cons, List.mem_cons, exists_eq_or_imp]
    by_cases h1 : idx = fed.local_idx
    · rw [if_pos h1] at hq
      rcases ih _ _ q hq with h | h
      · exact Or.inl h
      · exact Or.inr (Or.inr h)
    · rw [if_neg h1] at hq
      by_cases h2 : dest_sibs &&& FED_SIBLING_BIT sibling.fed_id = 0
      · rw [if_pos h2] at hq
        rcases ih _ _ q hq with h | h
        · exact Or.inl h
        · exact Or.inr (Or.inr h)
      · rw [if_neg h2] at hq
        by_cases h3 : acc.job_desc.fed_siblings_active &&& FED_SIBLING_BIT sibling.fed_id ≠ 0
        · rw [if_pos h3] at hq
          rcases ih _ _ q hq with h | h
          · exact Or.inl h
          · exact Or.inr (Or.inr h)
        · rw [if_neg h3] at hq
          rcases ih _ _ q hq with h | ⟨p, hp, c1, c2, c3, c4⟩
          · rcases List.mem_append.mp h with h | h
            · exact Or.inl h
            · exact Or.inr (Or.inl ⟨h1, h2, not_not.mp h3, h⟩)
          · refine Or.inr (Or.inr ⟨p, hp, c1, c2, ?_, c4⟩)
            by_cases h4 : (_queue_rpc env sibling
                { msg_type := env.REQUEST_SIB_MSG,
                  data := { sib_msg with
                    sib_msg_type :=
                      if alloc_only then FED_JOB_SUBMIT_INT else FED_JOB_SUBMIT_BATCH } }
                0).1 = SLURM_SUCCESS
            · simp only [h4, if_true] at c3
              exact and_eq_zero_of_or_and_eq_zero _ _ _ c3
            · simp only [h4, if_false] at c3
              exact c3

theorem submit_sibling_jobs_queued (env : Env) (fed : Fed) (job_desc : job_desc_msg_t)
    (msg : job_msg_t) (alloc_only : Bool) (dest_sibs : Nat) :
    ∀ q ∈ (_submit_sibling_jobs env fed job_desc msg alloc_only dest_sibs).queued,
      ∃ p ∈ fed.cluster_list.enum, p.1 ≠ fed.local_idx ∧
        dest_sibs &&& FED_SIBLING_BIT p.2.fed_id ≠ 0 ∧
        job_desc.fed_siblings_active &&& FED_SIBLING_BIT p.2.fed_id = 0 ∧
        q ∈ (_queue_rpc env p.2 (submit_req_msg env job_desc msg alloc_only) 0).2 := by
  intro q hq
  rcases submit_sibling_jobs_loop_queued env fed _ alloc_only dest_sibs fed.cluster_list 0
    { ret_rc := SLURM_SUCCESS, job_desc := job_desc, queued := [] } q hq with h | h
  · cases h
  · exact h

/-- The function `_prepare_submit_siblings` on a federated job whose descriptor
copy carries the job's bitmaps: the new `siblings_active` is the old one, the
local bit when the local cluster is viable, and the bits of the siblings in
`dest_sibs` whose SUBMIT request was queued; a record is queued only for a
sibling of `dest_sibs` that was not active. -/
theorem prepare_submit_siblings_exact (env : Env) (fed : Fed) (J : job_record)
    (dest_sibs : Nat) (fdJ : job_fed_details_t) (origin_id : Nat) (d : job_desc_msg_t)
    (hfd : J.fed_details = some fdJ) (hfj : _is_fed_job (some fed) J = some origin_id)
    (hcp : env.copy_job_record_to_job_desc J = some d)
    (hda : d.fed_siblings_active = fdJ.siblings_active)
    (hdv : d.fed_siblings_viable = fdJ.siblings_viable) :
    ∃ A Q,
      _prepare_submit_siblings env (some fed) J dest_sibs
        = some (SLURM_SUCCESS,
            { J with fed_details := some { fdJ with siblings_active := A } }, Q) ∧
      (∀ k, A.testBit k = true ↔
        (fdJ.siblings_active.testBit k = true ∨
          (fdJ.siblings_viable &&& FED_SIBLING_BIT (fed_mgr_cluster_rec fed).fed_id ≠ 0 ∧
            (FED_SIBLING_BIT (fed_mgr_cluster_rec fed).fed_id).testBit k = true) ∨
          ∃ p ∈ fed.cluster_list.enum, p.1 ≠ fed.local_idx ∧
            dest_sibs &&& FED_SIBLING_BIT p.2.fed_id ≠ 0 ∧
            (_queue_rpc env p.2
              (submit_req_msg env d
                { msg_type := env.REQUEST_RESOURCE_ALLOCATION,
                  protocol_version := env.SLURM_PROTOCOL_VERSION, body_offset := 0,
                  buffer := some d } false) 0).1 = SLURM_SUCCESS ∧
            (FED_SIBLING_BIT p.2.fed_id).testBit k = true)) ∧
      (∀ q ∈ Q, ∃ p ∈ fed.cluster_list.enum, p.1 ≠ fed.local_idx ∧
        dest_sibs &&& FED_SIBLING_BIT p.2.fed_id ≠ 0 ∧
        fdJ.siblings_active &&& FED_SIBLING_BIT p.2.fed_id = 0 ∧
        q ∈ (_queue_rpc env p.2
          (submit_req_msg env d
            { msg_type := env.REQUEST_RESOURCE_ALLOCATION,
              protocol_version := env.SLURM_PROTOCOL_VERSION, body_offset := 0,
              buffer := some d } false) 0).2) := by
  obtain ⟨s1, _, _⟩ := submit_sibling_jobs_spec env fed d
    { msg_type := env.REQUEST_RESOURCE_ALLOCATION,
      protocol_version := env.SLURM_PROTOCOL_VERSION, body_offset := 0,
      buffer := some d } false dest_sibs
  obtain ⟨e1, _⟩ := submit_sibling_jobs_exact env fed d
    { msg_type := env.REQUEST_RESOURCE_ALLOCATION,
      protocol_version := env.SLURM_PROTOCOL_VERSION, body_offset := 0,
      buffer := some d } false dest_sibs
  have e2 := submit_sibling_jobs_queued env fed d
    { msg_type := env.REQUEST_RESOURCE_ALLOCATION,
      protocol_version := env.SLURM_PROTOCOL_VERSION, body_offset := 0,
      buffer := some d } false dest_sibs
  have hv : (_submit_sibling_jobs env fed d
      { msg_type := env.REQUEST_RESOURCE_ALLOCATION,
        protocol_version := env.SLURM_PROTOCOL_VERSION, body_offset := 0,
        buffer := some d } false dest_sibs).job_desc.fed_siblings_viable
      = fdJ.siblings_viable := by
    rw [s1]; exact hdv
  unfold _prepare_submit_siblings
  simp only [hfj, hcp, hfd, hv]
  refine ⟨_, _, rfl, ?_, ?_⟩
  · intro k
    rw [Nat.testBit_or, Bool.or_eq_true]
    by_cases hloc : fdJ.siblings_viable &&&
        FED_SIBLING_BIT (fed_mgr_cluster_rec fed).fed_id ≠ 0
    · rw [if_pos hloc, Nat.testBit_or, Bool.or_eq_true, e1 k, hda]
      constructor
      · rintro (h | (h | h) | h)
        · exact Or.inl h
        · exact Or.inl h
        · exact Or.inr (Or.inr h)
        · exact Or.inr (Or.inl ⟨hloc, h⟩)
      · rintro (h | ⟨_, h⟩ | h)
        · exact Or.inl h
        · exact Or.inr (Or.inr h)
        · exact Or.inr (Or.inl (Or.inr h))
    · rw [if_neg hloc, e1 k, hda]
      constructor
      · rintro (h | h | h)
        · exact Or.inl h
        · exact Or.inl h
        · exact Or.inr (Or.inr h)
      · rintro (h | ⟨h, _⟩ | h)
        · exact Or.inl h
        · exact absurd h hloc
        · exact Or.inr (Or.inr h)
  · intro q hq
    have := e2 q hq
    rw [hda] at this
    exact this

theorem fed_mgr_job_revoke_keeps_priority (env : Env) (fed : Option Fed)
    (job_ptr : job_record) (job_complete : Bool) (exit_code : Nat) (start_time : Int)
    (hreq : env.job_hold_requeue { job_ptr with exit_code := exit_code } = false) :
    (fed_mgr_job_revoke env fed job_ptr job_complete exit_code start_time).1.priority
      = job_ptr.priority := by
  unfold fed_mgr_job_revoke
  by_cases hc : env.IS_JOB_COMPLETED job_ptr.job_state = true
  · simp [hc]
  · simp only [hc]
    cases fed with
    | none => simp
    | some f =>
      cases hfj : _is_fed_job (some f) job_ptr with
      | none => simp
      | some origin_id =>
        simp only [hreq]
        cases job_complete <;> simp

/-- The `if (rem_sibs)` block of `_add_remove_sibling_jobs`, the requeue table
not matching: it queues what `_revoke_sibling_jobs` queues for `rem_sibs` (the
local cluster excepted), clears `rem_sibs` from `siblings_active` and keeps the
job id, the priority and the rest of the federation details. -/
theorem add_remove_rem_sibs_exact (env : Env) (fed : Fed) (job_ptr : job_record)
    (origin_id rem_sibs : Nat) (now : Int) (fd : job_fed_details_t)
    (hfd : job_ptr.fed_details = some fd) (hreq : no_requeue_hold env) :
    ∃ J, _add_remove_rem_sibs env fed job_ptr origin_id rem_sibs now
        = some (J,
            if rem_sibs ≠ 0 then
              _revoke_sibling_jobs env (some fed) job_ptr.job_id
                (fed_mgr_cluster_rec fed).fed_id rem_sibs now
            else []) ∧
      J.job_id = job_ptr.job_id ∧ J.priority = job_ptr.priority ∧
      J.fed_details = some { fd with
        siblings_active :=
          if rem_sibs ≠ 0 then fd.siblings_active &&& not64 rem_sibs
          else fd.siblings_active } := by
  unfold _add_remove_rem_sibs
  by_cases hrem : rem_sibs ≠ 0
  · simp only [if_pos hrem]
    by_cases hc : fed_mgr_is_origin_job (some fed) job_ptr = true ∧
        rem_sibs &&& FED_SIBLING_BIT origin_id ≠ 0
    · obtain ⟨k1, k2⟩ := fed_mgr_job_revoke_keeps_fed_details env (some fed) job_ptr false 0
        now (hreq _)
      have k3 := fed_mgr_job_revoke_keeps_priority env (some fed) job_ptr false 0 now (hreq _)
      simp only [if_pos hc, k2, hfd]
      exact ⟨_, rfl, k1, k3, rfl⟩
    · simp only [if_neg hc, hfd]
      exact ⟨_, rfl, rfl, rfl, rfl⟩
  · simp only [if_neg hrem]
    refine ⟨_, rfl, rfl, rfl, ?_⟩
    rw [hfd]

/-- Bit `k` of `new & ~old`. -/
theorem testBit_add_sibs (new old k : Nat) :
    (new &&& not64 old).testBit k
      = (new.testBit k && decide (k < 64) && !old.testBit k) := by
  rw [Nat.testBit_and, testBit_not64]
  cases new.testBit k <;> simp

/-- Bit `k` of `~new & old`. -/
theorem testBit_rem_sibs (new old k : Nat) :
    (not64 new &&& old).testBit k
      = (decide (k < 64) && !new.testBit k && old.testBit k) := by
  rw [Nat.testBit_and, testBit_not64]

theorem revoke_targets_spec_zero (fed : Fed) (local_id except_id : Nat) :
    revoke_targets_spec fed local_id except_id 0 = [] := by
  apply List.eq_nil_iff_forall_not_mem.mpr
  intro c hc
  rw [mem_revoke_targets_spec] at hc
  obtain ⟨k, _, hb, _⟩ := hc
  simp at hb

/-- The submission step of `_add_remove_sibling_jobs` on a federated job, the
descriptor copy carrying the job's bitmaps: siblings are added only when the job
is not held, `add_sibs` is not empty and the job can be copied into a
descriptor; then the local bit is added when the local cluster is viable, and
the bit of every viable sibling whose SUBMIT request was queued; a record is
queued only for a viable sibling that was not active. -/
theorem add_remove_add_sibs_exact (env : Env) (fed : Fed) (J : job_record) (add_sibs : Nat)
    (fdJ : job_fed_details_t) (origin_id : Nat)
    (hfd : J.fed_details = some fdJ) (hfj : _is_fed_job (some fed) J = some origin_id)
    (hcopy : copy_keeps_sibling_bitmaps env) :
    ∃ A Q,
      _add_remove_add_sibs env fed J add_sibs
        = some ({ J with fed_details := some { fdJ with siblings_active := A } }, Q) ∧
      (∀ k, A.testBit k = true ↔
        (fdJ.siblings_active.testBit k = true ∨
          (J.priority ≠ 0 ∧ add_sibs ≠ 0 ∧
            ∃ d, env.copy_job_record_to_job_desc J = some d ∧
              ((fdJ.siblings_viable &&& FED_SIBLING_BIT (fed_mgr_cluster_rec fed).fed_id ≠ 0 ∧
                  (FED_SIBLING_BIT (fed_mgr_cluster_rec fed).fed_id).testBit k = true) ∨
                ∃ p ∈ fed.cluster_list.enum, p.1 ≠ fed.local_idx ∧
                  fdJ.siblings_viable &&& FED_SIBLING_BIT p.2.fed_id ≠ 0 ∧
                  (_queue_rpc env p.2
                    (submit_req_msg env d
                      { msg_type := env.REQUEST_RESOURCE_ALLOCATION,
                        protocol_version := env.SLURM_PROTOCOL_VERSION, body_offset := 0,
                        buffer := some d } false) 0).1 = SLURM_SUCCESS ∧
                  (FED_SIBLING_BIT p.2.fed_id).testBit k = true)))) ∧
      (∀ q ∈ Q, J.priority ≠ 0 ∧ add_sibs ≠ 0 ∧
        ∃ d, env.copy_job_record_to_job_desc J = some d ∧
          ∃ p ∈ fed.cluster_list.enum, p.1 ≠ fed.local_idx ∧
            fdJ.siblings_viable &&& FED_SIBLING_BIT p.2.fed_id ≠ 0 ∧
            fdJ.siblings_active &&& FED_SIBLING_BIT p.2.fed_id = 0 ∧
            q ∈ (_queue_rpc env p.2
              (submit_req_msg env d
                { msg_type := env.REQUEST_RESOURCE_ALLOCATION,
                  protocol_version := env.SLURM_PROTOCOL_VERSION, body_offset := 0,
                  buffer := some d } false) 0).2) := by
  unfold _add_remove_add_sibs
  by_cases hc : J.priority ≠ 0 ∧ add_sibs ≠ 0
  · simp only [if_pos hc, hfd]
    cases hcp : env.copy_job_record_to_job_desc J with
    | none =>
      have hres : _prepare_submit_siblings env (some fed) J fdJ.siblings_viable
          = some (SLURM_ERROR, J, []) := by
        unfold _prepare_submit_siblings
        simp only [hfj, hcp]
      rw [hres]
      refine ⟨fdJ.siblings_active, [], ?_, ?_, ?_⟩
      · simp only [Option.map_some']
        rw [← job_record_fed_details_eta J fdJ hfd]
      · intro k
        constructor
        · exact fun h => Or.inl h
        · rintro (h | ⟨_, _, d, hd, _⟩)
          · exact h
          · cases hd
      · intro q hq
        cases hq
    | some d =>
      obtain ⟨hda, hdv⟩ := hcopy J d fdJ hcp hfd
      obtain ⟨A, Q, hres, hA, hQ⟩ := prepare_submit_siblings_exact env fed J
        fdJ.siblings_viable fdJ origin_id d hfd hfj hcp hda hdv
      rw [hres]
      refine ⟨A, Q, rfl, ?_, ?_⟩
      · intro k
        rw [hA k]
        constructor
        · rintro (h | h | h)
          · exact Or.inl h
          · exact Or.inr ⟨hc.1, hc.2, d, rfl, Or.inl h⟩
          · exact Or.inr ⟨hc.1, hc.2, d, rfl, Or.inr h⟩
        · rintro (h | ⟨_, _, d', hd', h | h⟩)
          · exact Or.inl h
          · exact Or.inr (Or.inl h)
          · cases hd'
            exact Or.inr (Or.inr h)
      · intro q hq
        exact ⟨hc.1, hc.2, d, rfl, hQ q hq⟩
  · simp only [if_neg hc]
    refine ⟨fdJ.siblings_active, [], ?_, ?_, ?_⟩
    · rw [← job_record_fed_details_eta J fdJ hfd]
    · intro k
      constructor
      · exact fun h => Or.inl h
      · rintro (h | ⟨h1, h2, _⟩)
        · exact h
        · exact absurd ⟨h1, h2⟩ hc
    · intro q hq
      cases hq

theorem and_not64_zero (a : Nat) (h : a < 2 ^ 64) : a &&& not64 0 = a := by
  apply Nat.eq_of_testBit_eq
  intro k
  rw [Nat.testBit_and, testBit_not64]
  by_cases hk : k < 64
  · simp [hk]
  · rw [testBit_ge_of_lt_two_pow a 64 k h (by omega)]
    rfl

theorem and_ne_zero_of_testBit (a b k : Nat) (ha : a.testBit k = true)
    (hb : b.testBit k = true) : a &&& b ≠ 0 := by
  intro hz
  have := congrArg (fun n => n.testBit k) hz
  simp [Nat.testBit_and, ha, hb] at this

/-- The queue of the loop of `_submit_sibling_jobs` when the siblings of the list
have pairwise disjoint bits: when the request packs, one record is appended for
each sibling at a position other than the local one whose bit is in `dest_sibs`
and was not active when the loop was entered, in list order; when it does not
pack, nothing is appended. -/
theorem submit_sibling_jobs_loop_queue_skip (env : Env) (fed : Fed) (sib_msg : sib_msg_t)
    (alloc_only : Bool) (dest_sibs : Nat) (l : List slurmdb_cluster_rec_t) :
    ∀ (idx : Nat) (acc : submit_result),
      l.Pairwise (fun a b => FED_SIBLING_BIT a.fed_id &&& FED_SIBLING_BIT b.fed_id = 0) →
      (_submit_sibling_jobs_loop env fed sib_msg alloc_only dest_sibs l idx acc).queued
        = acc.queued ++
          if env.pack_msg
              { msg_type := env.REQUEST_SIB_MSG,
                data := { sib_msg with
                  sib_msg_type :=
                    if alloc_only then FED_JOB_SUBMIT_INT else FED_JOB_SUBMIT_BATCH } }
              = true then
            ((l.enumFrom idx).filter (fun p =>
                decide (p.1 ≠ fed.local_idx) &&
                  (decide (dest_sibs &&& FED_SIBLING_BIT p.2.fed_id ≠ 0) &&
                    decide (acc.job_desc.fed_siblings_active
                      &&& FED_SIBLING_BIT p.2.fed_id = 0)))).map
              (fun p =>
                { cluster := p.2,
                  agent_rec :=
                    { buffer :=
                        { msg_type := env.REQUEST_SIB_MSG,
                          data := { sib_msg with
                            sib_msg_type :=
                              if alloc_only then FED_JOB_SUBMIT_INT
                              else FED_JOB_SUBMIT_BATCH } },
                      job_id := 0, last_try := 0, last_defer := 0,
                      msg_type := env.REQUEST_SIB_MSG } })
          else [] := by
  induction l with
  | nil =>
    intro idx acc _
    simp [_submit_sibling_jobs_loop]
  | cons sibling rest ih =>
    intro idx acc hpw
    rw [List.pairwise_cons] at hpw
    rw [_submit_sibling_jobs_loop, List.enumFrom_cons, List.filter_cons]
    by_cases h1 : idx = fed.local_idx
    · rw [if_pos h1, ih (idx + 1) acc hpw.2]
      simp only [h1, ne_eq, not_true_eq_false, decide_False, Bool.false_and,
        Bool.false_eq_true, if_false]
    · rw [if_neg h1]
      by_cases h2 : dest_sibs &&& FED_SIBLING_BIT sibling.fed_id = 0
      · rw [if_pos h2, ih (idx + 1) acc hpw.2]
        simp only [h2, ne_eq, not_true_eq_false, decide_False, Bool.and_false,
          Bool.false_and, Bool.false_eq_true, if_false]
      · rw [if_neg h2]
        by_cases h3 : acc.job_desc.fed_siblings_active &&& FED_SIBLING_BIT sibling.fed_id = 0
        · rw [if_neg (not_not.mpr h3)]
          have hcond : (decide (idx ≠ fed.local_idx) &&
              (decide (dest_sibs &&& FED_SIBLING_BIT sibling.fed_id ≠ 0) &&
                decide (acc.job_desc.fed_siblings_active
                  &&& FED_SIBLING_BIT sibling.fed_id = 0))) = true := by
            simp [h1, h2, h3]
          rw [if_pos hcond]
          rcases queue_rpc_cases env sibling
              { msg_type := env.REQUEST_SIB_MSG,
                data := { sib_msg with
                  sib_msg_type :=
                    if alloc_only then FED_JOB_SUBMIT_INT else FED_JOB_SUBMIT_BATCH } }
              0 with ⟨hp, h4⟩ | ⟨hp, h4⟩
          · simp only [h4, if_true]
            rw [ih (idx + 1) _ hpw.2]
            simp only [hp, if_true, List.map_cons, List.append_assoc, List.singleton_append]
            congr 3
            apply List.filter_congr
            intro p hp1
            have hb := hpw.1 p.2 (List.snd_mem_of_mem_enumFrom hp1)
            have hiff : (acc.job_desc.fed_siblings_active ||| FED_SIBLING_BIT sibling.fed_id)
                &&& FED_SIBLING_BIT p.2.fed_id = 0 ↔
                acc.job_desc.fed_siblings_active &&& FED_SIBLING_BIT p.2.fed_id = 0 :=
              ⟨fun h => and_eq_zero_of_or_and_eq_zero _ _ _ h,
                fun h => or_and_eq_zero _ _ _ h hb⟩
            simp only [hiff]
          · have herr : SLURM_ERROR ≠ SLURM_SUCCESS := by decide
            simp only [h4, herr, if_false, List.append_nil]
            rw [ih (idx + 1)
              { ret_rc := SLURM_ERROR, job_desc := acc.job_desc, queued := acc.queued }
              hpw.2]
            simp only [hp, Bool.false_eq_true, if_false]
        · rw [if_pos h3, ih (idx + 1) acc hpw.2]
          simp only [h3, decide_False, Bool.and_false, Bool.false_eq_true, if_false]

/-- The queue of `_submit_sibling_jobs` in a federation whose members have
pairwise disjoint sibling bits: one `submit_req_msg` record for each member at a
position other than the local one whose bit is in `dest_sibs` and is not active
in the descriptor, in the order of the cluster list, when the request packs, and
nothing when it does not. -/
theorem submit_sibling_jobs_queue_skip (env : Env) (fed : Fed) (job_desc : job_desc_msg_t)
    (msg : job_msg_t) (alloc_only : Bool) (dest_sibs : Nat)
    (hpw : fed.cluster_list.Pairwise
      (fun a b => FED_SIBLING_BIT a.fed_id &&& FED_SIBLING_BIT b.fed_id = 0)) :
    (_submit_sibling_jobs env fed job_desc msg alloc_only dest_sibs).queued
      = if env.pack_msg (submit_req_msg env job_desc msg alloc_only) = true then
          (fed.cluster_list.enum.filter (fun p =>
              decide (p.1 ≠ fed.local_idx) &&
                (decide (dest_sibs &&& FED_SIBLING_BIT p.2.fed_id ≠ 0) &&
                  decide (job_desc.fed_siblings_active
                    &&& FED_SIBLING_BIT p.2.fed_id = 0)))).map
            (fun p =>
              { cluster := p.2,
                agent_rec :=
                  { buffer := submit_req_msg env job_desc msg alloc_only,
                    job_id := 0, last_try := 0, last_defer := 0,
                    msg_type := env.REQUEST_SIB_MSG } })
        else [] := by
  have h := submit_sibling_jobs_loop_queue_skip env fed
    { sib_msg_zero with
      data_buffer := msg.buffer, data_offset := msg.body_offset, data_type := msg.msg_type,
      data_version := msg.protocol_version, fed_siblings := job_desc.fed_siblings_viable,
      job_id := job_desc.job_id, resp_host := job_desc.resp_host }
    alloc_only dest_sibs fed.cluster_list 0
    { ret_rc := SLURM_SUCCESS, job_desc := job_desc, queued := [] } hpw
  rw [List.nil_append] at h
  exact h

/-- The function `_prepare_submit_siblings` on a federated job whose descriptor
copy carries the job's bitmaps: it queues what `_submit_sibling_jobs` queues, and
the new `siblings_active` is the old one, the local bit when the local cluster is
viable, and the bits of the clusters of the queued records. -/
theorem prepare_submit_siblings_records (env : Env) (fed : Fed) (J : job_record)
    (dest_sibs : Nat) (fdJ : job_fed_details_t) (origin_id : Nat) (d : job_desc_msg_t)
    (hfd : J.fed_details = some fdJ) (hfj : _is_fed_job (some fed) J = some origin_id)
    (hcp : env.copy_job_record_to_job_desc J = some d)
    (hda : d.fed_siblings_active = fdJ.siblings_active)
    (hdv : d.fed_siblings_viable = fdJ.siblings_viable) :
    ∃ A,
      _prepare_submit_siblings env (some fed) J dest_sibs
        = some (SLURM_SUCCESS,
            { J with fed_details := some { fdJ with siblings_active := A } },
            (_submit_sibling_jobs env fed d
              { msg_type := env.REQUEST_RESOURCE_ALLOCATION,
                protocol_version := env.SLURM_PROTOCOL_VERSION, body_offset := 0,
                buffer := some d } false dest_sibs).queued) ∧
      (∀ k, A.testBit k = true ↔
        (fdJ.siblings_active.testBit k = true ∨
          (fdJ.siblings_viable &&& FED_SIBLING_BIT (fed_mgr_cluster_rec fed).fed_id ≠ 0 ∧
            (FED_SIBLING_BIT (fed_mgr_cluster_rec fed).fed_id).testBit k = true) ∨
          ∃ q ∈ (_submit_sibling_jobs env fed d
              { msg_type := env.REQUEST_RESOURCE_ALLOCATION,
                protocol_version := env.SLURM_PROTOCOL_VERSION, body_offset := 0,
                buffer := some d } false dest_sibs).queued,
            (FED_SIBLING_BIT q.cluster.fed_id).testBit k = true)) := by
  obtain ⟨s1, _, _⟩ := submit_sibling_jobs_spec env fed d
    { msg_type := env.REQUEST_RESOURCE_ALLOCATION,
      protocol_version := env.SLURM_PROTOCOL_VERSION, body_offset := 0,
      buffer := some d } false dest_sibs
  obtain ⟨_, e1⟩ := submit_sibling_jobs_records env fed d
    { msg_type := env.REQUEST_RESOURCE_ALLOCATION,
      protocol_version := env.SLURM_PROTOCOL_VERSION, body_offset := 0,
      buffer := some d } false dest_sibs
  have hv : (_submit_sibling_jobs env fed d
      { msg_type := env.REQUEST_RESOURCE_ALLOCATION,
        protocol_version := env.SLURM_PROTOCOL_VERSION, body_offset := 0,
        buffer := some d } false dest_sibs).job_desc.fed_siblings_viable
      = fdJ.siblings_viable := by
    rw [s1]; exact hdv
  unfold _prepare_submit_siblings
  simp only [hfj, hcp, hfd, hv]
  refine ⟨_, rfl, ?_⟩
  intro k
  rw [Nat.testBit_or, Bool.or_eq_true]
  by_cases hloc : fdJ.siblings_viable &&&
      FED_SIBLING_BIT (fed_mgr_cluster_rec fed).fed_id ≠ 0
  · rw [if_pos hloc, Nat.testBit_or, Bool.or_eq_true, e1 k, hda]
    constructor
    · rintro (h | (h | h) | h)
      · exact Or.inl h
      · exact Or.inl h
      · exact Or.inr (Or.inr h)
      · exact Or.inr (Or.inl ⟨hloc, h⟩)
    · rintro (h | ⟨_, h⟩ | h)
      · exact Or.inl h
      · exact Or.inr (Or.inr h)
      · exact Or.inr (Or.inl (Or.inr h))
  · rw [if_neg hloc, e1 k, hda]
    constructor
    · rintro (h | h | h)
      · exact Or.inl h
      · exact Or.inl h
      · exact Or.inr (Or.inr h)
    · rintro (h | ⟨h, _⟩ | h)
      · exact Or.inl h
      · exact absurd h hloc
      · exact Or.inr (Or.inr h)

/-- The submission step of `_add_remove_sibling_jobs` on a federated job, the
descriptor copy carrying the job's bitmaps, in terms of the records it queues:
nothing is queued when the job is held, `add_sibs` is empty or the job cannot be
copied into a descriptor; otherwise the queue is that of `_submit_sibling_jobs`
for the viable siblings; the new `siblings_active` is the old one, the local bit
when siblings are added and the local cluster is viable, and the bits of the
clusters of the queued records. -/
theorem add_remove_add_sibs_records (env : Env) (fed : Fed) (J : job_record) (add_sibs : Nat)
    (fdJ : job_fed_details_t) (origin_id : Nat)
    (hfd : J.fed_details = some fdJ) (hfj : _is_fed_job (some fed) J = some origin_id)
    (hcopy : copy_keeps_sibling_bitmaps env) :
    ∃ A Q,
      _add_remove_add_sibs env fed J add_sibs
        = some ({ J with fed_details := some { fdJ with siblings_active := A } }, Q) ∧
      (∀ k, A.testBit k = true ↔
        (fdJ.siblings_active.testBit k = true ∨
          (J.priority ≠ 0 ∧ add_sibs ≠ 0 ∧
            (∃ d, env.copy_job_record_to_job_desc J = some d) ∧
            fdJ.siblings_viable &&& FED_SIBLING_BIT (fed_mgr_cluster_rec fed).fed_id ≠ 0 ∧
            (FED_SIBLING_BIT (fed_mgr_cluster_rec fed).fed_id).testBit k = true) ∨
          ∃ q ∈ Q, (FED_SIBLING_BIT q.cluster.fed_id).testBit k = true)) ∧
      (J.priority = 0 ∨ add_sibs = 0 ∨ env.copy_job_record_to_job_desc J = none → Q = []) ∧
      (∀ d, J.priority ≠ 0 → add_sibs ≠ 0 → env.copy_job_record_to_job_desc J = some d →
        Q = (_submit_sibling_jobs env fed d
              { msg_type := env.REQUEST_RESOURCE_ALLOCATION,
                protocol_version := env.SLURM_PROTOCOL_VERSION, body_offset := 0,
                buffer := some d } false fdJ.siblings_viable).queued ∧
        d.fed_siblings_active = fdJ.siblings_active) := by
  unfold _add_remove_add_sibs
  by_cases hc : J.priority ≠ 0 ∧ add_sibs ≠ 0
  · simp only [if_pos hc, hfd]
    cases hcp : env.copy_job_record_to_job_desc J with
    | none =>
      have hres : _prepare_submit_siblings env (some fed) J fdJ.siblings_viable
          = some (SLURM_ERROR, J, []) := by
        unfold _prepare_submit_siblings
        simp only [hfj, hcp]
      rw [hres]
      refine ⟨fdJ.siblings_active, [], ?_, ?_, fun _ => rfl, ?_⟩
      · simp only [Option.map_some']
        rw [← job_record_fed_details_eta J fdJ hfd]
      · intro k
        constructor
        · exact fun h => Or.inl h
        · rintro (h | ⟨_, _, ⟨d, hd⟩, _⟩ | ⟨q, hq, _⟩)
          · exact h
          · cases hd
          · cases hq
      · intro d _ _ hd
        cases hd
    | some d =>
      obtain ⟨hda, hdv⟩ := hcopy J d fdJ hcp hfd
      obtain ⟨A, hres, hA⟩ := prepare_submit_siblings_records env fed J
        fdJ.siblings_viable fdJ origin_id d hfd hfj hcp hda hdv
      rw [hres]
      refine ⟨A, _, rfl, ?_, ?_, ?_⟩
      · intro k
        rw [hA k]
        constructor
        · rintro (h | h | h)
          · exact Or.inl h
          · exact Or.inr (Or.inl ⟨hc.1, hc.2, ⟨d, rfl⟩, h⟩)
          · exact Or.inr (Or.inr h)
        · rintro (h | ⟨_, _, _, h⟩ | h)
          · exact Or.inl h
          · exact Or.inr (Or.inl h)
          · exact Or.inr (Or.inr h)
      · rintro (h | h | h)
        · exact absurd h hc.1
        · exact absurd h hc.2
        · cases h
      · intro d' _ _ hd'
        cases hd'
        exact ⟨rfl, hda⟩
  · simp only [if_neg hc]
    refine ⟨fdJ.siblings_active, [], ?_, ?_, fun _ => rfl, ?_⟩
    · rw [← job_record_fed_details_eta J fdJ hfd]
    · intro k
      constructor
      · exact fun h => Or.inl h
      · rintro (h | ⟨h1, h2, _⟩ | ⟨q, hq, _⟩)
        · exact h
        · exact absurd ⟨h1, h2⟩ hc
        · cases hq
    · intro d h1 h2 _
      exact absurd ⟨h1, h2⟩ hc

/-- A cluster id in `1..64` is in `Add = Viable & ~Active` exactly when it is
viable and not among the siblings that stay active. -/
theorem add_sibs_bit_iff (Viable Active x : Nat) (h1 : 1 ≤ x) (h2 : x ≤ 64) :
    (Viable &&& not64 Active) &&& FED_SIBLING_BIT x ≠ 0 ↔
      (Viable &&& FED_SIBLING_BIT x ≠ 0 ∧
        (Active &&& not64 (not64 Viable &&& Active)) &&& FED_SIBLING_BIT x = 0) := by
  have hk : x - 1 < 64 := by omega
  have hz : ∀ a, a &&& FED_SIBLING_BIT x = 0 ↔ ¬ (a.testBit (x - 1) = true) := by
    intro a
    rw [← and_sibling_bit_ne_zero_iff a x h1 h2, not_not]
  rw [and_sibling_bit_ne_zero_iff _ x h1 h2, and_sibling_bit_ne_zero_iff _ x h1 h2, hz,
    testBit_add_sibs, testBit_and_not_rem]
  cases Viable.testBit (x - 1) <;> cases Active.testBit (x - 1) <;> simp [hk]

/-- C17: a delta update on an origin job (requeue table not matching, descriptor
copies carrying the job's bitmaps, REVOKE packable, 64-bit `siblings_active`),
with `Viable` the recomputed viable set, `Rem = ~Viable & Active` and
`Add = Viable & ~Active`: `_add_remove_sibling_jobs` queues first one REVOKE per
member of `Rem` other than the local cluster, then the records `submits`.  With
`J` the job record the revoke block leaves: every record of `submits` is the
job's SUBMIT request (`submit_req_msg` of the descriptor copy of `J`) for a
member of `Add` other than the local cluster, and there is none if the job is
held.  The new `siblings_active` is `Active & ~Rem` and the bits of `Add` that
are the local bit (job not held and copied into a descriptor) or the bit of the
cluster of a record of `submits`; equally, the bits of `Add` that are the local
bit or the bit of a sibling whose SUBMIT `_queue_rpc` accepted.  In a federation
whose members have pairwise different ids in `1..MAX_FED_CLUSTERS`, `submits`
is exactly one SUBMIT record for each member of `Add` other than the local
cluster, in the order of the cluster list, when the request packs, and empty
when it does not.  The job record and the `fed_job_info_t` carry the same
`siblings_viable` and `siblings_active`. -/
theorem add_remove_sibling_jobs_delta (env : Env) (fed : Fed)
    (fed_job_list : List fed_job_info_t) (job_ptr : job_record) (now : Int)
    (fd : job_fed_details_t) (det : job_details) (ji : fed_job_info_t) (Viable : Nat)
    (hfd : job_ptr.fed_details = some fd) (hdet : job_ptr.details = some det)
    (hfind : _find_fed_job_info fed_job_list job_ptr.job_id = some ji)
    (horigin : fed_mgr_get_cluster_id job_ptr.job_id = (fed_mgr_cluster_rec fed).fed_id)
    (hP1 : 1 ≤ (fed_mgr_cluster_rec fed).fed_id)
    (hviable : _get_viable_sibs env fed job_ptr.clusters
      (_validate_cluster_features env (some fed) det.cluster_features).2 = Viable)
    (hreq : no_requeue_hold env) (hcopy : copy_keeps_sibling_bitmaps env)
    (hpack : env.pack_msg (revoke_req_msg env job_ptr.job_id 0 now) = true)
    (h64 : fd.siblings_active < 2 ^ 64) :
    ∃ r A J submits,
      _add_remove_sibling_jobs env fed fed_job_list job_ptr now = some r ∧
      r.job_ptr.fed_details
        = some { fd with siblings_viable := Viable, siblings_active := A } ∧
      _find_fed_job_info r.fed_job_list job_ptr.job_id
        = some { ji with siblings_viable := Viable, siblings_active := A } ∧
      r.queued =
        (revoke_targets_spec fed (fed_mgr_cluster_rec fed).fed_id
            (fed_mgr_cluster_rec fed).fed_id (not64 Viable &&& fd.siblings_active)).map
          (revoke_rpc_spec env job_ptr.job_id 0 now) ++ submits ∧
      (_add_remove_rem_sibs env fed
          { job_ptr with fed_details := some { fd with siblings_viable := Viable } }
          (fed_mgr_get_cluster_id job_ptr.job_id) (not64 Viable &&& fd.siblings_active)
          now).map (fun x => x.1) = some J ∧
      J.job_id = job_ptr.job_id ∧
      J.fed_details = some { fd with
        siblings_viable := Viable,
        siblings_active :=
          fd.siblings_active &&& not64 (not64 Viable &&& fd.siblings_active) } ∧
      (∀ q ∈ submits, job_ptr.priority ≠ 0 ∧
        ∃ d, env.copy_job_record_to_job_desc J = some d ∧
          ∃ p ∈ fed.cluster_list.enum, p.1 ≠ fed.local_idx ∧
            (Viable &&& not64 fd.siblings_active) &&& FED_SIBLING_BIT p.2.fed_id ≠ 0 ∧
            env.pack_msg
              (submit_req_msg env d
                { msg_type := env.REQUEST_RESOURCE_ALLOCATION,
                  protocol_version := env.SLURM_PROTOCOL_VERSION, body_offset := 0,
                  buffer := some d } false) = true ∧
            q = { cluster := p.2,
                  agent_rec :=
                    { buffer := submit_req_msg env d
                        { msg_type := env.REQUEST_RESOURCE_ALLOCATION,
                          protocol_version := env.SLURM_PROTOCOL_VERSION, body_offset := 0,
                          buffer := some d } false,
                      job_id := 0, last_try := 0, last_defer := 0,
                      msg_type := env.REQUEST_SIB_MSG } }) ∧
      (job_ptr.priority = 0 → submits = []) ∧
      (∀ k, A.testBit k = true ↔
        ((fd.siblings_active &&& not64 (not64 Viable &&& fd.siblings_active)).testBit k
            = true ∨
          ((Viable &&& not64 fd.siblings_active).testBit k = true ∧
            ((job_ptr.priority ≠ 0 ∧ (∃ d, env.copy_job_record_to_job_desc J = some d) ∧
                (FED_SIBLING_BIT (fed_mgr_cluster_rec fed).fed_id).testBit k = true) ∨
              ∃ q ∈ submits, (FED_SIBLING_BIT q.cluster.fed_id).testBit k = true)))) ∧
      (∀ k, A.testBit k = true ↔
        ((fd.siblings_active &&& not64 (not64 Viable &&& fd.siblings_active)).testBit k
            = true ∨
          ((Viable &&& not64 fd.siblings_active).testBit k = true ∧
            job_ptr.priority ≠ 0 ∧
            ∃ d, env.copy_job_record_to_job_desc J = some d ∧
              ((FED_SIBLING_BIT (fed_mgr_cluster_rec fed).fed_id).testBit k = true ∨
                ∃ p ∈ fed.cluster_list.enum, p.1 ≠ fed.local_idx ∧
                  (_queue_rpc env p.2
                    (submit_req_msg env d
                      { msg_type := env.REQUEST_RESOURCE_ALLOCATION,
                        protocol_version := env.SLURM_PROTOCOL_VERSION, body_offset := 0,
                        buffer := some d } false) 0).1 = SLURM_SUCCESS ∧
                  (FED_SIBLING_BIT p.2.fed_id).testBit k = true)))) ∧
      (fed.cluster_list.Pairwise (fun a b => a.fed_id ≠ b.fed_id) →
        (∀ c ∈ fed.cluster_list, 1 ≤ c.fed_id ∧ c.fed_id ≤ MAX_FED_CLUSTERS) →
        ∀ d, job_ptr.priority ≠ 0 → env.copy_job_record_to_job_desc J = some d →
          submits
            = if env.pack_msg
                  (submit_req_msg env d
                    { msg_type := env.REQUEST_RESOURCE_ALLOCATION,
                      protocol_version := env.SLURM_PROTOCOL_VERSION, body_offset := 0,
                      buffer := some d } false) = true then
                (fed.cluster_list.enum.filter (fun p =>
                    decide (p.1 ≠ fed.local_idx) &&
                      decide ((Viable &&& not64 fd.siblings_active)
                        &&& FED_SIBLING_BIT p.2.fed_id ≠ 0))).map
                  (fun p =>
                    { cluster := p.2,
                      agent_rec :=
                        { buffer := submit_req_msg env d
                            { msg_type := env.REQUEST_RESOURCE_ALLOCATION,
                              protocol_version := env.SLURM_PROTOCOL_VERSION,
                              body_offset := 0, buffer := some d } false,
                          job_id := 0, last_try := 0, last_defer := 0,
                          msg_type := env.REQUEST_SIB_MSG } })
              else []) := by
  unfold _add_remove_sibling_jobs
  split
  case h_2 hno => exact absurd hdet (hno fd det hfd)
  rename_i fd' det' h1 h2
  rw [hfd] at h1
  rw [hdet] at h2
  cases h1
  cases h2
  simp only [hviable]
  -- the revoke step
  obtain ⟨J, hA, hJid, hJprio, hJfd⟩ := add_remove_rem_sibs_exact env fed
    { job_ptr with fed_details := some { fd with siblings_viable := Viable } }
    (fed_mgr_get_cluster_id job_ptr.job_id) (not64 Viable &&& fd.siblings_active) now
    { fd with siblings_viable := Viable } rfl hreq
  have hJid' : J.job_id = job_ptr.job_id := hJid
  have hJprio' : J.priority = job_ptr.priority := hJprio
  have hactive : (if not64 Viable &&& fd.siblings_active ≠ 0 then
        fd.siblings_active &&& not64 (not64 Viable &&& fd.siblings_active)
      else fd.siblings_active)
      = fd.siblings_active &&& not64 (not64 Viable &&& fd.siblings_active) := by
    by_cases hrem : not64 Viable &&& fd.siblings_active ≠ 0
    · rw [if_pos hrem]
    · rw [if_neg hrem, not_not.mp hrem, and_not64_zero _ h64]
  have hJfd' : J.fed_details = some { fd with
      siblings_viable := Viable,
      siblings_active :=
        fd.siblings_active &&& not64 (not64 Viable &&& fd.siblings_active) } := by
    rw [hJfd]
    show some ({ cluster_lock := fd.cluster_lock, siblings_active := _,
                 siblings_viable := Viable } : job_fed_details_t) = _
    rw [hactive]
  have hrevokes : (if not64 Viable &&& fd.siblings_active ≠ 0 then
        _revoke_sibling_jobs env (some fed) job_ptr.job_id (fed_mgr_cluster_rec fed).fed_id
          (not64 Viable &&& fd.siblings_active) now
      else [])
      = (revoke_targets_spec fed (fed_mgr_cluster_rec fed).fed_id
            (fed_mgr_cluster_rec fed).fed_id (not64 Viable &&& fd.siblings_active)).map
          (revoke_rpc_spec env job_ptr.job_id 0 now) := by
    by_cases hrem : not64 Viable &&& fd.siblings_active ≠ 0
    · rw [if_pos hrem, revoke_sibling_jobs_eq_spec env fed _ _ _ _ hpack]
    · rw [if_neg hrem, not_not.mp hrem, revoke_targets_spec_zero]
      rfl
  rw [hA]
  simp only
  rw [hrevokes]
  -- the submission step
  have hfj : _is_fed_job (some fed) J = some (fed_mgr_cluster_rec fed).fed_id :=
    is_fed_job_of_origin fed J _ _ hJfd' (by rw [hJid']; exact horigin) hP1
  obtain ⟨A, Q, hB, hAbits, hQ⟩ := add_remove_add_sibs_exact env fed J
    (Viable &&& not64 fd.siblings_active) _ _ hJfd' hfj hcopy
  obtain ⟨A', Q', hB', hAbits', hQnil, hQeq⟩ := add_remove_add_sibs_records env fed J
    (Viable &&& not64 fd.siblings_active) _ _ hJfd' hfj hcopy
  have hsame := Option.some.inj (hB.symm.trans hB')
  have hQQ : Q = Q' := congrArg Prod.snd hsame
  have hAA : A = A' := by
    have := congrArg (fun x : job_record × List queued_rpc =>
      x.1.fed_details.map (fun f => f.siblings_active)) hsame
    simpa using this
  subst hQQ
  subst hAA
  rw [hB]
  simp only
  obtain ⟨u1, u2⟩ := add_remove_unrevoke_spec env fed
    { J with fed_details := some { cluster_lock := fd.cluster_lock, siblings_active := A,
                                   siblings_viable := Viable } }
    (fed_mgr_get_cluster_id job_ptr.job_id) (Viable &&& not64 fd.siblings_active)
  have hUid := u1.trans hJid'
  have hupd : _update_fed_job_info_sibs fed_job_list
      (_add_remove_unrevoke env fed
        { J with fed_details := some { cluster_lock := fd.cluster_lock, siblings_active := A,
                                       siblings_viable := Viable } }
        (fed_mgr_get_cluster_id job_ptr.job_id) (Viable &&& not64 fd.siblings_active))
      = some (_set_fed_job_info fed_job_list job_ptr.job_id
          { ji with siblings_viable := Viable, siblings_active := A }) := by
    unfold _update_fed_job_info_sibs
    rw [hUid, u2, hfind]
  rw [hupd]
  refine ⟨_, A, J, Q, rfl, u2, ?_, rfl, ?_, hJid', hJfd', ?_, ?_, ?_, ?_, ?_⟩
  · exact find_set_fed_job_info fed_job_list job_ptr.job_id ji _ hfind
      (find_fed_job_info_job_id fed_job_list job_ptr.job_id ji hfind)
  · rfl
  · intro q hq
    have hne : Q ≠ [] := List.ne_nil_of_mem hq
    have hprio : J.priority ≠ 0 := fun h => hne (hQnil (Or.inl h))
    have hadd : Viable &&& not64 fd.siblings_active ≠ 0 :=
      fun h => hne (hQnil (Or.inr (Or.inl h)))
    cases hcp : env.copy_job_record_to_job_desc J with
    | none => exact absurd (hQnil (Or.inr (Or.inr hcp))) hne
    | some d =>
      obtain ⟨hQd, hda⟩ := hQeq d hprio hadd hcp
      rw [hQd] at hq
      obtain ⟨p, hp, c3, c4, c5, c6, c7⟩ := (submit_sibling_jobs_records env fed d
        { msg_type := env.REQUEST_RESOURCE_ALLOCATION,
          protocol_version := env.SLURM_PROTOCOL_VERSION, body_offset := 0,
          buffer := some d } false Viable).1 q hq
      rw [hda] at c5
      refine ⟨by rw [← hJprio']; exact hprio, d, rfl, p, hp, c3, ?_, c6, c7⟩
      obtain ⟨k, hk⟩ := Nat.ne_zero_implies_bit_true c4
      rw [Nat.testBit_and, Bool.and_eq_true] at hk
      have hk64 := sibling_bit_testBit_lt _ k hk.2
      have c5' : (fd.siblings_active &&& not64 (not64 Viable &&& fd.siblings_active))
          &&& FED_SIBLING_BIT p.2.fed_id = 0 := c5
      have hv : Viable.testBit k = true := hk.1
      have hz : ((fd.siblings_active &&& not64 (not64 Viable &&& fd.siblings_active))
          &&& FED_SIBLING_BIT p.2.fed_id).testBit k = false := by
        rw [c5']; simp
      rw [Nat.testBit_and, testBit_and_not_rem, hk.2, hv] at hz
      have hna : fd.siblings_active.testBit k = false := by
        cases ho : fd.siblings_active.testBit k with
        | false => rfl
        | true => rw [ho] at hz; simp [hk64] at hz
      refine and_ne_zero_of_testBit _ _ k ?_ hk.2
      rw [testBit_add_sibs, hv, hna]
      simp [hk64]
  · intro h0
    exact hQnil (Or.inl (by rw [hJprio']; exact h0))
  · intro k
    rw [hAbits' k]
    have key : ∀ b : Nat, Viable &&& b ≠ 0 → b.testBit k = true →
        (∃ x, b = FED_SIBLING_BIT x) →
        (fd.siblings_active &&& not64 (not64 Viable &&& fd.siblings_active)).testBit k
          = true ∨ (Viable &&& not64 fd.siblings_active).testBit k = true := by
      rintro b hb hbk ⟨x, rfl⟩
      have hv := sibling_bit_subset_of_and_ne_zero Viable x k hb hbk
      have hk64 := sibling_bit_testBit_lt x k hbk
      rw [testBit_and_not_rem, testBit_add_sibs, hv]
      cases fd.siblings_active.testBit k <;> simp [hk64]
    constructor
    · rintro (h | ⟨c1, _, c3, hl, hb⟩ | ⟨q, hq, hb⟩)
      · exact Or.inl h
      · rcases key _ hl hb ⟨_, rfl⟩ with h | h
        · exact Or.inl h
        · exact Or.inr ⟨h, Or.inl ⟨by rw [← hJprio']; exact c1, c3, hb⟩⟩
      · have hne : Q ≠ [] := List.ne_nil_of_mem hq
        have hprio : J.priority ≠ 0 := fun h => hne (hQnil (Or.inl h))
        have hadd : Viable &&& not64 fd.siblings_active ≠ 0 :=
          fun h => hne (hQnil (Or.inr (Or.inl h)))
        cases hcp : env.copy_job_record_to_job_desc J with
        | none => exact absurd (hQnil (Or.inr (Or.inr hcp))) hne
        | some d =>
          obtain ⟨hQd, _⟩ := hQeq d hprio hadd hcp
          have hq' := hq
          rw [hQd] at hq'
          obtain ⟨p, _, _, c4, _, _, c7⟩ := (submit_sibling_jobs_records env fed d
            { msg_type := env.REQUEST_RESOURCE_ALLOCATION,
              protocol_version := env.SLURM_PROTOCOL_VERSION, body_offset := 0,
              buffer := some d } false Viable).1 q hq'
          have hqc : q.cluster = p.2 := by rw [c7]
          rw [hqc] at hb
          rcases key _ c4 hb ⟨_, rfl⟩ with h | h
          · exact Or.inl h
          · exact Or.inr ⟨h, Or.inr ⟨q, hq, by rw [hqc]; exact hb⟩⟩
    · rintro (h | ⟨hadd, ⟨c1, c3, hb⟩ | h⟩)
      · exact Or.inl h
      · have hadd' := hadd
        rw [testBit_add_sibs, Bool.and_eq_true, Bool.and_eq_true] at hadd'
        have hv : Viable.testBit k = true := hadd'.1.1
        have hne : Viable &&& not64 fd.siblings_active ≠ 0 := by
          intro hz
          rw [hz] at hadd
          simp at hadd
        exact Or.inr (Or.inl ⟨by rw [hJprio']; exact c1, hne, c3,
          and_ne_zero_of_testBit _ _ k hv hb, hb⟩)
      · exact Or.inr (Or.inr h)
  · intro k
    rw [hAbits k]
    constructor
    · rintro (h | ⟨c1, _, d, hd, h⟩)
      · exact Or.inl h
      · have key : ∀ b : Nat, Viable &&& b ≠ 0 → b.testBit k = true →
            (∃ x, b = FED_SIBLING_BIT x) →
            (fd.siblings_active &&& not64 (not64 Viable &&& fd.siblings_active)).testBit k
              = true ∨ (Viable &&& not64 fd.siblings_active).testBit k = true := by
          rintro b hb hbk ⟨x, rfl⟩
          have hv := sibling_bit_subset_of_and_ne_zero Viable x k hb hbk
          have hk64 := sibling_bit_testBit_lt x k hbk
          rw [testBit_and_not_rem, testBit_add_sibs, hv]
          cases fd.siblings_active.testBit k <;> simp [hk64]
        rcases h with ⟨hl, hb⟩ | ⟨p, hp, c3, c4, c5, c6⟩
        · rcases key _ hl hb ⟨_, rfl⟩ with h | h
          · exact Or.inl h
          · exact Or.inr ⟨h, by rw [← hJprio']; exact c1, d, hd, Or.inl hb⟩
        · rcases key _ c4 c6 ⟨_, rfl⟩ with h | h
          · exact Or.inl h
          · exact Or.inr ⟨h, by rw [← hJprio']; exact c1, d, hd, Or.inr ⟨p, hp, c3, c5, c6⟩⟩
    · rintro (h | ⟨hadd, c1, d, hd, h⟩)
      · exact Or.inl h
      · have hadd' := hadd
        rw [testBit_add_sibs, Bool.and_eq_true, Bool.and_eq_true] at hadd'
        have hv : Viable.testBit k = true := hadd'.1.1
        have hne : Viable &&& not64 fd.siblings_active ≠ 0 := by
          intro hz
          rw [hz] at hadd
          simp at hadd
        refine Or.inr ⟨by rw [hJprio']; exact c1, hne, d, hd, ?_⟩
        rcases h with hb | ⟨p, hp, c3, c5, c6⟩
        · exact Or.inl ⟨and_ne_zero_of_testBit _ _ k hv hb, hb⟩
        · exact Or.inr ⟨p, hp, c3, and_ne_zero_of_testBit _ _ k hv c6, c5, c6⟩

  · intro huniq hids d hprio hcp
    have hpw := fed_sibling_bits_pairwise fed huniq hids
    have hJp : J.priority ≠ 0 := by rw [hJprio']; exact hprio
    by_cases hadd : Viable &&& not64 fd.siblings_active = 0
    · rw [hQnil (Or.inr (Or.inl hadd)), hadd]
      simp
    · obtain ⟨hQd, hda⟩ := hQeq d hJp hadd hcp
      rw [hQd, submit_sibling_jobs_queue_skip env fed d _ false Viable hpw]
      congr 2
      apply List.filter_congr
      rintro ⟨i, c⟩ hp
      obtain ⟨_, hc⟩ := List.mem_enum hp
      have hcm : c ∈ fed.cluster_list := by rw [hc]; exact List.getElem_mem _
      have hr := hids c hcm
      have hda' : d.fed_siblings_active
          = fd.siblings_active &&& not64 (not64 Viable &&& fd.siblings_active) := hda
      have := add_sibs_bit_iff Viable fd.siblings_active c.fed_id hr.1
        (by unfold MAX_FED_CLUSTERS at hr; omega)
      simp only [hda', this, Bool.decide_and]

/-- Witness for C17: job 67108869 is active on c1 and c2 and its clusters become
"c1,c3"; one REVOKE goes to c2, one SUBMIT goes to c3, and `siblings_active` is
5 (c1 and c3).  The example of the claim is the first part: the job is active on
c1, c2 and c3 and its clusters become "c1,c3"; one REVOKE goes to c2, nothing is
submitted, and `siblings_active` is 5. -/
theorem add_remove_sibling_jobs_delta_witness :
    (_add_remove_sibling_jobs example_env (example_fed 0) [example_job_info 0 7 7]
        { example_job 0 7 7 with clusters := some "c1,c3" } 1100).map
        (fun r => (r.job_ptr.fed_details, r.fed_job_list, r.queued))
      = some (some { cluster_lock := 0, siblings_active := 5, siblings_viable := 5 },
          [example_job_info 0 5 5],
          [revoke_rpc_spec example_env 67108869 0 1100
            { name := "c2", fed_id := 2, fed_state := 1, feature_list := none }]) ∧
    (_add_remove_sibling_jobs example_env (example_fed 0) [example_job_info 0 3 3]
        { example_job 0 3 3 with clusters := some "c1,c3" } 1100).map
        (fun r => (r.job_ptr.fed_details, r.fed_job_list,
          r.queued.map (fun q => (q.cluster.name, q.agent_rec.buffer.data.sib_msg_type))))
      = some (some { cluster_lock := 0, siblings_active := 5, siblings_viable := 5 },
          [example_job_info 0 5 5],
          [("c2", FED_JOB_COMPLETE), ("c3", FED_JOB_SUBMIT_BATCH)]) ∧
    ∃ r A J submits,
      _add_remove_sibling_jobs example_env (example_fed 0) [example_job_info 0 3 3]
        { example_job 0 3 3 with clusters := some "c1,c3" } 1100 = some r ∧
      r.job_ptr.fed_details
        = some { cluster_lock := 0, siblings_active := A, siblings_viable := 5 } ∧
      _find_fed_job_info r.fed_job_list 67108869
        = some { example_job_info 0 3 3 with siblings_viable := 5, siblings_active := A } ∧
      r.queued =
        (revoke_targets_spec (example_fed 0) 1 1 (not64 5 &&& 3)).map
          (revoke_rpc_spec example_env 67108869 0 1100) ++ submits ∧
      (∀ d, example_env.copy_job_record_to_job_desc J = some d →
        submits
          = if example_env.pack_msg
                (submit_req_msg example_env d
                  { msg_type := example_env.REQUEST_RESOURCE_ALLOCATION,
                    protocol_version := example_env.SLURM_PROTOCOL_VERSION, body_offset := 0,
                    buffer := some d } false) = true then
              ((example_fed 0).cluster_list.enum.filter (fun p =>
                  decide (p.1 ≠ (example_fed 0).local_idx) &&
                    decide ((5 &&& not64 3) &&& FED_SIBLING_BIT p.2.fed_id ≠ 0))).map
                (fun p =>
                  { cluster := p.2,
                    agent_rec :=
                      { buffer := submit_req_msg example_env d
                          { msg_type := example_env.REQUEST_RESOURCE_ALLOCATION,
                            protocol_version := example_env.SLURM_PROTOCOL_VERSION,
                            body_offset := 0, buffer := some d } false,
                        job_id := 0, last_try := 0, last_defer := 0,
                        msg_type := example_env.REQUEST_SIB_MSG } })
            else []) :=
  ⟨by decide, by decide,
    match add_remove_sibling_jobs_delta example_env (example_fed 0) [example_job_info 0 3 3]
        { example_job 0 3 3 with clusters := some "c1,c3" } 1100 ⟨0, 3, 3⟩
        { submit_time := 10, cluster_features := none } (example_job_info 0 3 3) 5
        rfl rfl (by decide) (by decide) (by decide) (by decide) (fun _ => rfl)
        example_env_copy_keeps_sibling_bitmaps rfl (by decide) with
    | ⟨r, A, J, submits, h1, h2, h3, h4, _, _, _, _, _, _, _, h12⟩ =>
      ⟨r, A, J, submits, h1, h2, h3, h4,
        fun d hd => h12 (by decide) (by decide) d (by decide) hd⟩⟩

/-! ## C18, C19, C20: reconciliation with a peer's job list -/

/-- For a job that `_reconcile_fed_job` looks at, the function is its chain of
actions followed by the update of the `fed_job_info_t`. -/
theorem reconcile_fed_job_looked_at (env : Env) (fed : Fed)
    (fed_job_list : List fed_job_info_t) (job_ptr : job_record) (rec_sib : reconcile_sib_t)
    (fd : job_fed_details_t) (hfd : job_ptr.fed_details = some fd)
    (hlook : reconcile_looks_at env fed job_ptr rec_sib) :
    _reconcile_fed_job env fed fed_job_list job_ptr rec_sib
      = (match _reconcile_fed_job_actions env fed job_ptr fd rec_sib with
         | none => none
         | some p =>
           match _update_fed_job_info_sibs fed_job_list p.1 with
           | none => none
           | some l => some ⟨SLURM_SUCCESS, p.1, l, p.2⟩) := by
  obtain ⟨fd', det, h1, h2, h3, h4, h5, h6⟩ := hlook
  rw [hfd] at h1
  cases h1
  unfold _reconcile_fed_job
  simp only [hfd, h2]
  have hcond : ¬ (det.submit_time ≥ rec_sib.sync_time ∨
      env.IS_JOB_COMPLETED job_ptr.job_state = true ∨
      env.IS_JOB_COMPLETING job_ptr.job_state = true ∨
      (fed_mgr_get_cluster_id job_ptr.job_id ≠ rec_sib.sibling_id ∧
        (fed_mgr_is_origin_job (some fed) job_ptr = false ∨
          fd.siblings_viable &&& FED_SIBLING_BIT rec_sib.sibling_id = 0))) := by
    rintro (h | h | h | ⟨ha, hb⟩)
    · omega
    · rw [h4] at h; cases h
    · rw [h5] at h; cases h
    · rcases h6 with h6 | ⟨h6, h7⟩
      · exact ha h6
      · rcases hb with hb | hb
        · rw [h6] at hb; cases hb
        · exact h7 hb
  rw [if_neg hcond]

theorem set_fed_job_info_same (l : List fed_job_info_t) (job_id : Nat) (ji : fed_job_info_t)
    (h : _find_fed_job_info l job_id = some ji) : _set_fed_job_info l job_id ji = l := by
  obtain ⟨pre, post, h1, _, h2⟩ := set_fed_job_info_split l job_id ji ji h
  rw [h2, ← h1]

theorem and_not64_of_disjoint (a b : Nat) (h : a &&& b = 0) (h64 : a < 2 ^ 64) :
    a &&& not64 b = a := by
  apply Nat.eq_of_testBit_eq
  intro k
  rw [Nat.testBit_and, testBit_not64]
  have hk := congrArg (fun n => n.testBit k) h
  simp only [Nat.testBit_and, Nat.zero_testBit] at hk
  cases ha : a.testBit k with
  | false => rfl
  | true =>
    rw [ha] at hk
    have hb : b.testBit k = false := by simpa using hk
    have hk64 : k < 64 := by
      by_contra hge
      rw [testBit_ge_of_lt_two_pow a 64 k h64 (by omega)] at ha
      cases ha
    simp [hb, hk64]

/-- C18 (counterexample): (a) cluster 3 has been granted the lock of the freshly
submitted job 67108869 (`cluster_lock` 3 in its `fed_job_info_t`, START not yet
handled); reconciling with the job list of c2, which lacks the job, queues a
SUBMIT for c2.  (b) With the lock of cluster 3 recorded in the job record too
and c2 still active (`siblings_active` 7), the same reconciliation queues
nothing but clears the bit of c2: `siblings_active` is 5 afterwards in the job
record and in the `fed_job_info_t`. -/
theorem reconcile_third_peer_lock_changes_state :
    (run_events example_env (example_fed 0) 67108869 [.lock_set 1000 3]
        example_submitted_state).map (fun s => (s.fed_job_list, s.send_rpc))
      = some ([example_job_info 3 7 7], []) ∧
    (run_events example_env (example_fed 0) 67108869 [.lock_set 1000 3, .sync "c2" [] 2000]
        example_submitted_state).map
        (fun s => s.send_rpc.map
          (fun q => (q.cluster.name, q.agent_rec.buffer.data.sib_msg_type)))
      = some [("c2", FED_JOB_SUBMIT_BATCH)] ∧
    reconcile_looks_at example_env (example_fed 0) (example_job 3 7 7) ⟨[], 2, "c2", 2000⟩ ∧
    (_reconcile_fed_job example_env (example_fed 0) [example_job_info 3 7 7]
        (example_job 3 7 7) ⟨[], 2, "c2", 2000⟩).map
        (fun r => (r.job_ptr, r.fed_job_list, r.queued))
      = some (example_job 3 5 7, [example_job_info 3 5 7], []) :=
  ⟨by decide, by decide,
    ⟨_, _, rfl, rfl, by decide, by decide, by decide, Or.inr ⟨by decide, by decide⟩⟩,
    by decide⟩

/-- C18 (amended): when `_reconcile_fed_job` looks at a job that does not
originate on the sender, is absent from the sender's job list and whose job
record names a third peer as `cluster_lock` (non-zero and not the sender), it
queues nothing and changes nothing but `siblings_active`, from which it removes
the sender's bit, in the job record and in the `fed_job_info_t`; when the
sender's bit was not active (as after a start, which leaves the lock holder the
only active sibling) and the `fed_job_info_t` mirrors the job record, the step
is a no-op. -/
theorem reconcile_third_peer_lock (env : Env) (fed : Fed)
    (fed_job_list : List fed_job_info_t) (job_ptr : job_record) (rec_sib : reconcile_sib_t)
    (fd : job_fed_details_t) (ji : fed_job_info_t)
    (hfd : job_ptr.fed_details = some fd)
    (hlook : reconcile_looks_at env fed job_ptr rec_sib)
    (hsender : fed_mgr_get_cluster_id job_ptr.job_id ≠ rec_sib.sibling_id)
    (habsent : rec_sib.job_info_msg.find? (fun r => r.job_id == job_ptr.job_id) = none)
    (hlock0 : fd.cluster_lock ≠ 0) (hlock : fd.cluster_lock ≠ rec_sib.sibling_id)
    (hfind : _find_fed_job_info fed_job_list job_ptr.job_id = some ji) :
    _reconcile_fed_job env fed fed_job_list job_ptr rec_sib
      = some ⟨SLURM_SUCCESS,
          { job_ptr with fed_details := some { fd with
              siblings_active :=
                fd.siblings_active &&& not64 (FED_SIBLING_BIT rec_sib.sibling_id) } },
          _set_fed_job_info fed_job_list job_ptr.job_id
            { ji with
              siblings_viable := fd.siblings_viable,
              siblings_active :=
                fd.siblings_active &&& not64 (FED_SIBLING_BIT rec_sib.sibling_id) },
          []⟩ ∧
    (fd.siblings_active &&& FED_SIBLING_BIT rec_sib.sibling_id = 0 →
      fd.siblings_active < 2 ^ 64 →
      ji.siblings_active = fd.siblings_active → ji.siblings_viable = fd.siblings_viable →
      _reconcile_fed_job env fed fed_job_list job_ptr rec_sib
        = some ⟨SLURM_SUCCESS, job_ptr, fed_job_list, []⟩) := by
  have hact : _reconcile_fed_job_actions env fed job_ptr fd rec_sib
      = some ({ job_ptr with fed_details := some { fd with
          siblings_active :=
            fd.siblings_active &&& not64 (FED_SIBLING_BIT rec_sib.sibling_id) } }, []) := by
    unfold _reconcile_fed_job_actions
    simp only [if_neg hsender, habsent, if_neg hlock0, if_neg hlock]
  have hres : _reconcile_fed_job env fed fed_job_list job_ptr rec_sib
      = some ⟨SLURM_SUCCESS,
          { job_ptr with fed_details := some { fd with
              siblings_active :=
                fd.siblings_active &&& not64 (FED_SIBLING_BIT rec_sib.sibling_id) } },
          _set_fed_job_info fed_job_list job_ptr.job_id
            { ji with
              siblings_viable := fd.siblings_viable,
              siblings_active :=
                fd.siblings_active &&& not64 (FED_SIBLING_BIT rec_sib.sibling_id) },
          []⟩ := by
    rw [reconcile_fed_job_looked_at env fed fed_job_list job_ptr rec_sib fd hfd hlook, hact]
    simp only [_update_fed_job_info_sibs, hfind]
  refine ⟨hres, ?_⟩
  intro hbit h64 hsa hsv
  rw [hres, and_not64_of_disjoint _ _ hbit h64,
    fed_job_info_eta_active ji fd.siblings_active fd.siblings_viable hsa hsv,
    set_fed_job_info_same fed_job_list job_ptr.job_id ji hfind,
    ← job_record_fed_details_eta job_ptr fd hfd]

/-- Witness for C18: job 67108869 was started by cluster 2; the job list of c3
lacks it. -/
theorem reconcile_third_peer_lock_witness :
    reconcile_looks_at example_env (example_fed 0) example_started_job
      ⟨[], 3, "c3", 2000⟩ ∧
    _reconcile_fed_job example_env (example_fed 0) [example_job_info 2 2 7]
        example_started_job ⟨[], 3, "c3", 2000⟩
      = some ⟨SLURM_SUCCESS, example_started_job, [example_job_info 2 2 7], []⟩ :=
  ⟨⟨_, _, rfl, rfl, by decide, by decide, by decide, Or.inr ⟨by decide, by decide⟩⟩,
    (reconcile_third_peer_lock example_env (example_fed 0) [example_job_info 2 2 7]
      example_started_job ⟨[], 3, "c3", 2000⟩ ⟨2, 2, 7⟩ (example_job_info 2 2 7) rfl
      ⟨_, _, rfl, rfl, by decide, by decide, by decide, Or.inr ⟨by decide, by decide⟩⟩
      (by decide) (by decide) (by decide) (by decide) (by decide)).2
      (by decide) (by decide) rfl rfl⟩

/-- What `fed_mgr_job_revoke` with `job_complete` true leaves of a federated job
that is not completed, the requeue table not matching (`JOB_CANCELLED` a 32-bit
value sharing no bit with `JOB_REVOKED`). -/
theorem fed_mgr_job_revoke_complete_result (env : Env) (fed : Fed) (job_ptr : job_record)
    (exit_code : Nat) (start_time : Int) (origin_id : Nat)
    (hfed : _is_fed_job (some fed) job_ptr = some origin_id)
    (hnc : env.IS_JOB_COMPLETED job_ptr.job_state = false)
    (hreq : env.job_hold_requeue { job_ptr with exit_code := exit_code } = false)
    (hdisj : env.JOB_REVOKED &&& env.JOB_CANCELLED = 0)
    (h32 : env.JOB_CANCELLED < 2 ^ 32) :
    (fed_mgr_job_revoke env (some fed) job_ptr true exit_code start_time).1
      = { job_ptr with
          exit_code := exit_code, job_state := env.JOB_CANCELLED,
          start_time := start_time, end_time := start_time,
          state_reason := env.WAIT_NO_REASON, state_desc := none } := by
  unfold fed_mgr_job_revoke
  simp only [hnc, hfed, hreq]
  simp [or_and_not32_cancel _ _ hdisj h32]

/-- When `_reconcile_fed_job` looks at a locally originated job that is absent
from the sender's job list while the `cluster_lock` of its job record is the
sender's id, it removes the sender's bit from `siblings_active` and calls
`fed_mgr_job_revoke` as complete with the literal exit code 0: the job ends
`JOB_CANCELLED`, with `end_time` its `start_time`, and nothing is queued. -/
theorem reconcile_lost_job_revoked (env : Env) (fed : Fed)
    (fed_job_list : List fed_job_info_t) (job_ptr : job_record) (rec_sib : reconcile_sib_t)
    (fd : job_fed_details_t) (ji : fed_job_info_t)
    (hfd : job_ptr.fed_details = some fd)
    (hlook : reconcile_looks_at env fed job_ptr rec_sib)
    (horigin : fed_mgr_get_cluster_id job_ptr.job_id = (fed_mgr_cluster_rec fed).fed_id)
    (hP1 : 1 ≤ (fed_mgr_cluster_rec fed).fed_id)
    (hsender : rec_sib.sibling_id ≠ (fed_mgr_cluster_rec fed).fed_id)
    (habsent : rec_sib.job_info_msg.find? (fun r => r.job_id == job_ptr.job_id) = none)
    (hlock0 : fd.cluster_lock ≠ 0) (hlock : fd.cluster_lock = rec_sib.sibling_id)
    (hfind : _find_fed_job_info fed_job_list job_ptr.job_id = some ji)
    (hreq : no_requeue_hold env)
    (hdisj : env.JOB_REVOKED &&& env.JOB_CANCELLED = 0)
    (h32 : env.JOB_CANCELLED < 2 ^ 32) :
    _reconcile_fed_job env fed fed_job_list job_ptr rec_sib
      = some ⟨SLURM_SUCCESS,
          { job_ptr with
            fed_details := some { fd with
              siblings_active :=
                fd.siblings_active &&& not64 (FED_SIBLING_BIT rec_sib.sibling_id) },
            exit_code := 0, job_state := env.JOB_CANCELLED,
            start_time := job_ptr.start_time, end_time := job_ptr.start_time,
            state_reason := env.WAIT_NO_REASON, state_desc := none },
          _set_fed_job_info fed_job_list job_ptr.job_id
            { ji with
              siblings_viable := fd.siblings_viable,
              siblings_active :=
                fd.siblings_active &&& not64 (FED_SIBLING_BIT rec_sib.sibling_id) },
          []⟩ := by
  have hne : fed_mgr_get_cluster_id job_ptr.job_id ≠ rec_sib.sibling_id := by
    rw [horigin]; exact fun h => hsender h.symm
  obtain ⟨fd', det, l1, l2, l3, l4, l5, l6⟩ := id hlook
  have hfj : _is_fed_job (some fed)
      { job_ptr with fed_details := some { fd with
          siblings_active :=
            fd.siblings_active &&& not64 (FED_SIBLING_BIT rec_sib.sibling_id) } }
      = some (fed_mgr_cluster_rec fed).fed_id :=
    is_fed_job_of_origin fed _ _ _ rfl horigin hP1
  have hrev := fed_mgr_job_revoke_complete_result env fed
    { job_ptr with fed_details := some { fd with
        siblings_active :=
          fd.siblings_active &&& not64 (FED_SIBLING_BIT rec_sib.sibling_id) } }
    0 job_ptr.start_time _ hfj l4 (hreq _) hdisj h32
  have hact : _reconcile_fed_job_actions env fed job_ptr fd rec_sib
      = some ({ job_ptr with
            fed_details := some { fd with
              siblings_active :=
                fd.siblings_active &&& not64 (FED_SIBLING_BIT rec_sib.sibling_id) },
            exit_code := 0, job_state := env.JOB_CANCELLED,
            start_time := job_ptr.start_time, end_time := job_ptr.start_time,
            state_reason := env.WAIT_NO_REASON, state_desc := none }, []) := by
    unfold _reconcile_fed_job_actions
    simp only [if_neg hne, habsent, if_neg hlock0, if_pos hlock]
    rw [hrev]
  rw [reconcile_fed_job_looked_at env fed fed_job_list job_ptr rec_sib fd hfd hlook, hact]
  simp only [_update_fed_job_info_sibs, hfind]

/-! ## The exit code of a job started on a peer -/

/-- What `fed_mgr_job_revoke` does to the exit code of a federated job, the
requeue table not matching: a completed job is left as it is, any other job gets
the exit code passed in. -/
theorem fed_mgr_job_revoke_exit_code (env : Env) (fed : Fed) (job_ptr : job_record)
    (job_complete : Bool) (exit_code : Nat) (start_time : Int) (origin_id : Nat)
    (hfed : _is_fed_job (some fed) job_ptr = some origin_id)
    (hreq : env.job_hold_requeue { job_ptr with exit_code := exit_code } = false) :
    (env.IS_JOB_COMPLETED job_ptr.job_state = true ∧
      (fed_mgr_job_revoke env (some fed) job_ptr job_complete exit_code start_time).1
        = job_ptr) ∨
    (env.IS_JOB_COMPLETED job_ptr.job_state = false ∧
      (fed_mgr_job_revoke env (some fed) job_ptr job_complete exit_code start_time).1.exit_code
        = exit_code) := by
  unfold fed_mgr_job_revoke
  cases hc : env.IS_JOB_COMPLETED job_ptr.job_state
  · right
    refine ⟨rfl, ?_⟩
    simp only [Bool.false_eq_true, if_false, hfed, hreq]
    cases job_complete <;> rfl
  · left
    exact ⟨rfl, by simp⟩

/-- With a lock recorded in the job record, `fed_mgr_update_job_clusters` leaves the
job record and `fed_job_list` as they are. -/
theorem update_job_clusters_locked (env : Env) (fed : Fed)
    (fed_job_list : List fed_job_info_t) (job_ptr : job_record) (spec_clusters : String)
    (now : Int) (r : job_op_result) (fd : job_fed_details_t)
    (hfd : job_ptr.fed_details = some fd) (hlock : fd.cluster_lock ≠ 0)
    (hr : fed_mgr_update_job_clusters env (some fed) fed_job_list job_ptr spec_clusters now
      = some r) :
    r.job_ptr = job_ptr ∧ r.fed_job_list = fed_job_list ∧ r.queued = [] := by
  unfold fed_mgr_update_job_clusters at hr
  split at hr
  · rename_i f o fd' e1 e2 e3
    rw [hfd] at e3
    cases e3
    rw [if_pos (Or.inr hlock)] at hr
    cases hr
    exact ⟨rfl, rfl, rfl⟩
  · cases hr
    exact ⟨rfl, rfl, rfl⟩

/-- With a lock recorded in the job record, `fed_mgr_update_job_cluster_features`
leaves the job record and `fed_job_list` as they are. -/
theorem update_job_cluster_features_locked (env : Env) (fed : Fed)
    (fed_job_list : List fed_job_info_t) (job_ptr : job_record) (req_features : String)
    (now : Int) (r : job_op_result) (fd : job_fed_details_t)
    (hfd : job_ptr.fed_details = some fd) (hlock : fd.cluster_lock ≠ 0)
    (hr : fed_mgr_update_job_cluster_features env (some fed) fed_job_list job_ptr
      req_features now = some r) :
    r.job_ptr = job_ptr ∧ r.fed_job_list = fed_job_list ∧ r.queued = [] := by
  unfold fed_mgr_update_job_cluster_features at hr
  split at hr
  · rename_i f o fd' e1 e2 e3
    rw [hfd] at e3
    cases e3
    rw [if_pos (Or.inr hlock)] at hr
    cases hr
    exact ⟨rfl, rfl, rfl⟩
  · cases hr
    exact ⟨rfl, rfl, rfl⟩

/-- What `_reconcile_fed_job` does to the exit code and the state of an origin
job whose record carries a lock, for a sender other than the origin (requeue
table not matching, `JOB_CANCELLED` a completed state): the record ends with
exit code 0, or completed, or with the exit code and the state it had. -/
theorem reconcile_fed_job_exit_code (env : Env) (fed : Fed)
    (fed_job_list : List fed_job_info_t) (job_ptr : job_record) (rec_sib : reconcile_sib_t)
    (fd : job_fed_details_t) (r : job_op_result)
    (hfd : job_ptr.fed_details = some fd)
    (horigin : fed_mgr_get_cluster_id job_ptr.job_id = (fed_mgr_cluster_rec fed).fed_id)
    (hP1 : 1 ≤ (fed_mgr_cluster_rec fed).fed_id)
    (hsender : rec_sib.sibling_id ≠ (fed_mgr_cluster_rec fed).fed_id)
    (hlock : fd.cluster_lock ≠ 0)
    (hreq : no_requeue_hold env)
    (hdisj : env.JOB_REVOKED &&& env.JOB_CANCELLED = 0)
    (h32 : env.JOB_CANCELLED < 2 ^ 32)
    (hcanc : env.IS_JOB_COMPLETED env.JOB_CANCELLED = true)
    (hr : _reconcile_fed_job env fed fed_job_list job_ptr rec_sib = some r) :
    r.job_ptr.exit_code = 0 ∨ env.IS_JOB_COMPLETED r.job_ptr.job_state = true ∨
      (r.job_ptr.exit_code = job_ptr.exit_code ∧ r.job_ptr.job_state = job_ptr.job_state) := by
  have hne : fed_mgr_get_cluster_id job_ptr.job_id ≠ rec_sib.sibling_id := by
    rw [horigin]; exact fun h => hsender h.symm
  have hact : ∀ J q, _reconcile_fed_job_actions env fed job_ptr fd rec_sib = some (J, q) →
      J.exit_code = 0 ∨ env.IS_JOB_COMPLETED J.job_state = true ∨
        (J.exit_code = job_ptr.exit_code ∧ J.job_state = job_ptr.job_state) := by
    intro J q ha
    unfold _reconcile_fed_job_actions at ha
    simp only [if_neg hne] at ha
    cases hfound : rec_sib.job_info_msg.find? (fun x => x.job_id == job_ptr.job_id) with
    | none =>
      rw [hfound] at ha
      simp only [if_neg hlock] at ha
      by_cases h2 : fd.cluster_lock = rec_sib.sibling_id
      · rw [if_pos h2] at ha
        simp only [Option.some.injEq, Prod.mk.injEq] at ha
        have hfj : _is_fed_job (some fed)
            { job_ptr with fed_details := some { fd with
                siblings_active :=
                  fd.siblings_active &&& not64 (FED_SIBLING_BIT rec_sib.sibling_id) } }
            = some (fed_mgr_cluster_rec fed).fed_id :=
          is_fed_job_of_origin fed _ _ _ rfl horigin hP1
        rcases fed_mgr_job_revoke_exit_code env fed
            { job_ptr with fed_details := some { fd with
                siblings_active :=
                  fd.siblings_active &&& not64 (FED_SIBLING_BIT rec_sib.sibling_id) } }
            true 0 job_ptr.start_time _ hfj (hreq _) with ⟨_, e⟩ | ⟨_, e⟩
        · rw [← ha.1, e]
          exact Or.inr (Or.inr ⟨rfl, rfl⟩)
        · rw [← ha.1]
          exact Or.inl e
      · rw [if_neg h2] at ha
        simp only [Option.some.injEq, Prod.mk.injEq] at ha
        rw [← ha.1]
        exact Or.inr (Or.inr ⟨rfl, rfl⟩)
    | some remote_job =>
      rw [hfound] at ha
      simp only at ha
      by_cases h2 : fd.cluster_lock = rec_sib.sibling_id
      · rw [if_pos h2] at ha
        by_cases h3 : env.IS_JOB_COMPLETE remote_job.job_state = true
        · rw [if_pos h3] at ha
          simp only [Option.some.injEq, Prod.mk.injEq] at ha
          rw [← ha.1]
          have hfj : _is_fed_job (some fed) job_ptr = some (fed_mgr_cluster_rec fed).fed_id :=
            is_fed_job_of_origin fed _ _ _ hfd horigin hP1
          cases hc : env.IS_JOB_COMPLETED job_ptr.job_state
          · rw [fed_mgr_job_revoke_complete_result env fed job_ptr remote_job.exit_code
              job_ptr.start_time _ hfj hc (hreq _) hdisj h32]
            exact Or.inr (Or.inl hcanc)
          · rcases fed_mgr_job_revoke_exit_code env fed job_ptr true remote_job.exit_code
                job_ptr.start_time _ hfj (hreq _) with ⟨_, e⟩ | ⟨e, _⟩
            · rw [e]
              exact Or.inr (Or.inr ⟨rfl, rfl⟩)
            · rw [hc] at e
              cases e
        · rw [if_neg h3] at ha
          simp only [Option.some.injEq, Prod.mk.injEq] at ha
          rw [← ha.1]
          exact Or.inr (Or.inr ⟨rfl, rfl⟩)
      · rw [if_neg h2, if_pos hlock] at ha
        simp only [Option.some.injEq, Prod.mk.injEq] at ha
        rw [← ha.1]
        exact Or.inr (Or.inr ⟨rfl, rfl⟩)
  unfold _reconcile_fed_job at hr
  split at hr
  · rename_i fd0 det h1 h2
    rw [hfd] at h1
    cases h1
    split at hr
    · cases hr
      exact Or.inr (Or.inr ⟨rfl, rfl⟩)
    · split at hr
      · cases hr
      · rename_i p hp
        split at hr
        · cases hr
        · cases hr
          exact hact p.1 p.2 hp
  · cases hr
    exact Or.inr (Or.inr ⟨rfl, rfl⟩)

/-- One step keeps the exit code of a job started on a peer clean: in a run in
which reconciliations are with peers, a job record that names a peer as the lock
holder keeps exit code 0 until the job is completed. -/
theorem remote_start_exit_code_step (env : Env) (fed : Fed) (job_id : Nat) (s s' : ctld_state)
    (e : job_event)
    (hreq : no_requeue_hold env) (hsig : signal_keeps_fed_details env)
    (horigin : fed_mgr_get_cluster_id job_id = (fed_mgr_cluster_rec fed).fed_id)
    (hP1 : 1 ≤ (fed_mgr_cluster_rec fed).fed_id)
    (hdisj : env.JOB_REVOKED &&& env.JOB_CANCELLED = 0)
    (h32 : env.JOB_CANCELLED < 2 ^ 32)
    (hcanc : env.IS_JOB_COMPLETED env.JOB_CANCELLED = true)
    (hinv : remote_start_exit_code env fed s job_id)
    (hg : sync_from_peer_guard fed s e = true)
    (hstep : apply_event env fed job_id s e = some s') :
    remote_start_exit_code env fed s' job_id := by
  obtain ⟨j, fd, ji, ht, hclean⟩ := hinv
  obtain ⟨t1, t2, t3, t4, t5⟩ := id ht
  have hjid := find_job_record_job_id s.job_list job_id j t1
  have hiid := find_fed_job_info_job_id s.fed_job_list job_id ji t3
  cases e with
  | lock_set now P =>
    obtain ⟨ji', ht', _, _⟩ := tracked_lock_set env fed job_id s s' now P j fd ji ht hstep
    exact ⟨j, fd, ji', ht', hclean⟩
  | lock_unset P =>
    obtain ⟨ji', ht', _, _⟩ := tracked_lock_unset env fed job_id s s' P j fd ji ht hstep
    exact ⟨j, fd, ji', ht', hclean⟩
  | start start_time =>
    obtain ⟨r, hr, hcases⟩ := fed_mgr_job_start_origin_result env fed s.fed_job_list j
      start_time _ fd rfl (by rw [hjid]; exact horigin) hP1 t2
    simp only [apply_event, t1, hr, Option.map_some', Option.some.injEq] at hstep
    subst hstep
    rcases hcases with ⟨c1, c2⟩ | ⟨ji0, c0, c1, c2, c3⟩
    · refine ⟨j, fd, ji, ⟨?_, t2, ?_, t4, t5⟩, hclean⟩
      · show find_job_record (set_job_record s.job_list job_id r.job_ptr) job_id = some j
        rw [c1]
        exact find_set_job_record s.job_list job_id j j t1 hjid
      · show _find_fed_job_info r.fed_job_list job_id = some ji
        rw [c2]; exact t3
    · rw [hjid, t3] at c0
      cases c0
      refine ⟨r.job_ptr,
        { fd with cluster_lock := (fed_mgr_cluster_rec fed).fed_id,
                  siblings_active := FED_SIBLING_BIT (fed_mgr_cluster_rec fed).fed_id },
        { ji with siblings_active := FED_SIBLING_BIT (fed_mgr_cluster_rec fed).fed_id },
        ⟨?_, ?_, ?_, rfl, t5⟩, Or.inr (Or.inl rfl)⟩
      · show find_job_record (set_job_record s.job_list job_id r.job_ptr) job_id = some _
        exact find_set_job_record s.job_list job_id j _ t1 (by rw [c2]; exact hjid)
      · rw [c2]
      · show _find_fed_job_info r.fed_job_list job_id = some _
        rw [c3, hjid]
        exact find_set_fed_job_info s.fed_job_list job_id ji _ t3 hiid
  | start_msg start_time cluster_id =>
    have hstart : _fed_job_start_revoke env (some fed) ji j start_time
        = some ({ ji with siblings_active := FED_SIBLING_BIT ji.cluster_lock },
            { j with
              fed_details := some { fd with cluster_lock := ji.cluster_lock,
                                            siblings_active := FED_SIBLING_BIT ji.cluster_lock } },
            if ji.siblings_active &&& not64 (FED_SIBLING_BIT ji.cluster_lock) ≠ 0 then
              _revoke_sibling_jobs env (some fed) j.job_id ji.cluster_lock ji.siblings_active
                start_time
            else []) := by
      simp only [_fed_job_start_revoke, t2]
    have hfi : _find_fed_job_info
        (_set_fed_job_info s.fed_job_list job_id
          { ji with siblings_active := FED_SIBLING_BIT ji.cluster_lock }) job_id
        = some { ji with siblings_active := FED_SIBLING_BIT ji.cluster_lock } :=
      find_set_fed_job_info s.fed_job_list job_id ji _ t3 hiid
    have hfj : find_job_record
        (set_job_record s.job_list job_id
          { j with
            fed_details := some { fd with cluster_lock := ji.cluster_lock,
                                          siblings_active := FED_SIBLING_BIT ji.cluster_lock } })
        job_id
        = some { j with
            fed_details := some { fd with cluster_lock := ji.cluster_lock,
                                          siblings_active := FED_SIBLING_BIT ji.cluster_lock } } :=
      find_set_job_record s.job_list job_id j _ t1 hjid
    simp only [apply_event, _handle_fed_job_start, _q_sib_job_start, t1, t3, hstart] at hstep
    by_cases hloc : ji.cluster_lock = (fed_mgr_cluster_rec fed).fed_id
    · rw [if_neg (not_not.mpr hloc)] at hstep
      simp only [Option.some.injEq] at hstep
      subst hstep
      exact ⟨_, _, _, ⟨hfj, rfl, hfi, rfl, t5⟩, Or.inr (Or.inl hloc)⟩
    · rw [if_pos hloc] at hstep
      have hnp := fed_mgr_job_revoke_no_purge_on_origin env fed
        { j with
          fed_details := some { fd with cluster_lock := ji.cluster_lock,
                                        siblings_active := FED_SIBLING_BIT ji.cluster_lock } }
        false 0 start_time (by
          show fed_mgr_get_cluster_id j.job_id = _
          rw [hjid]; exact horigin)
      obtain ⟨k1, k2⟩ := fed_mgr_job_revoke_keeps_fed_details env (some fed)
        { j with
          fed_details := some { fd with cluster_lock := ji.cluster_lock,
                                        siblings_active := FED_SIBLING_BIT ji.cluster_lock } }
        false 0 start_time (hreq _)
      have hfed : _is_fed_job (some fed)
          { j with
            fed_details := some { fd with cluster_lock := ji.cluster_lock,
                                          siblings_active := FED_SIBLING_BIT ji.cluster_lock } }
          = some (fed_mgr_cluster_rec fed).fed_id :=
        is_fed_job_of_origin fed _ _ _ rfl (by
          show fed_mgr_get_cluster_id j.job_id = _
          rw [hjid]; exact horigin) hP1
      simp only [hnp, Option.some.injEq] at hstep
      subst hstep
      refine ⟨_, _, _, ⟨find_set_job_record _ job_id _ _ hfj (by rw [k1]; exact hjid), k2, hfi,
        rfl, t5⟩, Or.inr (Or.inr ?_)⟩
      rcases fed_mgr_job_revoke_exit_code env fed
          { j with
            fed_details := some { fd with cluster_lock := ji.cluster_lock,
                                          siblings_active := FED_SIBLING_BIT ji.cluster_lock } }
          false 0 start_time _ hfed (hreq _) with ⟨c, e⟩ | ⟨_, e⟩
      · rw [e]
        exact Or.inr c
      · exact Or.inl e
  | remove_active_sib_bit cluster_name =>
    have hjob : find_job_record s.job_list (_q_sib_submit_response job_id cluster_name).job_id
        = some j := t1
    have hinfo : _find_fed_job_info s.fed_job_list
        (_q_sib_submit_response job_id cluster_name).job_id = some ji := t3
    simp only [apply_event, _handle_fed_job_remove_active_sib_bit, hjob, hinfo] at hstep
    cases hsib : fed_mgr_get_cluster_by_name (some fed)
        (_q_sib_submit_response job_id cluster_name).siblings_str with
    | none =>
      rw [hsib] at hstep
      simp only [Option.some.injEq] at hstep
      subst hstep
      exact ⟨j, fd, ji, ht, hclean⟩
    | some sibling =>
      rw [hsib] at hstep
      simp only [t2, Option.some.injEq] at hstep
      subst hstep
      exact ⟨{ j with
          fed_details := some { fd with
            siblings_active :=
              ji.siblings_active &&& not64 (FED_SIBLING_BIT sibling.fed_id) } },
        _, { ji with
          siblings_active := ji.siblings_active &&& not64 (FED_SIBLING_BIT sibling.fed_id) },
        ⟨find_set_job_record s.job_list job_id j _ t1 hjid, rfl,
          find_set_fed_job_info s.fed_job_list job_id ji _ t3 hiid, rfl, t5⟩, hclean⟩
  | update_clusters spec_clusters now =>
    have hstep' := hstep
    simp only [apply_event, t1] at hstep'
    cases hr : fed_mgr_update_job_clusters env (some fed) s.fed_job_list j spec_clusters now with
    | none => rw [hr] at hstep'; cases hstep'
    | some r =>
      rw [hr] at hstep'
      simp only [Option.map_some', Option.some.injEq] at hstep'
      by_cases h0 : fd.cluster_lock = 0
      · obtain ⟨j', fd', ji', ht', _, hl, _⟩ := tracked_update_result env fed job_id s now
          r j fd ji hreq ht (update_job_clusters_cases env fed s.fed_job_list j spec_clusters
            now r hr)
        rw [hstep'] at ht'
        exact ⟨j', fd', ji', ht', Or.inl (hl.trans h0)⟩
      · obtain ⟨e1, e2, _⟩ := update_job_clusters_locked env fed s.fed_job_list j spec_clusters
          now r fd t2 h0 hr
        subst hstep'
        refine ⟨j, fd, ji, ⟨?_, t2, ?_, t4, t5⟩, hclean⟩
        · show find_job_record (set_job_record s.job_list job_id r.job_ptr) job_id = some j
          rw [e1]
          exact find_set_job_record s.job_list job_id j j t1 hjid
        · show _find_fed_job_info r.fed_job_list job_id = some ji
          rw [e2]; exact t3
  | update_cluster_features req_features now =>
    have hstep' := hstep
    simp only [apply_event, t1] at hstep'
    cases hr : fed_mgr_update_job_cluster_features env (some fed) s.fed_job_list j
        req_features now with
    | none => rw [hr] at hstep'; cases hstep'
    | some r =>
      rw [hr] at hstep'
      simp only [Option.map_some', Option.some.injEq] at hstep'
      by_cases h0 : fd.cluster_lock = 0
      · obtain ⟨j', fd', ji', ht', _, hl, _⟩ := tracked_update_result env fed job_id s now
          r j fd ji hreq ht (update_job_cluster_features_cases env fed s.fed_job_list j
            req_features now r hr)
        rw [hstep'] at ht'
        exact ⟨j', fd', ji', ht', Or.inl (hl.trans h0)⟩
      · obtain ⟨e1, e2, _⟩ := update_job_cluster_features_locked env fed s.fed_job_list j
          req_features now r fd t2 h0 hr
        subst hstep'
        refine ⟨j, fd, ji, ⟨?_, t2, ?_, t4, t5⟩, hclean⟩
        · show find_job_record (set_job_record s.job_list job_id r.job_ptr) job_id = some j
          rw [e1]
          exact find_set_job_record s.job_list job_id j j t1 hjid
        · show _find_fed_job_info r.fed_job_list job_id = some ji
          rw [e2]; exact t3
  | sync sib_name job_info_msg sync_time =>
    obtain ⟨j', fd', ji', ht', _, hl, _⟩ := tracked_sync env fed job_id s s'
      sib_name job_info_msg sync_time j fd ji hreq hsig ht hstep
    refine ⟨j', fd', ji', ht', ?_⟩
    by_cases h0 : fd.cluster_lock = 0
    · exact Or.inl (hl.trans h0)
    by_cases hP : fd.cluster_lock = (fed_mgr_cluster_rec fed).fed_id
    · exact Or.inr (Or.inl (hl.trans hP))
    have hje : j.exit_code = 0 ∨ env.IS_JOB_COMPLETED j.job_state = true := by
      rcases hclean with h | h | h | h
      · exact absurd h h0
      · exact absurd h hP
      · exact Or.inl h
      · exact Or.inr h
    obtain ⟨u1, u2, u3, u4, u5⟩ := ht'
    simp only [apply_event] at hstep
    cases hsib : fed_mgr_get_cluster_by_name (some fed) sib_name with
    | none =>
      rw [hsib] at hstep
      simp only [Option.some.injEq] at hstep
      subst hstep
      rw [t1] at u1
      cases u1
      exact Or.inr (Or.inr hje)
    | some sib =>
      simp only [sync_from_peer_guard, hsib, decide_eq_true_eq] at hg
      rw [hsib] at hstep
      simp only [t1] at hstep
      cases hr : _reconcile_fed_job env fed s.fed_job_list j
          { job_info_msg := job_info_msg, sibling_id := sib.fed_id, sibling_name := sib.name,
            sync_time := sync_time } with
      | none => rw [hr] at hstep; cases hstep
      | some r =>
        rw [hr] at hstep
        simp only [Option.map_some', Option.some.injEq] at hstep
        subst hstep
        have hrid : r.job_ptr.job_id = job_id := by
          obtain ⟨r', A, hr', c1, _⟩ := reconcile_fed_job_spec env fed s.fed_job_list j
            { job_info_msg := job_info_msg, sibling_id := sib.fed_id,
              sibling_name := sib.name, sync_time := sync_time }
            fd ji t2 (by rw [hjid]; exact t3) t4 t5 hreq hsig
          rw [hr'] at hr
          cases hr
          exact c1.trans hjid
        have hj' : j' = r.job_ptr := by
          have := find_set_job_record s.job_list job_id j r.job_ptr t1 hrid
          have u1' : find_job_record (set_job_record s.job_list job_id r.job_ptr) job_id
              = some j' := u1
          rw [this] at u1'
          exact (Option.some.inj u1').symm
        subst hj'
        rcases reconcile_fed_job_exit_code env fed s.fed_job_list j
            { job_info_msg := job_info_msg, sibling_id := sib.fed_id,
              sibling_name := sib.name, sync_time := sync_time }
            fd r t2 (by rw [hjid]; exact horigin) hP1 hg h0 hreq hdisj h32 hcanc hr
          with h | h | ⟨h1, h2⟩
        · exact Or.inr (Or.inr (Or.inl h))
        · exact Or.inr (Or.inr (Or.inr h))
        · rw [h1, h2]
          exact Or.inr (Or.inr hje)

/-- A run in which reconciliations are with peers keeps the exit code of a job
started on a peer clean. -/
theorem remote_start_exit_code_run (env : Env) (fed : Fed) (job_id : Nat)
    (hreq : no_requeue_hold env) (hsig : signal_keeps_fed_details env)
    (horigin : fed_mgr_get_cluster_id job_id = (fed_mgr_cluster_rec fed).fed_id)
    (hP1 : 1 ≤ (fed_mgr_cluster_rec fed).fed_id)
    (hdisj : env.JOB_REVOKED &&& env.JOB_CANCELLED = 0)
    (h32 : env.JOB_CANCELLED < 2 ^ 32)
    (hcanc : env.IS_JOB_COMPLETED env.JOB_CANCELLED = true)
    (events : List job_event) :
    ∀ (s0 s : ctld_state), remote_start_exit_code env fed s0 job_id →
      guards_hold env fed job_id (sync_from_peer_guard fed) events s0 = true →
      run_events env fed job_id events s0 = some s →
      remote_start_exit_code env fed s job_id := by
  induction events with
  | nil =>
    intro s0 s hinv _ hrun
    simp only [run_events, Option.some.injEq] at hrun
    rw [← hrun]; exact hinv
  | cons e es ih =>
    intro s0 s hinv hg hrun
    simp only [run_events, guards_hold, Bool.and_eq_true] at hrun hg
    cases hstep : apply_event env fed job_id s0 e with
    | none => rw [hstep] at hrun; cases hrun
    | some s1 =>
      rw [hstep] at hrun hg
      exact ih s1 s
        (remote_start_exit_code_step env fed job_id s0 s1 e hreq hsig horigin hP1 hdisj h32
          hcanc hinv hg.1 hstep)
        hg.2 hrun

/-- C19: on the origin cluster of a job, at every state reached from the freshly
submitted, unlocked job by lock_set, lock_unset, start, START handling,
REMOVE_ACTIVE_SIB_BIT handling, delta update and reconciliation steps
(reconciliations being with peers, the requeue table not matching,
`JOB_CANCELLED` a completed state): when a SYNC of a peer looks at the job, the
job is absent from the sender's job list and the `cluster_lock` of the job
record is the sender's id, the origin treats the job as completed.  The step
returns; the job record ends in the terminal state `JOB_CANCELLED` with
`end_time` its `start_time` and without the sender's bit in `siblings_active`;
its `exit_code` is the one it had before the step (the code passes the literal
0, and 0 is what the record holds since the START of the peer was handled); and
nothing is queued. -/
theorem reconcile_lost_job_keeps_exit_code (env : Env) (fed : Fed) (job_id : Nat)
    (s0 s : ctld_state) (events : List job_event) (sib_name : String)
    (sib : slurmdb_cluster_rec_t) (job_info_msg : List slurm_job_info_t) (sync_time : Int)
    (j : job_record) (fd : job_fed_details_t)
    (hreq : no_requeue_hold env) (hsig : signal_keeps_fed_details env)
    (horigin : fed_mgr_get_cluster_id job_id = (fed_mgr_cluster_rec fed).fed_id)
    (hP1 : 1 ≤ (fed_mgr_cluster_rec fed).fed_id)
    (hdisj : env.JOB_REVOKED &&& env.JOB_CANCELLED = 0)
    (h32 : env.JOB_CANCELLED < 2 ^ 32)
    (hcanc : env.IS_JOB_COMPLETED env.JOB_CANCELLED = true)
    (hfresh : freshly_submitted env fed s0 job_id)
    (hunlocked : ∀ j0 fd0, find_job_record s0.job_list job_id = some j0 →
      j0.fed_details = some fd0 → fd0.cluster_lock = 0)
    (hguard : guards_hold env fed job_id (sync_from_peer_guard fed) events s0 = true)
    (hrun : run_events env fed job_id events s0 = some s)
    (hsib : fed_mgr_get_cluster_by_name (some fed) sib_name = some sib)
    (hpeer : sib.fed_id ≠ (fed_mgr_cluster_rec fed).fed_id)
    (hid : 1 ≤ sib.fed_id)
    (hjob : find_job_record s.job_list job_id = some j) (hfd : j.fed_details = some fd)
    (hlook : reconcile_looks_at env fed j
      { job_info_msg := job_info_msg, sibling_id := sib.fed_id, sibling_name := sib.name,
        sync_time := sync_time })
    (habsent : job_info_msg.find? (fun r => r.job_id == job_id) = none)
    (hlock : fd.cluster_lock = sib.fed_id) :
    ∃ s' j',
      apply_event env fed job_id s (.sync sib_name job_info_msg sync_time) = some s' ∧
      find_job_record s'.job_list job_id = some j' ∧
      j'.exit_code = j.exit_code ∧
      j'.job_state = env.JOB_CANCELLED ∧
      env.IS_JOB_COMPLETED j'.job_state = true ∧
      j' = { j with
          fed_details := some { fd with
            siblings_active := fd.siblings_active &&& not64 (FED_SIBLING_BIT sib.fed_id) },
          exit_code := 0, job_state := env.JOB_CANCELLED,
          start_time := j.start_time, end_time := j.start_time,
          state_reason := env.WAIT_NO_REASON, state_desc := none } ∧
      s'.send_rpc = s.send_rpc := by
  have hlock0 : fd.cluster_lock ≠ 0 := by omega
  -- the exit code of the record is 0
  obtain ⟨j0, fd0, ji0, ht0, _, _⟩ := freshly_submitted_tracked env fed s0 job_id hfresh
  have hinv0 : remote_start_exit_code env fed s0 job_id :=
    ⟨j0, fd0, ji0, ht0, Or.inl (hunlocked j0 fd0 ht0.1 ht0.2.1)⟩
  obtain ⟨j2, fd2, ji, ht, hclean⟩ := remote_start_exit_code_run env fed job_id hreq hsig
    horigin hP1 hdisj h32 hcanc events s0 s hinv0 hguard hrun
  obtain ⟨t1, t2, t3, t4, t5⟩ := ht
  rw [hjob] at t1
  cases t1
  rw [hfd] at t2
  cases t2
  have hjid := find_job_record_job_id s.job_list job_id j hjob
  obtain ⟨_, _, _, _, _, l4, _, _⟩ := id hlook
  have hexit : j.exit_code = 0 := by
    rcases hclean with h | h | h | h
    · exact absurd h hlock0
    · exact absurd (hlock.symm.trans h) hpeer
    · exact h
    · rw [l4] at h
      cases h
  -- the step
  have hrec := reconcile_lost_job_revoked env fed s.fed_job_list j
    { job_info_msg := job_info_msg, sibling_id := sib.fed_id, sibling_name := sib.name,
      sync_time := sync_time }
    fd ji hfd hlook (by rw [hjid]; exact horigin) hP1 hpeer (by rw [hjid]; exact habsent)
    hlock0 hlock (by rw [hjid]; exact t3) hreq hdisj h32
  have hstep : apply_event env fed job_id s (.sync sib_name job_info_msg sync_time)
      = some (store_job_op s job_id
          ⟨SLURM_SUCCESS,
            { j with
              fed_details := some { fd with
                siblings_active := fd.siblings_active &&& not64 (FED_SIBLING_BIT sib.fed_id) },
              exit_code := 0, job_state := env.JOB_CANCELLED,
              start_time := j.start_time, end_time := j.start_time,
              state_reason := env.WAIT_NO_REASON, state_desc := none },
            _set_fed_job_info s.fed_job_list j.job_id
              { ji with
                siblings_viable := fd.siblings_viable,
                siblings_active :=
                  fd.siblings_active &&& not64 (FED_SIBLING_BIT sib.fed_id) },
            []⟩) := by
    simp only [apply_event, hsib, hjob, hrec, Option.map_some']
  refine ⟨_, _, hstep, ?_, hexit.symm, rfl, hcanc, rfl, ?_⟩
  · exact find_set_job_record s.job_list job_id j _ hjob hjid
  · show s.send_rpc ++ [] = s.send_rpc
    rw [List.append_nil]

/-- Witness for C19: cluster 2 is granted the lock of job 67108869 and starts it;
the job list that c2 sends afterwards lacks the job. -/
theorem reconcile_lost_job_keeps_exit_code_witness :
    run_events example_env (example_fed 0) 67108869 [.lock_set 1000 2, .start_msg 1200 2]
        example_submitted_state
      = some (example_run [.lock_set 1000 2, .start_msg 1200 2]) ∧
    find_job_record (example_run [.lock_set 1000 2, .start_msg 1200 2]).job_list 67108869
      = some example_started_job ∧
    ∃ s' j',
      apply_event example_env (example_fed 0) 67108869
          (example_run [.lock_set 1000 2, .start_msg 1200 2]) (.sync "c2" [] 2000) = some s' ∧
      find_job_record s'.job_list 67108869 = some j' ∧
      j'.exit_code = example_started_job.exit_code ∧
      j'.job_state = example_env.JOB_CANCELLED ∧
      example_env.IS_JOB_COMPLETED j'.job_state = true ∧
      j' = { example_job 2 0 7 with job_state := 4, start_time := 1200, end_time := 1200 } ∧
      s'.send_rpc = (example_run [.lock_set 1000 2, .start_msg 1200 2]).send_rpc :=
  ⟨by decide, by decide,
    match reconcile_lost_job_keeps_exit_code example_env (example_fed 0) 67108869
        example_submitted_state (example_run [.lock_set 1000 2, .start_msg 1200 2])
        [.lock_set 1000 2, .start_msg 1200 2] "c2"
        { name := "c2", fed_id := 2, fed_state := 1, feature_list := none } [] 2000
        example_started_job ⟨2, 2, 7⟩
        (fun _ => rfl) (fun _ => ⟨rfl, rfl⟩) (by decide) (by decide) (by decide) (by decide)
        (by decide)
        ⟨[], example_job_msg none, example_job_desc none, false, 1000, 8192, 67108869, _, _,
          rfl, by decide, rfl, by decide, by decide, by decide, by decide⟩
        (fun j0 fd0 h1 h2 => by
          have e0 : find_job_record example_submitted_state.job_list 67108869
              = some (example_job 0 7 7) := by decide
          have e1 : example_job 0 7 7 = j0 := Option.some.inj (e0.symm.trans h1)
          subst e1
          cases h2
          rfl)
        (by decide) (by decide) (by decide) (by decide) (by decide) (by decide) rfl
        ⟨_, _, rfl, rfl, by decide, by decide, by decide, Or.inr ⟨by decide, by decide⟩⟩
        (by decide) rfl with
    | ⟨s', j', h1, h2, h3, h4, h5, h6, h7⟩ =>
      ⟨s', j', h1, h2, h3, h4, h5, h6.trans (by decide), h7⟩⟩

/-- C20: when `_reconcile_fed_job` looks at a locally originated job that the
sender's job list holds while the `cluster_lock` of its job record is the
sender's id: if the sender's copy is `JOB_COMPLETE`, the origin tracking copy is
revoked as complete with the sender's exit code (it ends `JOB_CANCELLED`, with
`end_time` its `start_time`); otherwise the job record is left as it is. In both
cases nothing is queued and the sibling bitmaps are unchanged. -/
theorem reconcile_started_job_at_sender (env : Env) (fed : Fed)
    (fed_job_list : List fed_job_info_t) (job_ptr : job_record) (rec_sib : reconcile_sib_t)
    (fd : job_fed_details_t) (ji : fed_job_info_t) (remote_job : slurm_job_info_t)
    (hfd : job_ptr.fed_details = some fd)
    (hlook : reconcile_looks_at env fed job_ptr rec_sib)
    (horigin : fed_mgr_get_cluster_id job_ptr.job_id = (fed_mgr_cluster_rec fed).fed_id)
    (hP1 : 1 ≤ (fed_mgr_cluster_rec fed).fed_id)
    (hsender : rec_sib.sibling_id ≠ (fed_mgr_cluster_rec fed).fed_id)
    (hfound : rec_sib.job_info_msg.find? (fun r => r.job_id == job_ptr.job_id)
      = some remote_job)
    (hlock : fd.cluster_lock = rec_sib.sibling_id)
    (hfind : _find_fed_job_info fed_job_list job_ptr.job_id = some ji)
    (hreq : no_requeue_hold env)
    (hdisj : env.JOB_REVOKED &&& env.JOB_CANCELLED = 0)
    (h32 : env.JOB_CANCELLED < 2 ^ 32) :
    (env.IS_JOB_COMPLETE remote_job.job_state = true →
      _reconcile_fed_job env fed fed_job_list job_ptr rec_sib
        = some ⟨SLURM_SUCCESS,
            { job_ptr with
              exit_code := remote_job.exit_code, job_state := env.JOB_CANCELLED,
              start_time := job_ptr.start_time, end_time := job_ptr.start_time,
              state_reason := env.WAIT_NO_REASON, state_desc := none },
            _set_fed_job_info fed_job_list job_ptr.job_id
              { ji with
                siblings_viable := fd.siblings_viable,
                siblings_active := fd.siblings_active },
            []⟩) ∧
    (env.IS_JOB_COMPLETE remote_job.job_state = false →
      _reconcile_fed_job env fed fed_job_list job_ptr rec_sib
        = some ⟨SLURM_SUCCESS, job_ptr,
            _set_fed_job_info fed_job_list job_ptr.job_id
              { ji with
                siblings_viable := fd.siblings_viable,
                siblings_active := fd.siblings_active },
            []⟩) := by
  have hne : fed_mgr_get_cluster_id job_ptr.job_id ≠ rec_sib.sibling_id := by
    rw [horigin]; exact fun h => hsender h.symm
  obtain ⟨fd', det, l1, l2, l3, l4, l5, l6⟩ := id hlook
  have hfj : _is_fed_job (some fed) job_ptr = some (fed_mgr_cluster_rec fed).fed_id :=
    is_fed_job_of_origin fed _ _ _ hfd horigin hP1
  have hrev := fed_mgr_job_revoke_complete_result env fed job_ptr
    remote_job.exit_code job_ptr.start_time _ hfj l4 (hreq _) hdisj h32
  constructor
  · intro hc
    have hact : _reconcile_fed_job_actions env fed job_ptr fd rec_sib
        = some ({ job_ptr with
              exit_code := remote_job.exit_code, job_state := env.JOB_CANCELLED,
              start_time := job_ptr.start_time, end_time := job_ptr.start_time,
              state_reason := env.WAIT_NO_REASON, state_desc := none }, []) := by
      unfold _reconcile_fed_job_actions
      simp only [if_neg hne, hfound, if_pos hlock, hc, if_true]
      rw [hrev]
    rw [reconcile_fed_job_looked_at env fed fed_job_list job_ptr rec_sib fd hfd hlook, hact]
    simp only [_update_fed_job_info_sibs, hfind, hfd]
  · intro hc
    have hact : _reconcile_fed_job_actions env fed job_ptr fd rec_sib
        = some (job_ptr, []) := by
      unfold _reconcile_fed_job_actions
      simp only [if_neg hne, hfound, if_pos hlock, hc, Bool.false_eq_true, if_false]
    rw [reconcile_fed_job_looked_at env fed fed_job_list job_ptr rec_sib fd hfd hlook, hact]
    simp only [_update_fed_job_info_sibs, hfind, hfd]

/-- Witness for C20: job 67108869 was started by cluster 2, whose job list holds
it, once complete with exit code 5 and once running. -/
theorem reconcile_started_job_at_sender_witness :
    reconcile_looks_at example_env (example_fed 0) example_started_job
      ⟨[⟨67108869, 3, 5⟩], 2, "c2", 2000⟩ ∧
    reconcile_looks_at example_env (example_fed 0) example_started_job
      ⟨[⟨67108869, 1, 0⟩], 2, "c2", 2000⟩ ∧
    _reconcile_fed_job example_env (example_fed 0) [example_job_info 2 2 7]
        example_started_job ⟨[⟨67108869, 3, 5⟩], 2, "c2", 2000⟩
      = some ⟨SLURM_SUCCESS,
          { example_job 2 2 7 with
            job_state := 4, exit_code := 5, start_time := 1200, end_time := 1200 },
          [example_job_info 2 2 7], []⟩ ∧
    _reconcile_fed_job example_env (example_fed 0) [example_job_info 2 2 7]
        example_started_job ⟨[⟨67108869, 1, 0⟩], 2, "c2", 2000⟩
      = some ⟨SLURM_SUCCESS, example_started_job, [example_job_info 2 2 7], []⟩ :=
  ⟨⟨_, _, rfl, rfl, by decide, by decide, by decide, Or.inr ⟨by decide, by decide⟩⟩,
    ⟨_, _, rfl, rfl, by decide, by decide, by decide, Or.inr ⟨by decide, by decide⟩⟩,
    ((reconcile_started_job_at_sender example_env (example_fed 0) [example_job_info 2 2 7]
      example_started_job ⟨[⟨67108869, 3, 5⟩], 2, "c2", 2000⟩ ⟨2, 2, 7⟩
      (example_job_info 2 2 7) ⟨67108869, 3, 5⟩ rfl
      ⟨_, _, rfl, rfl, by decide, by decide, by decide, Or.inr ⟨by decide, by decide⟩⟩
      (by decide) (by decide) (by decide) (by decide) rfl (by decide)
      (fun _ => rfl) (by decide) (by decide)).1 (by decide)).trans (by decide),
    ((reconcile_started_job_at_sender example_env (example_fed 0) [example_job_info 2 2 7]
      example_started_job ⟨[⟨67108869, 1, 0⟩], 2, "c2", 2000⟩ ⟨2, 2, 7⟩
      (example_job_info 2 2 7) ⟨67108869, 1, 0⟩ rfl
      ⟨_, _, rfl, rfl, by decide, by decide, by decide, Or.inr ⟨by decide, by decide⟩⟩
      (by decide) (by decide) (by decide) (by decide) rfl (by decide)
      (fun _ => rfl) (by decide) (by decide)).2 (by decide)).trans (by decide)⟩

/-! ## C21: reconciliation of a job that originates on the sender -/

/-- The final update of `_reconcile_fed_job` does not depend on what `job_signal`
did to the job record, as long as it kept the job id and the federation
details. -/
theorem update_fed_job_info_sibs_congr (fed_job_list : List fed_job_info_t)
    (j j' : job_record) (hid : j'.job_id = j.job_id)
    (hfd : j'.fed_details = j.fed_details) :
    _update_fed_job_info_sibs fed_job_list j' = _update_fed_job_info_sibs fed_job_list j := by
  unfold _update_fed_job_info_sibs
  rw [hid, hfd]

/-- The final update of `_reconcile_fed_job` returns a list for a job with
federation details. -/
theorem update_fed_job_info_sibs_some (fed_job_list : List fed_job_info_t)
    (j : job_record) (fd : job_fed_details_t) (hfd : j.fed_details = some fd) :
    ∃ l, _update_fed_job_info_sibs fed_job_list j = some l := by
  unfold _update_fed_job_info_sibs
  cases _find_fed_job_info fed_job_list j.job_id with
  | none => exact ⟨_, rfl⟩
  | some ji => rw [hfd]; exact ⟨_, rfl⟩

/-- C21: when `_reconcile_fed_job` looks at a local job (not completed, not
completing, submitted before the sync time) whose origin is the sender: if the
job is absent from the sender's list or listed there as completed, the job
record gets the `SIB_JOB_FLUSH` flag and is handed to `job_signal` (SIGKILL); if
it is listed and not completed, the job record is returned unchanged.  Nothing
is queued in either case. -/
theorem reconcile_job_of_sender (env : Env) (fed : Fed)
    (fed_job_list : List fed_job_info_t) (job_ptr : job_record) (rec_sib : reconcile_sib_t)
    (fd : job_fed_details_t)
    (hfd : job_ptr.fed_details = some fd)
    (hlook : reconcile_looks_at env fed job_ptr rec_sib)
    (horigin : fed_mgr_get_cluster_id job_ptr.job_id = rec_sib.sibling_id)
    (hsig : signal_keeps_fed_details env) :
    ∃ l, _update_fed_job_info_sibs fed_job_list job_ptr = some l ∧
      ((rec_sib.job_info_msg.find? (fun r => r.job_id == job_ptr.job_id) = none ∨
          (∃ remote_job,
            rec_sib.job_info_msg.find? (fun r => r.job_id == job_ptr.job_id)
              = some remote_job ∧
            env.IS_JOB_COMPLETED remote_job.job_state = true)) →
        _reconcile_fed_job env fed fed_job_list job_ptr rec_sib
          = some ⟨SLURM_SUCCESS,
              env.job_signal
                { job_ptr with bit_flags := job_ptr.bit_flags ||| env.SIB_JOB_FLUSH },
              l, []⟩) ∧
      (∀ remote_job,
        rec_sib.job_info_msg.find? (fun r => r.job_id == job_ptr.job_id)
          = some remote_job →
        env.IS_JOB_COMPLETED remote_job.job_state = false →
        _reconcile_fed_job env fed fed_job_list job_ptr rec_sib
          = some ⟨SLURM_SUCCESS, job_ptr, l, []⟩) := by
  obtain ⟨l, hl⟩ := update_fed_job_info_sibs_some fed_job_list job_ptr fd hfd
  have hl' : _update_fed_job_info_sibs fed_job_list
      (env.job_signal { job_ptr with bit_flags := job_ptr.bit_flags ||| env.SIB_JOB_FLUSH })
      = some l := by
    rw [update_fed_job_info_sibs_congr fed_job_list
      { job_ptr with bit_flags := job_ptr.bit_flags ||| env.SIB_JOB_FLUSH } _
      (hsig _).1 (hsig _).2]
    rw [← hl]
    exact update_fed_job_info_sibs_congr fed_job_list job_ptr _ rfl rfl
  refine ⟨l, hl, ?_, ?_⟩
  · intro h
    have hact : _reconcile_fed_job_actions env fed job_ptr fd rec_sib
        = some (env.job_signal
            { job_ptr with bit_flags := job_ptr.bit_flags ||| env.SIB_JOB_FLUSH }, []) := by
      unfold _reconcile_fed_job_actions
      rcases h with h | ⟨r, h, hc⟩
      · simp only [if_pos horigin, h]
      · simp only [if_pos horigin, h, hc, if_true]
    rw [reconcile_fed_job_looked_at env fed fed_job_list job_ptr rec_sib fd hfd hlook, hact]
    simp only [hl']
  · intro r h hc
    have hact : _reconcile_fed_job_actions env fed job_ptr fd rec_sib
        = some (job_ptr, []) := by
      unfold _reconcile_fed_job_actions
      simp only [if_pos horigin, h, hc, Bool.false_eq_true, if_false]
    rw [reconcile_fed_job_looked_at env fed fed_job_list job_ptr rec_sib fd hfd hlook, hact]
    simp only [hl]

/-- Witness for C21: cluster 2 holds a sibling of job 67108869 of cluster 1 and
reconciles with cluster 1, whose list holds the job as running. -/
theorem reconcile_job_of_sender_witness :
    reconcile_looks_at example_env (example_fed 1) (example_job 0 3 3)
      ⟨[⟨67108869, 1, 0⟩], 1, "c1", 2000⟩ ∧
    _reconcile_fed_job example_env (example_fed 1) [example_job_info 0 3 3]
        (example_job 0 3 3) ⟨[⟨67108869, 1, 0⟩], 1, "c1", 2000⟩
      = some ⟨SLURM_SUCCESS, example_job 0 3 3, [example_job_info 0 3 3], []⟩ :=
  ⟨⟨_, _, rfl, rfl, by decide, by decide, by decide, Or.inl (by decide)⟩,
    match reconcile_job_of_sender example_env (example_fed 1) [example_job_info 0 3 3]
      (example_job 0 3 3) ⟨[⟨67108869, 1, 0⟩], 1, "c1", 2000⟩ ⟨0, 3, 3⟩ rfl
      ⟨_, _, rfl, rfl, by decide, by decide, by decide, Or.inl (by decide)⟩
      (by decide) (fun _ => ⟨rfl, rfl⟩) with
    | ⟨l, hl, _, h⟩ =>
      have e : l = [example_job_info 0 3 3] := Option.some.inj (hl.symm.trans (by decide))
      (h ⟨67108869, 1, 0⟩ (by decide) (by decide)).trans (by rw [e])⟩

/-! ## C30: the initial priority of the wiki scheduler plugin -/

/-- C30: `slurm_sched_plugin_initial_priority` returns `last_prio - 1` in
`PRIO_DECREMENT` mode for a `uint32_t` `last_prio ≥ 2`, returns 1 in that mode
for `last_prio < 2`, and returns 0 in every other mode; so in `PRIO_DECREMENT`
mode the result is at least 1, and at most `last_prio` when `last_prio ≥ 1`. -/
theorem initial_priority_decrement (init_prio_mode PRIO_DECREMENT last_prio : Nat)
    (h32 : last_prio < 2 ^ 32) :
    (init_prio_mode = PRIO_DECREMENT → 2 ≤ last_prio →
      (slurm_sched_plugin_initial_priority init_prio_mode PRIO_DECREMENT last_prio : Int)
        = (last_prio : Int) - 1) ∧
    (init_prio_mode = PRIO_DECREMENT → last_prio < 2 →
      slurm_sched_plugin_initial_priority init_prio_mode PRIO_DECREMENT last_prio = 1) ∧
    (init_prio_mode ≠ PRIO_DECREMENT →
      slurm_sched_plugin_initial_priority init_prio_mode PRIO_DECREMENT last_prio = 0) ∧
    (init_prio_mode = PRIO_DECREMENT →
      1 ≤ slurm_sched_plugin_initial_priority init_prio_mode PRIO_DECREMENT last_prio) ∧
    (init_prio_mode = PRIO_DECREMENT → 1 ≤ last_prio →
      slurm_sched_plugin_initial_priority init_prio_mode PRIO_DECREMENT last_prio
        ≤ last_prio) := by
  unfold slurm_sched_plugin_initial_priority
  have hmod : 2 ≤ last_prio → (last_prio - 1) % 2 ^ 32 = last_prio - 1 :=
    fun _ => Nat.mod_eq_of_lt (by omega)
  refine ⟨?_, ?_, ?_, ?_, ?_⟩
  · intro hm h2
    rw [if_pos hm, if_pos h2, hmod h2]
    omega
  · intro hm h2
    rw [if_pos hm, if_neg (by omega)]
  · intro hm
    rw [if_neg hm]
  · intro hm
    rw [if_pos hm]
    by_cases h2 : last_prio ≥ 2
    · rw [if_pos h2, hmod h2]; omega
    · rw [if_neg h2]
  · intro hm h1
    rw [if_pos hm]
    by_cases h2 : last_prio ≥ 2
    · rw [if_pos h2, hmod h2]; omega
    · rw [if_neg h2]; exact h1

/-- Witness for C30: mode 1 is `PRIO_DECREMENT`; the last priority is the largest
`uint32_t`. -/
theorem initial_priority_decrement_witness :
    (4294967295 : Nat) < 2 ^ 32 ∧
    slurm_sched_plugin_initial_priority 1 1 4294967295 = 4294967294 ∧
    slurm_sched_plugin_initial_priority 1 1 1 = 1 ∧
    slurm_sched_plugin_initial_priority 1 1 0 = 1 ∧
    slurm_sched_plugin_initial_priority 0 1 7 = 0 ∧
    1 ≤ slurm_sched_plugin_initial_priority 1 1 4294967295 :=
  ⟨by decide, by decide, by decide, by decide, by decide,
    (initial_priority_decrement 1 1 4294967295 (by decide)).2.2.2.1 rfl⟩

/-! ## C26: the switches set when a federation is joined -/

/-- C26 (counterexample): cluster `c1` joins a federation in which its state is
`INACTIVE | DRAIN` (`0x12`): the base state is INACTIVE, yet scheduling is left
enabled (and no watcher is spawned). -/
theorem fed_mgr_ptr_init_inactive_drain_schedules :
    (example_cluster 18).fed_state &&& example_env.CLUSTER_FED_STATE_BASE
      = example_env.CLUSTER_FED_STATE_INACTIVE ∧
    _fed_mgr_ptr_init example_env "c1" none [example_cluster 18] 0 (example_cluster 18)
        ⟨true, true⟩ false false
      = ⟨⟨[example_cluster 18], 0, example_cluster 18⟩, ⟨false, true⟩, false, false⟩ := by
  decide

/-- C26 (amended): after `_fed_mgr_ptr_init` the switches follow the state of the
local cluster record: without the DRAIN flag, base state ACTIVE enables
scheduling and submissions and base state INACTIVE disables both; with the DRAIN
flag scheduling is enabled and submissions are disabled whatever the base state,
and with base state ACTIVE a drain watcher exists afterwards. -/
theorem fed_mgr_ptr_init_switches (env : Env) (cluster_name : String) (old : Option Fed)
    (db_fed : List slurmdb_cluster_rec_t) (cluster_idx : Nat)
    (cluster : slurmdb_cluster_rec_t) (config : slurmctld_config_t)
    (job_watch_thread_id stop_job_watch_thread : Bool) (r : ptr_init_result)
    (hr : _fed_mgr_ptr_init env cluster_name old db_fed cluster_idx cluster config
      job_watch_thread_id stop_job_watch_thread = r)
    (hne : env.CLUSTER_FED_STATE_ACTIVE ≠ env.CLUSTER_FED_STATE_INACTIVE) :
    ((fed_mgr_cluster_rec r.fed).fed_state &&& env.CLUSTER_FED_STATE_DRAIN = 0 →
      (fed_mgr_cluster_rec r.fed).fed_state &&& env.CLUSTER_FED_STATE_BASE
        = env.CLUSTER_FED_STATE_ACTIVE →
      r.config = ⟨false, false⟩) ∧
    ((fed_mgr_cluster_rec r.fed).fed_state &&& env.CLUSTER_FED_STATE_DRAIN = 0 →
      (fed_mgr_cluster_rec r.fed).fed_state &&& env.CLUSTER_FED_STATE_BASE
        = env.CLUSTER_FED_STATE_INACTIVE →
      r.config = ⟨true, true⟩) ∧
    ((fed_mgr_cluster_rec r.fed).fed_state &&& env.CLUSTER_FED_STATE_DRAIN ≠ 0 →
      r.config = ⟨false, true⟩ ∧
      ((fed_mgr_cluster_rec r.fed).fed_state &&& env.CLUSTER_FED_STATE_BASE
          = env.CLUSTER_FED_STATE_ACTIVE →
        r.job_watch_thread_id = true)) := by
  subst hr
  unfold _fed_mgr_ptr_init
  simp only []
  generalize (match old with
    | some f =>
      match _fed_mgr_ptr_init_loop cluster_name db_fed 0 none with
      | some i =>
        ({ cluster_list := db_fed, local_idx := i, local_rec := fed_mgr_cluster_rec f } : Fed)
      | none =>
        { cluster_list := db_fed, local_idx := db_fed.length,
          local_rec := fed_mgr_cluster_rec f }
    | none => { cluster_list := db_fed, local_idx := cluster_idx, local_rec := cluster }) = fed
  by_cases hd : (fed_mgr_cluster_rec fed).fed_state &&& env.CLUSTER_FED_STATE_DRAIN = 0
  · by_cases ha : (fed_mgr_cluster_rec fed).fed_state &&& env.CLUSTER_FED_STATE_BASE
        = env.CLUSTER_FED_STATE_ACTIVE
    · have hi : ¬ (env.CLUSTER_FED_STATE_ACTIVE = env.CLUSTER_FED_STATE_INACTIVE) := hne
      cases job_watch_thread_id <;>
        simp [hd, ha, hi, _remove_job_watch_thread]
    · by_cases hi : (fed_mgr_cluster_rec fed).fed_state &&& env.CLUSTER_FED_STATE_BASE
          = env.CLUSTER_FED_STATE_INACTIVE
      · cases job_watch_thread_id <;>
          simp [hd, ha, hi, _remove_job_watch_thread, Ne.symm hne]
      · cases job_watch_thread_id <;>
          simp [hd, ha, hi, _remove_job_watch_thread]
  · by_cases ha : (fed_mgr_cluster_rec fed).fed_state &&& env.CLUSTER_FED_STATE_BASE
        = env.CLUSTER_FED_STATE_ACTIVE
    · cases job_watch_thread_id <;>
        simp [hd, ha, _spawn_job_watch_thread]
    · simp [hd, ha]

/-- Witness for C26: cluster `c1` joins as `ACTIVE | DRAIN` (`0x11`). -/
theorem fed_mgr_ptr_init_switches_witness :
    example_env.CLUSTER_FED_STATE_ACTIVE ≠ example_env.CLUSTER_FED_STATE_INACTIVE ∧
    (example_cluster 17).fed_state &&& example_env.CLUSTER_FED_STATE_DRAIN ≠ 0 ∧
    (_fed_mgr_ptr_init example_env "c1" none [example_cluster 17] 0 (example_cluster 17)
        ⟨true, true⟩ false false).config = ⟨false, true⟩ ∧
    (_fed_mgr_ptr_init example_env "c1" none [example_cluster 17] 0 (example_cluster 17)
        ⟨true, true⟩ false false).job_watch_thread_id = true :=
  ⟨by decide, by decide,
    ((fed_mgr_ptr_init_switches example_env "c1" none [example_cluster 17] 0
      (example_cluster 17) ⟨true, true⟩ false false _ rfl (by decide)).2.2 (by decide)).1,
    ((fed_mgr_ptr_init_switches example_env "c1" none [example_cluster 17] 0
      (example_cluster 17) ⟨true, true⟩ false false _ rfl (by decide)).2.2 (by decide)).2
      (by decide)⟩

/-! ## C25, C27, C28: the agent's batches, backoff and removal -/

/-- An `int` value inside the 32-bit range is left alone by `int32_wrap`. -/
theorem int32_wrap_of_range (x : Int) (hlo : -2 ^ 31 ≤ x) (hhi : x < 2 ^ 31) :
    int32_wrap x = x := by
  unfold int32_wrap
  rw [Int.emod_eq_of_lt (by omega) (by omega)]
  omega

/-- A batch doubles a `last_defer` of `2 ^ k`, `1 ≤ k < 30`. -/
theorem agent_thread_defer_two_pow (k : Nat) (h1 : 1 ≤ k) (h30 : k < 30) :
    _agent_thread_defer (2 ^ k) = 2 ^ (k + 1) := by
  have hpos : (0 : Int) < 2 ^ k := by positivity
  have hlt : (2 : Int) ^ (k + 1) ≤ 2 ^ 30 :=
    pow_le_pow_right₀ (by norm_num) (by omega)
  have hw : int32_wrap (2 ^ k * 2) = 2 ^ (k + 1) := by
    rw [pow_succ] at hlt ⊢
    exact int32_wrap_of_range _ (by omega) (by omega)
  unfold _agent_thread_defer
  split
  · exact hw
  · rw [if_pos (by omega)]
    exact hw

/-- The `last_defer` of a record after `n` batches, `1 ≤ n ≤ 30`, is `2 ^ n`. -/
theorem agent_thread_defer_iterate (n : Nat) (h1 : 1 ≤ n) (h30 : n ≤ 30) :
    Nat.iterate _agent_thread_defer n 0 = 2 ^ n := by
  induction n with
  | zero => omega
  | succ m ih =>
    rw [Function.iterate_succ_apply']
    by_cases hm : m = 0
    · subst hm
      rfl
    · rw [ih (by omega) (by omega)]
      exact agent_thread_defer_two_pow m (by omega) (by omega)

/-- C25 (counterexample): after 30 batches `last_defer` is `2 ^ 30`; the next
batch doubles it in `int`, which leaves `-2 ^ 31`: the value decreases, and a
further batch leaves 0. -/
theorem agent_thread_defer_overflows :
    Nat.iterate _agent_thread_defer 30 0 = 1073741824 ∧
    Nat.iterate _agent_thread_defer 31 0 = -2147483648 ∧
    Nat.iterate _agent_thread_defer 32 0 = 0 ∧
    (_agent_thread_batch 4294967296 [example_rpc 1 2147483648 1073741824]).1
      = [example_rpc 1 4294967296 (-2147483648)] := by
  decide

/-- C25 (amended): for the first 30 batches a record joins, its `last_defer`
takes the values 2, 4, 8, ..., `2 ^ 30`: the first batch sets 2, every later one
doubles it (also at 128), and the value never decreases. -/
theorem agent_thread_defer_sequence (n : Nat) (h1 : 1 ≤ n) (h30 : n ≤ 30) :
    Nat.iterate _agent_thread_defer 1 0 = 2 ∧
    Nat.iterate _agent_thread_defer n 0 = 2 ^ n ∧
    (n < 30 →
      Nat.iterate _agent_thread_defer (n + 1) 0
        = 2 * Nat.iterate _agent_thread_defer n 0) ∧
    Nat.iterate _agent_thread_defer (n - 1) 0 ≤ Nat.iterate _agent_thread_defer n 0 := by
  refine ⟨rfl, agent_thread_defer_iterate n h1 h30, ?_, ?_⟩
  · intro hn
    rw [agent_thread_defer_iterate n h1 h30,
      agent_thread_defer_iterate (n + 1) (by omega) (by omega), pow_succ]
    ring
  · rw [agent_thread_defer_iterate n h1 h30]
    by_cases hn : n = 1
    · subst hn
      decide
    · rw [agent_thread_defer_iterate (n - 1) (by omega) (by omega)]
      exact pow_le_pow_right₀ (by norm_num) (by omega)

/-- Witness for C25: the eighth batch, which follows the one at 128. -/
theorem agent_thread_defer_sequence_witness :
    1 ≤ 8 ∧ 8 ≤ 30 ∧ Nat.iterate _agent_thread_defer 7 0 = 128 ∧
    Nat.iterate _agent_thread_defer 8 0 = 256 :=
  ⟨by decide, by decide, by decide,
    (agent_thread_defer_sequence 8 (by decide) (by decide)).2.1.trans (by decide)⟩

/-- C27 (counterexample): a request last tried at time 100 with a defer
interval of 2 is not batched at time 102, although `100 + 2 ≤ 102`; it is
batched at time 103. -/
theorem agent_thread_batch_skips_rpc_due_now :
    (example_rpc 1 100 2).last_try + (example_rpc 1 100 2).last_defer ≤ 102 ∧
    _agent_thread_batch 102 [example_rpc 1 100 2] = ([example_rpc 1 100 2], []) ∧
    _agent_thread_batch 103 [example_rpc 1 100 2]
      = ([example_rpc 1 103 4], [(example_rpc 1 100 2).buffer]) := by
  decide

/-- C27 (amended): on a pass at time `now` a queued request joins the batch if
and only if `last_try + last_defer < now`; the batch holds the buffers of these
requests in queue order; every batched request gets `last_try = now` and the
next `last_defer`, and every other request is unchanged. -/
theorem agent_thread_batch_spec (now : Int) (send_rpc : List agent_queue_t) :
    (_agent_thread_batch now send_rpc).1
      = send_rpc.map (fun rpc_rec =>
          if rpc_rec.last_try + rpc_rec.last_defer < now then
            { rpc_rec with
              last_try := now, last_defer := _agent_thread_defer rpc_rec.last_defer }
          else rpc_rec) ∧
    (_agent_thread_batch now send_rpc).2
      = (send_rpc.filter
          (fun rpc_rec => decide (rpc_rec.last_try + rpc_rec.last_defer < now))).map
          (fun rpc_rec => rpc_rec.buffer) := by
  induction send_rpc with
  | nil => exact ⟨rfl, rfl⟩
  | cons rpc_rec rest ih =>
    unfold _agent_thread_batch
    by_cases h : rpc_rec.last_try + rpc_rec.last_defer ≥ now
    · have h' : ¬ (rpc_rec.last_try + rpc_rec.last_defer < now) := by omega
      simp only [if_pos h, List.map_cons, if_neg h', ih.1, ih.2, List.filter_cons, h',
        decide_False, Bool.false_eq_true, if_false]
      exact ⟨trivial, trivial⟩
    · have h' : rpc_rec.last_try + rpc_rec.last_defer < now := by omega
      simp only [if_neg h, List.map_cons, if_pos h', ih.1, ih.2, List.filter_cons, h',
        decide_True, if_true]
      exact ⟨trivial, trivial⟩

/-- C28 (the code at the failing input): the request of job 1 is tried at time
100 while the peer is down and stays queued; the request of job 2 is queued, and
a second pass in the same second sends a batch that holds the request of job 2
only, which the peer accepts.  The pass removes the request of job 1, which was
not sent, and keeps the request of job 2, which succeeded. -/
theorem agent_thread_same_second_removes_unsent_rpc :
    _agent_thread_cluster example_env example_peer_down 100 [example_rpc 1 0 0]
      = some [example_rpc 1 100 2] ∧
    (_agent_thread_batch 100 [example_rpc 1 100 2, example_rpc 2 0 0]).2
      = [(example_rpc 2 0 0).buffer] ∧
    _parse_resp_ctld_mult example_env (example_peer_up [(example_rpc 2 0 0).buffer]).2
      = some [true] ∧
    _agent_thread_cluster example_env example_peer_up 100
        [example_rpc 1 100 2, example_rpc 2 0 0]
      = some [example_rpc 2 100 2] := by
  decide

/-- Once the bit string is used up, nothing more is deleted. -/
theorem agent_remove_spec_used_up (now : Int) (success_bits : List Bool)
    (send_rpc : List agent_queue_t) (resp_inx : Nat)
    (h : success_bits.length ≤ resp_inx) :
    agent_remove_spec now success_bits send_rpc resp_inx
      = (_agent_thread_batch now send_rpc).1 := by
  induction send_rpc generalizing resp_inx with
  | nil => rfl
  | cons rpc_rec rest ih =>
    unfold agent_remove_spec _agent_thread_batch
    have hb : success_bits.getD resp_inx false = false := by
      rw [List.getD_eq_getElem?_getD, List.getElem?_eq_none (by omega)]
      rfl
    by_cases hc : rpc_rec.last_try + rpc_rec.last_defer < now
    · have hc' : ¬ (rpc_rec.last_try + rpc_rec.last_defer ≥ now) := by omega
      simp only [if_pos hc, if_neg hc', hb, Bool.false_eq_true, if_false,
        ih (resp_inx + 1) (by omega)]
    · have hc' : rpc_rec.last_try + rpc_rec.last_defer ≥ now := by omega
      simp only [if_neg hc, if_pos hc', ih resp_inx h]

/-- When no queued request carries `last_try = now` before the pass (no earlier
pass ran in the same second), the removal loop of `_agent_thread` deletes
exactly the requests of the batch whose positional bit is set. -/
theorem agent_thread_remove_eq_spec (now : Int) (success_bits : List Bool)
    (send_rpc : List agent_queue_t) (resp_inx : Nat)
    (hfresh : ∀ rpc_rec ∈ send_rpc, rpc_rec.last_try ≠ now) :
    _agent_thread_remove now success_bits (_agent_thread_batch now send_rpc).1 resp_inx
      = agent_remove_spec now success_bits send_rpc resp_inx := by
  induction send_rpc generalizing resp_inx with
  | nil => rfl
  | cons rpc_rec rest ih =>
    have hrest : ∀ r ∈ rest, r.last_try ≠ now :=
      fun r hr => hfresh r (List.mem_cons_of_mem _ hr)
    have hhead : rpc_rec.last_try ≠ now := hfresh rpc_rec (List.mem_cons_self _ _)
    unfold _agent_thread_batch agent_remove_spec
    by_cases hc : rpc_rec.last_try + rpc_rec.last_defer < now
    · have hc' : ¬ (rpc_rec.last_try + rpc_rec.last_defer ≥ now) := by omega
      simp only [if_pos hc, if_neg hc']
      unfold _agent_thread_remove
      simp only [ne_eq, not_true_eq_false, if_false]
      by_cases hlen : resp_inx ≥ success_bits.length
      · have hb : success_bits.getD resp_inx false = false := by
          rw [List.getD_eq_getElem?_getD, List.getElem?_eq_none (by omega)]
          rfl
        simp only [if_pos hlen, hb, Bool.false_eq_true, if_false,
          agent_remove_spec_used_up now success_bits rest (resp_inx + 1) (by omega)]
      · simp only [if_neg hlen, ih (resp_inx + 1) hrest]
    · have hc' : rpc_rec.last_try + rpc_rec.last_defer ≥ now := by omega
      simp only [if_neg hc, if_pos hc']
      unfold _agent_thread_remove
      simp only [ne_eq, hhead, not_false_eq_true, if_true, ih resp_inx hrest]

/-! ## C29: the counters of pending updates -/

/-- Reading a list after one entry was written. -/
theorem getD_set {α : Type} (l : List α) (i k : Nat) (v d : α) :
    (l.set i v).getD k d = if k = i ∧ i < l.length then v else l.getD k d := by
  simp only [List.getD_eq_getElem?_getD, List.getElem?_set]
  by_cases h : i = k
  · subst h
    by_cases hl : i < l.length
    · simp [hl]
    · simp [hl, List.getElem?_eq_none (Nat.le_of_not_lt hl)]
  · have h' : ¬ (k = i) := fun e => h e.symm
    simp [h, h']

/-- Two lists of the same length with the same entries are equal. -/
theorem list_eq_of_getD {α : Type} (l₁ l₂ : List α) (d : α)
    (hlen : l₁.length = l₂.length) (h : ∀ i, l₁.getD i d = l₂.getD i d) : l₁ = l₂ := by
  apply List.ext_getElem hlen
  intro n h1 h2
  have := h n
  rwa [List.getD_eq_getElem _ _ h1, List.getD_eq_getElem _ _ h2] at this

/-- Writing `g` of the entry at the id of each cluster of a list of clusters with
distinct ids changes exactly the entries at these ids, each once. -/
theorem foldl_set_getD {α : Type} (g : α → α) (d : α) (U : List slurmdb_cluster_rec_t)
    (hnd : U.Pairwise (fun a b => a.fed_id ≠ b.fed_id)) (l : List α)
    (hlt : ∀ p ∈ U, p.fed_id < l.length) (i : Nat) :
    (U.foldl (fun l p => l.set p.fed_id (g (l.getD p.fed_id d))) l).length = l.length ∧
    (U.foldl (fun l p => l.set p.fed_id (g (l.getD p.fed_id d))) l).getD i d
      = if U.any (fun p => p.fed_id == i) then g (l.getD i d) else l.getD i d := by
  induction U generalizing l with
  | nil => exact ⟨rfl, rfl⟩
  | cons p rest ih =>
    rw [List.pairwise_cons] at hnd
    have hp : p.fed_id < l.length := hlt p (List.mem_cons_self _ _)
    have hrest : ∀ q ∈ rest, q.fed_id < (l.set p.fed_id (g (l.getD p.fed_id d))).length := by
      intro q hq
      rw [List.length_set]
      exact hlt q (List.mem_cons_of_mem _ hq)
    obtain ⟨h1, h2⟩ := ih hnd.2 (l.set p.fed_id (g (l.getD p.fed_id d))) hrest
    rw [List.foldl_cons]
    refine ⟨by rw [h1, List.length_set], ?_⟩
    by_cases hi : i = p.fed_id
    · subst hi
      have hany : rest.any (fun q => q.fed_id == p.fed_id) = false := by
        rw [List.any_eq_false]
        intro q hq hqi
        exact hnd.1 q hq (beq_iff_eq.mp hqi).symm
      rw [h2, hany, getD_set, List.any_cons, hany]
      simp only [Bool.false_eq_true, if_false, beq_self_eq_true, Bool.or_false, if_true, hp,
        and_self]
    · have hb : (p.fed_id == i) = false := by
        rw [beq_eq_false_iff_ne]
        exact fun e => hi e.symm
      rw [h2, getD_set, List.any_cons, hb, Bool.false_or]
      simp only [hi, false_and, if_false]

/-- The clusters an update reaches are taken from the cluster list, in order. -/
theorem update_job_targets_sublist (env : Env) (fed : Fed) (job_id : Nat)
    (job_specs : job_desc_msg_t) (update_sibs uid : Nat) (l : List slurmdb_cluster_rec_t)
    (idx : Nat) :
    (update_job_targets env fed job_id job_specs update_sibs uid l idx).Sublist l := by
  induction l generalizing idx with
  | nil => exact List.Sublist.refl _
  | cons c rest ih =>
    unfold update_job_targets
    split
    · exact (ih (idx + 1)).cons₂ c
    · exact (ih (idx + 1)).cons c

/-- What `_persist_update_job` does: it returns 0 with one `REQUEST_SIB_MSG`
record carrying the `FED_JOB_UPDATE` appended to the peer's queue, or an error
with nothing appended. -/
theorem persist_update_job_cases (env : Env) (conn : slurmdb_cluster_rec_t) (job_id : Nat)
    (data : job_desc_msg_t) (uid : Nat) :
    _persist_update_job env conn job_id data uid
        = (SLURM_SUCCESS,
            [{ cluster := conn,
               agent_rec :=
                 { buffer :=
                     { msg_type := env.REQUEST_SIB_MSG,
                       data := { sib_msg_zero with
                                 sib_msg_type := FED_JOB_UPDATE, data_buffer := some data,
                                 data_type := env.REQUEST_UPDATE_JOB,
                                 data_version := env.SLURM_PROTOCOL_VERSION, req_uid := uid,
                                 job_id := job_id } },
                   job_id := 0, last_try := 0, last_defer := 0,
                   msg_type := env.REQUEST_SIB_MSG } }]) ∨
      _persist_update_job env conn job_id data uid = (SLURM_ERROR, []) := by
  unfold _persist_update_job _queue_rpc
  split
  · exact Or.inl rfl
  · exact Or.inr rfl

/-- The loop of `fed_mgr_update_job` bumps the counter and stamps the time of
every cluster the update reaches, touches nothing else of the
`fed_job_info_t`, and appends one `FED_JOB_UPDATE` record for each of these
clusters, in order. -/
theorem fed_mgr_update_job_loop_spec (env : Env) (fed : Fed) (job_id : Nat)
    (job_specs : job_desc_msg_t) (update_sibs uid : Nat) (now : Int)
    (l : List slurmdb_cluster_rec_t) (idx : Nat) (acc : fed_job_info_t × List queued_rpc) :
    fed_mgr_update_job_loop env fed job_id job_specs update_sibs uid now l idx acc
      = ({ acc.1 with
          updating_sibs :=
            (update_job_targets env fed job_id job_specs update_sibs uid l idx).foldl
              (fun us p => us.set p.fed_id ((fun x => (x + 1) % 2 ^ 32) (us.getD p.fed_id 0)))
              acc.1.updating_sibs,
          updating_time :=
            (update_job_targets env fed job_id job_specs update_sibs uid l idx).foldl
              (fun ut p => ut.set p.fed_id ((fun _ => now) (ut.getD p.fed_id 0)))
              acc.1.updating_time },
        acc.2 ++ (update_job_targets env fed job_id job_specs update_sibs uid l idx).map
          (fun p =>
            { cluster := p,
              agent_rec :=
                { buffer :=
                    { msg_type := env.REQUEST_SIB_MSG,
                      data := { sib_msg_zero with
                                sib_msg_type := FED_JOB_UPDATE,
                                data_buffer := some job_specs,
                                data_type := env.REQUEST_UPDATE_JOB,
                                data_version := env.SLURM_PROTOCOL_VERSION, req_uid := uid,
                                job_id := job_id } },
                  job_id := 0, last_try := 0, last_defer := 0,
                  msg_type := env.REQUEST_SIB_MSG } })) := by
  induction l generalizing idx acc with
  | nil =>
    obtain ⟨a, q⟩ := acc
    show (a, q) = (a, q ++ [])
    rw [List.append_nil]
  | cons c rest ih =>
    unfold fed_mgr_update_job_loop update_job_targets
    by_cases h1 : idx = fed.local_idx
    · simp only [if_pos h1, h1, ne_eq, not_true_eq_false, false_and, if_false]
      rw [← h1]
      exact ih (idx + 1) acc
    · by_cases h2 : update_sibs &&& FED_SIBLING_BIT c.fed_id = 0
      · simp only [if_neg h1, if_pos h2, h2, ne_eq, not_true_eq_false, false_and, and_false,
          if_false]
        exact ih (idx + 1) acc
      · rcases persist_update_job_cases env c job_id job_specs uid with h3 | h3
        · have hz : SLURM_SUCCESS = 0 := rfl
          simp only [if_neg h1, if_neg h2, h3, hz, ne_eq, not_true_eq_false, if_false, h1, h2,
            not_false_eq_true, and_self, if_true, List.foldl_cons, List.map_cons,
            List.cons_ne_nil]
          rw [ih (idx + 1) _]
          simp only [List.append_assoc, List.singleton_append]
        · have hz : SLURM_ERROR ≠ 0 := by decide
          simp only [if_neg h1, if_neg h2, h3, hz, ne_eq, not_false_eq_true, if_true,
            and_false, if_false, not_true_eq_false, List.append_nil]
          exact ih (idx + 1) _

/-- In a federation whose members have distinct names, looking a member up by
its name finds it. -/
theorem get_cluster_by_name_of_mem (fed : Fed) (c : slurmdb_cluster_rec_t)
    (hnames : fed.cluster_list.Pairwise (fun a b => a.name ≠ b.name))
    (hc : c ∈ fed.cluster_list) : fed_mgr_get_cluster_by_name (some fed) c.name = some c := by
  unfold fed_mgr_get_cluster_by_name
  simp only []
  generalize fed.cluster_list = l at hnames hc
  induction l with
  | nil => cases hc
  | cons x xs ih =>
    rw [List.pairwise_cons] at hnames
    rcases List.mem_cons.mp hc with h | h
    · subst h
      simp [List.find?_cons]
    · have hne : x.name ≠ c.name := hnames.1 c h
      rw [List.find?_cons]
      have hb : (x.name == c.name) = false := by simpa using hne
      rw [hb]
      exact ih hnames.2 h

/-- Writing a record back twice is writing the second one. -/
theorem set_set_fed_job_info (l : List fed_job_info_t) (job_id : Nat)
    (old a b : fed_job_info_t) (h : _find_fed_job_info l job_id = some old)
    (ha : a.job_id = job_id) :
    _set_fed_job_info (_set_fed_job_info l job_id a) job_id b = _set_fed_job_info l job_id b := by
  obtain ⟨pre, post, h1, hpre, h2⟩ := set_fed_job_info_split l job_id old a h
  obtain ⟨pre', post', h1', hpre', h2'⟩ := set_fed_job_info_split l job_id old b h
  have hp : ∀ x ∈ pre, _list_find_fed_job_info_by_jobid job_id x = false := by
    intro x hx
    simpa [_list_find_fed_job_info_by_jobid] using hpre x hx
  rw [h2]
  unfold _set_fed_job_info
  rw [list_modify_first_append _ _ pre post a hp
    (by simp [_list_find_fed_job_info_by_jobid, ha])]
  have hold : _list_find_fed_job_info_by_jobid job_id old = true := List.find?_some h
  rw [h1, list_modify_first_append _ _ pre post old hp hold]

/-- Handling one UPDATE_RESPONSE of a member of the federation writes the
decremented counter, which is the old one when that is 0 already. -/
theorem handle_fed_job_update_response_set (fed : Fed) (l : List fed_job_info_t)
    (job_id : Nat) (X : fed_job_info_t) (p : slurmdb_cluster_rec_t)
    (hnames : fed.cluster_list.Pairwise (fun a b => a.name ≠ b.name))
    (hp : p ∈ fed.cluster_list) (hfind : _find_fed_job_info l job_id = some X)
    (hlt : p.fed_id < X.updating_sibs.length) :
    _handle_fed_job_update_response (some fed) l (_q_sib_job_update_response job_id 0 p.name)
      = _set_fed_job_info l job_id
          { X with
            updating_sibs := X.updating_sibs.set p.fed_id
              ((fun x => x - 1) (X.updating_sibs.getD p.fed_id 0)) } := by
  unfold _handle_fed_job_update_response _q_sib_job_update_response
  simp only [hfind, get_cluster_by_name_of_mem fed p hnames hp]
  by_cases hz : X.updating_sibs.getD p.fed_id 0 = 0
  · have hsame : X.updating_sibs.set p.fed_id (X.updating_sibs.getD p.fed_id 0 - 1)
        = X.updating_sibs := by
      apply list_eq_of_getD _ _ 0 (List.length_set _ _ _)
      intro i
      rw [getD_set]
      by_cases hi : i = p.fed_id
      · subst hi
        simp only [hlt, and_self, if_true, hz]
      · simp only [hi, false_and, if_false]
    rw [if_neg (not_not.mpr hz)]
    show l = _set_fed_job_info l job_id
      { X with
        updating_sibs := X.updating_sibs.set p.fed_id (X.updating_sibs.getD p.fed_id 0 - 1) }
    rw [hsame]
    exact (set_fed_job_info_same l job_id X hfind).symm
  · simp only [hz, ne_eq, not_false_eq_true, if_true]

/-- Handling one UPDATE_RESPONSE for each cluster of a list of members of the
federation decrements the counter of each of them. -/
theorem handle_update_responses_set (fed : Fed) (job_id : Nat) (l : List fed_job_info_t)
    (old : fed_job_info_t) (hfind : _find_fed_job_info l job_id = some old)
    (hnames : fed.cluster_list.Pairwise (fun a b => a.name ≠ b.name))
    (U : List slurmdb_cluster_rec_t) (hU : ∀ p ∈ U, p ∈ fed.cluster_list)
    (X : fed_job_info_t) (hX : X.job_id = job_id)
    (hlt : ∀ p ∈ U, p.fed_id < X.updating_sibs.length) :
    handle_update_responses fed job_id U (_set_fed_job_info l job_id X)
      = _set_fed_job_info l job_id
          { X with
            updating_sibs :=
              U.foldl (fun us p => us.set p.fed_id ((fun x => x - 1) (us.getD p.fed_id 0)))
                X.updating_sibs } := by
  induction U generalizing X with
  | nil => rfl
  | cons p rest ih =>
    have ih' := ih (fun q hq => hU q (List.mem_cons_of_mem _ hq))
      { X with
        updating_sibs := X.updating_sibs.set p.fed_id (X.updating_sibs.getD p.fed_id 0 - 1) }
      hX
      (fun q hq => by
        show q.fed_id < (X.updating_sibs.set p.fed_id _).length
        rw [List.length_set]
        exact hlt q (List.mem_cons_of_mem _ hq))
    unfold handle_update_responses
    rw [handle_fed_job_update_response_set fed _ job_id X p hnames
      (hU p (List.mem_cons_self _ _)) (find_set_fed_job_info l job_id old X hfind hX)
      (hlt p (List.mem_cons_self _ _)),
      set_set_fed_job_info l job_id old X _ hfind hX]
    exact ih'

/-- C29: `fed_mgr_update_job` on a job with a `fed_job_info_t`, in a federation
whose members have distinct names and ids up to `MAX_FED_CLUSTERS`: the counter
`updating_sibs[p]` goes up by one and `updating_time[p]` is stamped for exactly
the non-local members `p` whose bit is in `update_sibs` and whose UPDATE was
queued, and the records the call queues are one `FED_JOB_UPDATE` request for
each of these members, in the order of the cluster list, and nothing else;
handling one UPDATE_RESPONSE of a member `p` takes one off `updating_sibs[p]`
(0 stays 0) and changes no other counter; and after one response of each
updated member the counters are those before the update.  (The counters are
`uint32_t`: none is at its maximum before the update.) -/
theorem fed_mgr_update_job_counters (env : Env) (fed : Fed)
    (fed_job_list : List fed_job_info_t) (job_id : Nat) (job_specs : job_desc_msg_t)
    (update_sibs uid : Nat) (now : Int) (ji : fed_job_info_t)
    (hfind : _find_fed_job_info fed_job_list job_id = some ji)
    (hlen : ji.updating_sibs.length = MAX_FED_CLUSTERS + 1)
    (hlent : ji.updating_time.length = MAX_FED_CLUSTERS + 1)
    (hids : ∀ c ∈ fed.cluster_list, c.fed_id ≤ MAX_FED_CLUSTERS)
    (huniq : fed.cluster_list.Pairwise (fun a b => a.fed_id ≠ b.fed_id))
    (hnames : fed.cluster_list.Pairwise (fun a b => a.name ≠ b.name))
    (hroom : ∀ i, ji.updating_sibs.getD i 0 + 1 < 2 ^ 32) :
    ∃ ji',
      fed_mgr_update_job env (some fed) fed_job_list job_id job_specs update_sibs uid now
        = some (SLURM_SUCCESS, _set_fed_job_info fed_job_list job_id ji',
            (update_job_targets env fed job_id job_specs update_sibs uid
              fed.cluster_list 0).map
              (fun p =>
                { cluster := p,
                  agent_rec :=
                    { buffer :=
                        { msg_type := env.REQUEST_SIB_MSG,
                          data := { sib_msg_zero with
                                    sib_msg_type := FED_JOB_UPDATE,
                                    data_buffer := some job_specs,
                                    data_type := env.REQUEST_UPDATE_JOB,
                                    data_version := env.SLURM_PROTOCOL_VERSION,
                                    req_uid := uid, job_id := job_id } },
                      job_id := 0, last_try := 0, last_defer := 0,
                      msg_type := env.REQUEST_SIB_MSG } })) ∧
      ji'.cluster_lock = ji.cluster_lock ∧ ji'.job_id = ji.job_id ∧
      ji'.siblings_active = ji.siblings_active ∧ ji'.siblings_viable = ji.siblings_viable ∧
      (∀ p ∈ update_job_targets env fed job_id job_specs update_sibs uid fed.cluster_list 0,
        ji'.updating_sibs.getD p.fed_id 0 = ji.updating_sibs.getD p.fed_id 0 + 1 ∧
        ji'.updating_time.getD p.fed_id 0 = now) ∧
      (∀ i,
        (∀ p ∈ update_job_targets env fed job_id job_specs update_sibs uid fed.cluster_list 0,
          p.fed_id ≠ i) →
        ji'.updating_sibs.getD i 0 = ji.updating_sibs.getD i 0 ∧
        ji'.updating_time.getD i 0 = ji.updating_time.getD i 0) ∧
      (∀ p ∈ fed.cluster_list, ∃ ji2,
        _handle_fed_job_update_response (some fed)
            (_set_fed_job_info fed_job_list job_id ji')
            (_q_sib_job_update_response job_id 0 p.name)
          = _set_fed_job_info fed_job_list job_id ji2 ∧
        ji2.updating_sibs.getD p.fed_id 0 = ji'.updating_sibs.getD p.fed_id 0 - 1 ∧
        ∀ i, i ≠ p.fed_id → ji2.updating_sibs.getD i 0 = ji'.updating_sibs.getD i 0) ∧
      handle_update_responses fed job_id
          (update_job_targets env fed job_id job_specs update_sibs uid fed.cluster_list 0)
          (_set_fed_job_info fed_job_list job_id ji')
        = _set_fed_job_info fed_job_list job_id
            { ji' with updating_sibs := ji.updating_sibs } := by
  have hsub := update_job_targets_sublist env fed job_id job_specs update_sibs uid
    fed.cluster_list 0
  generalize hUdef :
    update_job_targets env fed job_id job_specs update_sibs uid fed.cluster_list 0 = U
    at hsub
  have hUnd : U.Pairwise (fun a b => a.fed_id ≠ b.fed_id) := huniq.sublist hsub
  have hUmem : ∀ p ∈ U, p ∈ fed.cluster_list := fun p hp => hsub.subset hp
  have h64 : MAX_FED_CLUSTERS + 1 = 64 := rfl
  have hUlt : ∀ p ∈ U, p.fed_id < ji.updating_sibs.length := by
    intro p hp
    have := hids p (hUmem p hp)
    rw [hlen]
    exact Nat.lt_succ_of_le this
  have hUltt : ∀ p ∈ U, p.fed_id < ji.updating_time.length := by
    intro p hp
    have := hids p (hUmem p hp)
    rw [hlent]
    exact Nat.lt_succ_of_le this
  have hjid : ji.job_id = job_id := find_fed_job_info_job_id _ _ _ hfind
  have hloop2 := fed_mgr_update_job_loop_spec env fed job_id job_specs update_sibs uid now
    fed.cluster_list 0 (ji, [])
  rw [hUdef] at hloop2
  have hqueue := congrArg Prod.snd hloop2
  have hloop := congrArg Prod.fst hloop2
  simp only [List.nil_append] at hqueue
  simp only [] at hloop
  obtain ⟨J, hJ⟩ : ∃ J, (fed_mgr_update_job_loop env fed job_id job_specs update_sibs uid now
      fed.cluster_list 0 (ji, [])).1 = J := ⟨_, rfl⟩
  rw [hJ] at hloop
  have hincs := fun i => foldl_set_getD (fun x => (x + 1) % 2 ^ 32) 0 U hUnd
    ji.updating_sibs hUlt i
  have hstamps := fun i => foldl_set_getD (fun _ => now) 0 U hUnd ji.updating_time hUltt i
  have hanyT : ∀ p ∈ U, U.any (fun q => q.fed_id == p.fed_id) = true := by
    intro p hp
    rw [List.any_eq_true]
    exact ⟨p, hp, beq_self_eq_true _⟩
  have hanyF : ∀ i, (∀ p ∈ U, p.fed_id ≠ i) → U.any (fun q => q.fed_id == i) = false := by
    intro i hi
    rw [List.any_eq_false]
    intro q hq hqi
    exact hi q hq (beq_iff_eq.mp hqi)
  have hJid : J.job_id = job_id := by
    rw [hloop]
    exact hjid
  have hJlen : J.updating_sibs.length = ji.updating_sibs.length := by
    rw [hloop]
    exact (hincs 0).1
  have hJsibs : ∀ i, J.updating_sibs.getD i 0
      = if U.any (fun q => q.fed_id == i) then (ji.updating_sibs.getD i 0 + 1) % 2 ^ 32
        else ji.updating_sibs.getD i 0 := by
    intro i
    rw [hloop]
    exact (hincs i).2
  have hJtime : ∀ i, J.updating_time.getD i 0
      = if U.any (fun q => q.fed_id == i) then now else ji.updating_time.getD i 0 := by
    intro i
    rw [hloop]
    exact (hstamps i).2
  refine ⟨J, ?_, ?_, ?_, ?_, ?_, ?_, ?_, ?_, ?_⟩
  · unfold fed_mgr_update_job
    simp only [hfind, hJ, hqueue]
  · rw [hloop]
  · rw [hloop]
  · rw [hloop]
  · rw [hloop]
  · intro p hp
    rw [hJsibs, hJtime, hanyT p hp]
    simp only [if_true]
    exact ⟨Nat.mod_eq_of_lt (hroom p.fed_id), trivial⟩
  · intro i hi
    rw [hJsibs, hJtime, hanyF i hi]
    simp only [Bool.false_eq_true, if_false, and_self]
  · intro p hp
    have hplt : p.fed_id < J.updating_sibs.length := by
      rw [hJlen, hlen]
      exact Nat.lt_succ_of_le (hids p hp)
    refine ⟨{ J with
        updating_sibs := J.updating_sibs.set p.fed_id (J.updating_sibs.getD p.fed_id 0 - 1) },
      ?_, ?_, ?_⟩
    · rw [handle_fed_job_update_response_set fed _ job_id J p hnames hp
        (find_set_fed_job_info fed_job_list job_id ji J hfind hJid) hplt,
        set_set_fed_job_info fed_job_list job_id ji J _ hfind hJid]
    · show (J.updating_sibs.set p.fed_id (J.updating_sibs.getD p.fed_id 0 - 1)).getD
          p.fed_id 0 = _
      rw [getD_set]
      simp only [hplt, and_self, if_true]
    · intro i hi
      show (J.updating_sibs.set p.fed_id (J.updating_sibs.getD p.fed_id 0 - 1)).getD i 0 = _
      rw [getD_set]
      simp only [hi, false_and, if_false]
  · have hlt' : ∀ p ∈ U, p.fed_id < J.updating_sibs.length := by
      intro p hp
      rw [hJlen]
      exact hUlt p hp
    rw [handle_update_responses_set fed job_id fed_job_list ji hfind hnames U hUmem J hJid
      hlt']
    have hdecs := fun i => foldl_set_getD (fun x => x - 1) 0 U hUnd J.updating_sibs hlt' i
    have hback : U.foldl (fun us p => us.set p.fed_id ((fun x => x - 1) (us.getD p.fed_id 0)))
        J.updating_sibs = ji.updating_sibs := by
      apply list_eq_of_getD _ _ 0
      · rw [(hdecs 0).1, hJlen]
      · intro i
        rw [(hdecs i).2, hJsibs]
        by_cases ha : U.any (fun q => q.fed_id == i) = true
        · simp only [ha, if_true]
          rw [Nat.mod_eq_of_lt (hroom i)]
          exact Nat.add_sub_cancel _ _
        · simp only [ha, Bool.false_eq_true, if_false]
    rw [hback]

/-- Witness for C29: job 67108869 on cluster 1 is updated on clusters 2 and 3;
one `FED_JOB_UPDATE` record is queued for each of them. -/
theorem fed_mgr_update_job_counters_witness :
    update_job_targets example_env (example_fed 0) 67108869 (example_job_desc none) 6 0
        (example_fed 0).cluster_list 0
      = [{ name := "c2", fed_id := 2, fed_state := 1, feature_list := none },
         { name := "c3", fed_id := 3, fed_state := 1, feature_list := none }] ∧
    ∃ ji',
      (fed_mgr_update_job example_env (some (example_fed 0)) [example_job_info 0 7 7]
          67108869 (example_job_desc none) 6 0 1000).map (fun r => r.2.1)
        = some (_set_fed_job_info [example_job_info 0 7 7] 67108869 ji') ∧
      (fed_mgr_update_job example_env (some (example_fed 0)) [example_job_info 0 7 7]
          67108869 (example_job_desc none) 6 0 1000).map
          (fun r => r.2.2.map
            (fun q => (q.cluster.name, q.agent_rec.buffer.data.sib_msg_type,
              q.agent_rec.buffer.data.job_id)))
        = some [("c2", FED_JOB_UPDATE, 67108869), ("c3", FED_JOB_UPDATE, 67108869)] ∧
      ji'.updating_sibs.getD 2 0 = 1 ∧ ji'.updating_sibs.getD 1 0 = 0 ∧
      handle_update_responses (example_fed 0) 67108869
          (update_job_targets example_env (example_fed 0) 67108869 (example_job_desc none)
            6 0 (example_fed 0).cluster_list 0)
          (_set_fed_job_info [example_job_info 0 7 7] 67108869 ji')
        = _set_fed_job_info [example_job_info 0 7 7] 67108869
            { ji' with updating_sibs := (example_job_info 0 7 7).updating_sibs } :=
  ⟨by decide,
    match fed_mgr_update_job_counters example_env (example_fed 0) [example_job_info 0 7 7]
      67108869 (example_job_desc none) 6 0 1000 (example_job_info 0 7 7) rfl rfl rfl
      (by decide) (by decide) (by decide)
      (fun i => by
        show (List.replicate 64 0).getD i 0 + 1 < 2 ^ 32
        rw [getD_replicate_zero]
        decide) with
    | ⟨ji', h1, _, _, _, _, h2, h3, _, h4⟩ =>
      ⟨ji', by rw [h1]; rfl, by rw [h1]; rfl,
        (h2 ⟨"c2", 2, 1, none, 0⟩ (by decide)).1.trans (by decide),
        (h3 1 (by decide)).1.trans (by decide), h4⟩⟩

/-! ## C22, C23: the snapshot of the job table -/

/-- An entry read with a default inherits what holds for all entries and for the
default. -/
theorem getD_of_forall_mem {α : Type} (P : α → Prop) (l : List α) (d : α) (k : Nat)
    (hl : ∀ x ∈ l, P x) (hd : P d) : P (l.getD k d) := by
  rw [List.getD_eq_getElem?_getD]
  by_cases hk : k < l.length
  · rw [List.getElem?_eq_getElem hk]
    exact hl _ (List.getElem_mem _)
  · rw [List.getElem?_eq_none (Nat.le_of_not_lt hk)]
    exact hd

/-- Reading the entries `0 .. n - 1` of a list of length `n` gives the list. -/
theorem map_getD_range' {α : Type} (l : List α) (d : α) (n : Nat) (hn : l.length = n) :
    (List.range' 0 n).map (fun k => l.getD k d) = l := by
  apply List.ext_getElem
  · rw [List.length_map, List.length_range', hn]
  · intro k h1 h2
    rw [List.getElem_map, List.getElem_range', Nat.zero_add, Nat.one_mul,
      List.getD_eq_getElem _ _ h2]

/-- The counters written by `_pack_fed_job_info` are read back by
`_unpack_fed_job_info`. -/
theorem unpack_pack_fed_job_info_sibs (env : Env) (job_info : fed_job_info_t)
    (hinv : pack_unpack_inverse env) (hlt : ∀ x ∈ job_info.updating_sibs, x < 2 ^ 32)
    (n i : Nat) (rest : List Nat) :
    _unpack_fed_job_info_sibs env n (_pack_fed_job_info_sibs env job_info n i ++ rest)
      = some ((List.range' i n).map (fun k => job_info.updating_sibs.getD k 0), rest) := by
  induction n generalizing i with
  | zero => rfl
  | succ m ih =>
    unfold _unpack_fed_job_info_sibs _pack_fed_job_info_sibs
    rw [List.append_assoc,
      hinv.1 _ _ (getD_of_forall_mem (fun x => x < 2 ^ 32) _ 0 i hlt (by norm_num))]
    simp only [ih (i + 1), List.range'_succ, List.map_cons]

/-- The time stamps written by `_pack_fed_job_info` are read back by
`_unpack_fed_job_info`. -/
theorem unpack_pack_fed_job_info_time (env : Env) (job_info : fed_job_info_t)
    (hinv : pack_unpack_inverse env)
    (hlt : ∀ t ∈ job_info.updating_time, -2 ^ 63 ≤ t ∧ t < 2 ^ 63)
    (n i : Nat) (rest : List Nat) :
    _unpack_fed_job_info_time env n (_pack_fed_job_info_time env job_info n i ++ rest)
      = some ((List.range' i n).map (fun k => job_info.updating_time.getD k 0), rest) := by
  induction n generalizing i with
  | zero => rfl
  | succ m ih =>
    have hb := getD_of_forall_mem (fun t : Int => -2 ^ 63 ≤ t ∧ t < 2 ^ 63) _ 0 i hlt
      (by norm_num)
    unfold _unpack_fed_job_info_time _pack_fed_job_info_time
    rw [List.append_assoc, hinv.2.2 _ _ hb.1 hb.2]
    simp only [ih (i + 1), List.range'_succ, List.map_cons]

/-- A record written by `_pack_fed_job_info` is read back by
`_unpack_fed_job_info`, which leaves the bytes that follow. -/
theorem unpack_pack_fed_job_info (env : Env) (job_info : fed_job_info_t)
    (protocol_version : Nat) (rest : List Nat)
    (hinv : pack_unpack_inverse env)
    (hver : protocol_version ≥ env.SLURM_17_11_PROTOCOL_VERSION)
    (hvalid : fed_job_info_valid job_info) :
    _unpack_fed_job_info env
        (_pack_fed_job_info env job_info protocol_version ++ rest) protocol_version
      = some (job_info, rest) := by
  obtain ⟨v1, v2, v3, v4, v5, v6, v7, v8⟩ := hvalid
  unfold _unpack_fed_job_info _pack_fed_job_info
  simp only [if_pos hver, List.append_assoc]
  rw [hinv.1 _ _ v1]
  simp only []
  rw [hinv.1 _ _ v2]
  simp only []
  rw [hinv.2.1 _ _ v3]
  simp only []
  rw [hinv.2.1 _ _ v4]
  simp only []
  rw [unpack_pack_fed_job_info_sibs env job_info hinv v6]
  simp only []
  rw [unpack_pack_fed_job_info_time env job_info hinv v8]
  simp only []
  rw [map_getD_range' _ _ _ v5, map_getD_range' _ _ _ v7]

/-- The records written by the loop of `_dump_fed_job_list` are read back, in
order, by the loop of `_load_fed_job_list`. -/
theorem load_dump_fed_job_list_loop (env : Env) (protocol_version : Nat)
    (hinv : pack_unpack_inverse env)
    (hver : protocol_version ≥ env.SLURM_17_11_PROTOCOL_VERSION)
    (T : List fed_job_info_t) (hvalid : ∀ ji ∈ T, fed_job_info_valid ji)
    (tmp_list : List fed_job_info_t) (rest : List Nat) :
    _load_fed_job_list_loop env protocol_version T.length
        (_dump_fed_job_list_loop env protocol_version T ++ rest) tmp_list
      = some (tmp_list ++ T, rest) := by
  induction T generalizing tmp_list with
  | nil => simp [_load_fed_job_list_loop, _dump_fed_job_list_loop]
  | cons ji T ih =>
    unfold _dump_fed_job_list_loop
    rw [List.length_cons]
    unfold _load_fed_job_list_loop
    rw [List.append_assoc,
      unpack_pack_fed_job_info env ji protocol_version _ hinv hver
        (hvalid ji (List.mem_cons_self _ _))]
    simp only []
    rw [ih (fun x hx => hvalid x (List.mem_cons_of_mem _ hx)), List.append_assoc]
    rfl

/-- C22: at the current protocol version (which is
`SLURM_17_11_PROTOCOL_VERSION`), with a packing layer that reads back what it
wrote, `_load_fed_job_list` applied to the bytes that `_dump_fed_job_list` wrote
for a table `T` of valid records returns the records of `T`, in order and with
every field equal, and leaves the bytes that follow; dumping the loaded list
again writes the same bytes.  (The count of records is packed as a `uint32_t`
below the sentinels `NO_VAL` and `NO_VAL32`.) -/
theorem fed_job_list_dump_load (env : Env) (T : List fed_job_info_t) (rest : List Nat)
    (hinv : pack_unpack_inverse env)
    (hver : env.SLURM_PROTOCOL_VERSION = env.SLURM_17_11_PROTOCOL_VERSION)
    (hvalid : ∀ ji ∈ T, fed_job_info_valid ji)
    (h32 : T.length < 2 ^ 32) (hnv : T.length < env.NO_VAL)
    (hnv32 : T.length < env.NO_VAL32) :
    _load_fed_job_list env
        (_dump_fed_job_list env (some T) env.SLURM_PROTOCOL_VERSION ++ rest)
        env.SLURM_PROTOCOL_VERSION
      = (some T, rest) ∧
    _dump_fed_job_list env
        (_load_fed_job_list env
          (_dump_fed_job_list env (some T) env.SLURM_PROTOCOL_VERSION ++ rest)
          env.SLURM_PROTOCOL_VERSION).1
        env.SLURM_PROTOCOL_VERSION
      = _dump_fed_job_list env (some T) env.SLURM_PROTOCOL_VERSION := by
  have hle : env.SLURM_PROTOCOL_VERSION ≤ env.SLURM_17_11_PROTOCOL_VERSION := by
    rw [hver]
  have hge : env.SLURM_PROTOCOL_VERSION ≥ env.SLURM_17_11_PROTOCOL_VERSION := by
    rw [hver]
  have hcount : T.length % 2 ^ 32 = T.length := Nat.mod_eq_of_lt h32
  have hbody : (if T.length ≠ 0 ∧ T.length ≠ env.NO_VAL then
        _dump_fed_job_list_loop env env.SLURM_PROTOCOL_VERSION T
      else []) = _dump_fed_job_list_loop env env.SLURM_PROTOCOL_VERSION T := by
    by_cases h0 : T.length = 0
    · rw [List.length_eq_zero.mp h0]
      simp [_dump_fed_job_list_loop]
    · rw [if_pos ⟨h0, Nat.ne_of_lt hnv⟩]
  have hdump : _dump_fed_job_list env (some T) env.SLURM_PROTOCOL_VERSION
      = env.pack32 T.length ++ _dump_fed_job_list_loop env env.SLURM_PROTOCOL_VERSION T := by
    unfold _dump_fed_job_list
    simp only [if_pos hle, hcount, hbody]
  have hload : _load_fed_job_list env
      (_dump_fed_job_list env (some T) env.SLURM_PROTOCOL_VERSION ++ rest)
      env.SLURM_PROTOCOL_VERSION = (some T, rest) := by
    rw [hdump]
    unfold _load_fed_job_list
    rw [if_pos hle, List.append_assoc, hinv.1 _ _ h32]
    simp only []
    rw [if_neg (Nat.not_lt.mpr (Nat.le_of_lt hnv32)), if_pos (Nat.ne_of_lt hnv32),
      load_dump_fed_job_list_loop env _ hinv hge T hvalid [] rest]
    rfl
  exact ⟨hload, by rw [hload]⟩

/-- The big-endian bytes of `example_env` are read back as they were written. -/
theorem example_env_pack_unpack_inverse : pack_unpack_inverse example_env := by
  have h32 : ∀ x rest, x < 2 ^ 32 →
      example_unpack32 (example_pack32 x ++ rest) = some (x, rest) := by
    intro x rest hx
    show some (x / 2 ^ 24 % 256 * 2 ^ 24 + x / 2 ^ 16 % 256 * 2 ^ 16 + x / 2 ^ 8 % 256 * 2 ^ 8
      + x % 256, rest) = some (x, rest)
    have : x / 2 ^ 24 % 256 * 2 ^ 24 + x / 2 ^ 16 % 256 * 2 ^ 16 + x / 2 ^ 8 % 256 * 2 ^ 8
        + x % 256 = x := by omega
    rw [this]
  have h64 : ∀ x rest, x < 2 ^ 64 →
      example_unpack64 (example_pack64 x ++ rest) = some (x, rest) := by
    intro x rest hx
    unfold example_unpack64 example_pack64
    rw [List.append_assoc, h32 _ _ (Nat.mod_lt _ (by norm_num))]
    simp only []
    rw [h32 _ _ (Nat.mod_lt _ (by norm_num))]
    simp only []
    have : x / 2 ^ 32 % 2 ^ 32 * 2 ^ 32 + x % 2 ^ 32 = x := by omega
    rw [this]
  refine ⟨h32, h64, ?_⟩
  intro t rest hlo hhi
  simp only [example_env]
  have hm0 : 0 ≤ t % 2 ^ 64 := Int.emod_nonneg _ (by norm_num)
  have hm1 : t % 2 ^ 64 < 2 ^ 64 := Int.emod_lt_of_pos _ (by norm_num)
  have hcast : ((t % 2 ^ 64).toNat : Int) = t % 2 ^ 64 := Int.toNat_of_nonneg hm0
  have hnat : (t % 2 ^ 64).toNat < 2 ^ 64 := by omega
  rw [h64 _ _ hnat]
  simp only [Option.map_some']
  by_cases hc : (t % 2 ^ 64).toNat < 2 ^ 63
  · rw [if_pos hc]
    have : ((t % 2 ^ 64).toNat : Int) = t := by omega
    rw [this]
  · rw [if_neg hc]
    have : ((t % 2 ^ 64).toNat : Int) - 2 ^ 64 = t := by omega
    rw [this]

/-- Witness for C22: a table of two records, the second with an update to
cluster 2 pending since time -5, followed by two more bytes. -/
theorem fed_job_list_dump_load_witness :
    (∀ ji ∈ [example_job_info 0 7 7, example_fed_job_info_updating 2 (-5)],
      fed_job_info_valid ji) ∧
    _load_fed_job_list example_env
        (_dump_fed_job_list example_env
          (some [example_job_info 0 7 7, example_fed_job_info_updating 2 (-5)]) 8192 ++ [1, 2])
        8192
      = (some [example_job_info 0 7 7, example_fed_job_info_updating 2 (-5)], [1, 2]) :=
  ⟨by decide,
    (fed_job_list_dump_load example_env
      [example_job_info 0 7 7, example_fed_job_info_updating 2 (-5)] [1, 2]
      example_env_pack_unpack_inverse rfl (by decide) (by decide) (by decide)
      (by decide)).1⟩

/-- The loop of `_state_load` appends the records that have a job record, in
order. -/
theorem state_load_loop_eq_filter (job_list : List job_record)
    (tmp_list fed_job_list : List fed_job_info_t) :
    _state_load_loop job_list tmp_list fed_job_list
      = fed_job_list ++
          tmp_list.filter (fun ji => (find_job_record job_list ji.job_id).isSome) := by
  induction tmp_list generalizing fed_job_list with
  | nil => simp [_state_load_loop]
  | cons ji rest ih =>
    unfold _state_load_loop
    by_cases h : (find_job_record job_list ji.job_id).isSome = true
    · rw [if_pos h, ih, List.filter_cons, if_pos h, List.append_assoc]
      rfl
    · rw [if_neg h, ih, List.filter_cons, if_neg h]

/-- C23: when `_state_load` reads a state file whose header unpacks (a protocol
version within the supported range, the time stamp, the federation record) and
whose job table loads as the list `T`, then `fed_job_list` afterwards is the old
list followed by exactly the records of `T` whose job id has a job record
(`find_job_record` succeeds), in the order of `T`; the other records are
dropped.  This holds whether or not only the job list is asked for; in that
mode no federation record is returned. -/
theorem state_load_keeps_jobs_with_record (env : Env) (job_list : List job_record)
    (fed_job_list : List fed_job_info_t) (data : List Nat) (job_list_only : Bool)
    (ver : Nat) (b1 : List Nat) (buf_time : Int) (b2 : List Nat)
    (ret_fed : Option slurmdb_federation_rec_t) (b3 : List Nat)
    (T : List fed_job_info_t) (rest : List Nat)
    (h16 : env.unpack16 data = some (ver, b1))
    (hv1 : ver ≤ env.SLURM_PROTOCOL_VERSION) (hv2 : env.SLURM_MIN_PROTOCOL_VERSION ≤ ver)
    (ht : env.unpack_time b1 = some (buf_time, b2))
    (hfed : env.slurmdb_unpack_federation_rec ver b2 = (SLURM_SUCCESS, ret_fed, b3))
    (hload : _load_fed_job_list env b3 ver = (some T, rest)) :
    (_state_load env job_list fed_job_list (some data) job_list_only).2
      = fed_job_list ++ T.filter (fun ji => (find_job_record job_list ji.job_id).isSome) ∧
    (∀ ji, ji ∈ (_state_load env job_list fed_job_list (some data) job_list_only).2 ↔
      ji ∈ fed_job_list ∨ (ji ∈ T ∧ ∃ j, find_job_record job_list ji.job_id = some j)) ∧
    (job_list_only = true →
      (_state_load env job_list fed_job_list (some data) job_list_only).1 = none) := by
  have hver : ¬ (ver > env.SLURM_PROTOCOL_VERSION ∨ ver < env.SLURM_MIN_PROTOCOL_VERSION) := by
    omega
  have hres : _state_load env job_list fed_job_list (some data) job_list_only
      = ((match ret_fed with
          | none => none
          | some f =>
            if job_list_only = true ∨ f.name = none ∨ f.cluster_list.length = 0 then none
            else some f),
        fed_job_list ++
          T.filter (fun ji => (find_job_record job_list ji.job_id).isSome)) := by
    unfold _state_load
    simp only [h16, if_neg hver, ht, hfed, ne_eq, not_true_eq_false, if_false, hload,
      state_load_loop_eq_filter]
    cases ret_fed <;> rfl
  rw [hres]
  refine ⟨rfl, ?_, ?_⟩
  · intro ji
    simp only [List.mem_append, List.mem_filter, Option.isSome_iff_exists]
  · intro h
    subst h
    cases ret_fed <;> simp

/-- Witness for C23: the state file holds job 67108869 and job 9, and only job
67108869 has a job record. -/
theorem state_load_keeps_jobs_with_record_witness :
    (_state_load example_env [example_job 0 7 7] [] (some example_state_file) true).2
      = [example_job_info 0 7 7] ∧
    (_state_load example_env [example_job 0 7 7] [] (some example_state_file) false).2
      = [example_job_info 0 7 7] :=
  ⟨((state_load_keeps_jobs_with_record example_env [example_job 0 7 7] []
      example_state_file true 8192 _ 77 _ none _
      [example_job_info 0 7 7, { example_job_info 0 3 3 with job_id := 9 }] []
      rfl (by decide) (by decide) rfl rfl (by decide)).1).trans (by decide),
    ((state_load_keeps_jobs_with_record example_env [example_job 0 7 7] []
      example_state_file false 8192 _ 77 _ none _
      [example_job_info 0 7 7, { example_job_info 0 3 3 with job_id := 9 }] []
      rfl (by decide) (by decide) rfl rfl (by decide)).1).trans (by decide)⟩

/-! ## C24: a sibling submission handled twice -/

/-- Deleting the records of a job that has none changes nothing. -/
theorem filter_job_list_of_find_none (job_list : List job_record) (job_id : Nat)
    (h : find_job_record job_list job_id = none) :
    job_list.filter (fun j => !(j.job_id == job_id)) = job_list := by
  rw [List.filter_eq_self]
  intro j hj
  have := List.find?_eq_none.mp h j hj
  simpa using this

/-- Deleting the `fed_job_info_t` of a job that has none changes nothing. -/
theorem remove_fed_job_info_of_find_none (fed_job_list : List fed_job_info_t) (job_id : Nat)
    (h : _find_fed_job_info fed_job_list job_id = none) :
    fed_mgr_remove_fed_job_info fed_job_list job_id = fed_job_list := by
  unfold fed_mgr_remove_fed_job_info
  rw [List.filter_eq_self]
  intro ji hji
  have := List.find?_eq_none.mp h ji hji
  simpa [_list_find_fed_job_info_by_jobid] using this

/-- After `fed_mgr_remove_fed_job_info` no record of the job is left. -/
theorem remove_fed_job_info_filter (fed_job_list : List fed_job_info_t) (job_id : Nat) :
    (fed_mgr_remove_fed_job_info fed_job_list job_id).filter
      (fun ji => ji.job_id == job_id) = [] := by
  unfold fed_mgr_remove_fed_job_info
  rw [List.filter_filter, List.filter_eq_nil_iff]
  intro ji _
  cases ji.job_id == job_id <;> simp

/-- `fed_mgr_remove_fed_job_info` applied twice is applied once. -/
theorem remove_fed_job_info_idem (fed_job_list : List fed_job_info_t) (job_id : Nat) :
    fed_mgr_remove_fed_job_info (fed_mgr_remove_fed_job_info fed_job_list job_id) job_id
      = fed_mgr_remove_fed_job_info fed_job_list job_id := by
  unfold fed_mgr_remove_fed_job_info
  rw [List.filter_filter]
  congr 1
  funext ji
  cases ji.job_id == job_id <;> rfl

/-- The purge at the head of `_handle_fed_job_submission` leaves no job record of
the job, and leaves the `fed_job_list` without its records when it found a job
record. -/
theorem handle_fed_job_submission_purge (s : ctld_state) (job_id : Nat) :
    ∃ fl,
      (match find_job_record s.job_list job_id with
        | some job_ptr => purge_job_record s job_ptr.job_id
        | none => s)
        = { job_list := s.job_list.filter (fun j => !(j.job_id == job_id)),
            fed_job_list := fl, send_rpc := s.send_rpc } ∧
      fed_mgr_remove_fed_job_info fl job_id
        = fed_mgr_remove_fed_job_info s.fed_job_list job_id ∧
      ((find_job_record s.job_list job_id = none →
          _find_fed_job_info s.fed_job_list job_id = none) →
        fl = fed_mgr_remove_fed_job_info s.fed_job_list job_id) := by
  cases hfind : find_job_record s.job_list job_id with
  | none =>
    refine ⟨s.fed_job_list, ?_, rfl, ?_⟩
    · simp only [filter_job_list_of_find_none _ _ hfind]
    · intro h
      exact (remove_fed_job_info_of_find_none _ _ (h rfl)).symm
  | some job_ptr =>
    have hid : job_ptr.job_id = job_id := by
      have := List.find?_some hfind
      simpa using this
    refine ⟨fed_mgr_remove_fed_job_info s.fed_job_list job_id, ?_,
      remove_fed_job_info_idem _ _, fun _ => rfl⟩
    simp only [purge_job_record, hid]

/-- One handling of a SUBMIT whose allocation succeeds: the job records of the
job are purged, the record created is appended to `job_list` and its
`fed_job_info_t` to `fed_job_list`; nothing is queued. -/
theorem handle_fed_job_submission_ok (env : Env) (fed : Fed) (s : ctld_state)
    (info : fed_job_update_info_t) (d : job_desc_msg_t) (sib : slurmdb_cluster_rec_t)
    (n : String) (ec : Int) (j : job_record) (fd : job_fed_details_t)
    (hdesc : info.submit_desc = some d)
    (hsib : fed_mgr_get_cluster_by_name (some fed) info.submit_cluster = some sib)
    (hnode : d.alloc_node = some n) (hn : n ≠ "")
    (hval : env.validate_job_create_req d = SLURM_SUCCESS)
    (halloc : env.job_allocate d (info.type == FED_JOB_SUBMIT_INT) 0 sib.rpc_version
      = (ec, some j))
    (hok : ¬ (ec ≠ 0 ∧ j.job_state = env.JOB_FAILED))
    (hjfd : j.fed_details = some fd) :
    ∃ fl,
      _handle_fed_job_submission env (some fed) s info
        = some
            { job_list := s.job_list.filter (fun x => !(x.job_id == info.job_id)) ++ [j],
              fed_job_list := fl ++
                [{ cluster_lock := 0, job_id := j.job_id,
                   siblings_active := fd.siblings_active,
                   siblings_viable := fd.siblings_viable,
                   updating_sibs := List.replicate (MAX_FED_CLUSTERS + 1) 0,
                   updating_time := List.replicate (MAX_FED_CLUSTERS + 1) 0 }],
              send_rpc := s.send_rpc } ∧
      fed_mgr_remove_fed_job_info fl info.job_id
        = fed_mgr_remove_fed_job_info s.fed_job_list info.job_id ∧
      ((find_job_record s.job_list info.job_id = none →
          _find_fed_job_info s.fed_job_list info.job_id = none) →
        fl = fed_mgr_remove_fed_job_info s.fed_job_list info.job_id) := by
  obtain ⟨fl, h1, h2, h3⟩ := handle_fed_job_submission_purge s info.job_id
  refine ⟨fl, ?_, h2, h3⟩
  have hnode' : ¬ (d.alloc_node = none ∨ d.alloc_node = some "") := by
    rw [hnode]
    rintro (h | h)
    · cases h
    · exact hn (Option.some.inj h)
  unfold _handle_fed_job_submission
  simp only [h1, hdesc]
  unfold _fed_mgr_job_allocate_sib
  simp only [hsib, if_neg hnode', hval, if_true, halloc, ne_eq, not_true_eq_false, if_false,
    SLURM_SUCCESS]
  rw [if_neg hok]
  simp only [_add_fed_job_info, hjfd]

/-- C24: `_handle_fed_job_submission` run twice for the same SUBMIT (the job id
of the descriptor is the job id of the update, the sender is a member, the
descriptor validates, and `job_allocate` creates a job record under that id
with federation details, each time): both runs return, and afterwards
`fed_job_list` holds exactly one `fed_job_info_t` of the job, the one the first
run appended; the job list and the queue are those after the first run, and
when the table held no record of a job without job record before, the whole
state after the second run is the state after the first. -/
theorem handle_fed_job_submission_twice (env : Env) (fed : Fed) (s : ctld_state)
    (info : fed_job_update_info_t) (d : job_desc_msg_t) (sib : slurmdb_cluster_rec_t)
    (n : String) (ec : Int) (j : job_record) (fd : job_fed_details_t)
    (hdesc : info.submit_desc = some d) (hid : d.job_id = info.job_id)
    (hsib : fed_mgr_get_cluster_by_name (some fed) info.submit_cluster = some sib)
    (hnode : d.alloc_node = some n) (hn : n ≠ "")
    (hval : env.validate_job_create_req d = SLURM_SUCCESS)
    (halloc : env.job_allocate d (info.type == FED_JOB_SUBMIT_INT) 0 sib.rpc_version
      = (ec, some j))
    (hok : ¬ (ec ≠ 0 ∧ j.job_state = env.JOB_FAILED))
    (hjid : j.job_id = d.job_id)
    (hjfd : j.fed_details = some fd) :
    ∃ s1 s2,
      _handle_fed_job_submission env (some fed) s info = some s1 ∧
      _handle_fed_job_submission env (some fed) s1 info = some s2 ∧
      s2.fed_job_list.filter (fun ji => ji.job_id == info.job_id)
        = [{ cluster_lock := 0, job_id := info.job_id,
             siblings_active := fd.siblings_active, siblings_viable := fd.siblings_viable,
             updating_sibs := List.replicate (MAX_FED_CLUSTERS + 1) 0,
             updating_time := List.replicate (MAX_FED_CLUSTERS + 1) 0 }] ∧
      s1.fed_job_list.getLast?
        = some { cluster_lock := 0, job_id := info.job_id,
                 siblings_active := fd.siblings_active,
                 siblings_viable := fd.siblings_viable,
                 updating_sibs := List.replicate (MAX_FED_CLUSTERS + 1) 0,
                 updating_time := List.replicate (MAX_FED_CLUSTERS + 1) 0 } ∧
      s2.job_list = s1.job_list ∧ s2.send_rpc = s1.send_rpc ∧
      ((find_job_record s.job_list info.job_id = none →
          _find_fed_job_info s.fed_job_list info.job_id = none) →
        s2 = s1) := by
  have hj : j.job_id = info.job_id := hjid.trans hid
  obtain ⟨fl, e1, r1, o1⟩ := handle_fed_job_submission_ok env fed s info d sib n ec j fd
    hdesc hsib hnode hn hval halloc hok hjfd
  obtain ⟨fl2, e2, r2, o2⟩ := handle_fed_job_submission_ok env fed
    { job_list := s.job_list.filter (fun x => !(x.job_id == info.job_id)) ++ [j],
      fed_job_list := fl ++
        [{ cluster_lock := 0, job_id := j.job_id, siblings_active := fd.siblings_active,
           siblings_viable := fd.siblings_viable,
           updating_sibs := List.replicate (MAX_FED_CLUSTERS + 1) 0,
           updating_time := List.replicate (MAX_FED_CLUSTERS + 1) 0 }],
      send_rpc := s.send_rpc }
    info d sib n ec j fd hdesc hsib hnode hn hval halloc hok hjfd
  simp only [] at e2 r2 o2
  have hjb : (!(j.job_id == info.job_id)) = false := by
    rw [hj]
    simp
  have hjl : (s.job_list.filter (fun x => !(x.job_id == info.job_id)) ++ [j]).filter
      (fun x => !(x.job_id == info.job_id))
      = s.job_list.filter (fun x => !(x.job_id == info.job_id)) := by
    rw [List.filter_append, List.filter_filter]
    simp [hjb]
  have hfound : ¬ (find_job_record
      (s.job_list.filter (fun x => !(x.job_id == info.job_id)) ++ [j]) info.job_id = none) := by
    intro h
    have := List.find?_eq_none.mp h j (List.mem_append_right _ (List.mem_singleton_self j))
    simp [hj] at this
  have hfl2 : fl2 = fed_mgr_remove_fed_job_info s.fed_job_list info.job_id := by
    rw [o2 (fun h => absurd h hfound), ← r1]
    unfold fed_mgr_remove_fed_job_info
    rw [List.filter_append]
    simp [hj]
  rw [hjl, hfl2, hj] at e2
  rw [hj] at e1
  refine ⟨_, _, e1, e2, ?_, ?_, rfl, rfl, ?_⟩
  · simp only []
    rw [List.filter_append, remove_fed_job_info_filter]
    simp
  · simp only []
    rw [List.getLast?_append]
    rfl
  · intro h
    rw [o1 h]

/-- Witness for C24: cluster 2, holding neither a record nor a `fed_job_info_t`
of job 67108869, handles the SUBMIT of cluster 1 for that job twice. -/
theorem handle_fed_job_submission_twice_witness :
    _handle_fed_job_submission example_env (some (example_fed 1)) ⟨[], [], []⟩
        example_submit_info
      = some (example_state (example_job 0 3 7) (example_job_info 0 3 7)) ∧
    _handle_fed_job_submission example_env (some (example_fed 1))
        (example_state (example_job 0 3 7) (example_job_info 0 3 7)) example_submit_info
      = some (example_state (example_job 0 3 7) (example_job_info 0 3 7)) := by
  obtain ⟨s1, s2, h1, h2, -, -, -, -, h3⟩ :=
    handle_fed_job_submission_twice example_env (example_fed 1) ⟨[], [], []⟩
      example_submit_info _ ⟨"c1", 1, 1, none, 0⟩ "login1" 0 _ ⟨0, 3, 7⟩ rfl rfl rfl rfl
      (by decide) rfl rfl (by decide) rfl rfl
  have e1 : s1 = example_state (example_job 0 3 7) (example_job_info 0 3 7) :=
    Option.some.inj (h1.symm.trans (by decide))
  rw [h3 (fun _ => rfl), e1] at h2
  exact ⟨by decide, h2⟩


end FedMgr
